import Mathlib

/-!
# Dawn tracker: pattern detection engine, pattern repository and history store

A shallow embedding of `src/utils/patterns.js`, of the actions of
`src/stores/patternsStore.js`, of the actions and queries of
`src/stores/historyStore.js`, and of `getMoonIllumination` (`src/utils/astronomy.js`)
and `calculateObservationScore` (`src/utils/atmosphere.js`), with the properties
proved about them.

The engine and the repository are embedded twice.

* In the first embedding numbers are exact: rationals stand for the JavaScript numbers,
  and the two places where the source takes a square root (`Math.sqrt` in
  `linearRegression` and in `correlation`) produce a `Surd`, a real number of the form
  `±√q` that is stored by its signed square.  The properties stated over it are those of
  the control flow (which guard decides, which fields a result carries, how the store
  merges by id) and of quantities on which rounding has no bearing.
* In the second embedding, whose names start with `Binary64`, a number is a `JsNumber`:
  `NaN`, an infinity, or a finite binary64 value, and every operation rounds to the
  nearest value, a tie going to the even one.  The properties that depend on the values
  computed (bounds of a confidence, the order of a sorted list, the guards against a
  zero divisor, the results on given series) are stated over it.  `getMoonIllumination`
  and `calculateObservationScore` are embedded in binary64 arithmetic only.  A field of
  a record or of a snapshot, kept as a rational, stands there for the Number nearest to
  it, as a decimal literal does; the two zeros are one value, `Math.sqrt` is correctly
  rounded, and `Math.pow(d, 2)` is the rounded product `d * d`.

Instants are integers (milliseconds since the epoch), a calendar date key `YYYY-MM-DD`
is the number of its day since the epoch, and the local time zone is a function from an
instant to the offset (in minutes) in force at that instant.
-/

namespace DawnTracker

/-! ## Numbers with one square root -/

/-- A real number `x` of the form `±√q` with `q` rational, stored as the rational
`x * |x|` (its signed square).  The map `x ↦ x * |x|` is a strictly increasing
bijection of the reals, so comparing two such numbers is comparing their signed
squares. -/
structure Surd where
  ssq : ℚ
deriving DecidableEq, Repr

namespace Surd

/-- The rational `c` as a surd. -/
def ofRat (c : ℚ) : Surd := ⟨c * abs c⟩

/-- The value `Math.sqrt(Math.abs(q))`. -/
def sqrtAbs (q : ℚ) : Surd := ⟨abs q⟩

/-- The value `num / Math.sqrt(d)` for `d > 0`. -/
def divSqrt (num d : ℚ) : Surd := ⟨num * abs num / d⟩

/-- The value `Math.abs(s)`. -/
def magnitude (s : Surd) : Surd := ⟨abs s.ssq⟩

instance : LE Surd := ⟨fun a b => a.ssq ≤ b.ssq⟩
instance : LT Surd := ⟨fun a b => a.ssq < b.ssq⟩

instance (a b : Surd) : Decidable (a ≤ b) := inferInstanceAs (Decidable (a.ssq ≤ b.ssq))
instance (a b : Surd) : Decidable (a < b) := inferInstanceAs (Decidable (a.ssq < b.ssq))

end Surd

/-! ## Statistical primitives (`patterns.js`, lines 27-80) -/

/-- Result object of `linearRegression`. -/
structure Regression where
  slope : ℚ
  intercept : ℚ
  rSquared : ℚ
  confidence : Surd
deriving DecidableEq, Repr

/-- The four accumulators `sumX, sumY, sumXY, sumX2` of `linearRegression`. -/
structure RegSums where
  sumX : ℚ
  sumY : ℚ
  sumXY : ℚ
  sumX2 : ℚ
deriving DecidableEq, Repr

/-- First `data.forEach((y, x) => ...)` loop of `linearRegression`: `x` is the index. -/
def regSums (data : List ℚ) : RegSums :=
  data.enum.foldl
    (fun s p => ⟨s.sumX + (p.1 : ℚ), s.sumY + p.2, s.sumXY + (p.1 : ℚ) * p.2,
      s.sumX2 + (p.1 : ℚ) * (p.1 : ℚ)⟩)
    ⟨0, 0, 0, 0⟩

/-- The divisor `n * sumX2 - sumX * sumX` of the slope. -/
def slopeDivisor (data : List ℚ) : ℚ :=
  (data.length : ℚ) * (regSums data).sumX2 - (regSums data).sumX * (regSums data).sumX

/-- The constant `slope` of `linearRegression`. -/
def regSlope (data : List ℚ) : ℚ :=
  ((data.length : ℚ) * (regSums data).sumXY - (regSums data).sumX * (regSums data).sumY)
    / slopeDivisor data

/-- The constant `intercept` of `linearRegression`. -/
def regIntercept (data : List ℚ) : ℚ :=
  ((regSums data).sumY - regSlope data * (regSums data).sumX) / (data.length : ℚ)

/-- The constant `yMean` of `linearRegression`. -/
def regYMean (data : List ℚ) : ℚ := (regSums data).sumY / (data.length : ℚ)

/-- Second `forEach` loop of `linearRegression`: the pair `(ssTotal, ssResidual)`. -/
def regSquares (data : List ℚ) : ℚ × ℚ :=
  data.enum.foldl
    (fun acc p =>
      let yPredicted := regSlope data * (p.1 : ℚ) + regIntercept data
      (acc.1 + (p.2 - regYMean data) ^ 2, acc.2 + (p.2 - yPredicted) ^ 2))
    (0, 0)

/-- The accumulator `ssTotal`. -/
def ssTotal (data : List ℚ) : ℚ := (regSquares data).1

/-- The accumulator `ssResidual`. -/
def ssResidual (data : List ℚ) : ℚ := (regSquares data).2

/-- The constant `rSquared`: the division is guarded by `ssTotal === 0`. -/
def regRSquared (data : List ℚ) : ℚ :=
  if ssTotal data = 0 then 0 else 1 - ssResidual data / ssTotal data

/-- The function `linearRegression(data)`; `none` is the `null` result. -/
def linearRegression (data : List ℚ) : Option Regression :=
  if data.length < 3 then none
  else some
    { slope := regSlope data
      intercept := regIntercept data
      rSquared := regRSquared data
      confidence := Surd.sqrtAbs (regRSquared data) }

/-- The sum `arr.reduce((a, b) => a + b, 0)`. -/
def sumList (xs : List ℚ) : ℚ := xs.foldl (fun a b => a + b) 0

/-- The sum `x.reduce((sum, xi, i) => sum + xi * y[i], 0)`, for `y` as long as `x`. -/
def sumProducts (xs ys : List ℚ) : ℚ := (List.zip xs ys).foldl (fun s p => s + p.1 * p.2) 0

/-- The sum `x.reduce((sum, xi) => sum + xi * xi, 0)`. -/
def sumSquares (xs : List ℚ) : ℚ := xs.foldl (fun s xi => s + xi * xi) 0

/-- The constant `numerator` of `correlation`. -/
def corrNumerator (x y : List ℚ) : ℚ :=
  (x.length : ℚ) * sumProducts x y - sumList x * sumList y

/-- The radicand of `denominator` in `correlation`. -/
def corrRadicand (x y : List ℚ) : ℚ :=
  ((x.length : ℚ) * sumSquares x - sumList x * sumList x)
    * ((x.length : ℚ) * sumSquares y - sumList y * sumList y)

/-- The function `correlation(x, y)`; `none` is the `null` result.  The test
`denominator === 0` on `Math.sqrt(radicand)` is the test `radicand = 0`. -/
def correlation (x y : List ℚ) : Option Surd :=
  if x.length ≠ y.length ∨ x.length < 3 then none
  else if corrRadicand x y = 0 then none
  else some (Surd.divSqrt (corrNumerator x y) (corrRadicand x y))

/-! ## Time -/

/-- Offset of local time from UTC, in minutes, in force at an instant. -/
abbrev TimeZone := Int → Int

/-- Whole minutes of local time elapsed since the epoch at instant `t` (milliseconds). -/
def localMinutes (tz : TimeZone) (t : Int) : Int := t / 60000 + tz t

/-- The value `new Date(t).getHours()`. -/
def getHours (tz : TimeZone) (t : Int) : Int := (localMinutes tz t / 60) % 24

/-- The value `new Date(t).getMinutes()`. -/
def getMinutes (tz : TimeZone) (t : Int) : Int := localMinutes tz t % 60

/-- Local calendar day of instant `t`; two instants have the same `toDateString()`
exactly when they have the same local day. -/
def localDay (tz : TimeZone) (t : Int) : Int := localMinutes tz t / 1440

/-- The value `new Date(key).getTime()` for a date key `YYYY-MM-DD`: midnight UTC of
day number `d`. -/
def dateKeyTime (d : Int) : Int := d * 86400000

/-- The value `Math.round(q)`. -/
def jsRound (q : ℚ) : Int := Int.floor (q + 1 / 2)

/-! ## Data model -/

/-- The `location` field of a daily record. -/
structure Location where
  name : Option String
  lat : Option ℚ
  lng : Option ℚ
deriving DecidableEq, Repr

/-- The `solar` field of a daily record; instants are ISO strings in the source. -/
structure Solar where
  sunrise : Option Int
  sunset : Option Int
  solarNoon : Option Int
  civilDawn : Option Int
  civilDusk : Option Int
  daylightMinutes : Option ℚ
deriving DecidableEq, Repr

/-- The `lunar` field of a daily record. -/
structure Lunar where
  phase : Option ℚ
  phaseName : Option String
  illumination : Option ℚ
  moonrise : Option Int
  moonset : Option Int
deriving DecidableEq, Repr

/-- One entry of `dailyRecords`; `date` is the day number of the key `YYYY-MM-DD`. -/
structure DailyRecord where
  date : Int
  timestamp : Int
  location : Location
  solar : Option Solar
  lunar : Option Lunar
deriving DecidableEq, Repr

/-- The `current` field of an atmosphere snapshot (the fields the engine reads). -/
structure Conditions where
  cloudCover : Option ℚ
  visibility : Option ℚ
  humidity : Option ℚ
  observationScore : Option ℚ
deriving DecidableEq, Repr

/-- One item of `hourlyForecast`. -/
structure HourlySample where
  cloudCover : Option ℚ
  visibility : Option ℚ
  humidity : Option ℚ
deriving DecidableEq, Repr

/-- One entry of `atmosphereHistory`. -/
structure AtmosphereSnapshot where
  timestamp : Int
  current : Option Conditions
  hourlyForecast : Option (List HourlySample)
deriving DecidableEq, Repr

/-- The constant `PATTERN_TYPES`. -/
inductive PatternType
  | trend
  | correlation
  | cycle
  | anomaly
  | optimal
  | seasonal
deriving DecidableEq, Repr

/-- One chunk of a template literal: literal text or an interpolated, formatted value. -/
inductive Frag
  | text (s : String)
  | int (n : Int)
  | fixed (digits : Nat) (q : ℚ)
  | fixedSurd (digits : Nat) (s : Surd)
  | hours (hs : List (Int × String))
deriving DecidableEq, Repr

/-- The `data` payload of a pattern, one shape per detector. -/
inductive PatternData
  | daylightTrend (dailyChange weeklyChange rSquared : ℚ)
  | moonCycle (avgCycle : ℚ) (fullMoonCount newMoonCount : Nat)
  | optimalViewing (bestHours : List Int) (goodConditionCount : Nat)
  | moonCloud (correlation : Surd) (sampleSize : Nat)
  | sunShift (direction : String) (minutesPerWeek slope : ℚ)
  | goodVisibility (avgVisibility goodPercentage : ℚ)
  | poorVisibility (avgVisibility poorPercentage : ℚ)
deriving DecidableEq, Repr

/-- A detected pattern; `title` and `description` are template literals kept as chunks. -/
structure Pattern where
  id : String
  type : PatternType
  title : List Frag
  description : List Frag
  confidence : Surd
  data : PatternData
  icon : String
  detectedAt : Int
deriving DecidableEq, Repr

/-! ## Detectors (`patterns.js`, lines 82-352) -/

/-- The series `records.map(r => r.solar?.daylightMinutes).filter(d => d != null)`. -/
def daylightSeries (records : List DailyRecord) : List ℚ :=
  (records.map (fun r => r.solar.bind (fun s => s.daylightMinutes))).reduceOption

/-- The function `detectDaylightTrend(records)`; `now` is the reading of the clock. -/
def detectDaylightTrend (now : Int) (records : List DailyRecord) : Option Pattern :=
  if records.length < 7 then none
  else
    let daylightMinutes := daylightSeries records
    if daylightMinutes.length < 7 then none
    else
      match linearRegression daylightMinutes with
      | none => none
      | some regression =>
        if regression.confidence < Surd.ofRat (1 / 2) then none
        else
          let dailyChange := regression.slope
          let weeklyChange := dailyChange * 7
          if abs dailyChange < 1 / 2 then none
          else some
            { id := "daylight-trend"
              type := PatternType.trend
              title := [Frag.text (if dailyChange > 0 then "Daylight Increasing"
                else "Daylight Decreasing")]
              description :=
                [Frag.text "Daylight is ",
                 Frag.text (if dailyChange > 0 then "increasing" else "decreasing"),
                 Frag.text " by approximately ", Frag.int (abs (jsRound dailyChange)),
                 Frag.text " minutes per day (", Frag.int (abs (jsRound weeklyChange)),
                 Frag.text " min/week)."]
              confidence := regression.confidence
              data := PatternData.daylightTrend dailyChange weeklyChange regression.rSquared
              icon := if dailyChange > 0 then "📈" else "📉"
              detectedAt := now }

/-- The test `r.lunar?.phaseName === name`. -/
def hasPhase (name : String) (r : DailyRecord) : Bool :=
  decide (r.lunar.bind (fun l => l.phaseName) = some name)

/-- The loop filling `cycles`: differences of consecutive instants, in days. -/
def cycleGaps : List Int → List ℚ
  | a :: b :: rest => ((b - a : Int) : ℚ) / (1000 * 60 * 60 * 24) :: cycleGaps (b :: rest)
  | _ => []

/-- The function `detectMoonCyclePatterns(records)`. -/
def detectMoonCyclePatterns (now : Int) (records : List DailyRecord) : Option (List Pattern) :=
  if records.length < 14 then none
  else
    let fullMoons := records.filter (hasPhase "Full Moon")
    let newMoons := records.filter (hasPhase "New Moon")
    let patterns : List Pattern :=
      if fullMoons.length ≥ 2 then
        let fullMoonDates := fullMoons.map (fun r => dateKeyTime r.date)
        let cycles := cycleGaps fullMoonDates
        if cycles.length > 0 then
          let avgCycle := sumList cycles / (cycles.length : ℚ)
          [{ id := "moon-cycle"
             type := PatternType.cycle
             title := [Frag.text "Lunar Cycle Tracked"]
             description :=
               [Frag.text "Average lunar cycle: ", Frag.fixed 1 avgCycle,
                Frag.text " days. Full moons recorded: ", Frag.int fullMoons.length,
                Frag.text ". New moons: ", Frag.int newMoons.length, Frag.text "."]
             confidence := Surd.ofRat (min (95 / 100) (1 / 2 + (fullMoons.length : ℚ) * (1 / 10)))
             data := PatternData.moonCycle avgCycle fullMoons.length newMoons.length
             icon := "🌕"
             detectedAt := now }]
        else []
      else []
    if patterns.length > 0 then some patterns else none

/-- The test `a.current?.observationScore >= 70`. -/
def isGoodCondition (a : AtmosphereSnapshot) : Bool :=
  match a.current.bind (fun c => c.observationScore) with
  | some score => decide (score ≥ 70)
  | none => false

/-- The statement `hourCounts[h] = (hourCounts[h] || 0) + 1` on an object whose keys
are hours: the entries are kept in the order in which `Object.entries` lists
integer keys, ascending. -/
def bumpHour (h : Int) : List (Int × Nat) → List (Int × Nat)
  | [] => [(h, 1)]
  | (k, c) :: rest =>
    if h = k then (k, c + 1) :: rest
    else if h < k then (h, 1) :: (k, c) :: rest
    else (k, c) :: bumpHour h rest

/-- The entries of `hourCounts` after `hours.forEach(...)`. -/
def hourCounts (hours : List Int) : List (Int × Nat) :=
  hours.foldl (fun counts h => bumpHour h counts) []

/-- The local function `formatHour`: the hour on a 12-hour dial and its period. -/
def formatHour (h : Int) : Int × String :=
  (if h % 12 = 0 then 12 else h % 12, if h ≥ 12 then "PM" else "AM")

/-- The function `detectOptimalConditions(atmosphereHistory)`; `none` as argument is
a missing log. -/
def detectOptimalConditions (tz : TimeZone) (now : Int)
    (atmosphereHistory : Option (List AtmosphereSnapshot)) : Option Pattern :=
  match atmosphereHistory with
  | none => none
  | some history =>
    if history.length < 3 then none
    else
      let goodConditions := history.filter isGoodCondition
      if goodConditions.length < 2 then none
      else
        let hours := goodConditions.map (fun a => getHours tz a.timestamp)
        let bestHours :=
          (((hourCounts hours).insertionSort (fun a b => b.2 ≤ a.2)).take 3).map (fun e => e.1)
        if bestHours.length = 0 then none
        else some
          { id := "optimal-viewing"
            type := PatternType.optimal
            title := [Frag.text "Best Viewing Times Identified"]
            description :=
              [Frag.text "Optimal observation conditions most frequently occur around ",
               Frag.hours (bestHours.map formatHour), Frag.text "."]
            confidence :=
              Surd.ofRat (min (9 / 10) (1 / 2 + (goodConditions.length : ℚ) * (5 / 100)))
            data := PatternData.optimalViewing bestHours goodConditions.length
            icon := "🔭"
            detectedAt := now }

/-- The loop of `detectMoonCloudCorrelation` that fills `paired`: each record is
matched with the first snapshot of the same local calendar day. -/
def pairedPoints (tz : TimeZone) (records : List DailyRecord)
    (history : List AtmosphereSnapshot) : List (ℚ × ℚ) :=
  records.filterMap (fun r =>
    match history.find? (fun a =>
        decide (localDay tz a.timestamp = localDay tz (dateKeyTime r.date))) with
    | none => none
    | some atmo =>
      match r.lunar.bind (fun l => l.illumination),
          atmo.current.bind (fun c => c.cloudCover) with
      | some illumination, some cloudCover => some (illumination, cloudCover)
      | _, _ => none)

/-- The function `detectMoonCloudCorrelation(records, atmosphereHistory)`. -/
def detectMoonCloudCorrelation (tz : TimeZone) (now : Int) (records : List DailyRecord)
    (atmosphereHistory : Option (List AtmosphereSnapshot)) : Option Pattern :=
  match atmosphereHistory with
  | none => none
  | some history =>
    if records.length < 14 ∨ history.length < 7 then none
    else
      let paired := pairedPoints tz records history
      if paired.length < 7 then none
      else
        match correlation (paired.map (fun p => p.1)) (paired.map (fun p => p.2)) with
        | none => none
        | some corr =>
          if Surd.magnitude corr < Surd.ofRat (3 / 10) then none
          else
            let direction := if Surd.ofRat 0 < corr then "higher" else "lower"
            some
              { id := "moon-cloud-correlation"
                type := PatternType.correlation
                title := [Frag.text "Moon-Cloud Correlation Detected"]
                description :=
                  [Frag.text "Cloud cover tends to be ", Frag.text direction,
                   Frag.text " during ",
                   Frag.text (if Surd.ofRat 0 < corr then "fuller" else "darker"),
                   Frag.text " moon phases (correlation: ",
                   Frag.fixedSurd 0 ⟨corr.ssq * (100 * 100)⟩, Frag.text "%)."]
                confidence := Surd.magnitude corr
                data := PatternData.moonCloud corr paired.length
                icon := if Surd.ofRat 0 < corr then "🌥️" else "🌙"
                detectedAt := now }

/-- The mapping `d.getHours() * 60 + d.getMinutes()` of an instant. -/
def minutesOfDay (tz : TimeZone) (t : Int) : ℚ :=
  ((getHours tz t * 60 + getMinutes tz t : Int) : ℚ)

/-- The series extracted by `detectSunTimeShifts` for one event: records without the
instant map to `null` and are filtered out. -/
def sunSeries (tz : TimeZone) (event : Solar → Option Int) (records : List DailyRecord) :
    List ℚ :=
  (records.map (fun r =>
    match r.solar.bind event with
    | none => none
    | some t => some (minutesOfDay tz t))).reduceOption

/-- One of the two blocks of `detectSunTimeShifts`: the patterns it pushes.  The word
after `Getting` is `direction` with its first letter in upper case. -/
def sunShiftBlock (now : Int) (id label icon : String) (series : List ℚ) : List Pattern :=
  if series.length ≥ 7 then
    match linearRegression series with
    | none => []
    | some regression =>
      if Surd.ofRat (6 / 10) < regression.confidence ∧ abs regression.slope > 3 / 10 then
        let direction := if regression.slope > 0 then "later" else "earlier"
        let minutesPerWeek := abs (regression.slope * 7)
        [{ id := id
           type := PatternType.trend
           title := [Frag.text label, Frag.text " Getting ",
             Frag.text (if regression.slope > 0 then "Later" else "Earlier")]
           description :=
             [Frag.text label, Frag.text " is shifting ", Frag.text direction,
              Frag.text " by approximately ", Frag.fixed 0 minutesPerWeek,
              Frag.text " minutes per week."]
           confidence := regression.confidence
           data := PatternData.sunShift direction minutesPerWeek regression.slope
           icon := icon
           detectedAt := now }]
      else []
  else []

/-- The function `detectSunTimeShifts(records)`. -/
def detectSunTimeShifts (tz : TimeZone) (now : Int) (records : List DailyRecord) :
    Option (List Pattern) :=
  if records.length < 7 then none
  else
    let patterns :=
      sunShiftBlock now "sunrise-shift" "Sunrise" "🌅" (sunSeries tz Solar.sunrise records)
        ++ sunShiftBlock now "sunset-shift" "Sunset" "🌇" (sunSeries tz Solar.sunset records)
    if patterns.length > 0 then some patterns else none

/-- The series `atmosphereHistory.map(a => a.current?.visibility).filter(v => v != null)`. -/
def visibilitySeries (history : List AtmosphereSnapshot) : List ℚ :=
  (history.map (fun a => a.current.bind (fun c => c.visibility))).reduceOption

/-- The function `detectVisibilityPatterns(atmosphereHistory)`. -/
def detectVisibilityPatterns (now : Int)
    (atmosphereHistory : Option (List AtmosphereSnapshot)) : Option Pattern :=
  match atmosphereHistory with
  | none => none
  | some history =>
    if history.length < 5 then none
    else
      let visibilities := visibilitySeries history
      if visibilities.length < 5 then none
      else
        let avgVisibility := sumList visibilities / (visibilities.length : ℚ)
        let avgKm := avgVisibility / 1000
        let goodCount := (visibilities.filter (fun v => decide (v > 15000))).length
        let poorCount := (visibilities.filter (fun v => decide (v < 8000))).length
        if (goodCount : ℚ) / (visibilities.length : ℚ) > 7 / 10 then
          some
            { id := "good-visibility"
              type := PatternType.optimal
              title := [Frag.text "Consistently Good Visibility"]
              description :=
                [Frag.text "This location has excellent visibility (>", Frag.int 15,
                 Frag.text "km) ",
                 Frag.int (jsRound ((goodCount : ℚ) / (visibilities.length : ℚ) * 100)),
                 Frag.text "% of the time. Average: ", Frag.fixed 1 avgKm, Frag.text "km."]
              confidence := Surd.ofRat ((goodCount : ℚ) / (visibilities.length : ℚ))
              data := PatternData.goodVisibility avgKm
                ((goodCount : ℚ) / (visibilities.length : ℚ))
              icon := "👁️"
              detectedAt := now }
        else if (poorCount : ℚ) / (visibilities.length : ℚ) > 1 / 2 then
          some
            { id := "poor-visibility"
              type := PatternType.anomaly
              title := [Frag.text "Frequent Low Visibility"]
              description :=
                [Frag.text "This location experiences reduced visibility (<8km) ",
                 Frag.int (jsRound ((poorCount : ℚ) / (visibilities.length : ℚ) * 100)),
                 Frag.text "% of the time. Consider timing observations carefully."]
              confidence := Surd.ofRat ((poorCount : ℚ) / (visibilities.length : ℚ))
              data := PatternData.poorVisibility avgKm
                ((poorCount : ℚ) / (visibilities.length : ℚ))
              icon := "🌫️"
              detectedAt := now }
        else none

/-! ## Aggregator (`patterns.js`, lines 354-388) -/

/-- The comparator `(a, b) => b.confidence - a.confidence` read as an order: `a` may
stand before `b` when the difference is not positive. -/
def byConfidence (a b : Pattern) : Prop := b.confidence ≤ a.confidence

instance : DecidableRel byConfidence :=
  fun a b => inferInstanceAs (Decidable (b.confidence ≤ a.confidence))

/-- The call `patterns.sort((a, b) => b.confidence - a.confidence)`: `Array.prototype.sort`
is a stable sort. -/
def sortByConfidence (patterns : List Pattern) : List Pattern :=
  patterns.insertionSort byConfidence

/-- The array `patterns` of `detectAllPatterns` before it is sorted: what the six
detectors emitted, in the order of the pushes. -/
def emittedPatterns (tz : TimeZone) (now : Int) (records : List DailyRecord)
    (atmosphereHistory : List AtmosphereSnapshot) : List Pattern :=
  (detectDaylightTrend now records).toList
    ++ (detectMoonCyclePatterns now records).getD []
    ++ (detectSunTimeShifts tz now records).getD []
    ++ (detectOptimalConditions tz now (some atmosphereHistory)).toList
    ++ (detectMoonCloudCorrelation tz now records (some atmosphereHistory)).toList
    ++ (detectVisibilityPatterns now (some atmosphereHistory)).toList

/-- The function `detectAllPatterns(records, atmosphereHistory = [])`; an omitted
second argument is `none`. -/
def detectAllPatterns (tz : TimeZone) (now : Int) (records : List DailyRecord)
    (atmosphereHistory : Option (List AtmosphereSnapshot)) : List Pattern :=
  sortByConfidence (emittedPatterns tz now records (atmosphereHistory.getD []))

/-! ## Pattern repository (`patternsStore.js`) -/

/-- A JavaScript `Map` from pattern ids to patterns, as its entries in insertion order. -/
abbrev PatternMap := List (String × Pattern)

/-- The call `patternMap.get(key)`. -/
def mapGet (m : PatternMap) (key : String) : Option Pattern :=
  match m with
  | [] => none
  | (k, v) :: rest => if k = key then some v else mapGet rest key

/-- The call `patternMap.set(key, value)`: an existing key keeps its place. -/
def mapSet (m : PatternMap) (key : String) (value : Pattern) : PatternMap :=
  match m with
  | [] => [(key, value)]
  | (k, v) :: rest => if k = key then (k, value) :: rest else (k, v) :: mapSet rest key value

/-- The call `Array.from(patternMap.values())`. -/
def mapValues (m : PatternMap) : List Pattern := m.map (fun e => e.2)

/-- The loop `state.patterns.forEach(p => patternMap.set(p.id, p))`. -/
def mapOfPatterns (patterns : List Pattern) : PatternMap :=
  patterns.foldl (fun m p => mapSet m p.id p) []

/-- The body of `detected.forEach(p => ...)` in `detectPatterns`. -/
def mergeOne (m : PatternMap) (p : Pattern) : PatternMap :=
  match mapGet m p.id with
  | none => mapSet m p.id p
  | some existing => if existing.confidence < p.confidence then mapSet m p.id p else m

/-- The merge step of `detectPatterns`: the new value of `state.patterns`. -/
def mergeDetected (stored detected : List Pattern) : List Pattern :=
  sortByConfidence (mapValues (detected.foldl mergeOne (mapOfPatterns stored)))

/-- The state of the patterns store. -/
structure PatternsState where
  patterns : List Pattern
  atmosphereHistory : List AtmosphereSnapshot
  lastDetection : Option Int
deriving DecidableEq, Repr

/-- The action `detectPatterns(records)`: the new state and the returned list. -/
def detectPatterns (tz : TimeZone) (now : Int) (records : List DailyRecord)
    (state : PatternsState) : PatternsState × List Pattern :=
  let detected := detectAllPatterns tz now records (some state.atmosphereHistory)
  ({ state with
      patterns := mergeDetected state.patterns detected
      lastDetection := some now },
    detected)

/-- The pattern stored under an id in a list of patterns, if any. -/
def findById (patterns : List Pattern) (key : String) : Option Pattern :=
  patterns.find? (fun p => decide (p.id = key))

/-! ## Definitions used to state the properties -/

/-- What one incoming pattern does to the entry stored under `key`: it is inserted
when nothing is stored, it replaces the stored pattern when its confidence is
strictly greater, and otherwise the stored pattern stays. -/
def upsertIfBetter (key : String) (current : Option Pattern) (p : Pattern) : Option Pattern :=
  if p.id = key then
    match current with
    | none => some p
    | some existing => if existing.confidence < p.confidence then some p else some existing
  else current

/-- Every entry of the map is filed under the id of its pattern. -/
def KeyedById (m : PatternMap) : Prop := ∀ e ∈ m, e.1 = e.2.id

/-- The invariant of the map built by `detectPatterns`. -/
def MapOk (m : PatternMap) : Prop := KeyedById m ∧ (m.map Prod.fst).Nodup

/-- A pattern with id `x` and the given confidence, as in the merge scenario. -/
def scenarioPattern (c : ℚ) : Pattern :=
  { id := "x", type := PatternType.trend, title := [], description := [],
    confidence := Surd.ofRat c, data := PatternData.moonCycle 0 0 0, icon := "",
    detectedAt := 0 }

/-- Sum of the first coordinates of a list of points. -/
def sx (pts : List (ℚ × ℚ)) : ℚ := (pts.map (fun p => p.1)).sum

/-- Sum of the second coordinates of a list of points. -/
def sy (pts : List (ℚ × ℚ)) : ℚ := (pts.map (fun p => p.2)).sum

/-- Sum of the squares of the first coordinates. -/
def sxx (pts : List (ℚ × ℚ)) : ℚ := (pts.map (fun p => p.1 * p.1)).sum

/-- Sum of the products of the coordinates. -/
def sxy (pts : List (ℚ × ℚ)) : ℚ := (pts.map (fun p => p.1 * p.2)).sum

/-- Sum of the squares of the second coordinates. -/
def syy (pts : List (ℚ × ℚ)) : ℚ := (pts.map (fun p => p.2 * p.2)).sum

/-- The points `(x, y)` visited by `data.forEach((y, x) => ...)`. -/
def indexedPoints (data : List ℚ) : List (ℚ × ℚ) :=
  data.enum.map (fun p => ((p.1 : ℚ), p.2))

/-- The quantity `n * Σx² - (Σx)²` of a list of points. -/
def spreadX (pts : List (ℚ × ℚ)) : ℚ := (pts.length : ℚ) * sxx pts - sx pts * sx pts

/-- The arithmetic mean of a series. -/
def mean (x : List ℚ) : ℚ := x.sum / (x.length : ℚ)

/-- The pattern built by `detectDaylightTrend` from a regression result. -/
def daylightPattern (now : Int) (regression : Regression) : Pattern :=
  { id := "daylight-trend"
    type := PatternType.trend
    title := [Frag.text (if regression.slope > 0 then "Daylight Increasing"
      else "Daylight Decreasing")]
    description :=
      [Frag.text "Daylight is ",
       Frag.text (if regression.slope > 0 then "increasing" else "decreasing"),
       Frag.text " by approximately ", Frag.int (abs (jsRound regression.slope)),
       Frag.text " minutes per day (", Frag.int (abs (jsRound (regression.slope * 7))),
       Frag.text " min/week)."]
    confidence := regression.confidence
    data := PatternData.daylightTrend regression.slope (regression.slope * 7) regression.rSquared
    icon := if regression.slope > 0 then "📈" else "📉"
    detectedAt := now }

/-- The series `a, a - d, a - 2d, ...` of length `n`. -/
def linearSeries (a d : ℚ) (n : ℕ) : List ℚ :=
  (List.range n).map (fun (i : ℕ) => a - d * (i : ℚ))

/-- A daily record that carries only a day number and a daylight duration. -/
def daylightRecord (day : Int) (minutes : Option ℚ) : DailyRecord :=
  { date := day
    timestamp := dateKeyTime day
    location := { name := none, lat := none, lng := none }
    solar := some { sunrise := none, sunset := none, solarNoon := none, civilDawn := none,
                    civilDusk := none, daylightMinutes := minutes }
    lunar := none }

/-- Ten consecutive days whose daylight is 600, 598, 596, ... minutes. -/
def decreasingDays : List DailyRecord :=
  (List.range 10).map (fun (i : ℕ) => daylightRecord (i : Int) (some (600 - 2 * (i : ℚ))))

/-- The pattern pushed by a block of `detectSunTimeShifts` for a regression result. -/
def sunShiftPattern (now : Int) (id label icon : String) (regression : Regression) : Pattern :=
  { id := id
    type := PatternType.trend
    title := [Frag.text label, Frag.text " Getting ",
      Frag.text (if regression.slope > 0 then "Later" else "Earlier")]
    description :=
      [Frag.text label, Frag.text " is shifting ",
       Frag.text (if regression.slope > 0 then "later" else "earlier"),
       Frag.text " by approximately ", Frag.fixed 0 (abs (regression.slope * 7)),
       Frag.text " minutes per week."]
    confidence := regression.confidence
    data := PatternData.sunShift (if regression.slope > 0 then "later" else "earlier")
      (abs (regression.slope * 7)) regression.slope
    icon := icon
    detectedAt := now }

/-- The time zone of UTC. -/
def utc : TimeZone := fun _ => 0

/-- A daily record that carries only a day number and the two sun instants. -/
def sunRecord (day : Int) (sunrise sunset : Option Int) : DailyRecord :=
  { date := day
    timestamp := dateKeyTime day
    location := { name := none, lat := none, lng := none }
    solar := some { sunrise := sunrise, sunset := sunset, solarNoon := none, civilDawn := none,
                    civilDusk := none, daylightMinutes := none }
    lunar := none }

/-- Seven consecutive days whose sunrise is at 6:00, 6:02, 6:04, ... UTC, without sunsets. -/
def laterSunrises : List DailyRecord :=
  (List.range 7).map (fun (i : ℕ) =>
    sunRecord (i : Int) (some ((1440 * (i : Int) + 360 + 2 * (i : Int)) * 60000)) none)

/-- The gaps, in days, between consecutive entries of a list of day numbers. -/
def dayGaps (days : List Int) : List ℚ :=
  List.zipWith (fun a b => ((b - a : Int) : ℚ)) days days.tail

/-- The pattern pushed by `detectMoonCyclePatterns`. -/
def moonCyclePattern (now : Int) (avgCycle : ℚ) (fullMoonCount newMoonCount : Nat) : Pattern :=
  { id := "moon-cycle"
    type := PatternType.cycle
    title := [Frag.text "Lunar Cycle Tracked"]
    description :=
      [Frag.text "Average lunar cycle: ", Frag.fixed 1 avgCycle,
       Frag.text " days. Full moons recorded: ", Frag.int fullMoonCount,
       Frag.text ". New moons: ", Frag.int newMoonCount, Frag.text "."]
    confidence := Surd.ofRat (min (95 / 100) (1 / 2 + (fullMoonCount : ℚ) * (1 / 10)))
    data := PatternData.moonCycle avgCycle fullMoonCount newMoonCount
    icon := "🌕"
    detectedAt := now }

/-- A daily record that carries only a day number and a moon phase name. -/
def moonRecord (day : Int) (phaseName : Option String) : DailyRecord :=
  { date := day
    timestamp := dateKeyTime day
    location := { name := none, lat := none, lng := none }
    solar := none
    lunar := some { phase := none, phaseName := phaseName, illumination := none,
                    moonrise := none, moonset := none } }

/-- Fourteen records: a Full Moon on day 0, twelve records of another phase, a Full Moon
on day 29. -/
def twoFullMoons : List DailyRecord :=
  moonRecord 0 (some "Full Moon")
    :: (List.range 12).map (fun (i : ℕ) => moonRecord ((i : Int) + 1) (some "Waning Gibbous"))
    ++ [moonRecord 29 (some "Full Moon")]

/-- The list `bestHours` of `detectOptimalConditions`. -/
def bestHoursOf (tz : TimeZone) (goodConditions : List AtmosphereSnapshot) : List Int :=
  (((hourCounts (goodConditions.map (fun a => getHours tz a.timestamp))).insertionSort
    (fun a b => b.2 ≤ a.2)).take 3).map (fun e => e.1)

/-- The pattern returned by `detectOptimalConditions`. -/
def optimalPattern (now : Int) (bestHours : List Int) (goodCount : Nat) : Pattern :=
  { id := "optimal-viewing"
    type := PatternType.optimal
    title := [Frag.text "Best Viewing Times Identified"]
    description :=
      [Frag.text "Optimal observation conditions most frequently occur around ",
       Frag.hours (bestHours.map formatHour), Frag.text "."]
    confidence := Surd.ofRat (min (9 / 10) (1 / 2 + (goodCount : ℚ) * (5 / 100)))
    data := PatternData.optimalViewing bestHours goodCount
    icon := "🔭"
    detectedAt := now }

/-- An atmosphere snapshot that carries only a capture instant and an observation score. -/
def scoreSnapshot (timestamp : Int) (score : Option ℚ) : AtmosphereSnapshot :=
  { timestamp := timestamp
    current := some { cloudCover := none, visibility := none, humidity := none,
                      observationScore := score }
    hourlyForecast := none }

/-! ## Further definitions used to state the properties -/

/-- The count an hour table holds for an hour, 0 when the hour has no entry. -/
def storedCount : List (Int × Nat) → Int → Nat
  | [], _ => 0
  | (k, c) :: rest, h => if k = h then c else storedCount rest h

/-- The hours of day, in local time, of the qualifying entries of a log. -/
def qualifyingHours (tz : TimeZone) (history : List AtmosphereSnapshot) : List Int :=
  (history.filter isGoodCondition).map (fun a => getHours tz a.timestamp)

/-- The invariant of the hour table: ascending hours, positive counts, and the count
held for an hour is the number of its occurrences so far. -/
def HourTable (L : List (Int × Nat)) (hours : List Int) : Prop :=
  L.Pairwise (fun a b => a.1 < b.1) ∧ (∀ e ∈ L, 0 < e.2)
    ∧ ∀ k, storedCount L k = hours.count k

/-- The order of the ranking: a larger count first, and the earlier hour first among
equal counts. -/
def RankedBefore (a b : Int × Nat) : Prop := b.2 < a.2 ∨ (a.2 = b.2 ∧ a.1 < b.1)

/-- The ranked hour table whose first three hours are `bestHours`. -/
def rankedHours (hours : List Int) : List (Int × Nat) :=
  (hourCounts hours).insertionSort (fun a b => b.2 ≤ a.2)

/-- Six qualifying entries captured at 9, 3, 5, 3, 1 and 9 o'clock UTC. -/
def sixGoodHours : List AtmosphereSnapshot :=
  [scoreSnapshot (9 * 3600000) (some 80), scoreSnapshot (3 * 3600000) (some 90),
   scoreSnapshot (5 * 3600000) (some 75), scoreSnapshot (3 * 3600000) (some 80),
   scoreSnapshot (1 * 3600000) (some 70), scoreSnapshot (9 * 3600000) (some 99)]

/-- A daily record that carries only a day number and a moon illumination. -/
def illuminationRecord (day : Int) (illumination : Option ℚ) : DailyRecord :=
  { date := day
    timestamp := dateKeyTime day
    location := { name := none, lat := none, lng := none }
    solar := none
    lunar := some { phase := none, phaseName := none, illumination := illumination,
                    moonrise := none, moonset := none } }

/-- An atmosphere snapshot that carries only a capture instant and a cloud cover. -/
def cloudSnapshot (timestamp : Int) (cloudCover : Option ℚ) : AtmosphereSnapshot :=
  { timestamp := timestamp
    current := some { cloudCover := cloudCover, visibility := none, humidity := none,
                      observationScore := none }
    hourlyForecast := none }

/-- The zone eight hours behind UTC. -/
def pacific : TimeZone := fun _ => -480

/-- The fraction of the non-null visibilities of a log that exceed 15000 m. -/
def goodFraction (history : List AtmosphereSnapshot) : ℚ :=
  (((visibilitySeries history).filter (fun v => decide (v > 15000))).length : ℚ)
    / ((visibilitySeries history).length : ℚ)

/-- The fraction of the non-null visibilities of a log that are below 8000 m. -/
def poorFraction (history : List AtmosphereSnapshot) : ℚ :=
  (((visibilitySeries history).filter (fun v => decide (v < 8000))).length : ℚ)
    / ((visibilitySeries history).length : ℚ)

/-- The average of the non-null visibilities of a log, in kilometres. -/
def averageKm (history : List AtmosphereSnapshot) : ℚ :=
  sumList (visibilitySeries history) / ((visibilitySeries history).length : ℚ) / 1000

/-- The pattern `good-visibility` of `detectVisibilityPatterns`. -/
def goodVisibilityPattern (now : Int) (avgKm fraction : ℚ) : Pattern :=
  { id := "good-visibility"
    type := PatternType.optimal
    title := [Frag.text "Consistently Good Visibility"]
    description :=
      [Frag.text "This location has excellent visibility (>", Frag.int 15,
       Frag.text "km) ", Frag.int (jsRound (fraction * 100)),
       Frag.text "% of the time. Average: ", Frag.fixed 1 avgKm, Frag.text "km."]
    confidence := Surd.ofRat fraction
    data := PatternData.goodVisibility avgKm fraction
    icon := "👁️"
    detectedAt := now }

/-- The pattern `poor-visibility` of `detectVisibilityPatterns`. -/
def poorVisibilityPattern (now : Int) (avgKm fraction : ℚ) : Pattern :=
  { id := "poor-visibility"
    type := PatternType.anomaly
    title := [Frag.text "Frequent Low Visibility"]
    description :=
      [Frag.text "This location experiences reduced visibility (<8km) ",
       Frag.int (jsRound (fraction * 100)),
       Frag.text "% of the time. Consider timing observations carefully."]
    confidence := Surd.ofRat fraction
    data := PatternData.poorVisibility avgKm fraction
    icon := "🌫️"
    detectedAt := now }

/-- An atmosphere snapshot with cloud cover 50 and the given visibility. -/
def visibilitySnapshot (timestamp : Int) (visibility : Option ℚ) : AtmosphereSnapshot :=
  { timestamp := timestamp
    current := some { cloudCover := some 50, visibility := visibility, humidity := none,
                      observationScore := none }
    hourlyForecast := none }

/-- Ten snapshots whose visibility alternates between 20000 m and 5000 m. -/
def alternatingLog : List AtmosphereSnapshot :=
  (List.range 10).map (fun (i : ℕ) =>
    visibilitySnapshot (i : Int) (some (if i % 2 = 0 then 20000 else 5000)))

/-- Five snapshots of visibility 20000 m. -/
def clearLog : List AtmosphereSnapshot :=
  (List.range 5).map (fun (i : ℕ) => visibilitySnapshot (i : Int) (some 20000))

/-! ## Further actions of the patterns store (`patternsStore.js`) -/

/-- The argument of `recordAtmosphere`: the processed atmospheric data. -/
structure AtmosphereData where
  current : Option Conditions
  hourlyForecast : Option (List HourlySample)
deriving DecidableEq, Repr

/-- The action `recordAtmosphere(atmosphereData)`; `now` is the reading of the clock, the
same for `new Date()` and for `Date.now()` within the call. -/
def recordAtmosphere (now : Int) (atmosphereData : Option AtmosphereData)
    (state : PatternsState) : PatternsState :=
  match atmosphereData.bind (fun d => d.current) with
  | none => state
  | some current =>
    let newHistory := state.atmosphereHistory ++
      [{ timestamp := now
         current := some current
         hourlyForecast := (atmosphereData.bind (fun d => d.hourlyForecast)).map (List.take 6) }]
    let thirtyDaysAgo := now - 30 * 24 * 60 * 60 * 1000
    { state with
        atmosphereHistory := newHistory.filter (fun a => decide (a.timestamp > thirtyDaysAgo)) }

/-- The action `dismissPattern(patternId)`. -/
def dismissPattern (patternId : String) (state : PatternsState) : PatternsState :=
  { state with patterns := state.patterns.filter (fun p => decide (p.id ≠ patternId)) }

/-- The action `clearPatterns()`. -/
def clearPatterns (state : PatternsState) : PatternsState :=
  { state with patterns := [], lastDetection := none }

/-- The initial state of the patterns store. -/
def initialPatternsState : PatternsState :=
  { patterns := [], atmosphereHistory := [], lastDetection := none }

/-- The states of the patterns store reachable from the initial state by its actions. -/
inductive Reachable : PatternsState → Prop
  | init : Reachable initialPatternsState
  | atmosphere (now : Int) (atmosphereData : Option AtmosphereData) (state : PatternsState) :
      Reachable state → Reachable (recordAtmosphere now atmosphereData state)
  | detect (tz : TimeZone) (now : Int) (records : List DailyRecord) (state : PatternsState) :
      Reachable state → Reachable (detectPatterns tz now records state).1
  | dismiss (patternId : String) (state : PatternsState) :
      Reachable state → Reachable (dismissPattern patternId state)
  | clear (state : PatternsState) : Reachable state → Reachable (clearPatterns state)

/-- The state after a sequence of `detectPatterns` calls, each with its clock reading and
its records. -/
def detectRuns (tz : TimeZone) (runs : List (Int × List DailyRecord))
    (state : PatternsState) : PatternsState :=
  runs.foldl (fun s run => (detectPatterns tz run.1 run.2 s).1) state

/-- A pattern with the given id and confidence. -/
def namedPattern (id : String) (c : ℚ) : Pattern :=
  { id := id, type := PatternType.trend, title := [], description := [],
    confidence := Surd.ofRat c, data := PatternData.moonCycle 0 0 0, icon := "",
    detectedAt := 0 }

/-- A state that stores the patterns `x` and `y`. -/
def twoPatternsState : PatternsState :=
  { patterns := [namedPattern "x" (6 / 10), namedPattern "y" (4 / 10)]
    atmosphereHistory := []
    lastDetection := some 7 }

/-! ## History store (`historyStore.js`) -/

/-- A JavaScript `Date` object: a valid instant or `Invalid Date`. -/
inductive JsDate
  | valid (t : Int)
  | invalid
deriving DecidableEq, Repr

/-- The expression `d?.toISOString()`: nothing for a missing date, the ISO string of a
valid date (identified with its instant), and a `RangeError` thrown for `Invalid Date`. -/
def optionalISOString : Option JsDate → Except String (Option Int)
  | none => Except.ok none
  | some (JsDate.valid t) => Except.ok (some t)
  | some JsDate.invalid => Except.error "RangeError: Invalid time value"

/-- The value `d.getTime()`; `none` is `NaN`. -/
def JsDate.getTime : JsDate → Option Int
  | JsDate.valid t => some t
  | JsDate.invalid => none

/-- The fields of the result of `getSolarTimes` that the history store reads. -/
structure SolarTimes where
  sunrise : Option JsDate
  sunset : Option JsDate
  solarNoon : Option JsDate
  civilDawn : Option JsDate
  civilDusk : Option JsDate
deriving DecidableEq, Repr

/-- The fields of the result of `getLunarTimes` that the history store reads. -/
structure LunarTimes where
  moonrise : Option JsDate
  moonset : Option JsDate
deriving DecidableEq, Repr

/-- The fields of the result of `getMoonIllumination` that the history store reads. -/
structure MoonInfo where
  phase : Option ℚ
  phaseName : Option String
  percentIlluminated : Option ℚ
deriving DecidableEq, Repr

/-- The astronomy functions of `astronomy.js`, which wrap the external library: for an
instant, a latitude and a longitude. -/
structure Oracle where
  getSolarTimes : Int → Option ℚ → Option ℚ → SolarTimes
  getLunarTimes : Int → Option ℚ → Option ℚ → LunarTimes
  getMoonIllumination : Int → MoonInfo

/-- The field `totalMinutes` of `getDaylightDuration`, computed from the solar times of
the date: no result when sunrise or sunset is missing; the inner `none` is `NaN`, the
value obtained from an `Invalid Date`. -/
def getDaylightDuration (times : SolarTimes) : Option (Option ℚ) :=
  match times.sunrise, times.sunset with
  | some sunrise, some sunset =>
    match sunrise.getTime, sunset.getTime with
    | some rise, some set => some (some (((set - rise) / (1000 * 60) : Int) : ℚ))
    | _, _ => some none
  | _, _ => none

/-- The local calendar of the host: its time zone, and the instant of 12:00:00.000 local
time of a local day, which is what `setDate` followed by `setHours(12, 0, 0, 0)` yields. -/
structure Host where
  tz : TimeZone
  localNoon : Int → Int

/-- The function `formatDateKey(date)`: the UTC date of the instant, as a day number. -/
def formatDateKey (t : Int) : Int := t / 86400000

/-- The object `dailyRecords`: its entries in insertion order, keyed by date. -/
abbrev RecordTable := List (Int × DailyRecord)

/-- The expression `dailyRecords[key]`. -/
def recordsGet (table : RecordTable) (key : Int) : Option DailyRecord :=
  match table with
  | [] => none
  | (k, v) :: rest => if k = key then some v else recordsGet rest key

/-- The assignment `newRecords[key] = record`: an existing key keeps its place. -/
def recordsSet (table : RecordTable) (key : Int) (record : DailyRecord) : RecordTable :=
  match table with
  | [] => [(key, record)]
  | (k, v) :: rest =>
    if k = key then (k, record) :: rest else (k, v) :: recordsSet rest key record

/-- The state of the history store. -/
structure HistoryState where
  dailyRecords : RecordTable
  firstRecordDate : Option Int
deriving DecidableEq, Repr

/-- The body of the loop of `backfillHistory` for the day `i` days before today, on the
pair of `newRecords` and `firstDate`. -/
def backfillDay (host : Host) (oracle : Oracle) (now : Int) (location : Location)
    (acc : RecordTable × Option Int) (i : Nat) : Except String (RecordTable × Option Int) :=
  let date := host.localNoon (localDay host.tz now - (i : Int))
  let dateKey := formatDateKey date
  match recordsGet acc.1 dateKey with
  | some _ => Except.ok acc
  | none =>
    let sunTimes := oracle.getSolarTimes date location.lat location.lng
    let moonTimes := oracle.getLunarTimes date location.lat location.lng
    let moonIllumination := oracle.getMoonIllumination date
    let daylight := getDaylightDuration (oracle.getSolarTimes date location.lat location.lng)
    match optionalISOString sunTimes.sunrise, optionalISOString sunTimes.sunset,
        optionalISOString sunTimes.solarNoon, optionalISOString sunTimes.civilDawn,
        optionalISOString sunTimes.civilDusk, optionalISOString moonTimes.moonrise,
        optionalISOString moonTimes.moonset with
    | Except.ok sunrise, Except.ok sunset, Except.ok solarNoon, Except.ok civilDawn,
        Except.ok civilDusk, Except.ok moonrise, Except.ok moonset =>
      let record : DailyRecord :=
        { date := dateKey
          timestamp := date
          location := { name := location.name, lat := location.lat, lng := location.lng }
          solar := some
            { sunrise := sunrise, sunset := sunset, solarNoon := solarNoon,
              civilDawn := civilDawn, civilDusk := civilDusk,
              daylightMinutes := daylight.bind id }
          lunar := some
            { phase := moonIllumination.phase, phaseName := moonIllumination.phaseName,
              illumination := moonIllumination.percentIlluminated,
              moonrise := moonrise, moonset := moonset } }
      Except.ok (recordsSet acc.1 dateKey record,
        match acc.2 with
        | none => some dateKey
        | some firstDate => if dateKey < firstDate then some dateKey else some firstDate)
    | _, _, _, _, _, _, _ => Except.error "RangeError: Invalid time value"

/-- The loop `for (let i = days; i >= 0; i--)` of `backfillHistory`. -/
def backfillLoop (host : Host) (oracle : Oracle) (now : Int) (location : Location) :
    List Nat → RecordTable × Option Int → Except String (RecordTable × Option Int)
  | [], acc => Except.ok acc
  | i :: rest, acc =>
    match backfillDay host oracle now location acc i with
    | Except.ok next => backfillLoop host oracle now location rest next
    | Except.error e => Except.error e

/-- The action `backfillHistory(days, location)`: the new state and the returned number,
or the error thrown (the state is then left as it was). -/
def backfillHistory (host : Host) (oracle : Oracle) (now : Int) (days : Nat)
    (location : Location) (state : HistoryState) : Except String (HistoryState × Nat) :=
  match backfillLoop host oracle now location (List.range (days + 1)).reverse
      (state.dailyRecords, none) with
  | Except.ok (newRecords, firstDate) =>
    Except.ok
      ({ dailyRecords := newRecords
         firstRecordDate :=
           match firstDate with
           | some d => some d
           | none => state.firstRecordDate },
        newRecords.length)
  | Except.error e => Except.error e

/-- The state of the history store after a call of `backfillHistory`, thrown or not. -/
def afterBackfill (host : Host) (oracle : Oracle) (now : Int) (days : Nat)
    (location : Location) (state : HistoryState) : HistoryState :=
  match backfillHistory host oracle now days location state with
  | Except.ok result => result.1
  | Except.error _ => state

/-- The date key of the day `i` days before today in the loop of `backfillHistory`: the
UTC date of noon local time of that local day. -/
def windowKey (host : Host) (now : Int) (i : Nat) : Int :=
  formatDateKey (host.localNoon (localDay host.tz now - (i : Int)))

/-- No date returned by the astronomy functions is an `Invalid Date`. -/
def OracleValid (oracle : Oracle) : Prop :=
  ∀ (t : Int) (lat lng : Option ℚ),
    (oracle.getSolarTimes t lat lng).sunrise ≠ some JsDate.invalid
      ∧ (oracle.getSolarTimes t lat lng).sunset ≠ some JsDate.invalid
      ∧ (oracle.getSolarTimes t lat lng).solarNoon ≠ some JsDate.invalid
      ∧ (oracle.getSolarTimes t lat lng).civilDawn ≠ some JsDate.invalid
      ∧ (oracle.getSolarTimes t lat lng).civilDusk ≠ some JsDate.invalid
      ∧ (oracle.getLunarTimes t lat lng).moonrise ≠ some JsDate.invalid
      ∧ (oracle.getLunarTimes t lat lng).moonset ≠ some JsDate.invalid

/-- A host whose offset from UTC is constant. -/
def fixedOffsetHost (offset : Int) : Host :=
  { tz := fun _ => offset
    localNoon := fun d => (d * 1440 + 720 - offset) * 60000 }

/-- Astronomy functions that report no event and no moon data. -/
def nightOracle : Oracle :=
  { getSolarTimes := fun _ _ _ =>
      { sunrise := none, sunset := none, solarNoon := none, civilDawn := none,
        civilDusk := none }
    getLunarTimes := fun _ _ _ => { moonrise := none, moonset := none }
    getMoonIllumination := fun _ =>
      { phase := none, phaseName := none, percentIlluminated := none } }

/-- The empty history store. -/
def emptyHistory : HistoryState := { dailyRecords := [], firstRecordDate := none }

/-- A location named `A`. -/
def locationA : Location := { name := some "A", lat := some 10, lng := some 20 }

/-- A location named `B`. -/
def locationB : Location := { name := some "B", lat := some 30, lng := some 40 }

/-- A store that holds one record, for day 0, made at location `A`. -/
def heldToday : HistoryState :=
  { dailyRecords :=
      [(0, { date := 0, timestamp := 43200000, location := locationA, solar := none,
             lunar := none })]
    firstRecordDate := some 0 }

/-! ## Further actions and queries of the history store -/

/-- The field of the result of `getDaylightDuration` that the history store reads. -/
structure Daylight where
  totalMinutes : Option ℚ
deriving DecidableEq, Repr

/-- The argument `data` of `recordDay`: the live astronomical outputs and the location. -/
structure DayData where
  location : Option Location
  sunTimes : Option SolarTimes
  moonTimes : Option LunarTimes
  moonIllumination : Option MoonInfo
  daylight : Option Daylight
deriving DecidableEq, Repr

/-- The action `recordDay(data)`: the new state and the returned record, or the error
thrown (the state is then left as it was); `now` is the reading of the clock, the same
for `new Date()` and for `Date.now()` within the call. -/
def recordDay (now : Int) (data : DayData) (state : HistoryState) :
    Except String (HistoryState × DailyRecord) :=
  let dateKey := formatDateKey now
  match optionalISOString (data.sunTimes.bind (fun s => s.sunrise)),
      optionalISOString (data.sunTimes.bind (fun s => s.sunset)),
      optionalISOString (data.sunTimes.bind (fun s => s.solarNoon)),
      optionalISOString (data.sunTimes.bind (fun s => s.civilDawn)),
      optionalISOString (data.sunTimes.bind (fun s => s.civilDusk)),
      optionalISOString (data.moonTimes.bind (fun m => m.moonrise)),
      optionalISOString (data.moonTimes.bind (fun m => m.moonset)) with
  | Except.ok sunrise, Except.ok sunset, Except.ok solarNoon, Except.ok civilDawn,
      Except.ok civilDusk, Except.ok moonrise, Except.ok moonset =>
    let record : DailyRecord :=
      { date := dateKey
        timestamp := now
        location :=
          { name := data.location.bind (fun l => l.name)
            lat := data.location.bind (fun l => l.lat)
            lng := data.location.bind (fun l => l.lng) }
        solar := some
          { sunrise := sunrise, sunset := sunset, solarNoon := solarNoon,
            civilDawn := civilDawn, civilDusk := civilDusk,
            daylightMinutes := data.daylight.bind (fun d => d.totalMinutes) }
        lunar := some
          { phase := data.moonIllumination.bind (fun m => m.phase)
            phaseName := data.moonIllumination.bind (fun m => m.phaseName)
            illumination := data.moonIllumination.bind (fun m => m.percentIlluminated)
            moonrise := moonrise, moonset := moonset } }
    Except.ok
      ({ dailyRecords := recordsSet state.dailyRecords dateKey record
         firstRecordDate :=
           match state.firstRecordDate with
           | some d => some d
           | none => some dateKey },
        record)
  | _, _, _, _, _, _, _ => Except.error "RangeError: Invalid time value"

/-- The state of the history store after a call of `recordDay`, thrown or not. -/
def afterRecordDay (now : Int) (data : DayData) (state : HistoryState) : HistoryState :=
  match recordDay now data state with
  | Except.ok result => result.1
  | Except.error _ => state

/-- The action `clearHistory()`. -/
def clearHistory (_state : HistoryState) : HistoryState :=
  { dailyRecords := [], firstRecordDate := none }

/-- The states of the history store reachable from the empty store by its actions, each
call with its own reading of the clock. -/
inductive HistoryReachable : HistoryState → Prop
  | init : HistoryReachable emptyHistory
  | record (now : Int) (data : DayData) (state : HistoryState) :
      HistoryReachable state → HistoryReachable (afterRecordDay now data state)
  | backfill (host : Host) (oracle : Oracle) (now : Int) (days : Nat) (location : Location)
      (state : HistoryState) :
      HistoryReachable state → HistoryReachable (afterBackfill host oracle now days location state)
  | clear (state : HistoryState) : HistoryReachable state → HistoryReachable (clearHistory state)

/-- The local calendar of the host as the date setters use it: its time zone, and the
instant of a local wall-clock time given in milliseconds since the local epoch. -/
structure Calendar where
  tz : TimeZone
  utcOfLocal : Int → Int

/-- The instant of the date `d` after `d.setDate(d.getDate() + shift)`, for `d` at instant
`t`: the same local time of day, `shift` local days later. -/
def setDate (calendar : Calendar) (t : Int) (shift : Int) : Int :=
  calendar.utcOfLocal (t + calendar.tz t * 60000 + shift * 86400000)

/-- The query `getRecentRecords(days)`; `now` is the reading of the clock. -/
def getRecentRecords (calendar : Calendar) (now : Int) (days : Nat) (state : HistoryState) :
    List DailyRecord :=
  (List.range days).foldl
    (fun records (i : ℕ) =>
      match recordsGet state.dailyRecords
          (formatDateKey (setDate calendar now (-(i : Int)))) with
      | some r => r :: records
      | none => records)
    []

/-- The loop `while (current <= end)` of `getRecordsInRange`, run for at most `fuel`
rounds; `none` when the rounds do not suffice. -/
def rangeLoop (calendar : Calendar) (table : RecordTable) (endTime : Int) :
    Nat → Int → List DailyRecord → Option (List DailyRecord)
  | 0, current, records => if current ≤ endTime then none else some records
  | fuel + 1, current, records =>
    if current ≤ endTime then
      rangeLoop calendar table endTime fuel (setDate calendar current 1)
        (match recordsGet table (formatDateKey current) with
         | some r => records ++ [r]
         | none => records)
    else some records

/-- The query `getRecordsInRange(startDate, endDate)` for two valid dates, given by their
instants. -/
def getRecordsInRange (calendar : Calendar) (fuel : Nat) (startDate endDate : Int)
    (state : HistoryState) : Option (List DailyRecord) :=
  rangeLoop calendar state.dailyRecords endDate fuel startDate []

/-- The `daylight` part of the result of `getStatistics`. -/
structure DaylightStatistics where
  longest : Option ℚ
  longestDate : Option Int
  shortest : Option ℚ
  shortestDate : Option Int
  average : Option Int
  current : Option ℚ
deriving DecidableEq, Repr

/-- The `lunar` part of the result of `getStatistics`; `phaseDistribution` lists the
entries of the object `phaseCount` in the order in which the names were first counted. -/
structure LunarStatistics where
  phaseDistribution : List (String × Nat)
  fullMoonCount : Nat
  newMoonCount : Nat
  lastFullMoon : Option Int
  lastNewMoon : Option Int
deriving DecidableEq, Repr

/-- The result of `getStatistics`. -/
structure Statistics where
  totalDaysTracked : Nat
  firstRecordDate : Option Int
  lastRecordDate : Int
  daylight : DaylightStatistics
  lunar : LunarStatistics
deriving DecidableEq, Repr

/-- The value `Math.max(...xs)` of a list that is not empty. -/
def mathMax : List ℚ → Option ℚ
  | [] => none
  | x :: rest => some (rest.foldl max x)

/-- The value `Math.min(...xs)` of a list that is not empty. -/
def mathMin : List ℚ → Option ℚ
  | [] => none
  | x :: rest => some (rest.foldl min x)

/-- The expression `records.find(r => r.solar?.daylightMinutes === value)`; a missing
`daylightMinutes` is `undefined` in the records, so that no record matches `null`. -/
def findByDaylight (records : List DailyRecord) (value : Option ℚ) : Option DailyRecord :=
  match value with
  | some m => records.find? (fun r => decide (r.solar.bind (fun s => s.daylightMinutes) = some m))
  | none => none

/-- The expression `phaseCount[name] || 0`. -/
def phaseGet (phaseCount : List (String × Nat)) (name : String) : Nat :=
  match phaseCount with
  | [] => 0
  | (k, c) :: rest => if k = name then c else phaseGet rest name

/-- The assignment `phaseCount[name] = (phaseCount[name] || 0) + 1`. -/
def bumpPhase (phaseCount : List (String × Nat)) (name : String) : List (String × Nat) :=
  match phaseCount with
  | [] => [(name, 1)]
  | (k, c) :: rest => if k = name then (k, c + 1) :: rest else (k, c) :: bumpPhase rest name

/-- The loop `records.forEach(...)` that fills `phaseCount`. -/
def phaseCounts (records : List DailyRecord) : List (String × Nat) :=
  records.foldl
    (fun phaseCount r =>
      match r.lunar.bind (fun l => l.phaseName) with
      | some name => if name ≠ "" then bumpPhase phaseCount name else phaseCount
      | none => phaseCount)
    []

/-- The query `getStatistics()`; `none` is the result `null`, and `now` is the reading
of the clock. -/
def getStatistics (now : Int) (state : HistoryState) : Option Statistics :=
  let records := state.dailyRecords.map Prod.snd
  if records.length = 0 then none
  else
    let daylightMinutes := daylightSeries records
    let longestDay := if daylightMinutes.length > 0 then mathMax daylightMinutes else none
    let shortestDay := if daylightMinutes.length > 0 then mathMin daylightMinutes else none
    let avgDaylight :=
      if daylightMinutes.length > 0 then
        some (jsRound (sumList daylightMinutes / (daylightMinutes.length : ℚ)))
      else none
    let longestDayRecord := findByDaylight records longestDay
    let shortestDayRecord := findByDaylight records shortestDay
    let phaseCount := phaseCounts records
    let fullMoons := records.filter (hasPhase "Full Moon")
    let newMoons := records.filter (hasPhase "New Moon")
    some
      { totalDaysTracked := records.length
        firstRecordDate := state.firstRecordDate
        lastRecordDate := formatDateKey now
        daylight :=
          { longest := longestDay
            longestDate := longestDayRecord.map (fun r => r.date)
            shortest := shortestDay
            shortestDate := shortestDayRecord.map (fun r => r.date)
            average := avgDaylight
            current := records.getLast?.bind (fun r => r.solar.bind (fun s => s.daylightMinutes)) }
        lunar :=
          { phaseDistribution := phaseCount
            fullMoonCount := fullMoons.length
            newMoonCount := newMoons.length
            lastFullMoon := fullMoons.getLast?.map (fun r => r.date)
            lastNewMoon := newMoons.getLast?.map (fun r => r.date) } }

/-- Astronomy functions at a place where the sun does not rise on the date: the library
gives `Invalid Date` for sunrise and sunset. -/
def polarOracle : Oracle :=
  { getSolarTimes := fun t _ _ =>
      { sunrise := some JsDate.invalid, sunset := some JsDate.invalid,
        solarNoon := some (JsDate.valid t), civilDawn := none, civilDusk := none }
    getLunarTimes := fun _ _ _ => { moonrise := none, moonset := none }
    getMoonIllumination := fun _ =>
      { phase := none, phaseName := none, percentIlluminated := none } }

/-- The live data of such a day, as `recordDay` receives it. -/
def polarData : DayData :=
  { location := some locationA
    sunTimes := some (polarOracle.getSolarTimes 43200000 locationA.lat locationA.lng)
    moonTimes := some (polarOracle.getLunarTimes 43200000 locationA.lat locationA.lng)
    moonIllumination := some (polarOracle.getMoonIllumination 43200000)
    daylight := none }

/-- The live data of a day for which nothing is known. -/
def missingData : DayData :=
  { location := none, sunTimes := none, moonTimes := none, moonIllumination := none,
    daylight := none }

/-- A calendar whose offset from UTC is constant. -/
def fixedOffsetCalendar (offset : Int) : Calendar :=
  { tz := fun _ => offset
    utcOfLocal := fun l => l - offset * 60000 }

/-- The stored records of `count` consecutive date keys from `first` on, oldest first;
a key without a record contributes nothing. -/
def recordsOfDays (table : RecordTable) (first : Int) (count : Nat) : List DailyRecord :=
  (List.range count).filterMap (fun (j : ℕ) => recordsGet table (first + (j : Int)))

/-- Every record of the table carries the date under which it is stored. -/
def DateKeyed (table : RecordTable) : Prop :=
  ∀ (k : Int) (r : DailyRecord), recordsGet table k = some r → r.date = k

/-- The number of rounds of the loop of `getRecordsInRange` when a local day lasts 24
hours. -/
def rangeRounds (startDate endDate : Int) : Nat :=
  ((endDate - startDate) / 86400000 + 1).toNat

/-- A record for the date `d` without solar or lunar data. -/
def plainRecord (d : Int) : DailyRecord :=
  { date := d, timestamp := d * 86400000 + 43200000, location := locationA, solar := none,
    lunar := none }

/-- A store that holds the dates 0, 1 and 2. -/
def threeDays : HistoryState :=
  { dailyRecords := [(0, plainRecord 0), (1, plainRecord 1), (2, plainRecord 2)]
    firstRecordDate := some 0 }

/-- A calendar that moves its clocks forward by one hour at 02:00 local time of day 1:
eight hours behind UTC before that instant (10:00 UTC of day 1), seven hours after it. -/
def dstCalendar : Calendar :=
  { tz := fun t => if t < 122400000 then -480 else -420
    utcOfLocal := fun l => if l < 97200000 then l + 28800000 else l + 25200000 }

/-- The invariant of the history store that its actions keep: every record carries the
date of its key, no date is held twice, and `firstRecordDate` is unset exactly when no
record is held. -/
def HistoryOk (state : HistoryState) : Prop :=
  DateKeyed state.dailyRecords
    ∧ (state.dailyRecords.map Prod.fst).Nodup
    ∧ (state.firstRecordDate = none ↔ state.dailyRecords = [])

/-- The expression `r.solar?.daylightMinutes`. -/
def daylightOf (r : DailyRecord) : Option ℚ := r.solar.bind (fun s => s.daylightMinutes)

/-- The records of the store in the order of `Object.values(dailyRecords)`. -/
def storedRecords (state : HistoryState) : List DailyRecord := state.dailyRecords.map Prod.snd

/-- The daylight values of the records that have one, in the order of the records. -/
def daylightValues (state : HistoryState) : List ℚ := (storedRecords state).filterMap daylightOf

/-- A record for the date `d` with the given `solar` part and no lunar data. -/
def solarRecord (d : Int) (solar : Option Solar) : DailyRecord :=
  { date := d, timestamp := d * 86400000 + 43200000, location := locationA, solar := solar,
    lunar := none }

/-- A `solar` part that holds only the given `daylightMinutes`. -/
def daylightOnly (minutes : Option ℚ) : Solar :=
  { sunrise := none, sunset := none, solarNoon := none, civilDawn := none, civilDusk := none,
    daylightMinutes := minutes }

/-- A store of four days: 600 minutes of daylight, no solar part, a solar part without
`daylightMinutes`, and 611 minutes. -/
def mixedStore : HistoryState :=
  { dailyRecords :=
      [(0, solarRecord 0 (some (daylightOnly (some 600)))),
       (1, solarRecord 1 none),
       (2, solarRecord 2 (some (daylightOnly none))),
       (3, solarRecord 3 (some (daylightOnly (some 611))))]
    firstRecordDate := some 0 }

/-- Astronomy functions that give, for every date, a sunrise five hours before and a
sunset five hours after the instant asked for, and a full moon. -/
def steadyOracle : Oracle :=
  { getSolarTimes := fun t _ _ =>
      { sunrise := some (JsDate.valid (t - 18000000)),
        sunset := some (JsDate.valid (t + 18000000)),
        solarNoon := none, civilDawn := none, civilDusk := none }
    getLunarTimes := fun _ _ _ => { moonrise := none, moonset := none }
    getMoonIllumination := fun _ =>
      { phase := none, phaseName := some "Full Moon", percentIlluminated := none } }

/-- The live data of a day with the given minutes of daylight and a full moon. -/
def liveData (minutes : ℚ) : DayData :=
  { location := some locationA
    sunTimes := none
    moonTimes := none
    moonIllumination :=
      some { phase := none, phaseName := some "Full Moon", percentIlluminated := none }
    daylight := some { totalMinutes := some minutes } }

/-- The store after `recordDay` at noon UTC of day 1 on the empty store, followed by
`backfillHistory(1, A)` at the same instant. -/
def recordedThenBackfilled (minutes : ℚ) : HistoryState :=
  afterBackfill (fixedOffsetHost 0) steadyOracle 129600000 1 locationA
    (afterRecordDay 129600000 (liveData minutes) emptyHistory)

/-- The record that `recordDay` writes for day 1 from `liveData`. -/
def liveRecord (minutes : ℚ) : DailyRecord :=
  { date := 1
    timestamp := 129600000
    location := locationA
    solar := some (daylightOnly (some minutes))
    lunar := some
      { phase := none, phaseName := some "Full Moon", illumination := none, moonrise := none,
        moonset := none } }

/-- The record that the backfill writes for day 0 from `steadyOracle`. -/
def backfilledRecord : DailyRecord :=
  { date := 0
    timestamp := 43200000
    location := locationA
    solar := some
      { sunrise := some 25200000, sunset := some 61200000, solarNoon := none,
        civilDawn := none, civilDusk := none, daylightMinutes := some ((600 : Int) : ℚ) }
    lunar := some
      { phase := none, phaseName := some "Full Moon", illumination := none, moonrise := none,
        moonset := none } }

/-- The store after `recordDay` at noon UTC of day 0 on the empty store, followed ten days
later, at noon UTC of day 10, by `backfillHistory(1, A)`. -/
def recordedThenLateBackfill : HistoryState :=
  afterBackfill (fixedOffsetHost 0) nightOracle 907200000 1 locationA
    (afterRecordDay 43200000 missingData emptyHistory)

/-- The entry that `recordAtmosphere` appends at the instant `now`. -/
def newEntry (now : Int) (data : AtmosphereData) (current : Conditions) : AtmosphereSnapshot :=
  { timestamp := now
    current := some current
    hourlyForecast := data.hourlyForecast.map (List.take 6) }

/-- The log is in chronological order and no entry is later than the instant `now`. -/
def Chronological (now : Int) (log : List AtmosphereSnapshot) : Prop :=
  (log.map (fun a => a.timestamp)).Pairwise (fun a b => a ≤ b)
    ∧ ∀ a ∈ log, a.timestamp ≤ now

/-- The state after a sequence of `recordAtmosphere` calls, each with its clock reading
and its data. -/
def atmosphereRuns (calls : List (Int × Option AtmosphereData)) (state : PatternsState) :
    PatternsState :=
  calls.foldl (fun s call => recordAtmosphere call.1 call.2 s) state

/-- Conditions with every field missing. -/
def emptyConditions : Conditions :=
  { cloudCover := none, visibility := none, humidity := none, observationScore := none }

/-- An entry of the log captured at the instant `t`. -/
def loggedAt (t : Int) : AtmosphereSnapshot :=
  { timestamp := t, current := some emptyConditions, hourlyForecast := none }

/-- Seven hourly samples. -/
def sevenSamples : List HourlySample :=
  List.replicate 7 { cloudCover := none, visibility := none, humidity := none }

/-! ## Binary64 numbers -/

/-- A JavaScript Number: `NaN`, an infinity, or a finite binary64 value given by its
exact rational value.  The two zeros are identified: no function embedded here divides by
a zero or prints one. -/
inductive JsNumber
  | nan
  | inf (negative : Bool)
  | fin (q : ℚ)
deriving DecidableEq, Repr

/-- The number of binary digits of `n` after the first, for `n` at least 1 and `fuel` at
least `n`. -/
def log2Fuel : Nat → Nat → Nat
  | 0, _ => 0
  | fuel + 1, n => if n < 2 then 0 else log2Fuel fuel (n / 2) + 1

/-- The power `2 ^ e` of an integer exponent. -/
def pow2 (e : Int) : ℚ :=
  if 0 ≤ e then ((2 ^ e.toNat : Nat) : ℚ) else 1 / ((2 ^ (-e).toNat : Nat) : ℚ)

/-- The exponent `e` with `2 ^ e ≤ |q| < 2 ^ (e + 1)`, for `q` other than 0. -/
def floorLog2 (q : ℚ) : Int :=
  let e0 : Int := (log2Fuel q.num.natAbs q.num.natAbs : Int) - (log2Fuel q.den q.den : Int)
  if pow2 e0 ≤ abs q then e0 else e0 - 1

/-- The integer nearest to `x`, a tie going to the even one. -/
def roundHalfEven (x : ℚ) : Int :=
  if x - (Int.floor x : ℚ) < 1 / 2 then Int.floor x
  else if 1 / 2 < x - (Int.floor x : ℚ) then Int.floor x + 1
  else if Int.floor x % 2 = 0 then Int.floor x
  else Int.floor x + 1

/-- The exponent of the last binary digit kept in a binary64 value of the size of `a`:
53 digits are kept, and none below `2 ^ (-1074)`. -/
def ulpExponent (a : ℚ) : Int := max (floorLog2 a - 52) (-1074)

/-- The positive rational `a` rounded to 53 binary digits (to the nearest, a tie going to
the even digit), before the test for overflow. -/
def roundPos (a : ℚ) : ℚ :=
  (roundHalfEven (a / pow2 (ulpExponent a)) : ℚ) * pow2 (ulpExponent a)

/-- The rational `q` rounded to 53 binary digits, with its sign. -/
def roundNearest (q : ℚ) : ℚ := if q < 0 then -roundPos (-q) else roundPos q

/-- The Number value of a real: the binary64 value nearest to `q`, a tie going to the
even one, and an infinity from `2 ^ 1024` on. -/
def JsNumber.ofRat (q : ℚ) : JsNumber :=
  if pow2 1024 ≤ |roundNearest q| then JsNumber.inf (decide (q < 0))
  else JsNumber.fin (roundNearest q)

/-- The unary operator `-`. -/
def JsNumber.neg : JsNumber → JsNumber
  | JsNumber.fin a => JsNumber.fin (-a)
  | JsNumber.nan => JsNumber.nan
  | JsNumber.inf s => JsNumber.inf (!s)

/-- The operator `+` on Numbers. -/
def JsNumber.add : JsNumber → JsNumber → JsNumber
  | JsNumber.fin a, JsNumber.fin b => JsNumber.ofRat (a + b)
  | JsNumber.nan, _ => JsNumber.nan
  | _, JsNumber.nan => JsNumber.nan
  | JsNumber.inf s, JsNumber.inf t => if s = t then JsNumber.inf s else JsNumber.nan
  | JsNumber.inf s, JsNumber.fin _ => JsNumber.inf s
  | JsNumber.fin _, JsNumber.inf t => JsNumber.inf t

/-- The operator `-` on Numbers. -/
def JsNumber.sub (a b : JsNumber) : JsNumber := JsNumber.add a (JsNumber.neg b)

/-- The operator `*` on Numbers. -/
def JsNumber.mul : JsNumber → JsNumber → JsNumber
  | JsNumber.fin a, JsNumber.fin b => JsNumber.ofRat (a * b)
  | JsNumber.nan, _ => JsNumber.nan
  | _, JsNumber.nan => JsNumber.nan
  | JsNumber.inf s, JsNumber.inf t => JsNumber.inf (xor s t)
  | JsNumber.inf s, JsNumber.fin b =>
    if b = 0 then JsNumber.nan else JsNumber.inf (xor s (decide (b < 0)))
  | JsNumber.fin a, JsNumber.inf t =>
    if a = 0 then JsNumber.nan else JsNumber.inf (xor (decide (a < 0)) t)

/-- The operator `/` on Numbers; a zero divisor is taken as `+0`. -/
def JsNumber.div : JsNumber → JsNumber → JsNumber
  | JsNumber.fin a, JsNumber.fin b =>
    if b = 0 then (if a = 0 then JsNumber.nan else JsNumber.inf (decide (a < 0)))
    else JsNumber.ofRat (a / b)
  | JsNumber.nan, _ => JsNumber.nan
  | _, JsNumber.nan => JsNumber.nan
  | JsNumber.inf _, JsNumber.inf _ => JsNumber.nan
  | JsNumber.inf s, JsNumber.fin b => JsNumber.inf (xor s (decide (b < 0)))
  | JsNumber.fin _, JsNumber.inf _ => JsNumber.fin 0

/-- The loop of the integer square root: the digits of the root from `2 ^ (bit - 1)`
down. -/
def isqrtLoop (n : Nat) : Nat → Nat → Nat
  | 0, r => r
  | bit + 1, r =>
    if (r + 2 ^ bit) * (r + 2 ^ bit) ≤ n then isqrtLoop n bit (r + 2 ^ bit)
    else isqrtLoop n bit r

/-- The greatest natural number whose square is at most `n`. -/
def isqrt (n : Nat) : Nat := isqrtLoop n (log2Fuel n n / 2 + 1) 0

/-- The function `Math.sqrt`: the binary64 value nearest to the square root. -/
def JsNumber.sqrt : JsNumber → JsNumber
  | JsNumber.nan => JsNumber.nan
  | JsNumber.inf s => if s then JsNumber.nan else JsNumber.inf false
  | JsNumber.fin q =>
    if q < 0 then JsNumber.nan
    else if q = 0 then JsNumber.fin 0
    else
      let p := floorLog2 q / 2 - 52
      let x := q / (pow2 p * pow2 p)
      let s := isqrt (Int.floor x).toNat
      let half : ℚ := (s : ℚ) + 1 / 2
      let m : Nat :=
        if x < half * half then s
        else if half * half < x then s + 1
        else if s % 2 = 0 then s
        else s + 1
      JsNumber.fin ((m : ℚ) * pow2 p)

/-- The function `Math.abs`. -/
def JsNumber.abs : JsNumber → JsNumber
  | JsNumber.fin a => JsNumber.fin |a|
  | JsNumber.nan => JsNumber.nan
  | JsNumber.inf _ => JsNumber.inf false

/-- The function `Math.round`: the nearest integer, a tie going up. -/
def JsNumber.round : JsNumber → JsNumber
  | JsNumber.fin a => JsNumber.fin (Int.floor (a + 1 / 2) : Int)
  | x => x

/-- The operator `<` on Numbers: false when an operand is `NaN`. -/
def JsNumber.lt : JsNumber → JsNumber → Bool
  | JsNumber.fin a, JsNumber.fin b => decide (a < b)
  | JsNumber.nan, _ => false
  | _, JsNumber.nan => false
  | JsNumber.inf s, JsNumber.inf t => s && !t
  | JsNumber.inf s, JsNumber.fin _ => s
  | JsNumber.fin _, JsNumber.inf t => !t

/-- The operator `>` on Numbers. -/
def JsNumber.gt (a b : JsNumber) : Bool := JsNumber.lt b a

/-- The operator `<=` on Numbers: false when an operand is `NaN`. -/
def JsNumber.le : JsNumber → JsNumber → Bool
  | JsNumber.fin a, JsNumber.fin b => decide (a ≤ b)
  | JsNumber.nan, _ => false
  | _, JsNumber.nan => false
  | JsNumber.inf s, JsNumber.inf t => s || !t
  | JsNumber.inf s, JsNumber.fin _ => s
  | JsNumber.fin _, JsNumber.inf t => !t

/-- The operator `>=` on Numbers. -/
def JsNumber.ge (a b : JsNumber) : Bool := JsNumber.le b a

/-- The test `x === 0`. -/
def JsNumber.isZero : JsNumber → Bool
  | JsNumber.fin a => decide (a = 0)
  | _ => false

/-- The function `Math.min` of two Numbers. -/
def JsNumber.min (a b : JsNumber) : JsNumber :=
  match a, b with
  | JsNumber.nan, _ => JsNumber.nan
  | _, JsNumber.nan => JsNumber.nan
  | _, _ => if JsNumber.lt b a then b else a

/-- The function `Math.max` of two Numbers. -/
def JsNumber.max (a b : JsNumber) : JsNumber :=
  match a, b with
  | JsNumber.nan, _ => JsNumber.nan
  | _, JsNumber.nan => JsNumber.nan
  | _, _ => if JsNumber.lt a b then b else a

/-! ## The engine and the repository in binary64 arithmetic (`patterns.js`, `patternsStore.js`) -/

instance : Add JsNumber := ⟨JsNumber.add⟩
instance : Sub JsNumber := ⟨JsNumber.sub⟩
instance : Mul JsNumber := ⟨JsNumber.mul⟩
instance : Div JsNumber := ⟨JsNumber.div⟩

/-- The Number of an integer, such as an instant in milliseconds. -/
def JsNumber.ofInt (n : Int) : JsNumber := JsNumber.ofRat (n : ℚ)

/-- Whether a Number is neither `NaN` nor an infinity. -/
def JsNumber.isFinite : JsNumber → Bool
  | JsNumber.fin _ => true
  | _ => false

/-- Result object of `linearRegression`, with binary64 fields. -/
structure Binary64.Regression where
  slope : JsNumber
  intercept : JsNumber
  rSquared : JsNumber
  confidence : JsNumber
deriving DecidableEq, Repr

/-- The four accumulators `sumX, sumY, sumXY, sumX2` of `linearRegression`. -/
structure Binary64.RegSums where
  sumX : JsNumber
  sumY : JsNumber
  sumXY : JsNumber
  sumX2 : JsNumber
deriving DecidableEq, Repr

/-- The body of the first `data.forEach((y, x) => ...)` loop of `linearRegression`, each
`+=` and `*` rounded; the index `x` is a whole number below `2 ^ 32`, hence exact. -/
def Binary64.regStep (s : Binary64.RegSums) (p : ℕ × JsNumber) : Binary64.RegSums :=
  { sumX := s.sumX + JsNumber.fin (p.1 : ℚ)
    sumY := s.sumY + p.2
    sumXY := s.sumXY + JsNumber.fin (p.1 : ℚ) * p.2
    sumX2 := s.sumX2 + JsNumber.fin (p.1 : ℚ) * JsNumber.fin (p.1 : ℚ) }

/-- First `data.forEach((y, x) => ...)` loop of `linearRegression`. -/
def Binary64.regSums (data : List JsNumber) : Binary64.RegSums :=
  data.enum.foldl Binary64.regStep
    { sumX := JsNumber.fin 0, sumY := JsNumber.fin 0, sumXY := JsNumber.fin 0,
      sumX2 := JsNumber.fin 0 }

/-- The divisor `n * sumX2 - sumX * sumX` of the slope, as computed. -/
def Binary64.slopeDivisor (data : List JsNumber) : JsNumber :=
  JsNumber.fin (data.length : ℚ) * (Binary64.regSums data).sumX2
    - (Binary64.regSums data).sumX * (Binary64.regSums data).sumX

/-- The constant `slope` of `linearRegression`. -/
def Binary64.regSlope (data : List JsNumber) : JsNumber :=
  (JsNumber.fin (data.length : ℚ) * (Binary64.regSums data).sumXY
      - (Binary64.regSums data).sumX * (Binary64.regSums data).sumY)
    / Binary64.slopeDivisor data

/-- The constant `intercept` of `linearRegression`. -/
def Binary64.regIntercept (data : List JsNumber) : JsNumber :=
  ((Binary64.regSums data).sumY - Binary64.regSlope data * (Binary64.regSums data).sumX)
    / JsNumber.fin (data.length : ℚ)

/-- The constant `yMean` of `linearRegression`. -/
def Binary64.regYMean (data : List JsNumber) : JsNumber :=
  (Binary64.regSums data).sumY / JsNumber.fin (data.length : ℚ)

/-- The body of the second `forEach` loop of `linearRegression` on the pair
`(ssTotal, ssResidual)`.  The call `Math.pow(d, 2)` is the rounded product `d * d`. -/
def Binary64.squaresStep (slope intercept yMean : JsNumber) (acc : JsNumber × JsNumber)
    (p : ℕ × JsNumber) : JsNumber × JsNumber :=
  let yPredicted := slope * JsNumber.fin (p.1 : ℚ) + intercept
  (acc.1 + (p.2 - yMean) * (p.2 - yMean), acc.2 + (p.2 - yPredicted) * (p.2 - yPredicted))

/-- Second `forEach` loop of `linearRegression`: the pair `(ssTotal, ssResidual)`. -/
def Binary64.regSquares (data : List JsNumber) : JsNumber × JsNumber :=
  data.enum.foldl
    (Binary64.squaresStep (Binary64.regSlope data) (Binary64.regIntercept data)
      (Binary64.regYMean data))
    (JsNumber.fin 0, JsNumber.fin 0)

/-- The accumulator `ssTotal`, as computed. -/
def Binary64.ssTotal (data : List JsNumber) : JsNumber := (Binary64.regSquares data).1

/-- The accumulator `ssResidual`, as computed. -/
def Binary64.ssResidual (data : List JsNumber) : JsNumber := (Binary64.regSquares data).2

/-- The constant `rSquared`: the division is guarded by `ssTotal === 0` on the computed
sum. -/
def Binary64.regRSquared (data : List JsNumber) : JsNumber :=
  if (Binary64.ssTotal data).isZero then JsNumber.fin 0
  else JsNumber.fin 1 - Binary64.ssResidual data / Binary64.ssTotal data

/-- The function `linearRegression(data)` in binary64 arithmetic; `none` is the `null`
result. -/
def Binary64.linearRegression (data : List JsNumber) : Option Binary64.Regression :=
  if data.length < 3 then none
  else some
    { slope := Binary64.regSlope data
      intercept := Binary64.regIntercept data
      rSquared := Binary64.regRSquared data
      confidence := JsNumber.sqrt (JsNumber.abs (Binary64.regRSquared data)) }

/-- The sum `arr.reduce((a, b) => a + b, 0)`, each `+` rounded. -/
def Binary64.sumList (xs : List JsNumber) : JsNumber :=
  xs.foldl (fun a b => a + b) (JsNumber.fin 0)

/-- The sum `x.reduce((sum, xi, i) => sum + xi * y[i], 0)`, for `y` as long as `x`. -/
def Binary64.sumProducts (xs ys : List JsNumber) : JsNumber :=
  (List.zip xs ys).foldl (fun s p => s + p.1 * p.2) (JsNumber.fin 0)

/-- The sum `x.reduce((sum, xi) => sum + xi * xi, 0)`. -/
def Binary64.sumSquares (xs : List JsNumber) : JsNumber :=
  xs.foldl (fun s xi => s + xi * xi) (JsNumber.fin 0)

/-- The constant `numerator` of `correlation`. -/
def Binary64.corrNumerator (x y : List JsNumber) : JsNumber :=
  JsNumber.fin (x.length : ℚ) * Binary64.sumProducts x y
    - Binary64.sumList x * Binary64.sumList y

/-- The factor `n * sumX2 - sumX * sumX` under the square root of `correlation`, as
computed. -/
def Binary64.spread (x : List JsNumber) : JsNumber :=
  JsNumber.fin (x.length : ℚ) * Binary64.sumSquares x - Binary64.sumList x * Binary64.sumList x

/-- The constant `denominator` of `correlation`. -/
def Binary64.corrDenominator (x y : List JsNumber) : JsNumber :=
  JsNumber.sqrt
    ((JsNumber.fin (x.length : ℚ) * Binary64.sumSquares x
        - Binary64.sumList x * Binary64.sumList x)
      * (JsNumber.fin (x.length : ℚ) * Binary64.sumSquares y
        - Binary64.sumList y * Binary64.sumList y))

/-- The function `correlation(x, y)` in binary64 arithmetic; `none` is the `null`
result. -/
def Binary64.correlation (x y : List JsNumber) : Option JsNumber :=
  if x.length ≠ y.length ∨ x.length < 3 then none
  else if (Binary64.corrDenominator x y).isZero then none
  else some (Binary64.corrNumerator x y / Binary64.corrDenominator x y)

/-- One chunk of a template literal whose interpolated values are Numbers. -/
inductive Binary64.Frag
  | text (s : String)
  | int (n : Int)
  | number (x : JsNumber)
  | fixed (digits : Nat) (x : JsNumber)
  | hours (hs : List (Int × String))
deriving DecidableEq, Repr

/-- The `data` payload of a pattern, one shape per detector, with binary64 values. -/
inductive Binary64.PatternData
  | daylightTrend (dailyChange weeklyChange rSquared : JsNumber)
  | moonCycle (avgCycle : JsNumber) (fullMoonCount newMoonCount : Nat)
  | optimalViewing (bestHours : List Int) (goodConditionCount : Nat)
  | moonCloud (correlation : JsNumber) (sampleSize : Nat)
  | sunShift (direction : String) (minutesPerWeek slope : JsNumber)
  | goodVisibility (avgVisibility goodPercentage : JsNumber)
  | poorVisibility (avgVisibility poorPercentage : JsNumber)
deriving DecidableEq, Repr

/-- A detected pattern whose confidence is a Number. -/
structure Binary64.Pattern where
  id : String
  type : PatternType
  title : List Binary64.Frag
  description : List Binary64.Frag
  confidence : JsNumber
  data : Binary64.PatternData
  icon : String
  detectedAt : Int
deriving DecidableEq, Repr

/-- The function `detectDaylightTrend(records)` in binary64 arithmetic; a stored duration
is the Number nearest to it. -/
def Binary64.detectDaylightTrend (now : Int) (records : List DailyRecord) :
    Option Binary64.Pattern :=
  if records.length < 7 then none
  else
    let daylightMinutes := (daylightSeries records).map JsNumber.ofRat
    if daylightMinutes.length < 7 then none
    else
      match Binary64.linearRegression daylightMinutes with
      | none => none
      | some regression =>
        if regression.confidence.lt (JsNumber.ofRat (1 / 2)) then none
        else
          let dailyChange := regression.slope
          let weeklyChange := dailyChange * JsNumber.fin 7
          if (JsNumber.abs dailyChange).lt (JsNumber.ofRat (1 / 2)) then none
          else some
            { id := "daylight-trend"
              type := PatternType.trend
              title := [Binary64.Frag.text (if dailyChange.gt (JsNumber.fin 0)
                then "Daylight Increasing" else "Daylight Decreasing")]
              description :=
                [Binary64.Frag.text "Daylight is ",
                 Binary64.Frag.text (if dailyChange.gt (JsNumber.fin 0) then "increasing"
                   else "decreasing"),
                 Binary64.Frag.text " by approximately ",
                 Binary64.Frag.number (JsNumber.abs (JsNumber.round dailyChange)),
                 Binary64.Frag.text " minutes per day (",
                 Binary64.Frag.number (JsNumber.abs (JsNumber.round weeklyChange)),
                 Binary64.Frag.text " min/week)."]
              confidence := regression.confidence
              data := Binary64.PatternData.daylightTrend dailyChange weeklyChange
                regression.rSquared
              icon := if dailyChange.gt (JsNumber.fin 0) then "📈" else "📉"
              detectedAt := now }

/-- The loop filling `cycles`: differences of consecutive instants, in days. -/
def Binary64.cycleGaps : List Int → List JsNumber
  | a :: b :: rest =>
    (JsNumber.ofInt b - JsNumber.ofInt a) / JsNumber.fin (1000 * 60 * 60 * 24)
      :: Binary64.cycleGaps (b :: rest)
  | _ => []

/-- The function `detectMoonCyclePatterns(records)` in binary64 arithmetic. -/
def Binary64.detectMoonCyclePatterns (now : Int) (records : List DailyRecord) :
    Option (List Binary64.Pattern) :=
  if records.length < 14 then none
  else
    let fullMoons := records.filter (hasPhase "Full Moon")
    let newMoons := records.filter (hasPhase "New Moon")
    let patterns : List Binary64.Pattern :=
      if fullMoons.length ≥ 2 then
        let fullMoonDates := fullMoons.map (fun r => dateKeyTime r.date)
        let cycles := Binary64.cycleGaps fullMoonDates
        if cycles.length > 0 then
          let avgCycle := Binary64.sumList cycles / JsNumber.fin (cycles.length : ℚ)
          [{ id := "moon-cycle"
             type := PatternType.cycle
             title := [Binary64.Frag.text "Lunar Cycle Tracked"]
             description :=
               [Binary64.Frag.text "Average lunar cycle: ", Binary64.Frag.fixed 1 avgCycle,
                Binary64.Frag.text " days. Full moons recorded: ",
                Binary64.Frag.int fullMoons.length,
                Binary64.Frag.text ". New moons: ", Binary64.Frag.int newMoons.length,
                Binary64.Frag.text "."]
             confidence := JsNumber.min (JsNumber.ofRat (95 / 100))
               (JsNumber.ofRat (1 / 2)
                 + JsNumber.fin (fullMoons.length : ℚ) * JsNumber.ofRat (1 / 10))
             data := Binary64.PatternData.moonCycle avgCycle fullMoons.length newMoons.length
             icon := "🌕"
             detectedAt := now }]
        else []
      else []
    if patterns.length > 0 then some patterns else none

/-- The test `a.current?.observationScore >= 70` on Numbers. -/
def Binary64.isGoodCondition (a : AtmosphereSnapshot) : Bool :=
  match a.current.bind (fun c => c.observationScore) with
  | some score => (JsNumber.ofRat score).ge (JsNumber.fin 70)
  | none => false

/-- The function `detectOptimalConditions(atmosphereHistory)` in binary64 arithmetic;
`none` as argument is a missing log. -/
def Binary64.detectOptimalConditions (tz : TimeZone) (now : Int)
    (atmosphereHistory : Option (List AtmosphereSnapshot)) : Option Binary64.Pattern :=
  match atmosphereHistory with
  | none => none
  | some history =>
    if history.length < 3 then none
    else
      let goodConditions := history.filter Binary64.isGoodCondition
      if goodConditions.length < 2 then none
      else
        let hours := goodConditions.map (fun a => getHours tz a.timestamp)
        let bestHours :=
          (((hourCounts hours).insertionSort (fun a b => b.2 ≤ a.2)).take 3).map (fun e => e.1)
        if bestHours.length = 0 then none
        else some
          { id := "optimal-viewing"
            type := PatternType.optimal
            title := [Binary64.Frag.text "Best Viewing Times Identified"]
            description :=
              [Binary64.Frag.text
                 "Optimal observation conditions most frequently occur around ",
               Binary64.Frag.hours (bestHours.map formatHour), Binary64.Frag.text "."]
            confidence := JsNumber.min (JsNumber.ofRat (9 / 10))
              (JsNumber.ofRat (1 / 2)
                + JsNumber.fin (goodConditions.length : ℚ) * JsNumber.ofRat (5 / 100))
            data := Binary64.PatternData.optimalViewing bestHours goodConditions.length
            icon := "🔭"
            detectedAt := now }

/-- The function `detectMoonCloudCorrelation(records, atmosphereHistory)` in binary64
arithmetic; the paired values are the Numbers nearest to the stored ones. -/
def Binary64.detectMoonCloudCorrelation (tz : TimeZone) (now : Int)
    (records : List DailyRecord) (atmosphereHistory : Option (List AtmosphereSnapshot)) :
    Option Binary64.Pattern :=
  match atmosphereHistory with
  | none => none
  | some history =>
    if records.length < 14 ∨ history.length < 7 then none
    else
      let paired := pairedPoints tz records history
      if paired.length < 7 then none
      else
        match Binary64.correlation (paired.map (fun p => JsNumber.ofRat p.1))
            (paired.map (fun p => JsNumber.ofRat p.2)) with
        | none => none
        | some corr =>
          if (JsNumber.abs corr).lt (JsNumber.ofRat (3 / 10)) then none
          else
            let direction := if corr.gt (JsNumber.fin 0) then "higher" else "lower"
            some
              { id := "moon-cloud-correlation"
                type := PatternType.correlation
                title := [Binary64.Frag.text "Moon-Cloud Correlation Detected"]
                description :=
                  [Binary64.Frag.text "Cloud cover tends to be ", Binary64.Frag.text direction,
                   Binary64.Frag.text " during ",
                   Binary64.Frag.text (if corr.gt (JsNumber.fin 0) then "fuller" else "darker"),
                   Binary64.Frag.text " moon phases (correlation: ",
                   Binary64.Frag.fixed 0 (corr * JsNumber.fin 100), Binary64.Frag.text "%)."]
                confidence := JsNumber.abs corr
                data := Binary64.PatternData.moonCloud corr paired.length
                icon := if corr.gt (JsNumber.fin 0) then "🌥️" else "🌙"
                detectedAt := now }

/-- One of the two blocks of `detectSunTimeShifts` in binary64 arithmetic: the patterns it
pushes. -/
def Binary64.sunShiftBlock (now : Int) (id label icon : String) (series : List JsNumber) :
    List Binary64.Pattern :=
  if series.length ≥ 7 then
    match Binary64.linearRegression series with
    | none => []
    | some regression =>
      if regression.confidence.gt (JsNumber.ofRat (6 / 10))
          ∧ (JsNumber.abs regression.slope).gt (JsNumber.ofRat (3 / 10)) then
        let direction := if regression.slope.gt (JsNumber.fin 0) then "later" else "earlier"
        let minutesPerWeek := JsNumber.abs (regression.slope * JsNumber.fin 7)
        [{ id := id
           type := PatternType.trend
           title := [Binary64.Frag.text label, Binary64.Frag.text " Getting ",
             Binary64.Frag.text (if regression.slope.gt (JsNumber.fin 0) then "Later"
               else "Earlier")]
           description :=
             [Binary64.Frag.text label, Binary64.Frag.text " is shifting ",
              Binary64.Frag.text direction,
              Binary64.Frag.text " by approximately ", Binary64.Frag.fixed 0 minutesPerWeek,
              Binary64.Frag.text " minutes per week."]
           confidence := regression.confidence
           data := Binary64.PatternData.sunShift direction minutesPerWeek regression.slope
           icon := icon
           detectedAt := now }]
      else []
  else []

/-- The function `detectSunTimeShifts(records)` in binary64 arithmetic; the minutes of the
day are whole numbers. -/
def Binary64.detectSunTimeShifts (tz : TimeZone) (now : Int) (records : List DailyRecord) :
    Option (List Binary64.Pattern) :=
  if records.length < 7 then none
  else
    let patterns :=
      Binary64.sunShiftBlock now "sunrise-shift" "Sunrise" "🌅"
          ((sunSeries tz Solar.sunrise records).map JsNumber.ofRat)
        ++ Binary64.sunShiftBlock now "sunset-shift" "Sunset" "🌇"
          ((sunSeries tz Solar.sunset records).map JsNumber.ofRat)
    if patterns.length > 0 then some patterns else none

/-- The function `detectVisibilityPatterns(atmosphereHistory)` in binary64 arithmetic. -/
def Binary64.detectVisibilityPatterns (now : Int)
    (atmosphereHistory : Option (List AtmosphereSnapshot)) : Option Binary64.Pattern :=
  match atmosphereHistory with
  | none => none
  | some history =>
    if history.length < 5 then none
    else
      let visibilities := (visibilitySeries history).map JsNumber.ofRat
      if visibilities.length < 5 then none
      else
        let avgVisibility := Binary64.sumList visibilities
          / JsNumber.fin (visibilities.length : ℚ)
        let avgKm := avgVisibility / JsNumber.fin 1000
        let goodCount := (visibilities.filter (fun v => v.gt (JsNumber.fin 15000))).length
        let poorCount := (visibilities.filter (fun v => v.lt (JsNumber.fin 8000))).length
        let goodShare := JsNumber.fin (goodCount : ℚ) / JsNumber.fin (visibilities.length : ℚ)
        let poorShare := JsNumber.fin (poorCount : ℚ) / JsNumber.fin (visibilities.length : ℚ)
        if goodShare.gt (JsNumber.ofRat (7 / 10)) then
          some
            { id := "good-visibility"
              type := PatternType.optimal
              title := [Binary64.Frag.text "Consistently Good Visibility"]
              description :=
                [Binary64.Frag.text "This location has excellent visibility (>",
                 Binary64.Frag.int 15, Binary64.Frag.text "km) ",
                 Binary64.Frag.number (JsNumber.round (goodShare * JsNumber.fin 100)),
                 Binary64.Frag.text "% of the time. Average: ", Binary64.Frag.fixed 1 avgKm,
                 Binary64.Frag.text "km."]
              confidence := goodShare
              data := Binary64.PatternData.goodVisibility avgKm goodShare
              icon := "👁️"
              detectedAt := now }
        else if poorShare.gt (JsNumber.ofRat (1 / 2)) then
          some
            { id := "poor-visibility"
              type := PatternType.anomaly
              title := [Binary64.Frag.text "Frequent Low Visibility"]
              description :=
                [Binary64.Frag.text "This location experiences reduced visibility (<8km) ",
                 Binary64.Frag.number (JsNumber.round (poorShare * JsNumber.fin 100)),
                 Binary64.Frag.text "% of the time. Consider timing observations carefully."]
              confidence := poorShare
              data := Binary64.PatternData.poorVisibility avgKm poorShare
              icon := "🌫️"
              detectedAt := now }
        else none

/-- The value `b.confidence - a.confidence` that the comparator of the two sorts
returns. -/
def Binary64.confidenceDifference (a b : Binary64.Pattern) : JsNumber :=
  b.confidence - a.confidence

/-- The comparator `(a, b) => b.confidence - a.confidence` read as a relation: `a` may
stand before `b` when the value is not positive; a `NaN` value counts as 0, as
`Array.prototype.sort` prescribes. -/
def Binary64.byConfidence (a b : Binary64.Pattern) : Prop :=
  (Binary64.confidenceDifference a b).gt (JsNumber.fin 0) = false

instance : DecidableRel Binary64.byConfidence :=
  fun a b => inferInstanceAs
    (Decidable ((Binary64.confidenceDifference a b).gt (JsNumber.fin 0) = false))

/-- The call `patterns.sort((a, b) => b.confidence - a.confidence)` as a stable insertion
sort.  The language fixes the result only for a consistent comparator, which this one is
not once a confidence is `NaN`. -/
def Binary64.sortByConfidence (patterns : List Binary64.Pattern) : List Binary64.Pattern :=
  patterns.insertionSort Binary64.byConfidence

/-- The array `patterns` of `detectAllPatterns` before it is sorted, in binary64
arithmetic: what the six detectors emitted, in the order of the pushes. -/
def Binary64.emittedPatterns (tz : TimeZone) (now : Int) (records : List DailyRecord)
    (atmosphereHistory : List AtmosphereSnapshot) : List Binary64.Pattern :=
  (Binary64.detectDaylightTrend now records).toList
    ++ (Binary64.detectMoonCyclePatterns now records).getD []
    ++ (Binary64.detectSunTimeShifts tz now records).getD []
    ++ (Binary64.detectOptimalConditions tz now (some atmosphereHistory)).toList
    ++ (Binary64.detectMoonCloudCorrelation tz now records (some atmosphereHistory)).toList
    ++ (Binary64.detectVisibilityPatterns now (some atmosphereHistory)).toList

/-- The function `detectAllPatterns(records, atmosphereHistory = [])` in binary64
arithmetic; an omitted second argument is `none`. -/
def Binary64.detectAllPatterns (tz : TimeZone) (now : Int) (records : List DailyRecord)
    (atmosphereHistory : Option (List AtmosphereSnapshot)) : List Binary64.Pattern :=
  Binary64.sortByConfidence
    (Binary64.emittedPatterns tz now records (atmosphereHistory.getD []))

/-- A JavaScript `Map` from pattern ids to patterns with binary64 confidences, as its
entries in insertion order. -/
abbrev Binary64.PatternMap := List (String × Binary64.Pattern)

/-- The call `patternMap.get(key)`. -/
def Binary64.mapGet (m : Binary64.PatternMap) (key : String) : Option Binary64.Pattern :=
  match m with
  | [] => none
  | (k, v) :: rest => if k = key then some v else Binary64.mapGet rest key

/-- The call `patternMap.set(key, value)`: an existing key keeps its place. -/
def Binary64.mapSet (m : Binary64.PatternMap) (key : String) (value : Binary64.Pattern) :
    Binary64.PatternMap :=
  match m with
  | [] => [(key, value)]
  | (k, v) :: rest =>
    if k = key then (k, value) :: rest else (k, v) :: Binary64.mapSet rest key value

/-- The loop `state.patterns.forEach(p => patternMap.set(p.id, p))`. -/
def Binary64.mapOfPatterns (patterns : List Binary64.Pattern) : Binary64.PatternMap :=
  patterns.foldl (fun m p => Binary64.mapSet m p.id p) []

/-- The body of `detected.forEach(p => ...)` in `detectPatterns`: the test
`p.confidence > existing.confidence` is false when either is `NaN`. -/
def Binary64.mergeOne (m : Binary64.PatternMap) (p : Binary64.Pattern) : Binary64.PatternMap :=
  match Binary64.mapGet m p.id with
  | none => Binary64.mapSet m p.id p
  | some existing =>
    if p.confidence.gt existing.confidence then Binary64.mapSet m p.id p else m

/-- The merge step of `detectPatterns`: the new value of `state.patterns`. -/
def Binary64.mergeDetected (stored detected : List Binary64.Pattern) : List Binary64.Pattern :=
  Binary64.sortByConfidence
    ((detected.foldl Binary64.mergeOne (Binary64.mapOfPatterns stored)).map (fun e => e.2))

/-- The state of the patterns store, the stored confidences being Numbers. -/
structure Binary64.PatternsState where
  patterns : List Binary64.Pattern
  atmosphereHistory : List AtmosphereSnapshot
  lastDetection : Option Int
deriving DecidableEq, Repr

/-- The action `recordAtmosphere(atmosphereData)` on that state. -/
def Binary64.recordAtmosphere (now : Int) (atmosphereData : Option AtmosphereData)
    (state : Binary64.PatternsState) : Binary64.PatternsState :=
  match atmosphereData.bind (fun d => d.current) with
  | none => state
  | some current =>
    let newHistory := state.atmosphereHistory ++
      [{ timestamp := now
         current := some current
         hourlyForecast := (atmosphereData.bind (fun d => d.hourlyForecast)).map (List.take 6) }]
    let thirtyDaysAgo := now - 30 * 24 * 60 * 60 * 1000
    { state with
        atmosphereHistory := newHistory.filter (fun a => decide (a.timestamp > thirtyDaysAgo)) }

/-- The action `detectPatterns(records)` in binary64 arithmetic: the new state and the
returned list. -/
def Binary64.detectPatterns (tz : TimeZone) (now : Int) (records : List DailyRecord)
    (state : Binary64.PatternsState) : Binary64.PatternsState × List Binary64.Pattern :=
  let detected := Binary64.detectAllPatterns tz now records (some state.atmosphereHistory)
  ({ state with
      patterns := Binary64.mergeDetected state.patterns detected
      lastDetection := some now },
    detected)

/-- The action `dismissPattern(patternId)` on that state. -/
def Binary64.dismissPattern (patternId : String) (state : Binary64.PatternsState) :
    Binary64.PatternsState :=
  { state with patterns := state.patterns.filter (fun p => decide (p.id ≠ patternId)) }

/-- The action `clearPatterns()` on that state. -/
def Binary64.clearPatterns (state : Binary64.PatternsState) : Binary64.PatternsState :=
  { state with patterns := [], lastDetection := none }

/-- The initial state of the patterns store. -/
def Binary64.initialPatternsState : Binary64.PatternsState :=
  { patterns := [], atmosphereHistory := [], lastDetection := none }

/-- The states of the patterns store reachable from the initial state by its actions, the
detection running in binary64 arithmetic. -/
inductive Binary64.Reachable : Binary64.PatternsState → Prop
  | init : Binary64.Reachable Binary64.initialPatternsState
  | atmosphere (now : Int) (atmosphereData : Option AtmosphereData)
      (state : Binary64.PatternsState) :
      Binary64.Reachable state →
      Binary64.Reachable (Binary64.recordAtmosphere now atmosphereData state)
  | detect (tz : TimeZone) (now : Int) (records : List DailyRecord)
      (state : Binary64.PatternsState) :
      Binary64.Reachable state →
      Binary64.Reachable (Binary64.detectPatterns tz now records state).1
  | dismiss (patternId : String) (state : Binary64.PatternsState) :
      Binary64.Reachable state → Binary64.Reachable (Binary64.dismissPattern patternId state)
  | clear (state : Binary64.PatternsState) :
      Binary64.Reachable state → Binary64.Reachable (Binary64.clearPatterns state)

/-- A list of Numbers in non-increasing order: each entry is `>=` every later one. -/
def NonIncreasing (confidences : List JsNumber) : Prop :=
  confidences.Pairwise (fun a b => a.ge b = true)

/-- Fourteen records of 1970-01-01 to 1970-01-14 whose moon illumination is 0, 7, 14, ...,
91. -/
def waxingRecords : List DailyRecord :=
  (List.range 14).map (fun (i : ℕ) => illuminationRecord (i : Int) (some (7 * (i : ℚ))))

/-- The conditions of a clear hour under a steady cloud cover of 33.3 %. -/
def steadyConditions : Conditions :=
  { cloudCover := some (333 / 10), visibility := some 20000, humidity := none,
    observationScore := some 80 }

/-- Seven snapshots taken at noon UTC of 1970-01-01 to 1970-01-07, all with the steady
conditions. -/
def steadyLog : List AtmosphereSnapshot :=
  (List.range 7).map (fun (i : ℕ) =>
    { timestamp := dateKeyTime (i : Int) + 43200000
      current := some steadyConditions
      hourlyForecast := none })

/-- The store after the seven snapshots of the steady log were recorded, each at its
instant. -/
def steadyStore : Binary64.PatternsState :=
  (List.range 7).foldl
    (fun state (i : ℕ) =>
      Binary64.recordAtmosphere (dateKeyTime (i : Int) + 43200000)
        (some { current := some steadyConditions, hourlyForecast := none }) state)
    Binary64.initialPatternsState

/-! ## Moon phases (`astronomy.js`) and observation score (`atmosphere.js`) -/

/-- One entry of the constant `MOON_PHASES`; the two bounds of `range` are Numbers. -/
structure MoonPhase where
  name : String
  icon : String
  range : JsNumber × JsNumber
deriving DecidableEq, Repr

/-- The constant `MOON_PHASES`: each decimal bound is the Number nearest to it. -/
def MOON_PHASES : List MoonPhase :=
  [ { name := "New Moon", icon := "🌑", range := (JsNumber.fin 0, JsNumber.ofRat (3 / 100)) },
    { name := "Waxing Crescent", icon := "🌒",
      range := (JsNumber.ofRat (3 / 100), JsNumber.ofRat (22 / 100)) },
    { name := "First Quarter", icon := "🌓",
      range := (JsNumber.ofRat (22 / 100), JsNumber.ofRat (28 / 100)) },
    { name := "Waxing Gibbous", icon := "🌔",
      range := (JsNumber.ofRat (28 / 100), JsNumber.ofRat (47 / 100)) },
    { name := "Full Moon", icon := "🌕",
      range := (JsNumber.ofRat (47 / 100), JsNumber.ofRat (53 / 100)) },
    { name := "Waning Gibbous", icon := "🌖",
      range := (JsNumber.ofRat (53 / 100), JsNumber.ofRat (72 / 100)) },
    { name := "Last Quarter", icon := "🌗",
      range := (JsNumber.ofRat (72 / 100), JsNumber.ofRat (78 / 100)) },
    { name := "Waning Crescent", icon := "🌘",
      range := (JsNumber.ofRat (78 / 100), JsNumber.ofRat (97 / 100)) } ]

/-- The result of the library call `SunCalc.getMoonIllumination(date)`. -/
structure Illumination where
  fraction : JsNumber
  phase : JsNumber
  angle : JsNumber
deriving DecidableEq, Repr

/-- The result of `getMoonIllumination`. -/
structure MoonIllumination where
  fraction : JsNumber
  phase : JsNumber
  angle : JsNumber
  phaseName : String
  phaseIcon : String
  percentIlluminated : JsNumber
deriving DecidableEq, Repr

/-- The test `phase >= p.range[0] && phase < p.range[1]` of the loop. -/
def inRange (phase : JsNumber) (p : MoonPhase) : Bool :=
  phase.ge p.range.1 && phase.lt p.range.2

/-- The loop `for (const p of MOON_PHASES)` with its `break`: the first entry whose range
holds the phase, and the entry chosen before the loop when there is none. -/
def phaseLoop (phase : JsNumber) (chosen : MoonPhase) : List MoonPhase → MoonPhase
  | [] => chosen
  | p :: rest => if inRange phase p then p else phaseLoop phase chosen rest

/-- The function `getMoonIllumination(date)`, on the result of the library call for the
date. -/
def getMoonIllumination (illumination : Illumination) : MoonIllumination :=
  let first := MOON_PHASES.head (by simp [MOON_PHASES])
  let found := phaseLoop illumination.phase first MOON_PHASES
  let phase := if illumination.phase.ge (JsNumber.ofRat (97 / 100)) then first else found
  { fraction := illumination.fraction
    phase := illumination.phase
    angle := illumination.angle
    phaseName := phase.name
    phaseIcon := phase.icon
    percentIlluminated := JsNumber.round (illumination.fraction * JsNumber.fin 100) }

/-- The constant `cloudScore` of `calculateObservationScore`. -/
def cloudScore (cloudCover : JsNumber) : JsNumber :=
  JsNumber.max (JsNumber.fin 0) (JsNumber.fin 40 - cloudCover * JsNumber.ofRat (4 / 10))

/-- The constant `visibilityScore` of `calculateObservationScore`, with `visibilityKm`. -/
def visibilityScore (visibility : JsNumber) : JsNumber :=
  let visibilityKm := visibility / JsNumber.fin 1000
  JsNumber.min (JsNumber.fin 35) (visibilityKm * JsNumber.ofRat (175 / 100))

/-- The variable `humidityScore` of `calculateObservationScore` after the `if`. -/
def humidityScore (humidity : JsNumber) : JsNumber :=
  if humidity.gt (JsNumber.fin 40) then
    JsNumber.max (JsNumber.fin 0)
      (JsNumber.fin 25 - (humidity - JsNumber.fin 40) * JsNumber.ofRat (5 / 10))
  else JsNumber.fin 25

/-- The function `calculateObservationScore(cloudCover, visibility, humidity)`. -/
def calculateObservationScore (cloudCover visibility humidity : JsNumber) : JsNumber :=
  JsNumber.round (cloudScore cloudCover + visibilityScore visibility + humidityScore humidity)

/-! ## Definitions used to state the properties in binary64 arithmetic -/

/-- The value of `cloudScore` for a cloud cover given as a rational. -/
def cloudPoints (c : ℚ) : ℚ :=
  max 0 (roundNearest (40 - roundNearest (c * roundNearest (4 / 10))))

/-- The value of `visibilityScore` for a visibility given as a rational. -/
def visibilityPoints (v : ℚ) : ℚ :=
  min 35 (roundNearest (roundNearest (v / 1000) * (7 / 4)))

/-- The value of `humidityScore` for a humidity given as a rational. -/
def humidityPoints (h : ℚ) : ℚ :=
  if 40 < h then max 0 (roundNearest (25 - roundNearest (roundNearest (h - 40) * (1 / 2))))
  else 25

/-- The value of `calculateObservationScore` for arguments given as rationals. -/
def scorePoints (c v h : ℚ) : Int :=
  Int.floor (roundNearest (roundNearest (cloudPoints c + visibilityPoints v) + humidityPoints h)
    + 1 / 2)

/-- Every entry of the map is filed under the id of its pattern. -/
def Binary64.KeyedById (m : Binary64.PatternMap) : Prop := ∀ e ∈ m, e.1 = e.2.id

/-- The invariant of the map built by `detectPatterns`. -/
def Binary64.MapOk (m : Binary64.PatternMap) : Prop :=
  Binary64.KeyedById m ∧ (m.map Prod.fst).Nodup

/-- The pattern returned by `detectMoonCloudCorrelation` in binary64 arithmetic for a
coefficient and a sample size. -/
def Binary64.moonCloudPattern (now : Int) (corr : JsNumber) (sampleSize : Nat) :
    Binary64.Pattern :=
  { id := "moon-cloud-correlation"
    type := PatternType.correlation
    title := [Binary64.Frag.text "Moon-Cloud Correlation Detected"]
    description :=
      [Binary64.Frag.text "Cloud cover tends to be ",
       Binary64.Frag.text (if corr.gt (JsNumber.fin 0) then "higher" else "lower"),
       Binary64.Frag.text " during ",
       Binary64.Frag.text (if corr.gt (JsNumber.fin 0) then "fuller" else "darker"),
       Binary64.Frag.text " moon phases (correlation: ",
       Binary64.Frag.fixed 0 (corr * JsNumber.fin 100), Binary64.Frag.text "%)."]
    confidence := JsNumber.abs corr
    data := Binary64.PatternData.moonCloud corr sampleSize
    icon := if corr.gt (JsNumber.fin 0) then "🌥️" else "🌙"
    detectedAt := now }

/-- The coefficient computed by `detectMoonCloudCorrelation` in binary64 arithmetic: the
correlation of the illuminations with the cloud covers of the paired points. -/
def Binary64.pairedCorrelation (tz : TimeZone) (records : List DailyRecord)
    (history : List AtmosphereSnapshot) : Option JsNumber :=
  Binary64.correlation ((pairedPoints tz records history).map (fun p => JsNumber.ofRat p.1))
    ((pairedPoints tz records history).map (fun p => JsNumber.ofRat p.2))

/-- The sum `0 + 1 + ... + (k - 1)` of the first `k` indices. -/
def indexSum (k : ℕ) : ℕ := (List.range k).sum

/-- The sum `0 + 1 + 4 + ... + (k - 1) ^ 2` of the squares of the first `k` indices. -/
def indexSquareSum (k : ℕ) : ℕ := ((List.range k).map (fun i => i * i)).sum

/-- The series `a, a - d, a - 2d, ...` of `n` whole numbers, as Numbers. -/
def wholeSeries (a d : Int) (n : ℕ) : List JsNumber :=
  (List.range n).map (fun (i : ℕ) => JsNumber.fin ((a - d * (i : Int) : Int) : ℚ))

/-- The sum of the first `k` entries of the series `a - d * i`. -/
def partialY (a d : Int) (k : ℕ) : Int :=
  ((List.range k).map (fun (i : ℕ) => a - d * (i : Int))).sum

/-- The sum of the first `k` products `i * (a - d * i)`. -/
def partialXY (a d : Int) (k : ℕ) : Int :=
  ((List.range k).map (fun (i : ℕ) => (i : Int) * (a - d * (i : Int)))).sum

/-- The sum of the first `k` squares `(2 * (a - d * i) - h) ^ 2`: four times the squared
deviations from the mean `h / 2`. -/
def partialDeviation (a d h : Int) (k : ℕ) : Int :=
  ((List.range k).map (fun (i : ℕ) =>
    (2 * (a - d * (i : Int)) - h) * (2 * (a - d * (i : Int)) - h))).sum

/-- The pattern built by `detectDaylightTrend` in binary64 arithmetic from a regression
result. -/
def Binary64.daylightPattern (now : Int) (regression : Binary64.Regression) :
    Binary64.Pattern :=
  { id := "daylight-trend"
    type := PatternType.trend
    title := [Binary64.Frag.text (if regression.slope.gt (JsNumber.fin 0)
      then "Daylight Increasing" else "Daylight Decreasing")]
    description :=
      [Binary64.Frag.text "Daylight is ",
       Binary64.Frag.text (if regression.slope.gt (JsNumber.fin 0) then "increasing"
         else "decreasing"),
       Binary64.Frag.text " by approximately ",
       Binary64.Frag.number (JsNumber.abs (JsNumber.round regression.slope)),
       Binary64.Frag.text " minutes per day (",
       Binary64.Frag.number (JsNumber.abs (JsNumber.round (regression.slope * JsNumber.fin 7))),
       Binary64.Frag.text " min/week)."]
    confidence := regression.confidence
    data := Binary64.PatternData.daylightTrend regression.slope
      (regression.slope * JsNumber.fin 7) regression.rSquared
    icon := if regression.slope.gt (JsNumber.fin 0) then "📈" else "📉"
    detectedAt := now }

/-- Seven consecutive days whose daylight is 600.2, 599.7, 599.2, ... minutes. -/
def halfMinuteDays : List DailyRecord :=
  (List.range 7).map (fun (i : ℕ) =>
    daylightRecord (i : Int) (some (6002 / 10 - (1 / 2) * (i : ℚ))))

/-! # Properties -/

/-! ## Surds -/

theorem Surd.lt_def (a b : Surd) : a < b ↔ a.ssq < b.ssq := Iff.rfl

theorem Surd.le_def (a b : Surd) : a ≤ b ↔ a.ssq ≤ b.ssq := Iff.rfl

theorem Surd.ssq_ofRat (c : ℚ) (h : 0 ≤ c) : (Surd.ofRat c).ssq = c ^ 2 := by
  simp [Surd.ofRat, abs_of_nonneg h, sq]

/-! ## The merge step of the repository -/

theorem mapGet_mapSet_self (m : PatternMap) (k : String) (v : Pattern) :
    mapGet (mapSet m k v) k = some v := by
  induction m with
  | nil => simp [mapSet, mapGet]
  | cons e rest ih =>
    obtain ⟨k0, v0⟩ := e
    by_cases h : k0 = k
    · simp [mapSet, mapGet, h]
    · simp [mapSet, mapGet, h, ih]

theorem mapGet_mapSet_of_ne (m : PatternMap) (k key : String) (v : Pattern) (hne : k ≠ key) :
    mapGet (mapSet m k v) key = mapGet m key := by
  induction m with
  | nil => simp [mapSet, mapGet, hne]
  | cons e rest ih =>
    obtain ⟨k0, v0⟩ := e
    by_cases h : k0 = k
    · subst h
      simp [mapSet, mapGet, hne]
    · by_cases h2 : k0 = key
      · subst h2
        simp [mapSet, mapGet, h]
      · simp [mapSet, mapGet, h, h2, ih]

theorem mapGet_mergeOne (m : PatternMap) (p : Pattern) (key : String) :
    mapGet (mergeOne m p) key = upsertIfBetter key (mapGet m key) p := by
  unfold mergeOne upsertIfBetter
  by_cases h : p.id = key
  · subst h
    cases hg : mapGet m p.id with
    | none => simp [mapGet_mapSet_self]
    | some e =>
      by_cases hc : e.confidence < p.confidence
      · simp [hc, mapGet_mapSet_self]
      · simp [hc, hg]
  · cases hg : mapGet m p.id with
    | none => simp [h, mapGet_mapSet_of_ne _ _ _ _ h]
    | some e =>
      by_cases hc : e.confidence < p.confidence
      · simp [hc, h, mapGet_mapSet_of_ne _ _ _ _ h]
      · simp [hc, h]

theorem mapGet_foldl_mergeOne (detected : List Pattern) (m : PatternMap) (key : String) :
    mapGet (detected.foldl mergeOne m) key
      = detected.foldl (upsertIfBetter key) (mapGet m key) := by
  induction detected generalizing m with
  | nil => rfl
  | cons p rest ih => simp [List.foldl_cons, ih, mapGet_mergeOne]

theorem keyedById_mapSet (m : PatternMap) (p : Pattern) (h : KeyedById m) :
    KeyedById (mapSet m p.id p) := by
  induction m with
  | nil => intro e he; simp [mapSet] at he; subst he; rfl
  | cons e rest ih =>
    obtain ⟨k0, v0⟩ := e
    have hrest : KeyedById rest := fun e he => h e (List.mem_cons_of_mem _ he)
    by_cases hk : k0 = p.id
    · intro e he
      simp [mapSet, hk] at he
      rcases he with he | he
      · subst he; rfl
      · exact hrest e he
    · intro e he
      simp [mapSet, hk] at he
      rcases he with he | he
      · subst he; exact h _ (List.mem_cons_self _ _)
      · exact ih hrest e he

theorem keys_mapSet (m : PatternMap) (k : String) (v : Pattern) :
    (mapSet m k v).map Prod.fst = if k ∈ m.map Prod.fst then m.map Prod.fst
      else m.map Prod.fst ++ [k] := by
  induction m with
  | nil => simp [mapSet]
  | cons e rest ih =>
    obtain ⟨k0, v0⟩ := e
    by_cases hk : k0 = k
    · simp [mapSet, hk]
    · have hk2 : ¬ k = k0 := fun h => hk h.symm
      by_cases hm : k ∈ rest.map Prod.fst
      · simp only [mapSet, hk, if_false, List.map_cons, ih, hm, if_true, List.mem_cons, or_true]
      · simp only [mapSet, hk, if_false, List.map_cons, ih, hm, List.mem_cons, hk2, or_self,
          List.cons_append]

theorem nodup_keys_mapSet (m : PatternMap) (k : String) (v : Pattern)
    (h : (m.map Prod.fst).Nodup) : ((mapSet m k v).map Prod.fst).Nodup := by
  rw [keys_mapSet]
  split
  · exact h
  · rename_i hk
    rw [List.nodup_append]
    refine ⟨h, List.nodup_singleton _, ?_⟩
    intro a ha hb
    simp at hb
    subst hb
    exact hk ha

theorem mapOk_mapSet (m : PatternMap) (p : Pattern) (h : MapOk m) : MapOk (mapSet m p.id p) :=
  ⟨keyedById_mapSet m p h.1, nodup_keys_mapSet m p.id p h.2⟩

theorem mapOk_mergeOne (m : PatternMap) (p : Pattern) (h : MapOk m) : MapOk (mergeOne m p) := by
  unfold mergeOne
  split
  · exact mapOk_mapSet m p h
  · split
    · exact mapOk_mapSet m p h
    · exact h

theorem mapOk_foldl_mapSet (ps : List Pattern) (m : PatternMap) (h : MapOk m) :
    MapOk (ps.foldl (fun m p => mapSet m p.id p) m) := by
  induction ps generalizing m with
  | nil => exact h
  | cons p rest ih => exact ih _ (mapOk_mapSet m p h)

theorem mapOk_foldl_mergeOne (ps : List Pattern) (m : PatternMap) (h : MapOk m) :
    MapOk (ps.foldl mergeOne m) := by
  induction ps generalizing m with
  | nil => exact h
  | cons p rest ih => exact ih _ (mapOk_mergeOne m p h)

theorem mapOk_nil : MapOk [] := ⟨fun _ h => by simp at h, by simp⟩

theorem findById_mapValues (m : PatternMap) (h : KeyedById m) (key : String) :
    findById (mapValues m) key = mapGet m key := by
  induction m with
  | nil => rfl
  | cons e rest ih =>
    obtain ⟨k0, v0⟩ := e
    have hrest : KeyedById rest := fun e he => h e (List.mem_cons_of_mem _ he)
    have h0 : k0 = v0.id := h (k0, v0) (List.mem_cons_self _ _)
    have ih2 := ih hrest
    unfold findById mapValues at ih2 ⊢
    by_cases hk : v0.id = key
    · simp [mapGet, h0, hk]
    · simp [mapGet, h0, hk, ih2]

theorem ids_mapValues (m : PatternMap) (h : KeyedById m) :
    (mapValues m).map Pattern.id = m.map Prod.fst := by
  unfold mapValues
  rw [List.map_map]
  apply List.map_congr_left
  intro e he
  exact (h e he).symm

theorem findById_perm {l₁ l₂ : List Pattern} (hp : l₁.Perm l₂)
    (hn : (l₁.map Pattern.id).Nodup) (key : String) :
    findById l₁ key = findById l₂ key := by
  unfold findById
  induction hp with
  | nil => rfl
  | cons x _ ih =>
    simp only [List.map_cons, List.nodup_cons] at hn
    by_cases hx : x.id = key
    · simp [List.find?_cons, hx]
    · simp [List.find?_cons, hx, ih hn.2]
  | swap x y l =>
    simp only [List.map_cons, List.nodup_cons, List.mem_cons, not_or] at hn
    by_cases hx : x.id = key
    · by_cases hy : y.id = key
      · exact absurd (hx.trans hy.symm) (fun h => hn.1.1 h.symm)
      · simp [List.find?_cons, hx, hy]
    · simp [List.find?_cons, hx]
  | trans h1 _ ih1 ih2 =>
    exact (ih1 hn).trans (ih2 ((h1.map Pattern.id).nodup_iff.1 hn))

theorem findById_sortByConfidence (l : List Pattern) (hn : (l.map Pattern.id).Nodup)
    (key : String) : findById (sortByConfidence l) key = findById l key :=
  (findById_perm (List.perm_insertionSort byConfidence l).symm hn key).symm

theorem mapGet_foldl_mapSet (ps : List Pattern) (m : PatternMap) (key : String)
    (hn : (ps.map Pattern.id).Nodup) :
    mapGet (ps.foldl (fun m p => mapSet m p.id p) m) key
      = (findById ps key).orElse (fun _ => mapGet m key) := by
  induction ps generalizing m with
  | nil => simp [findById]
  | cons p rest ih =>
    simp only [List.map_cons, List.nodup_cons] at hn
    rw [List.foldl_cons, ih _ hn.2]
    unfold findById
    by_cases hp : p.id = key
    · have hnone : List.find? (fun p => decide (p.id = key)) rest = none := by
        rw [List.find?_eq_none]
        intro q hq hqk
        simp at hqk
        exact hn.1 (List.mem_map.2 ⟨q, hq, hqk.trans hp.symm⟩)
      simp [List.find?_cons, hp, hnone]
      rw [← hp, mapGet_mapSet_self]
    · simp [List.find?_cons, hp, mapGet_mapSet_of_ne _ _ _ _ hp]

theorem findById_mergeDetected (stored detected : List Pattern)
    (hn : (stored.map Pattern.id).Nodup) (key : String) :
    findById (mergeDetected stored detected) key
      = detected.foldl (upsertIfBetter key) (findById stored key) := by
  have hok : MapOk (detected.foldl mergeOne (mapOfPatterns stored)) :=
    mapOk_foldl_mergeOne _ _ (mapOk_foldl_mapSet _ _ mapOk_nil)
  unfold mergeDetected
  rw [findById_sortByConfidence _ (by rw [ids_mapValues _ hok.1]; exact hok.2),
    findById_mapValues _ hok.1, mapGet_foldl_mergeOne]
  unfold mapOfPatterns
  rw [mapGet_foldl_mapSet _ _ _ hn]
  simp [mapGet]

/-- C1: in the list left by the merge step of `detectPatterns`, the pattern stored
under an id is obtained from the previously stored one by treating the incoming
patterns of that id in turn: inserted when nothing is stored, replacing the stored
pattern exactly when the incoming confidence is strictly greater; an id that does
not occur among the incoming patterns keeps its stored pattern unchanged. -/
theorem mergeDetected_by_id (stored detected : List Pattern)
    (hn : (stored.map Pattern.id).Nodup) (key : String) :
    findById (mergeDetected stored detected) key
        = detected.foldl (upsertIfBetter key) (findById stored key)
      ∧ ((∀ p ∈ detected, p.id ≠ key) →
          findById (mergeDetected stored detected) key = findById stored key) := by
  refine ⟨findById_mergeDetected stored detected hn key, fun h => ?_⟩
  rw [findById_mergeDetected stored detected hn key]
  clear hn
  induction detected generalizing stored with
  | nil => rfl
  | cons p rest ih =>
    have hp : p.id ≠ key := h p (List.mem_cons_self _ _)
    have hr : ∀ q ∈ rest, q.id ≠ key := fun q hq => h q (List.mem_cons_of_mem _ hq)
    rw [List.foldl_cons]
    have : upsertIfBetter key (findById stored key) p = findById stored key := by
      simp [upsertIfBetter, hp]
    rw [this]
    exact ih stored hr

/-- Witness for C1: merging `x` with confidence 0.6 and then `x` with confidence 0.4
leaves `x` stored with confidence 0.6. -/
theorem mergeDetected_by_id_witness :
    ((mergeDetected [] [scenarioPattern (6 / 10)]).map Pattern.id).Nodup
      ∧ (findById (mergeDetected (mergeDetected [] [scenarioPattern (6 / 10)])
            [scenarioPattern (4 / 10)]) "x").map Pattern.confidence
          = some (Surd.ofRat (6 / 10)) := by
  have hn : ((mergeDetected [] [scenarioPattern (6 / 10)]).map Pattern.id).Nodup := by
    simp [mergeDetected, mapOfPatterns, mergeOne, mapGet, mapSet, mapValues, sortByConfidence]
  refine ⟨hn, ?_⟩
  rw [(mergeDetected_by_id _ [scenarioPattern (4 / 10)] hn "x").1]
  simp [mergeDetected, mapOfPatterns, mergeOne, mapGet, mapSet, mapValues, sortByConfidence,
    findById, upsertIfBetter, scenarioPattern, Surd.lt_def]
  norm_num [Surd.ofRat, abs_of_nonneg]

/-! ## The aggregator -/

instance : IsTotal Pattern byConfidence :=
  ⟨fun a b => by
    unfold byConfidence
    rw [Surd.le_def, Surd.le_def]
    exact le_total _ _⟩

instance : IsTrans Pattern byConfidence :=
  ⟨fun a b c hab hbc => by
    unfold byConfidence at *
    rw [Surd.le_def] at *
    exact le_trans hbc hab⟩

theorem sorted_sortByConfidence (l : List Pattern) :
    (sortByConfidence l).Sorted byConfidence :=
  List.sorted_insertionSort byConfidence l

theorem perm_sortByConfidence (l : List Pattern) : (sortByConfidence l).Perm l :=
  List.perm_insertionSort byConfidence l

/-! ## Regression and correlation -/

theorem sum_affine_sq (pts : List (ℚ × ℚ)) (α β γ : ℚ) :
    (pts.map (fun p => (α * p.1 + β * p.2 + γ) ^ 2)).sum
      = α ^ 2 * sxx pts + β ^ 2 * syy pts + (pts.length : ℚ) * γ ^ 2
        + 2 * α * β * sxy pts + 2 * α * γ * sx pts + 2 * β * γ * sy pts := by
  induction pts with
  | nil => simp [sx, sy, sxx, sxy, syy]
  | cons p rest ih =>
    simp only [List.map_cons, List.sum_cons, List.length_cons, sx, sy, sxx, sxy, syy] at ih ⊢
    rw [ih]
    push_cast
    ring

theorem foldl_add_eq_sum {α : Type} (f : α → ℚ) (l : List α) (init : ℚ) :
    l.foldl (fun s a => s + f a) init = init + (l.map f).sum := by
  induction l generalizing init with
  | nil => simp
  | cons a rest ih => simp only [List.foldl_cons, ih, List.map_cons, List.sum_cons]; ring

theorem foldl_regSums (l : List (ℕ × ℚ)) (s : RegSums) :
    l.foldl (fun (s : RegSums) (p : ℕ × ℚ) =>
        (⟨s.sumX + (p.1 : ℚ), s.sumY + p.2, s.sumXY + (p.1 : ℚ) * p.2,
          s.sumX2 + (p.1 : ℚ) * (p.1 : ℚ)⟩ : RegSums)) s
      = ⟨s.sumX + sx (l.map (fun p => ((p.1 : ℚ), p.2))),
         s.sumY + sy (l.map (fun p => ((p.1 : ℚ), p.2))),
         s.sumXY + sxy (l.map (fun p => ((p.1 : ℚ), p.2))),
         s.sumX2 + sxx (l.map (fun p => ((p.1 : ℚ), p.2)))⟩ := by
  induction l generalizing s with
  | nil => simp [sx, sy, sxy, sxx]
  | cons a rest ih =>
    simp only [List.foldl_cons, ih, List.map_cons, sx, sy, sxy, sxx, List.sum_cons]
    congr 1 <;> ring

theorem regSums_eq (data : List ℚ) :
    regSums data = ⟨sx (indexedPoints data), sy (indexedPoints data),
      sxy (indexedPoints data), sxx (indexedPoints data)⟩ := by
  unfold regSums indexedPoints
  rw [foldl_regSums]
  simp

theorem foldl_regSquares (l : List (ℕ × ℚ)) (m b a : ℚ) (acc : ℚ × ℚ) :
    l.foldl (fun (acc : ℚ × ℚ) (p : ℕ × ℚ) =>
        (acc.1 + (p.2 - m) ^ 2, acc.2 + (p.2 - (b * (p.1 : ℚ) + a)) ^ 2)) acc
      = (acc.1 + ((l.map (fun p => ((p.1 : ℚ), p.2))).map
            (fun p => (0 * p.1 + 1 * p.2 + -m) ^ 2)).sum,
         acc.2 + ((l.map (fun p => ((p.1 : ℚ), p.2))).map
            (fun p => (-b * p.1 + 1 * p.2 + -a) ^ 2)).sum) := by
  induction l generalizing acc with
  | nil => simp
  | cons q rest ih =>
    simp only [List.foldl_cons, ih, List.map_cons, List.sum_cons]
    congr 1 <;> ring

theorem length_indexedPoints (data : List ℚ) : (indexedPoints data).length = data.length := by
  simp [indexedPoints, List.enum]

theorem ssTotal_eq (data : List ℚ) :
    ssTotal data = syy (indexedPoints data) + (data.length : ℚ) * regYMean data ^ 2
      - 2 * regYMean data * sy (indexedPoints data) := by
  unfold ssTotal regSquares
  have h := foldl_regSquares data.enum (regYMean data) (regSlope data) (regIntercept data) (0, 0)
  simp only [] at h ⊢
  rw [h]
  simp only [zero_add]
  have h2 := sum_affine_sq (indexedPoints data) 0 1 (-regYMean data)
  unfold indexedPoints at h2 ⊢
  rw [h2]
  simp [List.enum]
  ring

theorem ssResidual_eq (data : List ℚ) :
    ssResidual data = regSlope data ^ 2 * sxx (indexedPoints data) + syy (indexedPoints data)
      + (data.length : ℚ) * regIntercept data ^ 2
      - 2 * regSlope data * sxy (indexedPoints data)
      + 2 * regSlope data * regIntercept data * sx (indexedPoints data)
      - 2 * regIntercept data * sy (indexedPoints data) := by
  unfold ssResidual regSquares
  have h := foldl_regSquares data.enum (regYMean data) (regSlope data) (regIntercept data) (0, 0)
  simp only [] at h ⊢
  rw [h]
  simp only [zero_add]
  have h2 := sum_affine_sq (indexedPoints data) (-regSlope data) 1 (-regIntercept data)
  unfold indexedPoints at h2 ⊢
  rw [h2]
  simp [List.enum]
  ring

theorem slopeDivisor_eq_spreadX (data : List ℚ) :
    slopeDivisor data = spreadX (indexedPoints data) := by
  unfold slopeDivisor spreadX
  rw [regSums_eq, length_indexedPoints]

theorem sum_index_enumFrom (l : List ℚ) (k : ℕ) :
    sx ((l.enumFrom k).map (fun p => ((p.1 : ℚ), p.2)))
        = (k : ℚ) * l.length + (l.length : ℚ) * ((l.length : ℚ) - 1) / 2
      ∧ sxx ((l.enumFrom k).map (fun p => ((p.1 : ℚ), p.2)))
        = (l.length : ℚ) * (k : ℚ) ^ 2 + (k : ℚ) * (l.length : ℚ) * ((l.length : ℚ) - 1)
          + ((l.length : ℚ) - 1) * (l.length : ℚ) * (2 * (l.length : ℚ) - 1) / 6 := by
  induction l generalizing k with
  | nil => simp [sx, sxx]
  | cons a rest ih =>
    obtain ⟨h1, h2⟩ := ih (k + 1)
    simp only [sx, sxx, List.enumFrom_cons, List.map_cons, List.sum_cons, List.length_cons]
      at h1 h2 ⊢
    rw [h1, h2]
    push_cast
    constructor <;> ring

theorem slopeDivisor_closed (data : List ℚ) :
    slopeDivisor data
      = (data.length : ℚ) ^ 2 * ((data.length : ℚ) ^ 2 - 1) / 12 := by
  rw [slopeDivisor_eq_spreadX]
  unfold spreadX
  rw [length_indexedPoints]
  obtain ⟨h1, h2⟩ := sum_index_enumFrom data 0
  unfold indexedPoints List.enum
  rw [h1, h2]
  push_cast
  ring

theorem slopeDivisor_pos (data : List ℚ) (h : 2 ≤ data.length) : 0 < slopeDivisor data := by
  rw [slopeDivisor_closed]
  have hn : (2 : ℚ) ≤ (data.length : ℚ) := by exact_mod_cast h
  have h1 : (0 : ℚ) < (data.length : ℚ) ^ 2 := by positivity
  have h2 : (0 : ℚ) < (data.length : ℚ) ^ 2 - 1 := by nlinarith
  positivity

/-- The explained part of the variation: `ssTotal - ssResidual = slope² * divisor / n`. -/
theorem ssTotal_sub_ssResidual (data : List ℚ) (h : 2 ≤ data.length) :
    ssTotal data - ssResidual data
      = regSlope data ^ 2 * slopeDivisor data / (data.length : ℚ) := by
  have hD := slopeDivisor_pos data h
  have hn : (0 : ℚ) < (data.length : ℚ) := by
    have : 0 < data.length := by omega
    exact_mod_cast this
  have hb : regSlope data * slopeDivisor data
      = (data.length : ℚ) * sxy (indexedPoints data)
        - sx (indexedPoints data) * sy (indexedPoints data) := by
    unfold regSlope
    rw [regSums_eq]
    field_simp
  have ha : regIntercept data * (data.length : ℚ)
      = sy (indexedPoints data) - regSlope data * sx (indexedPoints data) := by
    unfold regIntercept
    rw [regSums_eq]
    field_simp
  have hm : regYMean data * (data.length : ℚ) = sy (indexedPoints data) := by
    unfold regYMean
    rw [regSums_eq]
    field_simp
  have hDe : slopeDivisor data = (data.length : ℚ) * sxx (indexedPoints data)
      - sx (indexedPoints data) * sx (indexedPoints data) := by
    rw [slopeDivisor_eq_spreadX]; unfold spreadX; rw [length_indexedPoints]
  rw [ssTotal_eq, ssResidual_eq]
  rw [eq_div_iff (ne_of_gt hn)]
  generalize regSlope data = b at *
  generalize regIntercept data = a at *
  generalize regYMean data = m at *
  generalize slopeDivisor data = D at *
  generalize sx (indexedPoints data) = X at *
  generalize sy (indexedPoints data) = Y at *
  generalize sxx (indexedPoints data) = XX at *
  generalize sxy (indexedPoints data) = XY at *
  generalize syy (indexedPoints data) = YY at *
  generalize (data.length : ℚ) = n at *
  subst hDe
  linear_combination (m * n - Y) * hm - (a * n - (Y - b * X)) * ha - 2 * b * hb

theorem sumList_eq_sum (x : List ℚ) : sumList x = x.sum := by
  unfold sumList
  have h := foldl_add_eq_sum (fun a : ℚ => a) x 0
  simpa using h

/-! ## The guards of the primitives -/

theorem linearRegression_isSome (data : List ℚ) (h : 3 ≤ data.length) :
    linearRegression data = some
      { slope := regSlope data, intercept := regIntercept data, rSquared := regRSquared data,
        confidence := Surd.sqrtAbs (regRSquared data) } := by
  unfold linearRegression
  rw [if_neg (by omega)]

/-! ## Daylight trend -/

theorem Surd.not_lt_iff (a b : Surd) : ¬ a < b ↔ b ≤ a := by
  rw [Surd.lt_def, Surd.le_def, not_lt]

theorem daylightSeries_length_le (records : List DailyRecord) :
    (daylightSeries records).length ≤ records.length := by
  unfold daylightSeries
  have := List.reduceOption_length_le (records.map (fun r => r.solar.bind (fun s => s.daylightMinutes)))
  simpa using this

theorem detectDaylightTrend_eq (now : Int) (records : List DailyRecord) :
    detectDaylightTrend now records
      = if (daylightSeries records).length < 7 then none
        else
          match linearRegression (daylightSeries records) with
          | none => none
          | some regression =>
            if regression.confidence < Surd.ofRat (1 / 2) then none
            else if abs regression.slope < 1 / 2 then none
            else some (daylightPattern now regression) := by
  unfold detectDaylightTrend
  by_cases h1 : records.length < 7
  · have := daylightSeries_length_le records
    rw [if_pos h1, if_pos (by omega)]
  · rw [if_neg h1]
    rfl

theorem sums_of_affine (pts : List (ℚ × ℚ)) (a d : ℚ) (h : ∀ p ∈ pts, p.2 = a - d * p.1) :
    sy pts = (pts.length : ℚ) * a - d * sx pts
      ∧ sxy pts = a * sx pts - d * sxx pts
      ∧ syy pts = (pts.length : ℚ) * a ^ 2 - 2 * a * d * sx pts + d ^ 2 * sxx pts := by
  induction pts with
  | nil => simp [sx, sy, sxx, sxy, syy]
  | cons p rest ih =>
    have hp := h p (List.mem_cons_self _ _)
    obtain ⟨h1, h2, h3⟩ := ih (fun q hq => h q (List.mem_cons_of_mem _ hq))
    simp only [sx, sy, sxx, sxy, syy, List.map_cons, List.sum_cons, List.length_cons]
      at h1 h2 h3 ⊢
    rw [h1, h2, h3, hp]
    push_cast
    refine ⟨by ring, by ring, by ring⟩

theorem indexedPoints_linearSeries (a d : ℚ) (n : ℕ) :
    ∀ p ∈ indexedPoints (linearSeries a d n), p.2 = a - d * p.1 := by
  intro p hp
  unfold indexedPoints at hp
  rw [List.mem_map] at hp
  obtain ⟨q, hq, rfl⟩ := hp
  rw [List.mem_enum_iff_getElem?] at hq
  unfold linearSeries at hq
  rw [List.getElem?_map] at hq
  have hlt : q.1 < n := by
    by_contra hge
    rw [List.getElem?_eq_none (by simpa using hge)] at hq
    simp at hq
  rw [List.getElem?_range hlt] at hq
  simp only [Option.map_some', Option.some.injEq] at hq
  simp only
  exact hq.symm

theorem length_linearSeries (a d : ℚ) (n : ℕ) : (linearSeries a d n).length = n := by
  simp [linearSeries]

theorem regression_linearSeries (a d : ℚ) (n : ℕ) (hn : 2 ≤ n) (hd : d ≠ 0) :
    regSlope (linearSeries a d n) = -d ∧ regIntercept (linearSeries a d n) = a
      ∧ regRSquared (linearSeries a d n) = 1 := by
  have hlen := length_linearSeries a d n
  have hD := slopeDivisor_pos (linearSeries a d n) (by omega)
  have hn0 : (0 : ℚ) < ((linearSeries a d n).length : ℚ) := by
    rw [hlen]
    have : 0 < n := by omega
    exact_mod_cast this
  obtain ⟨h1, h2, h3⟩ := sums_of_affine _ a d (indexedPoints_linearSeries a d n)
  rw [length_indexedPoints] at h1 h3
  have hDe : slopeDivisor (linearSeries a d n)
      = ((linearSeries a d n).length : ℚ) * sxx (indexedPoints (linearSeries a d n))
        - sx (indexedPoints (linearSeries a d n)) * sx (indexedPoints (linearSeries a d n)) := by
    rw [slopeDivisor_eq_spreadX]; unfold spreadX; rw [length_indexedPoints]
  have hslope : regSlope (linearSeries a d n) = -d := by
    unfold regSlope
    rw [div_eq_iff (ne_of_gt hD), regSums_eq, hDe]
    simp only
    rw [h1, h2]
    ring
  have hint : regIntercept (linearSeries a d n) = a := by
    unfold regIntercept
    rw [div_eq_iff (ne_of_gt hn0), hslope, regSums_eq]
    simp only
    rw [h1]
    ring
  have hres : ssResidual (linearSeries a d n) = 0 := by
    rw [ssResidual_eq, hslope, hint, h1, h2, h3]
    ring
  have htot : 0 < ssTotal (linearSeries a d n) := by
    have h := ssTotal_sub_ssResidual (linearSeries a d n) (by omega)
    rw [hres, sub_zero, hslope] at h
    rw [h]
    have : 0 < d ^ 2 := by positivity
    have : (-d) ^ 2 = d ^ 2 := by ring
    rw [this]
    positivity
  refine ⟨hslope, hint, ?_⟩
  unfold regRSquared
  rw [if_neg (ne_of_gt htot), hres]
  simp

theorem daylightSeries_eq_filterMap (records : List DailyRecord) :
    daylightSeries records
      = records.filterMap (fun r => r.solar.bind (fun s => s.daylightMinutes)) := by
  unfold daylightSeries List.reduceOption
  rw [List.filterMap_map]
  rfl

theorem daylightSeries_decreasingDays : daylightSeries decreasingDays = linearSeries 600 2 10 := by
  rw [daylightSeries_eq_filterMap]
  unfold decreasingDays linearSeries
  rw [List.filterMap_map]
  have : ((fun r : DailyRecord => r.solar.bind (fun s => s.daylightMinutes))
        ∘ fun (i : ℕ) => daylightRecord (i : Int) (some (600 - 2 * (i : ℚ))))
      = some ∘ (fun (i : ℕ) => (600 : ℚ) - 2 * (i : ℚ)) := by
    funext i
    simp [daylightRecord]
  rw [this, List.filterMap_eq_map]

theorem detectDaylightTrend_linear (now : Int) (records : List DailyRecord) (a d : ℚ) (n : ℕ)
    (hn : 7 ≤ n) (hd : 1 / 2 ≤ d) (hs : daylightSeries records = linearSeries a d n) :
    detectDaylightTrend now records
      = some (daylightPattern now
          { slope := -d, intercept := a, rSquared := 1, confidence := Surd.ofRat 1 }) := by
  have hd0 : d ≠ 0 := by intro h; rw [h] at hd; norm_num at hd
  obtain ⟨h1, h2, h3⟩ := regression_linearSeries a d n (by omega) hd0
  have hlen := length_linearSeries a d n
  have hreg := linearRegression_isSome (linearSeries a d n) (by omega)
  rw [h1, h2, h3] at hreg
  have hone : Surd.sqrtAbs 1 = Surd.ofRat 1 := by simp [Surd.sqrtAbs, Surd.ofRat]
  rw [hone] at hreg
  rw [detectDaylightTrend_eq, hs, hlen, if_neg (by omega), hreg]
  have hsl : ¬ (abs (-d) < 1 / 2) := by
    rw [abs_neg, abs_of_nonneg (by linarith only [hd])]
    linarith only [hd]
  have hc : ¬ (Surd.ofRat 1 < Surd.ofRat (1 / 2)) := by
    rw [Surd.lt_def, Surd.ssq_ofRat _ (by norm_num), Surd.ssq_ofRat _ (by norm_num)]
    norm_num
  simp only [hc, hsl, if_false]

/-- C6: `detectDaylightTrend` reads the non-null `daylightMinutes` in record order,
skipping the records without one; it returns a pattern exactly when there are at least
7 such values, the regression over them has confidence at least 0.5 and the absolute
slope is at least 0.5; the pattern has id `daylight-trend`, type trend, the title
`Daylight Increasing` for a positive slope and `Daylight Decreasing` otherwise, weekly
change 7 times the slope and the confidence of the regression. -/
theorem detectDaylightTrend_spec (now : Int) (records : List DailyRecord) :
    daylightSeries records
        = records.filterMap (fun r => r.solar.bind (fun s => s.daylightMinutes))
      ∧ ((detectDaylightTrend now records).isSome ↔
          7 ≤ (daylightSeries records).length
            ∧ ∃ r, linearRegression (daylightSeries records) = some r
                ∧ Surd.ofRat (1 / 2) ≤ r.confidence ∧ 1 / 2 ≤ abs r.slope)
      ∧ (∀ p, detectDaylightTrend now records = some p →
          ∃ r, linearRegression (daylightSeries records) = some r
            ∧ p.id = "daylight-trend" ∧ p.type = PatternType.trend
            ∧ p.title = [Frag.text (if r.slope > 0 then "Daylight Increasing"
                else "Daylight Decreasing")]
            ∧ p.data = PatternData.daylightTrend r.slope (7 * r.slope) r.rSquared
            ∧ p.confidence = r.confidence) := by
  refine ⟨daylightSeries_eq_filterMap records, ?_, ?_⟩
  · rw [detectDaylightTrend_eq]
    by_cases h7 : (daylightSeries records).length < 7
    · rw [if_pos h7]
      simp only [Option.isSome_none, Bool.false_eq_true, false_iff, not_and]
      intro h; omega
    · rw [if_neg h7]
      cases hreg : linearRegression (daylightSeries records) with
      | none => simp
      | some r =>
        simp only [Option.some.injEq, exists_eq_left']
        by_cases hc : r.confidence < Surd.ofRat (1 / 2)
        · have hc2 : ¬ Surd.ofRat (1 / 2) ≤ r.confidence := by
            rw [← Surd.not_lt_iff]; exact not_not.2 hc
          simp only [hc, if_true, Option.isSome_none, Bool.false_eq_true, false_iff, not_and]
          intro _ h; exact absurd h hc2
        · have hc2 : Surd.ofRat (1 / 2) ≤ r.confidence := (Surd.not_lt_iff _ _).1 hc
          by_cases hsl : abs r.slope < 1 / 2
          · have : ¬ (1 / 2 ≤ abs r.slope) := not_le.2 hsl
            simp only [hc, hsl, if_true, if_false, Option.isSome_none, Bool.false_eq_true,
              false_iff, not_and]
            intro _ _; exact this
          · have : 1 / 2 ≤ abs r.slope := not_lt.1 hsl
            simp only [hc, hsl, if_false, Option.isSome_some, true_iff]
            exact ⟨by omega, hc2, this⟩
  · intro p hp
    rw [detectDaylightTrend_eq] at hp
    split at hp
    · exact absurd hp (by simp)
    · cases hreg : linearRegression (daylightSeries records) with
      | none => rw [hreg] at hp; exact absurd hp (by simp)
      | some r =>
        rw [hreg] at hp
        simp only at hp
        split at hp
        · exact absurd hp (by simp)
        · split at hp
          · exact absurd hp (by simp)
          · simp only [Option.some.injEq] at hp
            subst hp
            refine ⟨r, rfl, rfl, rfl, rfl, ?_, rfl⟩
            simp only [daylightPattern]
            rw [mul_comm]

/-- Witness for C6: on ten days of daylight 600, 598, 596, ... a pattern is returned,
and it is the one built from the regression of that series. -/
theorem detectDaylightTrend_spec_witness :
    (detectDaylightTrend 0 decreasingDays).isSome
      ∧ ∃ p r, detectDaylightTrend 0 decreasingDays = some p
          ∧ linearRegression (daylightSeries decreasingDays) = some r
          ∧ p.id = "daylight-trend"
          ∧ p.data = PatternData.daylightTrend r.slope (7 * r.slope) r.rSquared
          ∧ p.confidence = r.confidence := by
  have h := detectDaylightTrend_linear 0 decreasingDays 600 2 10 (by decide) (by norm_num)
    daylightSeries_decreasingDays
  obtain ⟨r, h1, h2, _, _, h3, h4⟩ := (detectDaylightTrend_spec 0 decreasingDays).2.2 _ h
  exact ⟨by rw [h]; rfl, _, r, h, h1, h2, h3, h4⟩

/-! ## Sun-time shifts -/

theorem sunShiftBlock_eq (now : Int) (id label icon : String) (series : List ℚ) :
    sunShiftBlock now id label icon series
      = if 7 ≤ series.length then
          match linearRegression series with
          | none => []
          | some regression =>
            if Surd.ofRat (6 / 10) < regression.confidence ∧ abs regression.slope > 3 / 10 then
              [sunShiftPattern now id label icon regression]
            else []
        else [] := by
  rfl

theorem sunShiftBlock_head (now : Int) (id label icon : String) (series : List ℚ) :
    (((sunShiftBlock now id label icon series).head?).isSome ↔
        7 ≤ series.length
          ∧ ∃ r, linearRegression series = some r
              ∧ Surd.ofRat (6 / 10) < r.confidence ∧ 3 / 10 < abs r.slope)
      ∧ (∀ p, (sunShiftBlock now id label icon series).head? = some p →
          ∃ r, linearRegression series = some r ∧ p = sunShiftPattern now id label icon r)
      ∧ (sunShiftBlock now id label icon series
          = ((sunShiftBlock now id label icon series).head?).toList) := by
  rw [sunShiftBlock_eq]
  by_cases h7 : 7 ≤ series.length
  · rw [if_pos h7]
    cases hreg : linearRegression series with
    | none =>
      refine ⟨?_, ?_, rfl⟩
      · simp
      · intro p hp; exact absurd hp (by simp)
    | some r =>
      by_cases hc : Surd.ofRat (6 / 10) < r.confidence ∧ abs r.slope > 3 / 10
      · simp only [if_pos hc]
        refine ⟨?_, ?_, rfl⟩
        · constructor
          · intro _; exact ⟨h7, r, rfl, hc.1, hc.2⟩
          · intro _; rfl
        · intro p hp
          simp only [List.head?_cons, Option.some.injEq] at hp
          exact ⟨r, rfl, hp.symm⟩
      · simp only [if_neg hc]
        refine ⟨?_, ?_, rfl⟩
        · constructor
          · intro h; exact absurd h (by simp)
          · rintro ⟨_, r2, hr2, h1, h2⟩
            simp only [Option.some.injEq] at hr2
            subst hr2
            exact absurd ⟨h1, h2⟩ hc
        · intro p hp; exact absurd hp (by simp)
  · rw [if_neg h7]
    refine ⟨?_, ?_, rfl⟩
    · constructor
      · intro h; exact absurd h (by simp)
      · rintro ⟨h, _⟩; exact absurd h h7
    · intro p hp; exact absurd hp (by simp)

theorem sunShiftBlock_ids (now : Int) (id label icon : String) (series : List ℚ) :
    ∀ p ∈ sunShiftBlock now id label icon series, p.id = id := by
  intro p hp
  obtain ⟨_, h2, h3⟩ := sunShiftBlock_head now id label icon series
  rw [h3] at hp
  cases hh : (sunShiftBlock now id label icon series).head? with
  | none => rw [hh] at hp; simp at hp
  | some q =>
    rw [hh] at hp
    simp only [Option.toList_some, List.mem_singleton] at hp
    subst hp
    obtain ⟨r, _, hq⟩ := h2 p hh
    rw [hq]; rfl

theorem sunSeries_eq_filterMap (tz : TimeZone) (event : Solar → Option Int)
    (records : List DailyRecord) :
    sunSeries tz event records
      = records.filterMap (fun r => (r.solar.bind event).map (minutesOfDay tz)) := by
  unfold sunSeries List.reduceOption
  rw [List.filterMap_map]
  congr 1
  funext r
  simp only [Function.comp, id]
  cases r.solar.bind event <;> rfl

theorem sunSeries_length (tz : TimeZone) (event : Solar → Option Int)
    (records : List DailyRecord) :
    (sunSeries tz event records).length
      = (records.filter (fun r => (r.solar.bind event).isSome)).length := by
  rw [sunSeries_eq_filterMap]
  induction records with
  | nil => rfl
  | cons r rest ih =>
    cases h : r.solar.bind event with
    | none =>
      rw [List.filterMap_cons, List.filter_cons]
      simp only [h, Option.map_none', Option.isSome_none, Bool.false_eq_true, if_false]
      exact ih
    | some t =>
      rw [List.filterMap_cons, List.filter_cons]
      simp only [h, Option.map_some', Option.isSome_some, if_true, List.length_cons]
      rw [ih]

theorem sunSeries_length_le (tz : TimeZone) (event : Solar → Option Int)
    (records : List DailyRecord) : (sunSeries tz event records).length ≤ records.length := by
  rw [sunSeries_length]
  exact List.length_filter_le _ _

theorem detectSunTimeShifts_getD (tz : TimeZone) (now : Int) (records : List DailyRecord) :
    (detectSunTimeShifts tz now records).getD []
      = sunShiftBlock now "sunrise-shift" "Sunrise" "🌅" (sunSeries tz Solar.sunrise records)
        ++ sunShiftBlock now "sunset-shift" "Sunset" "🌇" (sunSeries tz Solar.sunset records) := by
  unfold detectSunTimeShifts
  by_cases h7 : records.length < 7
  · have h1 := sunSeries_length_le tz Solar.sunrise records
    have h2 := sunSeries_length_le tz Solar.sunset records
    rw [if_pos h7, sunShiftBlock_eq, sunShiftBlock_eq, if_neg (by omega), if_neg (by omega)]
    rfl
  · rw [if_neg h7]
    simp only
    split
    · rfl
    · rename_i hlen
      have : (sunShiftBlock now "sunrise-shift" "Sunrise" "🌅" (sunSeries tz Solar.sunrise records)
        ++ sunShiftBlock now "sunset-shift" "Sunset" "🌇" (sunSeries tz Solar.sunset records))
          = [] := by
        rw [← List.length_eq_zero]; omega
      rw [this]; rfl

theorem findById_sunrise (tz : TimeZone) (now : Int) (records : List DailyRecord) :
    findById ((detectSunTimeShifts tz now records).getD []) "sunrise-shift"
      = (sunShiftBlock now "sunrise-shift" "Sunrise" "🌅"
          (sunSeries tz Solar.sunrise records)).head? := by
  rw [detectSunTimeShifts_getD]
  obtain ⟨_, h2, h3⟩ := sunShiftBlock_head now "sunrise-shift" "Sunrise" "🌅"
    (sunSeries tz Solar.sunrise records)
  have hids := sunShiftBlock_ids now "sunset-shift" "Sunset" "🌇"
    (sunSeries tz Solar.sunset records)
  have hnone : findById (sunShiftBlock now "sunset-shift" "Sunset" "🌇"
      (sunSeries tz Solar.sunset records)) "sunrise-shift" = none := by
    unfold findById
    rw [List.find?_eq_none]
    intro p hp
    rw [hids p hp]
    decide
  unfold findById at hnone ⊢
  rw [List.find?_append, hnone]
  cases hh : (sunShiftBlock now "sunrise-shift" "Sunrise" "🌅"
      (sunSeries tz Solar.sunrise records)).head? with
  | none =>
    rw [hh] at h3
    rw [h3]; rfl
  | some q =>
    obtain ⟨r, _, hq⟩ := h2 q hh
    rw [hh] at h3
    rw [h3, hq]
    simp [sunShiftPattern]

theorem findById_sunset (tz : TimeZone) (now : Int) (records : List DailyRecord) :
    findById ((detectSunTimeShifts tz now records).getD []) "sunset-shift"
      = (sunShiftBlock now "sunset-shift" "Sunset" "🌇"
          (sunSeries tz Solar.sunset records)).head? := by
  rw [detectSunTimeShifts_getD]
  obtain ⟨_, h2, h3⟩ := sunShiftBlock_head now "sunset-shift" "Sunset" "🌇"
    (sunSeries tz Solar.sunset records)
  have hids := sunShiftBlock_ids now "sunrise-shift" "Sunrise" "🌅"
    (sunSeries tz Solar.sunrise records)
  have hnone : findById (sunShiftBlock now "sunrise-shift" "Sunrise" "🌅"
      (sunSeries tz Solar.sunrise records)) "sunset-shift" = none := by
    unfold findById
    rw [List.find?_eq_none]
    intro p hp
    rw [hids p hp]
    decide
  unfold findById at hnone ⊢
  rw [List.find?_append, hnone]
  cases hh : (sunShiftBlock now "sunset-shift" "Sunset" "🌇"
      (sunSeries tz Solar.sunset records)).head? with
  | none =>
    rw [hh] at h3
    rw [h3]; rfl
  | some q =>
    obtain ⟨r, _, hq⟩ := h2 q hh
    rw [hh] at h3
    rw [h3, hq]
    simp [sunShiftPattern]

theorem shift_event_spec (tz : TimeZone) (now : Int) (records : List DailyRecord)
    (event : Solar → Option Int) (id label icon : String) (found : Option Pattern)
    (hfound : found = (sunShiftBlock now id label icon (sunSeries tz event records)).head?) :
    (found.isSome ↔
        7 ≤ (records.filter (fun r => (r.solar.bind event).isSome)).length
          ∧ ∃ r, linearRegression (sunSeries tz event records) = some r
              ∧ Surd.ofRat (6 / 10) < r.confidence ∧ 3 / 10 < abs r.slope)
      ∧ (∀ p, found = some p →
          ∃ r, linearRegression (sunSeries tz event records) = some r
            ∧ p.id = id ∧ p.type = PatternType.trend
            ∧ p.data = PatternData.sunShift (if r.slope > 0 then "later" else "earlier")
                (abs (7 * r.slope)) r.slope
            ∧ p.confidence = r.confidence) := by
  obtain ⟨h1, h2, _⟩ := sunShiftBlock_head now id label icon (sunSeries tz event records)
  rw [← hfound] at h1 h2
  rw [← sunSeries_length]
  refine ⟨h1, ?_⟩
  intro p hp
  obtain ⟨r, hr, hpr⟩ := h2 p hp
  subst hpr
  refine ⟨r, hr, rfl, rfl, ?_, rfl⟩
  simp only [sunShiftPattern]
  rw [mul_comm]

/-- C8: `detectSunTimeShifts` treats sunrise and sunset separately.  For each event the
series is the minutes since local midnight of the instants the records carry, in record
order; the pattern of the event (`sunrise-shift`, `sunset-shift`) is emitted exactly when
at least 7 records carry the instant, the regression over the series has confidence
above 0.6 and the absolute slope is above 0.3; its direction is `later` for a positive
slope and `earlier` otherwise, its minutes per week are `|7 * slope|`, its confidence is
that of the regression; and what is emitted for an event is the same for any two record
lists with the same series of that event. -/
theorem detectSunTimeShifts_spec (tz : TimeZone) (now : Int) (records : List DailyRecord) :
    (∀ event : Solar → Option Int, sunSeries tz event records
        = records.filterMap (fun r => (r.solar.bind event).map (minutesOfDay tz)))
      ∧ ((findById ((detectSunTimeShifts tz now records).getD []) "sunrise-shift").isSome ↔
          7 ≤ (records.filter (fun r => (r.solar.bind Solar.sunrise).isSome)).length
            ∧ ∃ r, linearRegression (sunSeries tz Solar.sunrise records) = some r
                ∧ Surd.ofRat (6 / 10) < r.confidence ∧ 3 / 10 < abs r.slope)
      ∧ (∀ p, findById ((detectSunTimeShifts tz now records).getD []) "sunrise-shift" = some p →
          ∃ r, linearRegression (sunSeries tz Solar.sunrise records) = some r
            ∧ p.id = "sunrise-shift" ∧ p.type = PatternType.trend
            ∧ p.data = PatternData.sunShift (if r.slope > 0 then "later" else "earlier")
                (abs (7 * r.slope)) r.slope
            ∧ p.confidence = r.confidence)
      ∧ ((findById ((detectSunTimeShifts tz now records).getD []) "sunset-shift").isSome ↔
          7 ≤ (records.filter (fun r => (r.solar.bind Solar.sunset).isSome)).length
            ∧ ∃ r, linearRegression (sunSeries tz Solar.sunset records) = some r
                ∧ Surd.ofRat (6 / 10) < r.confidence ∧ 3 / 10 < abs r.slope)
      ∧ (∀ p, findById ((detectSunTimeShifts tz now records).getD []) "sunset-shift" = some p →
          ∃ r, linearRegression (sunSeries tz Solar.sunset records) = some r
            ∧ p.id = "sunset-shift" ∧ p.type = PatternType.trend
            ∧ p.data = PatternData.sunShift (if r.slope > 0 then "later" else "earlier")
                (abs (7 * r.slope)) r.slope
            ∧ p.confidence = r.confidence)
      ∧ (∀ others : List DailyRecord,
          sunSeries tz Solar.sunrise others = sunSeries tz Solar.sunrise records →
          findById ((detectSunTimeShifts tz now others).getD []) "sunrise-shift"
            = findById ((detectSunTimeShifts tz now records).getD []) "sunrise-shift")
      ∧ (∀ others : List DailyRecord,
          sunSeries tz Solar.sunset others = sunSeries tz Solar.sunset records →
          findById ((detectSunTimeShifts tz now others).getD []) "sunset-shift"
            = findById ((detectSunTimeShifts tz now records).getD []) "sunset-shift")
      ∧ (∀ p ∈ (detectSunTimeShifts tz now records).getD [],
          findById ((detectSunTimeShifts tz now records).getD []) p.id = some p)
      ∧ (detectSunTimeShifts tz now records = none ↔
          (detectSunTimeShifts tz now records).getD [] = []) := by
  have hA := shift_event_spec tz now records Solar.sunrise "sunrise-shift" "Sunrise" "🌅" _
    (findById_sunrise tz now records)
  have hB := shift_event_spec tz now records Solar.sunset "sunset-shift" "Sunset" "🌇" _
    (findById_sunset tz now records)
  refine ⟨fun event => sunSeries_eq_filterMap tz event records, hA.1, hA.2, hB.1, hB.2,
    ?_, ?_, ?_, ?_⟩
  · intro others h
    rw [findById_sunrise, findById_sunrise, h]
  · intro others h
    rw [findById_sunset, findById_sunset, h]
  · intro p hp
    have hp2 := hp
    rw [detectSunTimeShifts_getD, List.mem_append] at hp2
    obtain ⟨_, _, ha⟩ := sunShiftBlock_head now "sunrise-shift" "Sunrise" "🌅"
      (sunSeries tz Solar.sunrise records)
    obtain ⟨_, _, hb⟩ := sunShiftBlock_head now "sunset-shift" "Sunset" "🌇"
      (sunSeries tz Solar.sunset records)
    rcases hp2 with h | h
    · rw [sunShiftBlock_ids _ _ _ _ _ p h, findById_sunrise]
      rw [ha] at h
      cases hh : (sunShiftBlock now "sunrise-shift" "Sunrise" "🌅"
          (sunSeries tz Solar.sunrise records)).head? with
      | none => rw [hh] at h; simp at h
      | some q => rw [hh] at h; simp at h; rw [h]
    · rw [sunShiftBlock_ids _ _ _ _ _ p h, findById_sunset]
      rw [hb] at h
      cases hh : (sunShiftBlock now "sunset-shift" "Sunset" "🌇"
          (sunSeries tz Solar.sunset records)).head? with
      | none => rw [hh] at h; simp at h
      | some q => rw [hh] at h; simp at h; rw [h]
  · unfold detectSunTimeShifts
    by_cases h7 : records.length < 7
    · simp [h7]
    · simp only [h7, if_false]
      split
      · rename_i hlen
        simp only [Option.getD_some]
        constructor
        · intro h; exact absurd h (by simp)
        · intro h; rw [h] at hlen; simp at hlen
      · simp

theorem sunSeries_laterSunrises :
    sunSeries utc Solar.sunrise laterSunrises = linearSeries 360 (-2) 7 := by
  have hr : List.range 7 = [0, 1, 2, 3, 4, 5, 6] := by decide
  unfold laterSunrises linearSeries
  rw [hr]
  simp [sunSeries, sunRecord, List.reduceOption, minutesOfDay, getHours, getMinutes,
    localMinutes, utc]
  norm_num

theorem linearRegression_laterSunrises :
    linearRegression (sunSeries utc Solar.sunrise laterSunrises)
      = some { slope := 2, intercept := 360, rSquared := 1, confidence := Surd.ofRat 1 } := by
  rw [sunSeries_laterSunrises]
  obtain ⟨h1, h2, h3⟩ := regression_linearSeries 360 (-2) 7 (by decide) (by norm_num)
  have h := linearRegression_isSome (linearSeries 360 (-2) 7)
    (by rw [length_linearSeries]; decide)
  rw [h1, h2, h3] at h
  rw [h]
  simp [Surd.sqrtAbs, Surd.ofRat]

/-- Witness for C8: seven days with sunrise two minutes later each day and no sunset give
the pattern `sunrise-shift`, with direction `later`, 14 minutes per week and confidence 1. -/
theorem detectSunTimeShifts_spec_witness :
    (findById ((detectSunTimeShifts utc 0 laterSunrises).getD []) "sunrise-shift").isSome
      ∧ ∃ p, findById ((detectSunTimeShifts utc 0 laterSunrises).getD []) "sunrise-shift" = some p
          ∧ p.data = PatternData.sunShift "later" 14 2
          ∧ p.confidence = Surd.ofRat 1 := by
  have hspec := detectSunTimeShifts_spec utc 0 laterSunrises
  have hlen : 7 ≤ (laterSunrises.filter (fun r => (r.solar.bind Solar.sunrise).isSome)).length := by
    rw [← sunSeries_length utc, sunSeries_laterSunrises, length_linearSeries]
  have hsome := hspec.2.1.2 ⟨hlen, _, linearRegression_laterSunrises, by
    rw [Surd.lt_def, Surd.ssq_ofRat _ (by norm_num), Surd.ssq_ofRat _ (by norm_num)]
    norm_num, by norm_num⟩
  refine ⟨hsome, ?_⟩
  obtain ⟨p, hp⟩ := Option.isSome_iff_exists.1 hsome
  obtain ⟨r, hr, _, _, hdata, hconf⟩ := hspec.2.2.1 p hp
  rw [linearRegression_laterSunrises] at hr
  simp only [Option.some.injEq] at hr
  subst hr
  refine ⟨p, hp, ?_, hconf⟩
  rw [hdata]
  norm_num

/-! ## Moon cycle -/

theorem cycleGaps_dateKeyTime (days : List Int) :
    cycleGaps (days.map dateKeyTime) = dayGaps days := by
  induction days with
  | nil => rfl
  | cons a rest ih =>
    cases rest with
    | nil => rfl
    | cons b rest2 =>
      simp only [List.map_cons, cycleGaps] at ih ⊢
      unfold dayGaps at ih ⊢
      simp only [List.tail_cons, List.zipWith_cons_cons] at ih ⊢
      rw [ih]
      congr 1
      unfold dateKeyTime
      push_cast
      field_simp
      ring

theorem length_dayGaps (days : List Int) : (dayGaps days).length = days.length - 1 := by
  unfold dayGaps
  simp [List.length_zipWith]

theorem sum_dayGaps (a : Int) (rest : List Int) :
    (dayGaps (a :: rest)).sum = (((a :: rest).getLast (by simp) - a : Int) : ℚ) := by
  induction rest generalizing a with
  | nil => simp [dayGaps]
  | cons b rest2 ih =>
    have h := ih b
    unfold dayGaps at h ⊢
    simp only [List.tail_cons, List.zipWith_cons_cons, List.sum_cons] at h ⊢
    rw [h]
    rw [List.getLast_cons (by simp : b :: rest2 ≠ [])]
    push_cast
    ring

theorem detectMoonCyclePatterns_eq (now : Int) (records : List DailyRecord) :
    detectMoonCyclePatterns now records
      = if records.length < 14 ∨ (records.filter (hasPhase "Full Moon")).length < 2 then none
        else some [moonCyclePattern now
          (mean (dayGaps ((records.filter (hasPhase "Full Moon")).map (fun r => r.date))))
          (records.filter (hasPhase "Full Moon")).length
          (records.filter (hasPhase "New Moon")).length] := by
  unfold detectMoonCyclePatterns
  by_cases h14 : records.length < 14
  · simp [h14]
  · by_cases hk : (records.filter (hasPhase "Full Moon")).length < 2
    · have hk2 : ¬ (records.filter (hasPhase "Full Moon")).length ≥ 2 := by omega
      simp [h14, hk, hk2]
    · have hk2 : (records.filter (hasPhase "Full Moon")).length ≥ 2 := by omega
      have hmap : (records.filter (hasPhase "Full Moon")).map (fun r => dateKeyTime r.date)
          = ((records.filter (hasPhase "Full Moon")).map (fun r => r.date)).map dateKeyTime := by
        rw [List.map_map]; rfl
      have hlen : (dayGaps ((records.filter (hasPhase "Full Moon")).map (fun r => r.date))).length
          > 0 := by
        rw [length_dayGaps, List.length_map]; omega
      simp only [h14, hk, or_self, if_false, hk2, if_true, hmap, cycleGaps_dateKeyTime, hlen,
        sumList_eq_sum]
      rfl

theorem mean_dayGaps (days : List Int) (h : 2 ≤ days.length) :
    mean (dayGaps days)
      = ((days.getLast?.getD 0 - days.head?.getD 0 : Int) : ℚ) / ((days.length : ℚ) - 1) := by
  cases days with
  | nil => simp at h
  | cons a rest =>
    unfold mean
    rw [sum_dayGaps, length_dayGaps]
    have h1 : (a :: rest).getLast?.getD 0 = (a :: rest).getLast (by simp) := by
      rw [List.getLast?_eq_getLast _ (by simp)]; rfl
    rw [h1]
    simp only [List.head?_cons, Option.getD_some, List.length_cons, Nat.add_sub_cancel]
    push_cast
    ring_nf

/-- C9: with fewer than 14 records or fewer than 2 records named `Full Moon`,
`detectMoonCyclePatterns` returns no result; otherwise it returns exactly one pattern,
of type cycle, whose average cycle is the mean of the gaps in days between consecutive
Full Moon records, which is the last Full Moon date minus the first divided by the
number of Full Moon records less one, whose counts are the numbers of Full Moon and New
Moon records, and whose confidence is `min(0.95, 0.5 + 0.1 * k)`. -/
theorem detectMoonCyclePatterns_spec (now : Int) (records : List DailyRecord) :
    (records.length < 14 ∨ (records.filter (hasPhase "Full Moon")).length < 2 →
        detectMoonCyclePatterns now records = none)
      ∧ (14 ≤ records.length → 2 ≤ (records.filter (hasPhase "Full Moon")).length →
          ∃ p avgCycle, detectMoonCyclePatterns now records = some [p]
            ∧ p.id = "moon-cycle" ∧ p.type = PatternType.cycle
            ∧ p.data = PatternData.moonCycle avgCycle
                (records.filter (hasPhase "Full Moon")).length
                (records.filter (hasPhase "New Moon")).length
            ∧ avgCycle
                = mean (dayGaps ((records.filter (hasPhase "Full Moon")).map (fun r => r.date)))
            ∧ avgCycle
                = (((((records.filter (hasPhase "Full Moon")).map (fun r => r.date)).getLast?.getD 0
                    - ((records.filter (hasPhase "Full Moon")).map
                        (fun r => r.date)).head?.getD 0 : Int) : ℚ)
                  / (((records.filter (hasPhase "Full Moon")).length : ℚ) - 1))
            ∧ p.confidence
                = Surd.ofRat (min (95 / 100)
                    (1 / 2 + (1 / 10) * ((records.filter (hasPhase "Full Moon")).length : ℚ)))) := by
  rw [detectMoonCyclePatterns_eq]
  constructor
  · intro h
    rw [if_pos h]
  · intro h14 hk
    rw [if_neg (by omega)]
    refine ⟨_, _, rfl, rfl, rfl, rfl, rfl, ?_, ?_⟩
    · have := mean_dayGaps ((records.filter (hasPhase "Full Moon")).map (fun r => r.date))
        (by rw [List.length_map]; exact hk)
      rw [this, List.length_map]
    · simp only [moonCyclePattern]
      rw [mul_comm]

theorem fullMoons_twoFullMoons :
    twoFullMoons.filter (hasPhase "Full Moon")
      = [moonRecord 0 (some "Full Moon"), moonRecord 29 (some "Full Moon")] := by
  have hr : List.range 12 = [0, 1, 2, 3, 4, 5, 6, 7, 8, 9, 10, 11] := by decide
  unfold twoFullMoons
  rw [hr]
  simp [hasPhase, moonRecord, List.filter_cons]

/-- Witness for C9: exactly two Full Moon records 29 days apart, among 14 records, give
one pattern with average cycle 29 and confidence 0.7; and 13 records give no result. -/
theorem detectMoonCyclePatterns_spec_witness :
    (∃ p, detectMoonCyclePatterns 0 twoFullMoons = some [p]
        ∧ p.data = PatternData.moonCycle 29 2 0
        ∧ p.confidence = Surd.ofRat (7 / 10))
      ∧ detectMoonCyclePatterns 0 twoFullMoons.tail = none := by
  have hspec := detectMoonCyclePatterns_spec 0 twoFullMoons
  have hlen : 14 ≤ twoFullMoons.length := by
    simp [twoFullMoons]
  have hk : 2 ≤ (twoFullMoons.filter (hasPhase "Full Moon")).length := by
    rw [fullMoons_twoFullMoons]; simp
  have hnew : twoFullMoons.filter (hasPhase "New Moon") = [] := by
    have hr : List.range 12 = [0, 1, 2, 3, 4, 5, 6, 7, 8, 9, 10, 11] := by decide
    unfold twoFullMoons
    rw [hr]
    simp [hasPhase, moonRecord, List.filter_cons]
  constructor
  · obtain ⟨p, avg, hp, _, _, hdata, _, havg, hconf⟩ := hspec.2 hlen hk
    refine ⟨p, hp, ?_, ?_⟩
    · rw [hdata, havg, fullMoons_twoFullMoons, hnew]
      simp [moonRecord]
      norm_num
    · rw [hconf, fullMoons_twoFullMoons]
      simp
      norm_num
  · exact (detectMoonCyclePatterns_spec 0 twoFullMoons.tail).1
      (Or.inl (by simp [twoFullMoons]))

/-! ## Optimal viewing conditions -/

theorem bumpHour_ne_nil (h : Int) (counts : List (Int × Nat)) : bumpHour h counts ≠ [] := by
  cases counts with
  | nil => simp [bumpHour]
  | cons e rest =>
    obtain ⟨k, c⟩ := e
    unfold bumpHour
    split
    · simp
    · split <;> simp

theorem hourCounts_ne_nil (hours : List Int) (h : hours ≠ []) : hourCounts hours ≠ [] := by
  unfold hourCounts
  have key : ∀ (hs : List Int) (init : List (Int × Nat)), init ≠ [] →
      hs.foldl (fun counts h => bumpHour h counts) init ≠ [] := by
    intro hs
    induction hs with
    | nil => intro init hi; exact hi
    | cons a rest ih => intro init _; exact ih _ (bumpHour_ne_nil a init)
  cases hours with
  | nil => exact absurd rfl h
  | cons a rest => exact key rest _ (bumpHour_ne_nil a [])

theorem bestHoursOf_length_pos (tz : TimeZone) (good : List AtmosphereSnapshot)
    (h : good ≠ []) : (bestHoursOf tz good).length ≠ 0 := by
  unfold bestHoursOf
  have h1 : hourCounts (good.map (fun a => getHours tz a.timestamp)) ≠ [] :=
    hourCounts_ne_nil _ (by simpa using h)
  have h2 : 0 < (hourCounts (good.map (fun a => getHours tz a.timestamp))).length :=
    List.length_pos.2 h1
  rw [List.length_map, List.length_take, List.length_insertionSort]
  omega

theorem detectOptimalConditions_eq (tz : TimeZone) (now : Int)
    (history : List AtmosphereSnapshot) :
    detectOptimalConditions tz now (some history)
      = if history.length < 3 ∨ (history.filter isGoodCondition).length < 2 then none
        else some (optimalPattern now (bestHoursOf tz (history.filter isGoodCondition))
          (history.filter isGoodCondition).length) := by
  unfold detectOptimalConditions
  by_cases h3 : history.length < 3
  · simp [h3]
  · by_cases h2 : (history.filter isGoodCondition).length < 2
    · simp [h3, h2]
    · have hne : history.filter isGoodCondition ≠ [] := by
        intro h; rw [h] at h2; simp at h2
      have hpos := bestHoursOf_length_pos tz _ hne
      unfold bestHoursOf at hpos
      simp only [h3, h2, or_self, if_false, hpos]
      rfl

theorem isGoodCondition_iff (a : AtmosphereSnapshot) :
    isGoodCondition a = true ↔
      ∃ c score, a.current = some c ∧ c.observationScore = some score ∧ 70 ≤ score := by
  unfold isGoodCondition
  cases hc : a.current with
  | none => simp
  | some c =>
    cases hs : c.observationScore with
    | none => simp [hs]
    | some score => simp [hs]

/-- C10: `detectOptimalConditions` returns no result exactly when the log is missing, has
fewer than 3 entries, or has fewer than 2 entries whose `observationScore` is at least
70; otherwise it returns a pattern of type optimal with id `optimal-viewing`, whose
good-condition count is the number `q` of qualifying entries and whose confidence is
`min(0.9, 0.5 + 0.05 * q)`.  An entry qualifies only if it has an `observationScore`. -/
theorem detectOptimalConditions_spec (tz : TimeZone) (now : Int)
    (atmosphereHistory : Option (List AtmosphereSnapshot)) :
    (detectOptimalConditions tz now atmosphereHistory = none ↔
        atmosphereHistory = none
          ∨ ∃ history, atmosphereHistory = some history
              ∧ (history.length < 3 ∨ (history.filter isGoodCondition).length < 2))
      ∧ (∀ history, atmosphereHistory = some history → 3 ≤ history.length →
          2 ≤ (history.filter isGoodCondition).length →
          ∃ p bestHours, detectOptimalConditions tz now atmosphereHistory = some p
            ∧ p.id = "optimal-viewing" ∧ p.type = PatternType.optimal
            ∧ p.data = PatternData.optimalViewing bestHours
                (history.filter isGoodCondition).length
            ∧ p.confidence
                = Surd.ofRat (min (9 / 10)
                    (1 / 2 + (5 / 100) * ((history.filter isGoodCondition).length : ℚ))))
      ∧ (∀ a : AtmosphereSnapshot, isGoodCondition a = true ↔
          ∃ c score, a.current = some c ∧ c.observationScore = some score ∧ 70 ≤ score) := by
  refine ⟨?_, ?_, isGoodCondition_iff⟩
  · cases atmosphereHistory with
    | none => simp [detectOptimalConditions]
    | some history =>
      rw [detectOptimalConditions_eq]
      by_cases h : history.length < 3 ∨ (history.filter isGoodCondition).length < 2
      · simp [h]
      · simp [h]
  · intro history hh h3 h2
    subst hh
    rw [detectOptimalConditions_eq, if_neg (by omega)]
    refine ⟨_, _, rfl, rfl, rfl, rfl, ?_⟩
    simp only [optimalPattern]
    rw [mul_comm]

/-- Witness for C10: a missing log and a log of three entries with one qualifying entry
give no result; a log with the scores 80, missing, 75 gives a pattern with
good-condition count 2 and confidence 0.6. -/
theorem detectOptimalConditions_spec_witness :
    detectOptimalConditions utc 0 none = none
      ∧ detectOptimalConditions utc 0
          (some [scoreSnapshot 0 (some 80), scoreSnapshot 1 none, scoreSnapshot 2 (some 60)])
        = none
      ∧ ∃ p bestHours, detectOptimalConditions utc 0
            (some [scoreSnapshot 0 (some 80), scoreSnapshot 1 none, scoreSnapshot 2 (some 75)])
          = some p
          ∧ p.data = PatternData.optimalViewing bestHours 2
          ∧ p.confidence = Surd.ofRat (6 / 10) := by
  have hgood1 : ([scoreSnapshot 0 (some 80), scoreSnapshot 1 none,
      scoreSnapshot 2 (some 60)].filter isGoodCondition).length = 1 := by
    simp [List.filter_cons, isGoodCondition, scoreSnapshot]
    norm_num
  have hgood2 : ([scoreSnapshot 0 (some 80), scoreSnapshot 1 none,
      scoreSnapshot 2 (some 75)].filter isGoodCondition).length = 2 := by
    simp [List.filter_cons, isGoodCondition, scoreSnapshot]
    norm_num
  refine ⟨(detectOptimalConditions_spec utc 0 none).1.2 (Or.inl rfl),
    (detectOptimalConditions_spec utc 0 _).1.2
      (Or.inr ⟨_, rfl, Or.inr (by rw [hgood1]; decide)⟩), ?_⟩
  obtain ⟨p, bestHours, hp, _, _, hdata, hconf⟩ :=
    (detectOptimalConditions_spec utc 0 _).2.1
      [scoreSnapshot 0 (some 80), scoreSnapshot 1 none, scoreSnapshot 2 (some 75)] rfl
      (by decide) (by rw [hgood2])
  rw [hgood2] at hdata hconf
  refine ⟨p, bestHours, hp, hdata, ?_⟩
  rw [hconf]
  norm_num

/-! ## Surds as real numbers -/

theorem signedSquare_lt (x y : ℝ) (h : x < y) : x * abs x < y * abs y := by
  rcases le_or_lt 0 x with hx | hx
  · have hy : 0 < y := lt_of_le_of_lt hx h
    rw [abs_of_nonneg hx, abs_of_pos hy]
    nlinarith
  · rw [abs_of_neg hx]
    rcases le_or_lt 0 y with hy | hy
    · rw [abs_of_nonneg hy]
      nlinarith
    · rw [abs_of_neg hy]
      nlinarith

/-- Comparing two reals is comparing their signed squares: the order of `Surd` is the
order of the reals it stands for. -/
theorem signedSquare_le_iff (x y : ℝ) : x * abs x ≤ y * abs y ↔ x ≤ y := by
  constructor
  · intro h
    by_contra hlt
    have := signedSquare_lt y x (not_le.1 hlt)
    linarith
  · intro h
    rcases eq_or_lt_of_le h with h | h
    · rw [h]
    · exact le_of_lt (signedSquare_lt x y h)

theorem signedSquare_lt_iff (x y : ℝ) : x * abs x < y * abs y ↔ x < y := by
  rw [← not_le, ← not_le, signedSquare_le_iff]

/-- The surd `Surd.sqrtAbs q` stands for the real `√|q|`. -/
theorem Surd.sqrtAbs_real (q : ℚ) :
    (((Surd.sqrtAbs q).ssq : ℚ) : ℝ) = Real.sqrt (abs (q : ℝ)) * abs (Real.sqrt (abs (q : ℝ))) := by
  simp only [Surd.sqrtAbs]
  rw [abs_of_nonneg (Real.sqrt_nonneg _), Real.mul_self_sqrt (abs_nonneg _)]
  push_cast
  rfl

/-- The surd `Surd.divSqrt num d` stands for the real `num / √d` when `d` is positive. -/
theorem Surd.divSqrt_real (num d : ℚ) (hd : 0 < d) :
    (((Surd.divSqrt num d).ssq : ℚ) : ℝ)
      = ((num : ℝ) / Real.sqrt (d : ℝ)) * abs ((num : ℝ) / Real.sqrt (d : ℝ)) := by
  have hd2 : (0 : ℝ) < (d : ℝ) := by exact_mod_cast hd
  have hs : 0 < Real.sqrt (d : ℝ) := Real.sqrt_pos.2 hd2
  simp only [Surd.divSqrt]
  rw [abs_div, abs_of_pos hs]
  push_cast
  rw [div_mul_div_comm, Real.mul_self_sqrt (le_of_lt hd2)]

/-- The surd `Surd.ofRat c` stands for the rational `c`. -/
theorem Surd.ofRat_real (c : ℚ) :
    (((Surd.ofRat c).ssq : ℚ) : ℝ) = (c : ℝ) * abs (c : ℝ) := by
  simp only [Surd.ofRat]
  push_cast
  rfl

/-- The test `Math.sqrt(Math.abs(q)) < c` of the detectors, read on the reals. -/
theorem Surd.sqrtAbs_lt_ofRat_iff (q c : ℚ) :
    Surd.sqrtAbs q < Surd.ofRat c ↔ Real.sqrt (abs (q : ℝ)) < (c : ℝ) := by
  rw [Surd.lt_def, ← signedSquare_lt_iff, ← Surd.sqrtAbs_real, ← Surd.ofRat_real]
  exact Rat.cast_lt.symm

/-- The test `Math.sqrt(Math.abs(q)) > c` of the detectors, read on the reals. -/
theorem Surd.ofRat_lt_sqrtAbs_iff (q c : ℚ) :
    Surd.ofRat c < Surd.sqrtAbs q ↔ (c : ℝ) < Real.sqrt (abs (q : ℝ)) := by
  rw [Surd.lt_def, ← signedSquare_lt_iff, ← Surd.sqrtAbs_real, ← Surd.ofRat_real]
  exact Rat.cast_lt.symm

theorem sqrt_abs_le_one (q : ℚ) (h0 : 0 ≤ q) (h1 : q ≤ 1) : Real.sqrt (abs (q : ℝ)) ≤ 1 := by
  have h0r : (0 : ℝ) ≤ (q : ℝ) := by exact_mod_cast h0
  have h1r : (q : ℝ) ≤ 1 := by exact_mod_cast h1
  rw [abs_of_nonneg h0r]
  calc Real.sqrt (q : ℝ) ≤ Real.sqrt 1 := Real.sqrt_le_sqrt h1r
    _ = 1 := Real.sqrt_one

/-! ## Ranking of the best hours -/

theorem storedCount_eq_zero (L : List (Int × Nat)) (h : Int) (hl : ∀ e ∈ L, h < e.1) :
    storedCount L h = 0 := by
  induction L with
  | nil => rfl
  | cons e rest ih =>
    obtain ⟨k, c⟩ := e
    have hk : h < k := hl (k, c) (List.mem_cons_self _ _)
    have hne : ¬ k = h := by omega
    simp only [storedCount, hne, if_false]
    exact ih (fun e he => hl e (List.mem_cons_of_mem _ he))

theorem keys_bumpHour (h : Int) (L : List (Int × Nat)) :
    ∀ e ∈ bumpHour h L, e.1 = h ∨ ∃ e0 ∈ L, e0.1 = e.1 := by
  induction L with
  | nil =>
    intro e he
    simp only [bumpHour, List.mem_singleton] at he
    subst he; exact Or.inl rfl
  | cons e0 rest ih =>
    obtain ⟨k, c⟩ := e0
    intro e he
    unfold bumpHour at he
    split at he
    · rename_i hk
      rcases List.mem_cons.1 he with h1 | h1
      · subst h1; exact Or.inl hk.symm
      · exact Or.inr ⟨e, List.mem_cons_of_mem _ h1, rfl⟩
    · split at he
      · rcases List.mem_cons.1 he with h1 | h1
        · subst h1; exact Or.inl rfl
        · exact Or.inr ⟨e, h1, rfl⟩
      · rcases List.mem_cons.1 he with h1 | h1
        · subst h1; exact Or.inr ⟨(k, c), List.mem_cons_self _ _, rfl⟩
        · rcases ih e h1 with h2 | ⟨e1, h2, h3⟩
          · exact Or.inl h2
          · exact Or.inr ⟨e1, List.mem_cons_of_mem _ h2, h3⟩

theorem sorted_bumpHour (h : Int) (L : List (Int × Nat))
    (hs : L.Pairwise (fun a b => a.1 < b.1)) :
    (bumpHour h L).Pairwise (fun a b => a.1 < b.1) := by
  induction L with
  | nil => simp [bumpHour]
  | cons e0 rest ih =>
    obtain ⟨k, c⟩ := e0
    rw [List.pairwise_cons] at hs
    unfold bumpHour
    split
    · rw [List.pairwise_cons]
      exact ⟨fun e he => hs.1 e he, hs.2⟩
    · rename_i hne
      split
      · rename_i hlt
        rw [List.pairwise_cons, List.pairwise_cons]
        refine ⟨?_, fun e he => hs.1 e he, hs.2⟩
        intro e he
        rcases List.mem_cons.1 he with h1 | h1
        · subst h1; exact hlt
        · exact lt_trans hlt (hs.1 e h1)
      · rename_i hnlt
        rw [List.pairwise_cons]
        refine ⟨?_, ih hs.2⟩
        intro e he
        rcases keys_bumpHour h rest e he with h1 | ⟨e1, h2, h3⟩
        · rw [h1]; simp only at *; omega
        · rw [← h3]; exact hs.1 e1 h2

theorem storedCount_bumpHour (h : Int) (L : List (Int × Nat))
    (hs : L.Pairwise (fun a b => a.1 < b.1)) (k : Int) :
    storedCount (bumpHour h L) k
      = if k = h then storedCount L h + 1 else storedCount L k := by
  induction L with
  | nil =>
    by_cases hk : k = h
    · simp [bumpHour, storedCount, hk]
    · have : ¬ h = k := fun e => hk e.symm
      simp [bumpHour, storedCount, hk, this]
  | cons e0 rest ih =>
    obtain ⟨k0, c⟩ := e0
    rw [List.pairwise_cons] at hs
    unfold bumpHour
    split
    · rename_i h0
      subst h0
      by_cases hk : k = h
      · subst hk; simp [storedCount]
      · have : ¬ h = k := fun e => hk e.symm
        simp [storedCount, hk, this]
    · rename_i hne
      split
      · rename_i hlt
        have hz : storedCount rest h = 0 :=
          storedCount_eq_zero rest h (fun e he => lt_trans hlt (hs.1 e he))
        have hne2 : ¬ k0 = h := fun e => hne e.symm
        by_cases hk : k = h
        · subst hk; simp [storedCount, hne2, hz]
        · have : ¬ h = k := fun e => hk e.symm
          simp [storedCount, hk, this]
      · have hne2 : ¬ k0 = h := fun e => hne e.symm
        by_cases hk : k = h
        · subst hk
          simp only [storedCount, hne2, if_false, if_true]
          rw [ih hs.2]; simp
        · by_cases hk0 : k0 = k
          · simp [storedCount, hk0, hk]
          · simp only [storedCount, hk0, if_false, hk]
            rw [ih hs.2]; simp [hk]

theorem pos_bumpHour (h : Int) (L : List (Int × Nat)) (hp : ∀ e ∈ L, 0 < e.2) :
    ∀ e ∈ bumpHour h L, 0 < e.2 := by
  induction L with
  | nil =>
    intro e he
    simp only [bumpHour, List.mem_singleton] at he
    subst he; exact Nat.one_pos
  | cons e0 rest ih =>
    obtain ⟨k, c⟩ := e0
    intro e he
    unfold bumpHour at he
    split at he
    · rcases List.mem_cons.1 he with h1 | h1
      · subst h1; exact Nat.succ_pos _
      · exact hp e (List.mem_cons_of_mem _ h1)
    · split at he
      · rcases List.mem_cons.1 he with h1 | h1
        · subst h1; exact Nat.one_pos
        · exact hp e h1
      · rcases List.mem_cons.1 he with h1 | h1
        · subst h1; exact hp _ (List.mem_cons_self _ _)
        · exact ih (fun e he => hp e (List.mem_cons_of_mem _ he)) e h1

theorem hourTable_bump (L : List (Int × Nat)) (hours : List Int) (h : Int)
    (hi : HourTable L hours) : HourTable (bumpHour h L) (hours ++ [h]) := by
  obtain ⟨h1, h2, h3⟩ := hi
  refine ⟨sorted_bumpHour h L h1, pos_bumpHour h L h2, ?_⟩
  intro k
  rw [storedCount_bumpHour h L h1 k, List.count_append]
  by_cases hk : k = h
  · subst hk; simp [h3]
  · have : ¬ h = k := fun e => hk e.symm
    simp [hk, h3, this]

theorem hourTable_foldl (rest : List Int) (L : List (Int × Nat)) (hours : List Int)
    (hi : HourTable L hours) :
    HourTable (rest.foldl (fun counts h => bumpHour h counts) L) (hours ++ rest) := by
  induction rest generalizing L hours with
  | nil => simpa using hi
  | cons a rest ih =>
    have := ih (bumpHour a L) (hours ++ [a]) (hourTable_bump L hours a hi)
    simpa using this

theorem hourTable_hourCounts (hours : List Int) : HourTable (hourCounts hours) hours := by
  have h0 : HourTable [] [] := ⟨List.Pairwise.nil, fun e he => by simp at he, fun k => rfl⟩
  have := hourTable_foldl hours [] [] h0
  simpa [hourCounts] using this

theorem storedCount_of_mem (L : List (Int × Nat)) (hs : L.Pairwise (fun a b => a.1 < b.1)) :
    ∀ e ∈ L, storedCount L e.1 = e.2 := by
  induction L with
  | nil => intro e he; simp at he
  | cons e0 rest ih =>
    obtain ⟨k, c⟩ := e0
    rw [List.pairwise_cons] at hs
    intro e he
    rcases List.mem_cons.1 he with h1 | h1
    · subst h1; simp [storedCount]
    · have hlt : k < e.1 := hs.1 e h1
      have hne : ¬ k = e.1 := by omega
      simp only [storedCount, hne, if_false]
      exact ih hs.2 e h1

theorem mem_of_storedCount_pos (L : List (Int × Nat)) (k : Int) (h : 0 < storedCount L k) :
    (k, storedCount L k) ∈ L := by
  induction L with
  | nil => simp [storedCount] at h
  | cons e0 rest ih =>
    obtain ⟨k0, c⟩ := e0
    by_cases hk : k0 = k
    · subst hk; simp [storedCount]
    · simp only [storedCount, hk, if_false] at h ⊢
      exact List.mem_cons_of_mem _ (ih h)

instance : IsTotal (Int × Nat) (fun a b => b.2 ≤ a.2) := ⟨fun a b => le_total b.2 a.2⟩

instance : IsTrans (Int × Nat) (fun a b => b.2 ≤ a.2) :=
  ⟨fun _ _ _ hab hbc => le_trans hbc hab⟩

theorem stable_insertionSort_filter {α : Type} (r : α → α → Prop) [DecidableRel r]
    [IsTotal α r] [IsTrans α r] (p : α → Bool) (hp : ∀ a b, p a = true → p b = true → r a b)
    (l : List α) : (l.insertionSort r).filter p = l.filter p := by
  have hsub : List.Sublist (l.filter p) (l.insertionSort r) := by
    apply List.sublist_insertionSort
    · rw [List.pairwise_iff_forall_sublist]
      intro a b hab
      have ha : a ∈ l.filter p := hab.subset (by simp)
      have hb : b ∈ l.filter p := hab.subset (by simp)
      rw [List.mem_filter] at ha hb
      exact hp a b ha.2 hb.2
    · exact List.filter_sublist l
  have hsub2 := hsub.filter p
  rw [List.filter_filter] at hsub2
  simp only [Bool.and_self] at hsub2
  have hlen := ((List.perm_insertionSort r l).filter p).length_eq
  exact (hsub2.eq_of_length hlen.symm).symm

theorem ranked_insertionSort (E : List (Int × Nat)) (hs : E.Pairwise (fun a b => a.1 < b.1)) :
    (E.insertionSort (fun a b => b.2 ≤ a.2)).Pairwise RankedBefore := by
  rw [List.pairwise_iff_forall_sublist]
  intro a b hab
  have hsorted : (E.insertionSort (fun a b => b.2 ≤ a.2)).Pairwise (fun a b => b.2 ≤ a.2) :=
    List.sorted_insertionSort (fun a b : Int × Nat => b.2 ≤ a.2) E
  have hle : b.2 ≤ a.2 := (List.pairwise_iff_forall_sublist.1 hsorted) hab
  rcases Nat.lt_or_ge b.2 a.2 with hlt | hge
  · exact Or.inl hlt
  · have heq : a.2 = b.2 := le_antisymm hge hle
    refine Or.inr ⟨heq, ?_⟩
    have hst := stable_insertionSort_filter (fun a b : Int × Nat => b.2 ≤ a.2)
      (fun e => decide (e.2 = a.2))
      (fun x y hx hy => by
        simp only [decide_eq_true_eq] at hx hy
        rw [hx, hy]) E
    have h1 := hab.filter (fun e => decide (e.2 = a.2))
    have hfa : ([a, b] : List (Int × Nat)).filter (fun e => decide (e.2 = a.2)) = [a, b] := by
      simp [List.filter_cons, heq]
    rw [hfa, hst] at h1
    have h2 : List.Sublist [a, b] E := h1.trans (List.filter_sublist E)
    exact (List.pairwise_iff_forall_sublist.1 hs) h2

theorem getHours_range (tz : TimeZone) (t : Int) : 0 ≤ getHours tz t ∧ getHours tz t ≤ 23 := by
  unfold getHours
  constructor
  · exact Int.emod_nonneg _ (by decide)
  · have := Int.emod_lt_of_pos (localMinutes tz t / 60) (by decide : (0 : Int) < 24)
    omega

theorem bestHoursOf_eq (tz : TimeZone) (good : List AtmosphereSnapshot) :
    bestHoursOf tz good
      = ((rankedHours (good.map (fun a => getHours tz a.timestamp))).take 3).map
          (fun e => e.1) := rfl

theorem rankedHours_facts (hours : List Int) :
    (rankedHours hours).Pairwise RankedBefore
      ∧ (∀ e ∈ rankedHours hours, e.2 = hours.count e.1 ∧ e.1 ∈ hours)
      ∧ (∀ h ∈ hours, (h, hours.count h) ∈ rankedHours hours)
      ∧ ((rankedHours hours).map (fun e => e.1)).Nodup
      ∧ (rankedHours hours).length = hours.dedup.length := by
  obtain ⟨h1, h2, h3⟩ := hourTable_hourCounts hours
  have hperm : (rankedHours hours).Perm (hourCounts hours) :=
    List.perm_insertionSort _ _
  have hmemE : ∀ e ∈ hourCounts hours, e.2 = hours.count e.1 ∧ e.1 ∈ hours := by
    intro e he
    have hc := storedCount_of_mem _ h1 e he
    rw [h3] at hc
    refine ⟨hc.symm, ?_⟩
    have hpos := h2 e he
    rw [← hc] at hpos
    exact List.count_pos_iff.1 hpos
  have hmemH : ∀ h ∈ hours, (h, hours.count h) ∈ hourCounts hours := by
    intro h hh
    have hpos : 0 < storedCount (hourCounts hours) h := by
      rw [h3]; exact List.count_pos_iff.2 hh
    have := mem_of_storedCount_pos _ h hpos
    rw [h3] at this
    exact this
  have hnodupE : ((hourCounts hours).map (fun e => e.1)).Nodup := by
    rw [List.Nodup, List.pairwise_map]
    exact h1.imp (fun hlt => ne_of_lt hlt)
  have hlenE : (hourCounts hours).length = hours.dedup.length := by
    have hp : ((hourCounts hours).map (fun e => e.1)).Perm hours.dedup := by
      rw [List.perm_ext_iff_of_nodup hnodupE (List.nodup_dedup hours)]
      intro k
      rw [List.mem_dedup, List.mem_map]
      constructor
      · rintro ⟨e, he, rfl⟩
        exact (hmemE e he).2
      · intro hk
        exact ⟨_, hmemH k hk, rfl⟩
    have := hp.length_eq
    rwa [List.length_map] at this
  refine ⟨ranked_insertionSort _ h1, ?_, ?_, ?_, ?_⟩
  · intro e he
    exact hmemE e (hperm.mem_iff.1 he)
  · intro h hh
    exact hperm.mem_iff.2 (hmemH h hh)
  · exact ((hperm.map (fun e => e.1)).nodup_iff).2 hnodupE
  · rw [hperm.length_eq, hlenE]

/-- C11: the hours listed in `bestHours` by `detectOptimalConditions` are
`min(3, number of distinct hours of the qualifying entries)` distinct hours between 0 and
23, each the hour of a qualifying entry; they are in descending order of the number of
qualifying entries in the hour, the earlier hour first among equal numbers; and every
hour of a qualifying entry that is left out comes after each listed hour in that order. -/
theorem bestHours_ranking (tz : TimeZone) (now : Int) (history : List AtmosphereSnapshot)
    (p : Pattern) (bestHours : List Int) (goodConditionCount : Nat)
    (h : detectOptimalConditions tz now (some history) = some p)
    (hd : p.data = PatternData.optimalViewing bestHours goodConditionCount) :
    bestHours.length = min 3 (qualifyingHours tz history).dedup.length
      ∧ bestHours.Nodup
      ∧ (∀ k ∈ bestHours, 0 ≤ k ∧ k ≤ 23 ∧ k ∈ qualifyingHours tz history)
      ∧ bestHours.Pairwise (fun a b =>
          (qualifyingHours tz history).count b < (qualifyingHours tz history).count a
            ∨ ((qualifyingHours tz history).count a = (qualifyingHours tz history).count b
                ∧ a < b))
      ∧ ∀ k ∈ qualifyingHours tz history, k ∉ bestHours → ∀ a ∈ bestHours,
          (qualifyingHours tz history).count k < (qualifyingHours tz history).count a
            ∨ ((qualifyingHours tz history).count a = (qualifyingHours tz history).count k
                ∧ a < k) := by
  rw [detectOptimalConditions_eq] at h
  split at h
  · exact absurd h (by simp)
  · simp only [Option.some.injEq] at h
    subst h
    simp only [optimalPattern, PatternData.optimalViewing.injEq] at hd
    obtain ⟨hb, _⟩ := hd
    rw [bestHoursOf_eq] at hb
    have hq : (history.filter isGoodCondition).map (fun a => getHours tz a.timestamp)
        = qualifyingHours tz history := rfl
    rw [hq] at hb
    obtain ⟨f1, f2, f3, f4, f5⟩ := rankedHours_facts (qualifyingHours tz history)
    have hsplit := List.take_append_drop 3 (rankedHours (qualifyingHours tz history))
    have htakeR : ((rankedHours (qualifyingHours tz history)).take 3).Pairwise RankedBefore :=
      f1.sublist (List.take_sublist _ _)
    have hmemT : ∀ e ∈ (rankedHours (qualifyingHours tz history)).take 3,
        e ∈ rankedHours (qualifyingHours tz history) :=
      fun e he => (List.take_sublist _ _).subset he
    subst hb
    refine ⟨?_, ?_, ?_, ?_, ?_⟩
    · rw [List.length_map, List.length_take, f5]
    · exact f4.sublist ((List.take_sublist _ _).map _)
    · intro k hk
      rw [List.mem_map] at hk
      obtain ⟨e, he, rfl⟩ := hk
      have hm := (f2 e (hmemT e he)).2
      refine ⟨?_, ?_, hm⟩
      · unfold qualifyingHours at hm
        rw [List.mem_map] at hm
        obtain ⟨a, _, ha⟩ := hm
        rw [← ha]; exact (getHours_range tz a.timestamp).1
      · unfold qualifyingHours at hm
        rw [List.mem_map] at hm
        obtain ⟨a, _, ha⟩ := hm
        rw [← ha]; exact (getHours_range tz a.timestamp).2
    · rw [List.pairwise_map]
      refine (List.Pairwise.and_mem.1 htakeR).imp ?_
      rintro a b ⟨ha, hb, hab⟩
      have ea := (f2 a (hmemT a ha)).1
      have eb := (f2 b (hmemT b hb)).1
      unfold RankedBefore at hab
      rw [ea, eb] at hab
      exact hab
    · intro k hk hnot a ha
      rw [List.mem_map] at ha
      obtain ⟨e, he, rfl⟩ := ha
      have hkmem := f3 k hk
      rw [← hsplit, List.mem_append] at hkmem
      have hdrop : (k, (qualifyingHours tz history).count k)
          ∈ (rankedHours (qualifyingHours tz history)).drop 3 := by
        rcases hkmem with h1 | h1
        · exact absurd (List.mem_map.2 ⟨_, h1, rfl⟩) hnot
        · exact h1
      rw [← hsplit, List.pairwise_append] at f1
      have hr := f1.2.2 e he _ hdrop
      have ee := (f2 e (hmemT e he)).1
      unfold RankedBefore at hr
      simp only at hr
      rw [ee] at hr
      exact hr

theorem filter_sixGoodHours : sixGoodHours.filter isGoodCondition = sixGoodHours := by
  rw [List.filter_eq_self]
  intro a ha
  simp only [sixGoodHours, List.mem_cons, List.mem_singleton, List.not_mem_nil, or_false] at ha
  rcases ha with h | h | h | h | h | h <;> subst h <;>
    simp [isGoodCondition, scoreSnapshot] <;> norm_num

theorem bestHoursOf_sixGoodHours : bestHoursOf utc sixGoodHours = [3, 9, 1] := by
  decide

/-- Witness for C11: with qualifying entries at 9, 3, 5, 3, 1 and 9 o'clock the listed
hours are 3, 9, 1: three of the four distinct hours, the two hours with two entries
first and the earlier of them before the later, then the earlier of the two hours with
one entry. -/
theorem bestHours_ranking_witness :
    (∃ p, detectOptimalConditions utc 0 (some sixGoodHours) = some p
        ∧ p.data = PatternData.optimalViewing [3, 9, 1] 6)
      ∧ ([3, 9, 1] : List Int).length = min 3 (qualifyingHours utc sixGoodHours).dedup.length
      ∧ ([3, 9, 1] : List Int).Nodup := by
  have h : detectOptimalConditions utc 0 (some sixGoodHours)
      = some (optimalPattern 0 [3, 9, 1] 6) := by
    rw [detectOptimalConditions_eq, filter_sixGoodHours, bestHoursOf_sixGoodHours]
    rfl
  have hspec := bestHours_ranking utc 0 sixGoodHours _ [3, 9, 1] 6 h rfl
  exact ⟨⟨_, h, rfl⟩, hspec.1, hspec.2.1⟩

/-! ## Moon-cloud correlation -/

/-- Evaluation for C13 (the defect): eight hours behind UTC, the record of date key day 1
is not paired with the snapshot captured at noon local time of day 1, and it is paired
with the snapshot captured at noon local time of day 0: `new Date(key)` is midnight UTC
of the key, which is still the previous day in local time. -/
theorem pairedPoints_previous_day :
    localDay pacific (86400000 + 72000000) = 1
      ∧ localDay pacific 72000000 = 0
      ∧ localDay pacific (dateKeyTime 1) = 0
      ∧ pairedPoints pacific [illuminationRecord 1 (some 50)]
          [cloudSnapshot (86400000 + 72000000) (some 40)] = []
      ∧ pairedPoints pacific [illuminationRecord 1 (some 50)]
          [cloudSnapshot 72000000 (some 40)] = [(50, 40)] := by
  refine ⟨by decide, by decide, by decide, ?_, ?_⟩
  · simp [pairedPoints, illuminationRecord, cloudSnapshot, localDay, localMinutes, pacific,
      dateKeyTime, List.find?_cons]
  · simp [pairedPoints, illuminationRecord, cloudSnapshot, localDay, localMinutes, pacific,
      dateKeyTime, List.find?_cons]

/-- East of Greenwich (offset from 0 to under a day) the local day of midnight UTC of a
date key is the day of the key. -/
theorem localDay_dateKeyTime_east (tz : TimeZone) (d : Int)
    (h0 : 0 ≤ tz (dateKeyTime d)) (h1 : tz (dateKeyTime d) < 1440) :
    localDay tz (dateKeyTime d) = d := by
  unfold localDay localMinutes
  generalize tz (dateKeyTime d) = o at h0 h1
  unfold dateKeyTime
  omega

/-- West of Greenwich (a negative offset of at most a day) the local day of midnight UTC
of a date key is the day before the key. -/
theorem localDay_dateKeyTime_west (tz : TimeZone) (d : Int)
    (h0 : -1440 ≤ tz (dateKeyTime d)) (h1 : tz (dateKeyTime d) < 0) :
    localDay tz (dateKeyTime d) = d - 1 := by
  unfold localDay localMinutes
  generalize tz (dateKeyTime d) = o at h0 h1
  unfold dateKeyTime
  omega

theorem pairedPoints_length_le (tz : TimeZone) (records : List DailyRecord)
    (history : List AtmosphereSnapshot) :
    (pairedPoints tz records history).length ≤ records.length := by
  unfold pairedPoints
  exact List.length_filterMap_le _ _

/-! ## Visibility patterns -/

theorem visibilitySeries_length_le (history : List AtmosphereSnapshot) :
    (visibilitySeries history).length ≤ history.length := by
  unfold visibilitySeries
  have := List.reduceOption_length_le (history.map (fun a => a.current.bind (fun c => c.visibility)))
  simpa using this

theorem visibilitySeries_eq_filterMap (history : List AtmosphereSnapshot) :
    visibilitySeries history
      = history.filterMap (fun a => a.current.bind (fun c => c.visibility)) := by
  unfold visibilitySeries List.reduceOption
  rw [List.filterMap_map]
  rfl

theorem detectVisibilityPatterns_eq (now : Int) (history : List AtmosphereSnapshot) :
    detectVisibilityPatterns now (some history)
      = if (visibilitySeries history).length < 5 then none
        else if goodFraction history > 7 / 10 then
          some (goodVisibilityPattern now (averageKm history) (goodFraction history))
        else if poorFraction history > 1 / 2 then
          some (poorVisibilityPattern now (averageKm history) (poorFraction history))
        else none := by
  unfold detectVisibilityPatterns
  by_cases h5 : history.length < 5
  · have := visibilitySeries_length_le history
    rw [if_pos (by omega)]
    simp only [h5, if_true]
  · simp only [h5, if_false]
    rfl

theorem filter_disjoint_length {α : Type} (l : List α) (a b : α → Bool)
    (hab : ∀ x, a x = true → b x = true → False) :
    (l.filter a).length + (l.filter b).length ≤ l.length := by
  induction l with
  | nil => simp
  | cons x rest ih =>
    cases ha : a x <;> cases hb : b x
    · simp only [List.filter_cons, ha, hb, Bool.false_eq_true, if_false, List.length_cons]
      omega
    · simp only [List.filter_cons, ha, hb, Bool.false_eq_true, if_false, if_true,
        List.length_cons]
      omega
    · simp only [List.filter_cons, ha, hb, Bool.false_eq_true, if_false, if_true,
        List.length_cons]
      omega
    · exact absurd (hab x ha hb) id

theorem fractions_exclusive (history : List AtmosphereSnapshot) :
    ¬ (goodFraction history > 7 / 10 ∧ poorFraction history > 1 / 2) := by
  rintro ⟨hg, hp⟩
  unfold goodFraction at hg
  unfold poorFraction at hp
  have hsum := filter_disjoint_length (visibilitySeries history)
    (fun v => decide (v > 15000)) (fun v => decide (v < 8000))
    (fun x h1 h2 => by
      simp only [decide_eq_true_eq] at h1 h2
      linarith)
  have hsumq : (((visibilitySeries history).filter (fun v => decide (v > 15000))).length : ℚ)
      + (((visibilitySeries history).filter (fun v => decide (v < 8000))).length : ℚ)
      ≤ ((visibilitySeries history).length : ℚ) := by exact_mod_cast hsum
  rcases Nat.eq_zero_or_pos (visibilitySeries history).length with h0 | hpos
  · rw [h0] at hg
    simp at hg
    linarith
  · have hn : (0 : ℚ) < ((visibilitySeries history).length : ℚ) := by exact_mod_cast hpos
    rw [gt_iff_lt, lt_div_iff₀ hn] at hg hp
    linarith

/-- C14: with fewer than 5 non-null visibilities `detectVisibilityPatterns` returns no
result; with at least 5 (`N` values, `g` above 15000 m, `p` below 8000 m) it returns the
optimal pattern `good-visibility` with confidence `g/N` when `g/N > 0.7`, else the anomaly
pattern `poor-visibility` with confidence `p/N` when `p/N > 0.5`, else no result. -/
theorem detectVisibilityPatterns_spec (now : Int) (history : List AtmosphereSnapshot) :
    visibilitySeries history
        = history.filterMap (fun a => a.current.bind (fun c => c.visibility))
      ∧ ((visibilitySeries history).length < 5 →
          detectVisibilityPatterns now (some history) = none)
      ∧ (5 ≤ (visibilitySeries history).length → goodFraction history > 7 / 10 →
          ∃ p, detectVisibilityPatterns now (some history) = some p
            ∧ p.id = "good-visibility" ∧ p.type = PatternType.optimal
            ∧ p.confidence = Surd.ofRat (goodFraction history))
      ∧ (5 ≤ (visibilitySeries history).length → ¬ goodFraction history > 7 / 10 →
          poorFraction history > 1 / 2 →
          ∃ p, detectVisibilityPatterns now (some history) = some p
            ∧ p.id = "poor-visibility" ∧ p.type = PatternType.anomaly
            ∧ p.confidence = Surd.ofRat (poorFraction history))
      ∧ (5 ≤ (visibilitySeries history).length → ¬ goodFraction history > 7 / 10 →
          ¬ poorFraction history > 1 / 2 →
          detectVisibilityPatterns now (some history) = none) := by
  rw [detectVisibilityPatterns_eq]
  refine ⟨visibilitySeries_eq_filterMap history, ?_, ?_, ?_, ?_⟩
  · intro h
    rw [if_pos h]
  · intro h5 hg
    rw [if_neg (by omega), if_pos hg]
    exact ⟨_, rfl, rfl, rfl, rfl⟩
  · intro h5 hg hp
    rw [if_neg (by omega), if_neg hg, if_pos hp]
    exact ⟨_, rfl, rfl, rfl, rfl⟩
  · intro h5 hg hp
    rw [if_neg (by omega), if_neg hg, if_neg hp]

/-- C15: the two trigger conditions of `detectVisibilityPatterns` never hold together,
so testing them in the other order gives the same result. -/
theorem detectVisibilityPatterns_exclusive (now : Int) (history : List AtmosphereSnapshot) :
    ¬ (goodFraction history > 7 / 10 ∧ poorFraction history > 1 / 2)
      ∧ detectVisibilityPatterns now (some history)
          = if (visibilitySeries history).length < 5 then none
            else if poorFraction history > 1 / 2 then
              some (poorVisibilityPattern now (averageKm history) (poorFraction history))
            else if goodFraction history > 7 / 10 then
              some (goodVisibilityPattern now (averageKm history) (goodFraction history))
            else none := by
  have hex := fractions_exclusive history
  refine ⟨hex, ?_⟩
  rw [detectVisibilityPatterns_eq]
  by_cases h5 : (visibilitySeries history).length < 5
  · rw [if_pos h5, if_pos h5]
  · rw [if_neg h5, if_neg h5]
    by_cases hg : goodFraction history > 7 / 10
    · have hp : ¬ poorFraction history > 1 / 2 := fun hp => hex ⟨hg, hp⟩
      rw [if_pos hg, if_neg hp, if_pos hg]
    · rw [if_neg hg]
      by_cases hp : poorFraction history > 1 / 2
      · rw [if_pos hp, if_pos hp]
      · rw [if_neg hp, if_neg hp, if_neg hg]

theorem visibilitySeries_alternatingLog :
    visibilitySeries alternatingLog
      = [20000, 5000, 20000, 5000, 20000, 5000, 20000, 5000, 20000, 5000] := by
  have h10 : List.range 10 = [0, 1, 2, 3, 4, 5, 6, 7, 8, 9] := by decide
  unfold alternatingLog
  rw [h10]
  simp [visibilitySeries, visibilitySnapshot, List.reduceOption]

theorem visibilitySeries_clearLog :
    visibilitySeries clearLog = [20000, 20000, 20000, 20000, 20000] := by
  have h5 : List.range 5 = [0, 1, 2, 3, 4] := by decide
  unfold clearLog
  rw [h5]
  simp [visibilitySeries, visibilitySnapshot, List.reduceOption]

theorem fractions_alternatingLog :
    goodFraction alternatingLog = 1 / 2 ∧ poorFraction alternatingLog = 1 / 2 := by
  unfold goodFraction poorFraction
  rw [visibilitySeries_alternatingLog]
  constructor
  · simp [List.filter_cons]
    norm_num
  · simp [List.filter_cons]
    norm_num

theorem goodFraction_clearLog : goodFraction clearLog = 1 := by
  unfold goodFraction
  rw [visibilitySeries_clearLog]
  norm_num [List.filter_cons]

/-- Witness for C14: ten snapshots alternating between 20000 m and 5000 m give no result
(both fractions are 0.5); five snapshots of 20000 m give `good-visibility` with
confidence 1; four snapshots give no result. -/
theorem detectVisibilityPatterns_spec_witness :
    detectVisibilityPatterns 0 (some alternatingLog) = none
      ∧ (∃ p, detectVisibilityPatterns 0 (some clearLog) = some p
          ∧ p.id = "good-visibility" ∧ p.confidence = Surd.ofRat 1)
      ∧ detectVisibilityPatterns 0 (some clearLog.tail) = none := by
  have hf := fractions_alternatingLog
  refine ⟨?_, ?_, ?_⟩
  · apply (detectVisibilityPatterns_spec 0 alternatingLog).2.2.2.2
    · rw [visibilitySeries_alternatingLog]; decide
    · rw [hf.1]; norm_num
    · rw [hf.2]; norm_num
  · obtain ⟨p, hp, hid, _, hconf⟩ := (detectVisibilityPatterns_spec 0 clearLog).2.2.1
      (by rw [visibilitySeries_clearLog]; decide) (by rw [goodFraction_clearLog]; norm_num)
    rw [goodFraction_clearLog] at hconf
    exact ⟨p, hp, hid, hconf⟩
  · apply (detectVisibilityPatterns_spec 0 clearLog.tail).2.1
    have h5 : List.range 5 = [0, 1, 2, 3, 4] := by decide
    unfold clearLog
    rw [h5]
    simp [visibilitySeries, visibilitySnapshot, List.reduceOption]

/-! ## Actions of the patterns store -/

theorem nodup_ids_mergeDetected (stored detected : List Pattern) :
    ((mergeDetected stored detected).map Pattern.id).Nodup := by
  have hok : MapOk (detected.foldl mergeOne (mapOfPatterns stored)) :=
    mapOk_foldl_mergeOne _ _ (mapOk_foldl_mapSet _ _ mapOk_nil)
  unfold mergeDetected
  have hperm := (perm_sortByConfidence
    (mapValues (detected.foldl mergeOne (mapOfPatterns stored)))).map Pattern.id
  rw [hperm.nodup_iff, ids_mapValues _ hok.1]
  exact hok.2

theorem sorted_mergeDetected (stored detected : List Pattern) :
    (mergeDetected stored detected).Pairwise (fun a b => b.confidence ≤ a.confidence) :=
  sorted_sortByConfidence _

theorem upsertIfBetter_mono (key : String) (e p : Pattern) :
    ∃ e2, upsertIfBetter key (some e) p = some e2 ∧ e.confidence ≤ e2.confidence := by
  unfold upsertIfBetter
  by_cases hk : p.id = key
  · by_cases hc : e.confidence < p.confidence
    · refine ⟨p, by simp [hk, hc], ?_⟩
      rw [Surd.lt_def] at hc
      rw [Surd.le_def]
      exact le_of_lt hc
    · exact ⟨e, by simp [hk, hc], by rw [Surd.le_def]⟩
  · exact ⟨e, by simp [hk], by rw [Surd.le_def]⟩

theorem foldl_upsertIfBetter_mono (key : String) (detected : List Pattern) (e : Pattern) :
    ∃ e2, detected.foldl (upsertIfBetter key) (some e) = some e2
      ∧ e.confidence ≤ e2.confidence := by
  induction detected generalizing e with
  | nil => exact ⟨e, rfl, by rw [Surd.le_def]⟩
  | cons p rest ih =>
    obtain ⟨e1, h1, hle1⟩ := upsertIfBetter_mono key e p
    obtain ⟨e2, h2, hle2⟩ := ih e1
    refine ⟨e2, ?_, ?_⟩
    · rw [List.foldl_cons, h1, h2]
    · rw [Surd.le_def] at *
      exact le_trans hle1 hle2

theorem mergeDetected_mono (stored detected : List Pattern)
    (hn : (stored.map Pattern.id).Nodup) (key : String) (p : Pattern)
    (h : findById stored key = some p) :
    ∃ p2, findById (mergeDetected stored detected) key = some p2
      ∧ p.confidence ≤ p2.confidence := by
  rw [findById_mergeDetected stored detected hn key, h]
  exact foldl_upsertIfBetter_mono key detected p

theorem nodup_ids_detectRuns (tz : TimeZone) (runs : List (Int × List DailyRecord))
    (state : PatternsState) (hn : (state.patterns.map Pattern.id).Nodup) :
    ((detectRuns tz runs state).patterns.map Pattern.id).Nodup := by
  induction runs generalizing state with
  | nil => exact hn
  | cons run rest ih =>
    unfold detectRuns
    rw [List.foldl_cons]
    exact ih _ (nodup_ids_mergeDetected _ _)

theorem detectRuns_mono (tz : TimeZone) (runs : List (Int × List DailyRecord))
    (state : PatternsState) (hn : (state.patterns.map Pattern.id).Nodup) (key : String)
    (p : Pattern) (h : findById state.patterns key = some p) :
    ∃ p2, findById (detectRuns tz runs state).patterns key = some p2
      ∧ p.confidence ≤ p2.confidence := by
  induction runs generalizing state p with
  | nil => exact ⟨p, h, by rw [Surd.le_def]⟩
  | cons run rest ih =>
    obtain ⟨p1, h1, hle1⟩ := mergeDetected_mono state.patterns
      (detectAllPatterns tz run.1 run.2 (some state.atmosphereHistory)) hn key p h
    obtain ⟨p2, h2, hle2⟩ := ih (detectPatterns tz run.1 run.2 state).1
      (nodup_ids_mergeDetected _ _) p1 h1
    refine ⟨p2, ?_, ?_⟩
    · unfold detectRuns at h2 ⊢
      rw [List.foldl_cons]
      exact h2
    · rw [Surd.le_def] at *
      exact le_trans hle1 hle2

theorem detectRuns_append (tz : TimeZone) (runs more : List (Int × List DailyRecord))
    (state : PatternsState) :
    detectRuns tz (runs ++ more) state = detectRuns tz more (detectRuns tz runs state) := by
  unfold detectRuns
  rw [List.foldl_append]

/-- C16: along any sequence of `detectPatterns` calls, started in a state whose stored
ids are distinct, a pattern id that is stored after some of the calls is still stored
after any further calls, with a confidence that is not smaller; in particular from one
call to the next. -/
theorem merge_monotone (tz : TimeZone) (state : PatternsState)
    (hn : (state.patterns.map Pattern.id).Nodup)
    (runs more : List (Int × List DailyRecord)) (key : String) (p : Pattern)
    (h : findById (detectRuns tz runs state).patterns key = some p) :
    ∃ p2, findById (detectRuns tz (runs ++ more) state).patterns key = some p2
      ∧ p.confidence ≤ p2.confidence := by
  rw [detectRuns_append]
  exact detectRuns_mono tz more _ (nodup_ids_detectRuns tz runs state hn) key p h

/-- Witness for C16: from the state that stores `x` with confidence 0.6, after one run and
after two runs `x` is still stored, with a confidence of at least 0.6. -/
theorem merge_monotone_witness :
    ∃ p2, findById (detectRuns utc ([] ++ [(1, decreasingDays), (2, [])])
          { patterns := [scenarioPattern (6 / 10)], atmosphereHistory := [],
            lastDetection := none }).patterns "x" = some p2
      ∧ Surd.ofRat (6 / 10) ≤ p2.confidence :=
  merge_monotone utc
    { patterns := [scenarioPattern (6 / 10)], atmosphereHistory := [], lastDetection := none }
    (by simp) [] [(1, decreasingDays), (2, [])] "x" (scenarioPattern (6 / 10))
    (by simp [detectRuns, findById, scenarioPattern])

theorem reachable_invariant (state : PatternsState) (h : Reachable state) :
    (state.patterns.map Pattern.id).Nodup
      ∧ state.patterns.Pairwise (fun a b => b.confidence ≤ a.confidence) := by
  induction h with
  | init => simp [initialPatternsState]
  | atmosphere now data st _ ih =>
    have e : (recordAtmosphere now data st).patterns = st.patterns := by
      unfold recordAtmosphere
      split <;> rfl
    rw [e]; exact ih
  | detect tz now records st _ _ =>
    exact ⟨nodup_ids_mergeDetected _ _, sorted_mergeDetected _ _⟩
  | dismiss patternId st _ ih =>
    have hsub : List.Sublist (dismissPattern patternId st).patterns st.patterns :=
      List.filter_sublist _
    exact ⟨ih.1.sublist (hsub.map _), ih.2.sublist hsub⟩
  | clear st _ _ => simp [clearPatterns]

/-- C18: `dismissPattern(id)` leaves no stored pattern with that id, keeps every other
pattern in its place (the result is the stored list without the patterns of that id),
and leaves `lastDetection` and the atmosphere history as they were; dismissing twice is
dismissing once, and dismissing an id that is not stored changes nothing. -/
theorem dismissPattern_spec (patternId : String) (state : PatternsState) :
    (∀ p ∈ (dismissPattern patternId state).patterns, p.id ≠ patternId)
      ∧ (∀ p ∈ state.patterns, p.id ≠ patternId → p ∈ (dismissPattern patternId state).patterns)
      ∧ List.Sublist (dismissPattern patternId state).patterns state.patterns
      ∧ (∀ key, key ≠ patternId →
          (dismissPattern patternId state).patterns.filter (fun p => decide (p.id = key))
            = state.patterns.filter (fun p => decide (p.id = key)))
      ∧ (∀ keep : Pattern → Bool, (∀ p, p.id = patternId → keep p = false) →
          (dismissPattern patternId state).patterns.filter keep = state.patterns.filter keep)
      ∧ (dismissPattern patternId state).lastDetection = state.lastDetection
      ∧ (dismissPattern patternId state).atmosphereHistory = state.atmosphereHistory
      ∧ dismissPattern patternId (dismissPattern patternId state)
          = dismissPattern patternId state
      ∧ ((∀ p ∈ state.patterns, p.id ≠ patternId) → dismissPattern patternId state = state) := by
  have hkeep : ∀ keep : Pattern → Bool, (∀ p, p.id = patternId → keep p = false) →
      (dismissPattern patternId state).patterns.filter keep = state.patterns.filter keep := by
    intro keep hk
    simp only [dismissPattern, List.filter_filter]
    apply List.filter_congr
    intro p _
    by_cases hp : p.id = patternId
    · simp [hk p hp]
    · simp [hp]
  refine ⟨?_, ?_, List.filter_sublist _, ?_, hkeep, rfl, rfl, ?_, ?_⟩
  · intro p hp
    simp only [dismissPattern, List.mem_filter, decide_eq_true_eq] at hp
    exact hp.2
  · intro p hp hne
    simp only [dismissPattern, List.mem_filter, decide_eq_true_eq]
    exact ⟨hp, hne⟩
  · intro key hkey
    apply hkeep
    intro p hp
    simp only [decide_eq_false_iff_not]
    rw [hp]
    exact fun h => hkey h.symm
  · simp only [dismissPattern, List.filter_filter, Bool.and_self]
  · intro h
    have : state.patterns.filter (fun p => decide (p.id ≠ patternId)) = state.patterns := by
      rw [List.filter_eq_self]
      intro p hp
      simp only [decide_eq_true_eq]
      exact h p hp
    simp only [dismissPattern, this]

/-- Witness for C18: dismissing `x` from a state that stores `x` and `y` keeps `y` and
the time of the last detection; dismissing `z`, which is not stored, changes nothing. -/
theorem dismissPattern_spec_witness :
    namedPattern "y" (4 / 10) ∈ (dismissPattern "x" twoPatternsState).patterns
      ∧ (dismissPattern "x" twoPatternsState).lastDetection = some 7
      ∧ dismissPattern "z" twoPatternsState = twoPatternsState :=
  ⟨(dismissPattern_spec "x" twoPatternsState).2.1 _ (by simp [twoPatternsState])
      (by simp [namedPattern]),
   (dismissPattern_spec "x" twoPatternsState).2.2.2.2.2.1,
   (dismissPattern_spec "z" twoPatternsState).2.2.2.2.2.2.2.2
      (by simp [twoPatternsState, namedPattern])⟩

/-! ## Backfill of the history store -/

theorem recordsGet_recordsSet_self (table : RecordTable) (key : Int) (record : DailyRecord) :
    recordsGet (recordsSet table key record) key = some record := by
  induction table with
  | nil => simp [recordsSet, recordsGet]
  | cons e rest ih =>
    obtain ⟨k, v⟩ := e
    by_cases h : k = key
    · simp [recordsSet, recordsGet, h]
    · simp [recordsSet, recordsGet, h, ih]

theorem recordsGet_recordsSet_of_ne (table : RecordTable) (key other : Int)
    (record : DailyRecord) (hne : key ≠ other) :
    recordsGet (recordsSet table key record) other = recordsGet table other := by
  induction table with
  | nil => simp [recordsSet, recordsGet, hne]
  | cons e rest ih =>
    obtain ⟨k, v⟩ := e
    by_cases h : k = key
    · subst h
      simp [recordsSet, recordsGet, hne]
    · by_cases h2 : k = other
      · subst h2
        simp [recordsSet, recordsGet, h]
      · simp [recordsSet, recordsGet, h, h2, ih]

theorem recordsGet_eq_none_iff (table : RecordTable) (key : Int) :
    recordsGet table key = none ↔ key ∉ table.map Prod.fst := by
  induction table with
  | nil => simp [recordsGet]
  | cons e rest ih =>
    obtain ⟨k, v⟩ := e
    by_cases h : k = key
    · simp [recordsGet, h]
    · have h2 : ¬ key = k := fun e => h e.symm
      simp [recordsGet, h, h2, ih]

theorem recordsSet_of_absent (table : RecordTable) (key : Int) (record : DailyRecord)
    (h : recordsGet table key = none) :
    recordsSet table key record = table ++ [(key, record)] := by
  induction table with
  | nil => rfl
  | cons e rest ih =>
    obtain ⟨k, v⟩ := e
    by_cases hk : k = key
    · simp [recordsGet, hk] at h
    · simp only [recordsGet, hk, if_false] at h
      simp only [recordsSet, hk, if_false, List.cons_append, ih h]

theorem optionalISOString_ok (d : Option JsDate) (h : d ≠ some JsDate.invalid) :
    ∃ v, optionalISOString d = Except.ok v := by
  cases d with
  | none => exact ⟨none, rfl⟩
  | some x =>
    cases x with
    | valid t => exact ⟨some t, rfl⟩
    | invalid => exact absurd rfl h

/-- What one pass of the loop does when it does not throw: a day already held is
skipped, a day not held receives a new record for its key and the given location. -/
theorem backfillDay_ok (host : Host) (oracle : Oracle) (now : Int) (location : Location)
    (acc next : RecordTable × Option Int) (i : Nat)
    (h : backfillDay host oracle now location acc i = Except.ok next) :
    ((∃ r, recordsGet acc.1 (windowKey host now i) = some r) ∧ next = acc)
      ∨ (recordsGet acc.1 (windowKey host now i) = none
          ∧ ∃ record : DailyRecord, record.date = windowKey host now i
              ∧ record.location = location
              ∧ next.1 = acc.1 ++ [(windowKey host now i, record)]) := by
  unfold backfillDay at h
  simp only at h
  split at h
  · rename_i r hr
    simp only [Except.ok.injEq] at h
    exact Or.inl ⟨⟨r, hr⟩, h.symm⟩
  · rename_i hnone
    split at h
    · simp only [Except.ok.injEq] at h
      subst h
      refine Or.inr ⟨hnone, _, ?_, ?_, recordsSet_of_absent _ _ _ hnone⟩
      · rfl
      · rfl
    · exact absurd h (by simp)

theorem backfillDay_of_present (host : Host) (oracle : Oracle) (now : Int)
    (location : Location) (acc : RecordTable × Option Int) (i : Nat) (r : DailyRecord)
    (h : recordsGet acc.1 (windowKey host now i) = some r) :
    backfillDay host oracle now location acc i = Except.ok acc := by
  unfold backfillDay
  simp only
  unfold windowKey at h
  rw [h]

theorem backfillDay_total (host : Host) (oracle : Oracle) (hv : OracleValid oracle) (now : Int)
    (location : Location) (acc : RecordTable × Option Int) (i : Nat) :
    ∃ next, backfillDay host oracle now location acc i = Except.ok next := by
  unfold backfillDay
  simp only
  split
  · exact ⟨acc, rfl⟩
  · obtain ⟨h1, h2, h3, h4, h5, h6, h7⟩ :=
      hv (host.localNoon (localDay host.tz now - (i : Int))) location.lat location.lng
    obtain ⟨v1, e1⟩ := optionalISOString_ok _ h1
    obtain ⟨v2, e2⟩ := optionalISOString_ok _ h2
    obtain ⟨v3, e3⟩ := optionalISOString_ok _ h3
    obtain ⟨v4, e4⟩ := optionalISOString_ok _ h4
    obtain ⟨v5, e5⟩ := optionalISOString_ok _ h5
    obtain ⟨v6, e6⟩ := optionalISOString_ok _ h6
    obtain ⟨v7, e7⟩ := optionalISOString_ok _ h7
    rw [e1, e2, e3, e4, e5, e6, e7]
    exact ⟨_, rfl⟩

theorem backfillDay_same_day (host : Host) (oracle : Oracle) (now other : Int)
    (hday : localDay host.tz other = localDay host.tz now) (location : Location)
    (acc : RecordTable × Option Int) (i : Nat) :
    backfillDay host oracle other location acc i = backfillDay host oracle now location acc i := by
  unfold backfillDay
  rw [hday]

theorem recordsGet_append (table more : RecordTable) (key : Int) :
    recordsGet (table ++ more) key
      = match recordsGet table key with
        | some r => some r
        | none => recordsGet more key := by
  induction table with
  | nil => simp [recordsGet]
  | cons e rest ih =>
    obtain ⟨k, v⟩ := e
    by_cases h : k = key
    · simp [recordsGet, h]
    · simp only [List.cons_append, recordsGet, h, if_false]
      exact ih

theorem mem_of_recordsGet (table : RecordTable) (key : Int) (r : DailyRecord)
    (h : recordsGet table key = some r) : (key, r) ∈ table := by
  induction table with
  | nil => simp [recordsGet] at h
  | cons e rest ih =>
    obtain ⟨k, v⟩ := e
    by_cases hk : k = key
    · simp only [recordsGet, hk, if_true, Option.some.injEq] at h
      rw [hk, h]; exact List.mem_cons_self _ _
    · simp only [recordsGet, hk, if_false] at h
      exact List.mem_cons_of_mem _ (ih h)

/-- What the loop of `backfillHistory` has done when it ends without a throw: the table
is the old table followed by new entries, each for a day of the window that was not
held, keyed by its date and carrying the given location; every day of the window is
then held. -/
theorem backfillLoop_ok (host : Host) (oracle : Oracle) (now : Int) (location : Location)
    (l : List Nat) (acc final : RecordTable × Option Int)
    (h : backfillLoop host oracle now location l acc = Except.ok final) :
    (∃ added : RecordTable, final.1 = acc.1 ++ added
        ∧ (∀ e ∈ added, e.2.date = e.1 ∧ e.2.location = location
            ∧ recordsGet acc.1 e.1 = none ∧ ∃ i ∈ l, e.1 = windowKey host now i)
        ∧ (added.map Prod.fst).Nodup)
      ∧ ∀ i ∈ l, ∃ r, recordsGet final.1 (windowKey host now i) = some r := by
  induction l generalizing acc with
  | nil =>
    simp only [backfillLoop, Except.ok.injEq] at h
    subst h
    exact ⟨⟨[], by simp, by simp, by simp⟩, by simp⟩
  | cons i rest ih =>
    unfold backfillLoop at h
    split at h
    · rename_i next hday
      obtain ⟨⟨added, hfinal, hadded, hnodup⟩, hwin⟩ := ih next h
      rcases backfillDay_ok host oracle now location acc next i hday with
        ⟨⟨r, hr⟩, hnext⟩ | ⟨hnone, record, hdate, hloc, hnext⟩
      · subst hnext
        refine ⟨⟨added, hfinal, ?_, hnodup⟩, ?_⟩
        · intro e he
          obtain ⟨h1, h2, h3, j, hj, h4⟩ := hadded e he
          exact ⟨h1, h2, h3, j, List.mem_cons_of_mem _ hj, h4⟩
        · intro j hj
          rcases List.mem_cons.1 hj with hj | hj
          · subst hj
            refine ⟨r, ?_⟩
            rw [hfinal, recordsGet_append, hr]
          · exact hwin j hj
      · have hkey : recordsGet next.1 (windowKey host now i) = some record := by
          rw [hnext, recordsGet_append, hnone]
          simp [recordsGet]
        refine ⟨⟨(windowKey host now i, record) :: added, ?_, ?_, ?_⟩, ?_⟩
        · rw [hfinal, hnext]; simp
        · intro e he
          rcases List.mem_cons.1 he with he | he
          · subst he
            exact ⟨hdate, hloc, hnone, i, List.mem_cons_self _ _, rfl⟩
          · obtain ⟨h1, h2, h3, j, hj, h4⟩ := hadded e he
            refine ⟨h1, h2, ?_, j, List.mem_cons_of_mem _ hj, h4⟩
            rw [hnext, recordsGet_append] at h3
            cases hc : recordsGet acc.1 e.1 with
            | none => rfl
            | some v => rw [hc] at h3; exact absurd h3 (by simp)
        · rw [List.map_cons, List.nodup_cons]
          refine ⟨?_, hnodup⟩
          intro hmem
          rw [List.mem_map] at hmem
          obtain ⟨e, he, hek⟩ := hmem
          have h3 := (hadded e he).2.2.1
          rw [hek, hkey] at h3
          exact absurd h3 (by simp)
        · intro j hj
          rcases List.mem_cons.1 hj with hj | hj
          · subst hj
            refine ⟨record, ?_⟩
            rw [hfinal, recordsGet_append, hkey]
          · exact hwin j hj
    · exact absurd h (by simp)

theorem backfillLoop_of_present (host : Host) (oracle : Oracle) (now : Int)
    (location : Location) (l : List Nat) (acc : RecordTable × Option Int)
    (h : ∀ i ∈ l, ∃ r, recordsGet acc.1 (windowKey host now i) = some r) :
    backfillLoop host oracle now location l acc = Except.ok acc := by
  induction l with
  | nil => rfl
  | cons i rest ih =>
    obtain ⟨r, hr⟩ := h i (List.mem_cons_self _ _)
    unfold backfillLoop
    rw [backfillDay_of_present host oracle now location acc i r hr]
    exact ih (fun j hj => h j (List.mem_cons_of_mem _ hj))

theorem backfillLoop_total (host : Host) (oracle : Oracle) (hv : OracleValid oracle)
    (now : Int) (location : Location) (l : List Nat) (acc : RecordTable × Option Int) :
    ∃ final, backfillLoop host oracle now location l acc = Except.ok final := by
  induction l generalizing acc with
  | nil => exact ⟨acc, rfl⟩
  | cons i rest ih =>
    obtain ⟨next, hnext⟩ := backfillDay_total host oracle hv now location acc i
    obtain ⟨final, hfinal⟩ := ih next
    refine ⟨final, ?_⟩
    unfold backfillLoop
    rw [hnext]
    exact hfinal

theorem backfillLoop_same_day (host : Host) (oracle : Oracle) (now other : Int)
    (hday : localDay host.tz other = localDay host.tz now) (location : Location)
    (l : List Nat) (acc : RecordTable × Option Int) :
    backfillLoop host oracle other location l acc
      = backfillLoop host oracle now location l acc := by
  induction l generalizing acc with
  | nil => rfl
  | cons i rest ih =>
    unfold backfillLoop
    rw [backfillDay_same_day host oracle now other hday]
    split
    · exact ih _
    · rfl

theorem backfillHistory_same_day (host : Host) (oracle : Oracle) (now other : Int)
    (hday : localDay host.tz other = localDay host.tz now) (days : Nat) (location : Location)
    (state : HistoryState) :
    backfillHistory host oracle other days location state
      = backfillHistory host oracle now days location state := by
  unfold backfillHistory
  rw [backfillLoop_same_day host oracle now other hday]

theorem backfillHistory_again (host : Host) (oracle : Oracle) (now : Int) (days : Nat)
    (location : Location) (state after : HistoryState) (n : Nat)
    (h : backfillHistory host oracle now days location state = Except.ok (after, n)) :
    backfillHistory host oracle now days location after = Except.ok (after, n) := by
  unfold backfillHistory at h
  split at h
  · rename_i newRecords firstDate hloop
    simp only [Except.ok.injEq, Prod.mk.injEq] at h
    obtain ⟨hafter, hn⟩ := h
    have hwin := (backfillLoop_ok host oracle now location _ _ _ hloop).2
    simp only at hwin
    have hrec : after.dailyRecords = newRecords := by rw [← hafter]
    have hagain := backfillLoop_of_present host oracle now location
      (List.range (days + 1)).reverse (after.dailyRecords, none)
      (by rw [hrec]; exact hwin)
    unfold backfillHistory
    rw [hagain]
    simp only [Except.ok.injEq, Prod.mk.injEq]
    exact ⟨trivial, by rw [hrec, hn]⟩
  · exact absurd h (by simp)

theorem afterBackfill_keeps (host : Host) (oracle : Oracle) (now : Int) (days : Nat)
    (location : Location) (state : HistoryState) (key : Int) (r : DailyRecord)
    (h : recordsGet state.dailyRecords key = some r) :
    recordsGet (afterBackfill host oracle now days location state).dailyRecords key = some r := by
  unfold afterBackfill
  cases hb : backfillHistory host oracle now days location state with
  | error e => exact h
  | ok result =>
    unfold backfillHistory at hb
    split at hb
    · rename_i newRecords firstDate hloop
      simp only [Except.ok.injEq] at hb
      subst hb
      obtain ⟨⟨added, hfinal, _, _⟩, _⟩ := backfillLoop_ok host oracle now location _ _ _ hloop
      simp only at hfinal ⊢
      rw [hfinal, recordsGet_append, h]
    · exact absurd hb (by simp)

/-- C19: the state left by a second call of `backfillHistory(N, loc)` on the same local
day is the state left by the first call, whether the call throws or not; and a record
held before a call, for any window and location, is held unchanged after it. -/
theorem backfill_idempotent (host : Host) (oracle : Oracle) (now again : Int)
    (hday : localDay host.tz again = localDay host.tz now) (days : Nat) (location : Location)
    (state : HistoryState) :
    afterBackfill host oracle again days location
        (afterBackfill host oracle now days location state)
        = afterBackfill host oracle now days location state
      ∧ ∀ (anyNow : Int) (anyDays : Nat) (anyLocation : Location) (key : Int)
          (r : DailyRecord), recordsGet state.dailyRecords key = some r →
          recordsGet (afterBackfill host oracle anyNow anyDays anyLocation state).dailyRecords
            key = some r := by
  refine ⟨?_, fun anyNow anyDays anyLocation key r h =>
    afterBackfill_keeps host oracle anyNow anyDays anyLocation state key r h⟩
  unfold afterBackfill
  rw [backfillHistory_same_day host oracle now again hday]
  cases hb : backfillHistory host oracle now days location state with
  | error e =>
    simp only
    rw [hb]
  | ok result =>
    obtain ⟨after, n⟩ := result
    simp only
    rw [backfillHistory_again host oracle now days location state after n hb]

theorem oracleValid_nightOracle : OracleValid nightOracle := by
  intro t lat lng
  simp [nightOracle]

theorem noon_fixedOffsetHost (offset : Int) (h0 : -720 < offset) (h1 : offset ≤ 720)
    (d : Int) : formatDateKey ((fixedOffsetHost offset).localNoon d) = d := by
  unfold formatDateKey fixedOffsetHost
  simp only
  omega

/-- Witness for C19: on the empty store, a second backfill of 2 days leaves what the
first one left. -/
theorem backfill_idempotent_witness :
    afterBackfill (fixedOffsetHost 0) nightOracle 5 2 locationA
        (afterBackfill (fixedOffsetHost 0) nightOracle 0 2 locationA emptyHistory)
      = afterBackfill (fixedOffsetHost 0) nightOracle 0 2 locationA emptyHistory :=
  (backfill_idempotent (fixedOffsetHost 0) nightOracle 0 5 (by decide) 2 locationA
    emptyHistory).1

theorem recordsGet_isSome_iff (table : RecordTable) (key : Int) :
    (∃ r, recordsGet table key = some r) ↔ key ∈ table.map Prod.fst := by
  have h := recordsGet_eq_none_iff table key
  cases hc : recordsGet table key with
  | none =>
    rw [hc] at h
    simp only [true_iff] at h
    simp [h]
  | some r =>
    rw [hc] at h
    simp only [false_iff, not_not, reduceCtorEq] at h
    simp [h]

theorem backfillHistory_of_loop (host : Host) (oracle : Oracle) (now : Int) (days : Nat)
    (location : Location) (state : HistoryState) (newRecords : RecordTable)
    (firstDate : Option Int)
    (h : backfillLoop host oracle now location (List.range (days + 1)).reverse
        (state.dailyRecords, none) = Except.ok (newRecords, firstDate)) :
    ∃ after, backfillHistory host oracle now days location state
        = Except.ok (after, newRecords.length) ∧ after.dailyRecords = newRecords := by
  unfold backfillHistory
  rw [h]
  exact ⟨_, rfl, rfl⟩

/-- C20, as amended: when no date returned by the astronomy functions is an `Invalid Date`,
`backfillHistory(N, loc)` returns; afterwards the store holds a record for the date key
of each of the N+1 local days from N days ago through today (the UTC date of noon local
time of the day, which is the date of the day itself when noon local time falls on that
date in UTC); a record that was held before is left as it was, with its own location,
and a record made by the call is keyed by its date and carries the given location; the
returned number is the number of records held, and with distinct keys before the call
it is the size of the union of the dates held before and the dates of the window. -/
theorem backfill_window (host : Host) (oracle : Oracle) (hv : OracleValid oracle) (now : Int)
    (days : Nat) (location : Location) (state : HistoryState) :
    ∃ after n, backfillHistory host oracle now days location state = Except.ok (after, n)
      ∧ (∀ i, i ≤ days → ∃ r, recordsGet after.dailyRecords (windowKey host now i) = some r
          ∧ (recordsGet state.dailyRecords (windowKey host now i) = some r
              ∨ (recordsGet state.dailyRecords (windowKey host now i) = none
                  ∧ r.date = windowKey host now i ∧ r.location = location)))
      ∧ ((∀ d, formatDateKey (host.localNoon d) = d) →
          ∀ i, i ≤ days →
            ∃ r, recordsGet after.dailyRecords (localDay host.tz now - (i : Int)) = some r)
      ∧ n = after.dailyRecords.length
      ∧ (∀ key, (∃ r, recordsGet after.dailyRecords key = some r) ↔
          (∃ r, recordsGet state.dailyRecords key = some r)
            ∨ ∃ i, i ≤ days ∧ key = windowKey host now i)
      ∧ ((state.dailyRecords.map Prod.fst).Nodup →
          (after.dailyRecords.map Prod.fst).Nodup
            ∧ n = ((state.dailyRecords.map Prod.fst).toFinset
                ∪ (Finset.range (days + 1)).image (windowKey host now)).card) := by
  obtain ⟨final, hloop⟩ := backfillLoop_total host oracle hv now location
    (List.range (days + 1)).reverse (state.dailyRecords, none)
  obtain ⟨⟨added, hfinal, hadded, hnodup⟩, hwin⟩ :=
    backfillLoop_ok host oracle now location _ _ _ hloop
  simp only at hfinal hadded
  have hmemL : ∀ i, i ∈ (List.range (days + 1)).reverse ↔ i ≤ days := by
    intro i
    rw [List.mem_reverse, List.mem_range]
    omega
  obtain ⟨newRecords, firstDate⟩ := final
  simp only at hfinal hwin
  obtain ⟨after, hcall, hafter⟩ := backfillHistory_of_loop host oracle now days location state
    newRecords firstDate hloop
  subst hafter
  have hwindow : ∀ i, i ≤ days → ∃ r, recordsGet after.dailyRecords (windowKey host now i) = some r
      ∧ (recordsGet state.dailyRecords (windowKey host now i) = some r
          ∨ (recordsGet state.dailyRecords (windowKey host now i) = none
              ∧ r.date = windowKey host now i ∧ r.location = location)) := by
    intro i hi
    obtain ⟨r, hr⟩ := hwin i ((hmemL i).2 hi)
    refine ⟨r, hr, ?_⟩
    rw [hfinal, recordsGet_append] at hr
    cases hc : recordsGet state.dailyRecords (windowKey host now i) with
    | some r0 =>
      rw [hc] at hr
      simp only [Option.some.injEq] at hr
      rw [hr]
      exact Or.inl rfl
    | none =>
      rw [hc] at hr
      simp only at hr
      have hmem := mem_of_recordsGet added _ r hr
      obtain ⟨h1, h2, _, _⟩ := hadded _ hmem
      exact Or.inr ⟨rfl, h1, h2⟩
  have hkeys : ∀ key, (∃ r, recordsGet after.dailyRecords key = some r) ↔
      (∃ r, recordsGet state.dailyRecords key = some r)
        ∨ ∃ i, i ≤ days ∧ key = windowKey host now i := by
    intro key
    constructor
    · rintro ⟨r, hr⟩
      rw [hfinal, recordsGet_append] at hr
      cases hc : recordsGet state.dailyRecords key with
      | some r0 => exact Or.inl ⟨r0, rfl⟩
      | none =>
        rw [hc] at hr
        simp only at hr
        have hmem := mem_of_recordsGet added _ r hr
        obtain ⟨_, _, _, i, hi, hk⟩ := hadded _ hmem
        exact Or.inr ⟨i, (hmemL i).1 hi, hk⟩
    · rintro (⟨r, hr⟩ | ⟨i, hi, hk⟩)
      · refine ⟨r, ?_⟩
        rw [hfinal, recordsGet_append, hr]
      · obtain ⟨r, hr, _⟩ := hwindow i hi
        exact ⟨r, by rw [hk]; exact hr⟩
  refine ⟨_, _, hcall, hwindow, ?_, rfl, hkeys, ?_⟩
  · intro hnoon i hi
    obtain ⟨r, hr, _⟩ := hwindow i hi
    refine ⟨r, ?_⟩
    have : windowKey host now i = localDay host.tz now - (i : Int) := hnoon _
    rw [← this]; exact hr
  · intro hnd
    have hnd2 : (after.dailyRecords.map Prod.fst).Nodup := by
      rw [hfinal, List.map_append, List.nodup_append]
      refine ⟨hnd, hnodup, ?_⟩
      intro k hk1 hk2
      rw [List.mem_map] at hk2
      obtain ⟨e, he, hek⟩ := hk2
      have h3 := (hadded e he).2.2.1
      rw [hek, recordsGet_eq_none_iff] at h3
      exact h3 hk1
    refine ⟨hnd2, ?_⟩
    rw [← List.length_map after.dailyRecords Prod.fst, ← List.toFinset_card_of_nodup hnd2]
    congr 1
    ext key
    simp only [List.mem_toFinset, Finset.mem_union, Finset.mem_image, Finset.mem_range]
    rw [← recordsGet_isSome_iff, ← recordsGet_isSome_iff, hkeys key]
    constructor
    · rintro (h | ⟨i, hi, hk⟩)
      · exact Or.inl h
      · exact Or.inr ⟨i, by omega, hk.symm⟩
    · rintro (h | ⟨i, hi, hk⟩)
      · exact Or.inl h
      · exact Or.inr ⟨i, by omega, hk.symm⟩

/-- Witness for C20: on a store that holds day 0, a backfill of 2 days returns, the
returned number is the number of records held, and days 0, -1 and -2 are held. -/
theorem backfill_window_witness :
    ∃ after n, backfillHistory (fixedOffsetHost 0) nightOracle 0 2 locationB heldToday
        = Except.ok (after, n)
      ∧ n = after.dailyRecords.length
      ∧ ∀ i : Nat, i ≤ 2 →
          ∃ r, recordsGet after.dailyRecords
            (localDay (fixedOffsetHost 0).tz 0 - (i : Int)) = some r := by
  obtain ⟨after, n, h1, _, h3, h4, _⟩ :=
    backfill_window (fixedOffsetHost 0) nightOracle oracleValid_nightOracle 0 2 locationB
      heldToday
  exact ⟨after, n, h1, h4,
    h3 (noon_fixedOffsetHost 0 (by decide) (by decide))⟩

theorem backfillHistory_heldToday :
    backfillHistory (fixedOffsetHost 0) nightOracle 0 0 locationB heldToday
      = Except.ok (heldToday, 1) := by
  rfl

/-- Counterexample to C20 as stated: the store holds a record for today made at location
`A`; `backfillHistory(0, B)` returns 1 and leaves the store as it was, so the record held
for today carries location `A`, not the given location `B`. -/
theorem backfill_location_counterexample :
    backfillHistory (fixedOffsetHost 0) nightOracle 0 0 locationB heldToday
        = Except.ok (heldToday, 1)
      ∧ ¬ ∃ after n, backfillHistory (fixedOffsetHost 0) nightOracle 0 0 locationB heldToday
            = Except.ok (after, n)
          ∧ ∀ i : Nat, i ≤ 0 →
              ∃ r, recordsGet after.dailyRecords
                  (localDay (fixedOffsetHost 0).tz 0 - (i : Int)) = some r
                ∧ r.date = localDay (fixedOffsetHost 0).tz 0 - (i : Int)
                ∧ r.location = locationB := by
  refine ⟨backfillHistory_heldToday, ?_⟩
  rintro ⟨after, n, hcall, hall⟩
  rw [backfillHistory_heldToday] at hcall
  simp only [Except.ok.injEq, Prod.mk.injEq] at hcall
  obtain ⟨hafter, _⟩ := hcall
  subst hafter
  obtain ⟨r, hr, _, hloc⟩ := hall 0 (le_refl 0)
  have hkey : localDay (fixedOffsetHost 0).tz 0 - ((0 : Nat) : Int) = 0 := by decide
  rw [hkey] at hr
  simp only [heldToday, recordsGet, if_true, Option.some.injEq] at hr
  rw [← hr] at hloc
  simp [locationA, locationB] at hloc

/-! ## Invalid dates in the history store -/

theorem optionalISOString_invalid :
    optionalISOString (some JsDate.invalid) = Except.error "RangeError: Invalid time value" :=
  rfl

theorem optionalISOString_error (d : Option JsDate) (e : String)
    (h : optionalISOString d = Except.error e) :
    d = some JsDate.invalid ∧ e = "RangeError: Invalid time value" := by
  cases d with
  | none => simp [optionalISOString] at h
  | some j =>
    cases j with
    | valid t => simp [optionalISOString] at h
    | invalid =>
      simp only [optionalISOString, Except.error.injEq] at h
      exact ⟨rfl, h.symm⟩

/-- The value `NaN` of `getDaylightDuration` arises only from an `Invalid Date`. -/
theorem getDaylightDuration_nan (times : SolarTimes)
    (h : getDaylightDuration times = some none) :
    times.sunrise = some JsDate.invalid ∨ times.sunset = some JsDate.invalid := by
  unfold getDaylightDuration at h
  cases hr : times.sunrise with
  | none => simp [hr] at h
  | some rise =>
    cases hs : times.sunset with
    | none => simp [hr, hs] at h
    | some set =>
      cases rise with
      | invalid => exact Or.inl rfl
      | valid a =>
        cases set with
        | invalid => exact Or.inr rfl
        | valid b => simp [hr, hs, JsDate.getTime] at h

/-- An `Invalid Date` for the sunrise of a day not yet held makes the step throw. -/
theorem backfillDay_invalid_sunrise (host : Host) (oracle : Oracle) (now : Int)
    (location : Location) (acc : RecordTable × Option Int) (i : Nat)
    (habsent : recordsGet acc.1 (windowKey host now i) = none)
    (hinvalid : (oracle.getSolarTimes (host.localNoon (localDay host.tz now - (i : Int)))
        location.lat location.lng).sunrise = some JsDate.invalid) :
    backfillDay host oracle now location acc i
      = Except.error "RangeError: Invalid time value" := by
  unfold windowKey at habsent
  simp only [backfillDay, habsent, hinvalid, optionalISOString]

/-- An `Invalid Date` for the sunrise makes `recordDay` throw. -/
theorem recordDay_invalid_sunrise (now : Int) (data : DayData) (state : HistoryState)
    (hinvalid : data.sunTimes.bind (fun s => s.sunrise) = some JsDate.invalid) :
    recordDay now data state = Except.error "RangeError: Invalid time value" := by
  simp only [recordDay, hinvalid, optionalISOString]

/-- With every instant missing, `recordDay` stores a record whose instants and
`daylightMinutes` are missing. -/
theorem recordDay_missingData (now : Int) (state : HistoryState) :
    ∃ after r, recordDay now missingData state = Except.ok (after, r)
      ∧ recordsGet after.dailyRecords (formatDateKey now) = some r
      ∧ r.solar = some ⟨none, none, none, none, none, none⟩
      ∧ r.lunar = some ⟨none, none, none, none, none⟩ := by
  refine ⟨_, _, rfl, ?_, rfl, rfl⟩
  exact recordsGet_recordsSet_self _ _ _

/-- C21, evaluated where the library gives `Invalid Date` for sunrise and sunset:
`backfillHistory(0, A)` on the empty store throws a `RangeError` and the store stays
empty, and `recordDay` with the live data of that day throws as well, so that no record
is stored for the date. -/
theorem invalid_date_throws :
    backfillHistory (fixedOffsetHost 0) polarOracle 43200000 0 locationA emptyHistory
        = Except.error "RangeError: Invalid time value"
      ∧ afterBackfill (fixedOffsetHost 0) polarOracle 43200000 0 locationA emptyHistory
        = emptyHistory
      ∧ recordDay 43200000 polarData emptyHistory
        = Except.error "RangeError: Invalid time value"
      ∧ afterRecordDay 43200000 polarData emptyHistory = emptyHistory := by
  have h1 : backfillHistory (fixedOffsetHost 0) polarOracle 43200000 0 locationA emptyHistory
      = Except.error "RangeError: Invalid time value" := rfl
  have h2 : recordDay 43200000 polarData emptyHistory
      = Except.error "RangeError: Invalid time value" := rfl
  refine ⟨h1, ?_, h2, ?_⟩
  · simp only [afterBackfill, h1]
  · simp only [afterRecordDay, h2]

/-! ## Queries of the history store -/

theorem setDate_fixedOffsetCalendar (offset t shift : Int) :
    setDate (fixedOffsetCalendar offset) t shift = t + shift * 86400000 := by
  simp only [setDate, fixedOffsetCalendar]
  ring

theorem formatDateKey_add_days (t k : Int) :
    formatDateKey (t + k * 86400000) = formatDateKey t + k := by
  unfold formatDateKey
  exact Int.add_mul_ediv_right t k (by norm_num)

theorem foldl_unshift {α β : Type} (f : α → Option β) (g : List β → α → List β)
    (hg : ∀ records i, g records i = (f i).elim records (fun r => r :: records))
    (l : List α) (acc : List β) :
    l.foldl g acc = (l.filterMap f).reverse ++ acc := by
  induction l generalizing acc with
  | nil => rfl
  | cons a rest ih =>
    simp only [List.foldl_cons, List.filterMap_cons, hg]
    cases h : f a with
    | none => simp only [ih, Option.elim]
    | some b =>
      simp only [ih, Option.elim, List.reverse_cons, List.append_assoc, List.singleton_append]

/-- The loop of `getRecentRecords` as a list: the records of the keys of today, yesterday,
and so on, the oldest shift first. -/
theorem getRecentRecords_eq (calendar : Calendar) (now : Int) (days : Nat)
    (state : HistoryState) :
    getRecentRecords calendar now days state
      = ((List.range days).filterMap (fun (i : ℕ) => recordsGet state.dailyRecords
          (formatDateKey (setDate calendar now (-(i : Int)))))).reverse := by
  unfold getRecentRecords
  rw [foldl_unshift (fun (i : ℕ) => recordsGet state.dailyRecords
    (formatDateKey (setDate calendar now (-(i : Int)))))]
  · simp
  · intro records i
    cases recordsGet state.dailyRecords (formatDateKey (setDate calendar now (-(i : Int)))) <;> rfl

theorem getRecentRecords_length_le (calendar : Calendar) (now : Int) (days : Nat)
    (state : HistoryState) : (getRecentRecords calendar now days state).length ≤ days := by
  rw [getRecentRecords_eq, List.length_reverse]
  exact (List.length_filterMap_le _ _).trans (by simp)

theorem mem_recordsOfDays (table : RecordTable) (first : Int) (count : Nat) (r : DailyRecord) :
    r ∈ recordsOfDays table first count
      ↔ ∃ k : Int, first ≤ k ∧ k < first + (count : Int) ∧ recordsGet table k = some r := by
  unfold recordsOfDays
  rw [List.mem_filterMap]
  constructor
  · rintro ⟨j, hj, hr⟩
    rw [List.mem_range] at hj
    exact ⟨first + (j : Int), by omega, by omega, hr⟩
  · rintro ⟨k, h1, h2, hr⟩
    refine ⟨(k - first).toNat, ?_, ?_⟩
    · rw [List.mem_range]
      omega
    · have : first + (((k - first).toNat : Nat) : Int) = k := by omega
      rw [this]
      exact hr

theorem recordsOfDays_length_le (table : RecordTable) (first : Int) (count : Nat) :
    (recordsOfDays table first count).length ≤ count := by
  unfold recordsOfDays
  exact (List.length_filterMap_le _ _).trans (by simp)

theorem recordsOfDays_dates (table : RecordTable) (first : Int) (count : Nat)
    (hkeyed : DateKeyed table) :
    ((recordsOfDays table first count).map (fun r => r.date)).Pairwise (fun a b => a < b) := by
  unfold recordsOfDays
  rw [List.map_filterMap]
  refine List.Pairwise.filterMap _ ?_ (List.pairwise_lt_range count)
  intro i j hij a ha b hb
  simp only [Option.mem_def, Option.map_eq_some'] at ha hb
  obtain ⟨ra, hra, rfl⟩ := ha
  obtain ⟨rb, hrb, rfl⟩ := hb
  rw [hkeyed _ _ hra, hkeyed _ _ hrb]
  omega

theorem getRecentRecords_fixedOffset (offset now : Int) (days : Nat) (state : HistoryState) :
    getRecentRecords (fixedOffsetCalendar offset) now days state
      = recordsOfDays state.dailyRecords (formatDateKey now - (days : Int) + 1) days := by
  rw [getRecentRecords_eq, ← List.filterMap_reverse]
  unfold recordsOfDays
  have hrev : (List.range days).reverse = (List.range days).map (fun i => days - 1 - i) := by
    rw [List.range_eq_range', List.reverse_range', ← List.range_eq_range']
    simp
  rw [hrev, List.filterMap_map]
  apply List.filterMap_congr
  intro i hi
  rw [List.mem_range] at hi
  simp only [Function.comp, setDate_fixedOffsetCalendar, formatDateKey_add_days]
  congr 1
  omega

theorem rangeLoop_fixedOffset (offset : Int) (table : RecordTable) (endTime : Int) :
    ∀ (rounds fuel : Nat) (current : Int) (records : List DailyRecord),
      rounds ≤ fuel →
      (∀ j : Nat, j < rounds → current + (j : Int) * 86400000 ≤ endTime) →
      ¬ (current + (rounds : Int) * 86400000 ≤ endTime) →
      rangeLoop (fixedOffsetCalendar offset) table endTime fuel current records
        = some (records ++ recordsOfDays table (formatDateKey current) rounds) := by
  intro rounds
  induction rounds with
  | zero =>
    intro fuel current records _ _ hstop
    have hstop0 : ¬ current ≤ endTime := by simpa using hstop
    cases fuel <;> simp [rangeLoop, hstop0, recordsOfDays]
  | succ m ih =>
    intro fuel current records hfuel hin hstop
    obtain ⟨f, rfl⟩ : ∃ f, fuel = f + 1 := ⟨fuel - 1, by omega⟩
    have h0 : current ≤ endTime := by simpa using hin 0 (Nat.succ_pos m)
    simp only [rangeLoop, h0, if_true, setDate_fixedOffsetCalendar, one_mul]
    rw [ih f (current + 86400000) _ (by omega)]
    · have hkey : formatDateKey (current + 86400000) = formatDateKey current + 1 := by
        simpa using formatDateKey_add_days current 1
      unfold recordsOfDays
      rw [List.range_succ_eq_map, List.filterMap_cons, List.filterMap_map, hkey]
      have hfun : ((fun (j : ℕ) => recordsGet table (formatDateKey current + (j : Int))) ∘ Nat.succ)
          = fun (j : ℕ) => recordsGet table (formatDateKey current + 1 + (j : Int)) := by
        funext j
        simp only [Function.comp, Nat.succ_eq_add_one, Nat.cast_add, Nat.cast_one]
        congr 1
        ring
      rw [hfun]
      cases hget : recordsGet table (formatDateKey current) with
      | none => simp [hget]
      | some r => simp [hget]
    · intro j hj
      have := hin (j + 1) (by omega)
      push_cast at this
      linarith
    · intro hle
      apply hstop
      push_cast
      linarith

theorem rangeRounds_spec (startDate endDate : Int) :
    (∀ j : Nat, j < rangeRounds startDate endDate →
        startDate + (j : Int) * 86400000 ≤ endDate)
      ∧ ¬ (startDate + (rangeRounds startDate endDate : Int) * 86400000 ≤ endDate) := by
  unfold rangeRounds
  constructor
  · intro j hj
    omega
  · omega

/-- With a constant offset the range query returns, given enough rounds, the records of
the dates of `startDate`, one day later, and so on, while the instant is not after
`endDate`. -/
theorem getRecordsInRange_fixedOffset (offset : Int) (fuel : Nat) (startDate endDate : Int)
    (state : HistoryState) (hfuel : rangeRounds startDate endDate ≤ fuel) :
    getRecordsInRange (fixedOffsetCalendar offset) fuel startDate endDate state
      = some (recordsOfDays state.dailyRecords (formatDateKey startDate)
          (rangeRounds startDate endDate)) := by
  unfold getRecordsInRange
  rw [rangeLoop_fixedOffset offset _ _ _ fuel startDate [] hfuel
    (rangeRounds_spec startDate endDate).1 (rangeRounds_spec startDate endDate).2]
  simp

theorem rangeRounds_of_timeOfDay_le (startDate endDate : Int)
    (htime : startDate % 86400000 ≤ endDate % 86400000) :
    rangeRounds startDate endDate
      = (formatDateKey endDate - formatDateKey startDate + 1).toNat := by
  unfold rangeRounds formatDateKey
  omega

theorem rangeRounds_recent (now : Int) (days : Nat) :
    rangeRounds (now + (-((days : Int) - 1)) * 86400000) now = days := by
  unfold rangeRounds
  omega

theorem dateKeyed_threeDays : DateKeyed threeDays.dailyRecords := by
  intro k r h
  simp only [threeDays, recordsGet] at h
  split_ifs at h with h0 h1 h2
  · simp only [Option.some.injEq] at h
    rw [← h, ← h0]
    rfl
  · simp only [Option.some.injEq] at h
    rw [← h, ← h1]
    rfl
  · simp only [Option.some.injEq] at h
    rw [← h, ← h2]
    rfl

/-- C22, amended: where the offset of local time from UTC is constant, with today the UTC
date of the current instant, `getRecentRecords(days)` returns exactly the stored records
of the `days` dates ending today, oldest first and a date without a record skipped, in
strictly ascending order of date, at most `days` of them; it equals the range query from
the instant `days - 1` days ago to now; and the range query, for a start whose time of
day is not later than that of the end, returns exactly the stored records of the dates
from that of the start to that of the end, in ascending order. -/
theorem recent_records_window (offset now : Int) (days fuel : Nat) (state : HistoryState)
    (hfuel : days ≤ fuel) :
    (∀ r, r ∈ getRecentRecords (fixedOffsetCalendar offset) now days state
        ↔ ∃ k : Int, formatDateKey now - (days : Int) < k ∧ k ≤ formatDateKey now
            ∧ recordsGet state.dailyRecords k = some r)
      ∧ getRecentRecords (fixedOffsetCalendar offset) now days state
          = recordsOfDays state.dailyRecords (formatDateKey now - (days : Int) + 1) days
      ∧ (DateKeyed state.dailyRecords →
          ((getRecentRecords (fixedOffsetCalendar offset) now days state).map
            (fun r => r.date)).Pairwise (fun a b => a < b))
      ∧ (getRecentRecords (fixedOffsetCalendar offset) now days state).length ≤ days
      ∧ getRecordsInRange (fixedOffsetCalendar offset) fuel
            (setDate (fixedOffsetCalendar offset) now (-((days : Int) - 1))) now state
          = some (getRecentRecords (fixedOffsetCalendar offset) now days state)
      ∧ ∀ (startDate endDate : Int) (rounds : Nat),
          startDate % 86400000 ≤ endDate % 86400000 →
          (formatDateKey endDate - formatDateKey startDate + 1).toNat ≤ rounds →
          ∃ result,
            getRecordsInRange (fixedOffsetCalendar offset) rounds startDate endDate state
                = some result
              ∧ (∀ r, r ∈ result
                  ↔ ∃ k : Int, formatDateKey startDate ≤ k ∧ k ≤ formatDateKey endDate
                      ∧ recordsGet state.dailyRecords k = some r)
              ∧ (DateKeyed state.dailyRecords →
                  (result.map (fun r => r.date)).Pairwise (fun a b => a < b)) := by
  have hrecent := getRecentRecords_fixedOffset offset now days state
  refine ⟨?_, hrecent, ?_, getRecentRecords_length_le _ _ _ _, ?_, ?_⟩
  · intro r
    rw [hrecent, mem_recordsOfDays]
    constructor
    · rintro ⟨k, h1, h2, h3⟩
      exact ⟨k, by omega, by omega, h3⟩
    · rintro ⟨k, h1, h2, h3⟩
      exact ⟨k, by omega, by omega, h3⟩
  · intro hkeyed
    rw [hrecent]
    exact recordsOfDays_dates _ _ _ hkeyed
  · rw [setDate_fixedOffsetCalendar, getRecordsInRange_fixedOffset, rangeRounds_recent,
      formatDateKey_add_days, hrecent]
    · congr 2
      ring
    · rw [rangeRounds_recent]
      exact hfuel
  · intro startDate endDate rounds htime hrounds
    have hr := rangeRounds_of_timeOfDay_le startDate endDate htime
    refine ⟨_, getRecordsInRange_fixedOffset offset rounds startDate endDate state
      (by rw [hr]; exact hrounds), ?_, ?_⟩
    · intro r
      rw [mem_recordsOfDays, hr]
      constructor
      · rintro ⟨k, h1, h2, h3⟩
        exact ⟨k, h1, by omega, h3⟩
      · rintro ⟨k, h1, h2, h3⟩
        exact ⟨k, h1, by omega, h3⟩
    · intro hkeyed
      exact recordsOfDays_dates _ _ _ hkeyed

/-- Witness for C22: eight hours behind UTC, at 16:30 UTC of day 2, the store of the days
0, 1 and 2 gives for `getRecentRecords(2)` the records of the days 1 and 2, in ascending
order of date, which is also what the range query from one day ago to now gives; and the
range query from 06:00 of day 0 to 18:00 of day 1 returns the record of day 1. -/
theorem recent_records_window_witness :
    (2 : Nat) ≤ 5
      ∧ getRecentRecords (fixedOffsetCalendar (-480)) 232200000 2 threeDays
          = [plainRecord 1, plainRecord 2]
      ∧ ((getRecentRecords (fixedOffsetCalendar (-480)) 232200000 2 threeDays).map
          (fun r => r.date)).Pairwise (fun a b => a < b)
      ∧ getRecordsInRange (fixedOffsetCalendar (-480)) 5
            (setDate (fixedOffsetCalendar (-480)) 232200000 (-(((2 : Nat) : Int) - 1)))
            232200000 threeDays
          = some (getRecentRecords (fixedOffsetCalendar (-480)) 232200000 2 threeDays)
      ∧ ∃ result,
          getRecordsInRange (fixedOffsetCalendar (-480)) 5 21600000 151200000 threeDays
              = some result
            ∧ plainRecord 1 ∈ result := by
  obtain ⟨_, h2, h3, _, h5, h6⟩ :=
    recent_records_window (-480) 232200000 2 5 threeDays (by decide)
  obtain ⟨result, hresult, hmem, _⟩ := h6 21600000 151200000 5 (by decide) (by decide)
  exact ⟨by decide, h2.trans rfl, h3 dateKeyed_threeDays, h5, result, hresult,
    (hmem (plainRecord 1)).2 ⟨1, by decide, by decide, rfl⟩⟩

/-- Counterexample to C22 as stated. In UTC, on the store of the days 0, 1 and 2, the range
query from 18:00 of day 0 to 06:00 of day 2 returns the records of the days 0 and 1: the
record of day 2 is stored and its date lies between the two bounds, as a date and as the
instant of its midnight, yet it is not returned. And where the clocks were moved forward
in the night before, at 16:30 local time of day 1 `getRecentRecords(2)` returns the record
of day 1 twice and leaves out the record of day 0. -/
theorem range_counterexample :
    getRecordsInRange (fixedOffsetCalendar 0) 5 64800000 194400000 threeDays
        = some [plainRecord 0, plainRecord 1]
      ∧ recordsGet threeDays.dailyRecords 2 = some (plainRecord 2)
      ∧ (formatDateKey 64800000 ≤ (plainRecord 2).date
          ∧ (plainRecord 2).date ≤ formatDateKey 194400000)
      ∧ (64800000 ≤ dateKeyTime (plainRecord 2).date
          ∧ dateKeyTime (plainRecord 2).date ≤ 194400000)
      ∧ plainRecord 2 ∉ [plainRecord 0, plainRecord 1]
      ∧ getRecentRecords dstCalendar 171000000 2 threeDays = [plainRecord 1, plainRecord 1]
      ∧ formatDateKey 171000000 = 1
      ∧ localDay dstCalendar.tz 171000000 = 1
      ∧ recordsGet threeDays.dailyRecords 0 = some (plainRecord 0) := by
  refine ⟨rfl, rfl, ⟨by decide, by decide⟩, ⟨by decide, by decide⟩, ?_, rfl, by decide,
    by decide, rfl⟩
  simp [plainRecord]

/-! ## Reachable states of the history store -/

theorem recordDay_ok (now : Int) (data : DayData) (state after : HistoryState)
    (r : DailyRecord) (h : recordDay now data state = Except.ok (after, r)) :
    r.date = formatDateKey now
      ∧ after.dailyRecords = recordsSet state.dailyRecords (formatDateKey now) r
      ∧ (state.firstRecordDate = none → after.firstRecordDate = some (formatDateKey now))
      ∧ (∀ d, state.firstRecordDate = some d → after.firstRecordDate = some d) := by
  unfold recordDay at h
  simp only at h
  split at h
  · simp only [Except.ok.injEq, Prod.mk.injEq] at h
    obtain ⟨hafter, hr⟩ := h
    subst hafter
    subst hr
    refine ⟨rfl, rfl, ?_, ?_⟩
    · intro hnone
      simp only [hnone]
    · intro d hd
      simp only [hd]
  · exact absurd h (by simp)

theorem keys_recordsSet (table : RecordTable) (key : Int) (record : DailyRecord) :
    (recordsSet table key record).map Prod.fst
      = if key ∈ table.map Prod.fst then table.map Prod.fst
        else table.map Prod.fst ++ [key] := by
  induction table with
  | nil => simp [recordsSet]
  | cons e rest ih =>
    obtain ⟨k, v⟩ := e
    by_cases hk : k = key
    · simp [recordsSet, hk]
    · have hk2 : ¬ key = k := fun h => hk h.symm
      simp only [recordsSet, hk, if_false, List.map_cons, ih, List.mem_cons, hk2, false_or]
      split_ifs <;> simp

theorem recordsSet_ne_nil (table : RecordTable) (key : Int) (record : DailyRecord) :
    recordsSet table key record ≠ [] := by
  cases table with
  | nil => simp [recordsSet]
  | cons e rest =>
    obtain ⟨k, v⟩ := e
    simp only [recordsSet]
    split_ifs <;> simp

theorem dateKeyed_recordsSet (table : RecordTable) (key : Int) (record : DailyRecord)
    (hkeyed : DateKeyed table) (hdate : record.date = key) :
    DateKeyed (recordsSet table key record) := by
  intro k r h
  by_cases hk : key = k
  · subst hk
    rw [recordsGet_recordsSet_self] at h
    simp only [Option.some.injEq] at h
    rw [← h]
    exact hdate
  · rw [recordsGet_recordsSet_of_ne _ _ _ _ hk] at h
    exact hkeyed k r h

theorem historyOk_emptyHistory : HistoryOk emptyHistory := by
  refine ⟨?_, ?_, ?_⟩
  · intro k r h
    simp [emptyHistory, recordsGet] at h
  · simp [emptyHistory]
  · simp [emptyHistory]

theorem historyOk_afterRecordDay (now : Int) (data : DayData) (state : HistoryState)
    (hok : HistoryOk state) : HistoryOk (afterRecordDay now data state) := by
  unfold afterRecordDay
  cases hcall : recordDay now data state with
  | error e => exact hok
  | ok result =>
    obtain ⟨after, r⟩ := result
    obtain ⟨hdate, hrecords, hnone, hsome⟩ := recordDay_ok now data state after r hcall
    obtain ⟨hkeyed, hnodup, hfirst⟩ := hok
    refine ⟨?_, ?_, ?_⟩
    · simp only [hrecords]
      exact dateKeyed_recordsSet _ _ _ hkeyed hdate
    · simp only [hrecords, keys_recordsSet]
      split_ifs with hmem
      · exact hnodup
      · exact List.Nodup.append hnodup (List.nodup_singleton _)
          (by simpa [List.disjoint_singleton] using hmem)
    · simp only [hrecords]
      constructor
      · intro h
        cases hf : state.firstRecordDate with
        | none => rw [hnone hf] at h; exact absurd h (by simp)
        | some d => rw [hsome d hf] at h; exact absurd h (by simp)
      · intro h
        exact absurd h (recordsSet_ne_nil _ _ _)

theorem backfillDay_first (host : Host) (oracle : Oracle) (now : Int) (location : Location)
    (acc next : RecordTable × Option Int) (i : Nat)
    (h : backfillDay host oracle now location acc i = Except.ok next) :
    next = acc ∨ (next.1 ≠ [] ∧ next.2 ≠ none) := by
  unfold backfillDay at h
  simp only at h
  split at h
  · simp only [Except.ok.injEq] at h
    exact Or.inl h.symm
  · split at h
    · simp only [Except.ok.injEq] at h
      subst h
      refine Or.inr ⟨recordsSet_ne_nil _ _ _, ?_⟩
      simp only
      cases acc.2 with
      | none => simp
      | some d => simp only; split_ifs <;> simp
    · exact absurd h (by simp)

theorem backfillLoop_first (host : Host) (oracle : Oracle) (now : Int) (location : Location)
    (l : List Nat) (acc final : RecordTable × Option Int)
    (h : backfillLoop host oracle now location l acc = Except.ok final) :
    final = acc ∨ (final.1 ≠ [] ∧ final.2 ≠ none) := by
  induction l generalizing acc with
  | nil =>
    simp only [backfillLoop, Except.ok.injEq] at h
    exact Or.inl h.symm
  | cons i rest ih =>
    simp only [backfillLoop] at h
    cases hstep : backfillDay host oracle now location acc i with
    | error e => rw [hstep] at h; exact absurd h (by simp)
    | ok next =>
      rw [hstep] at h
      simp only at h
      rcases ih next h with hsame | hgrown
      · rw [hsame]
        exact backfillDay_first host oracle now location acc next i hstep
      · refine Or.inr ⟨hgrown.1, ?_⟩
        exact hgrown.2

/-- What a call of `backfillHistory` that returns leaves in the store. -/
theorem afterBackfill_of_loop (host : Host) (oracle : Oracle) (now : Int) (days : Nat)
    (location : Location) (state : HistoryState) (newRecords : RecordTable)
    (firstDate : Option Int)
    (h : backfillLoop host oracle now location (List.range (days + 1)).reverse
        (state.dailyRecords, none) = Except.ok (newRecords, firstDate)) :
    (afterBackfill host oracle now days location state).dailyRecords = newRecords
      ∧ (firstDate = none →
          (afterBackfill host oracle now days location state).firstRecordDate
            = state.firstRecordDate)
      ∧ (∀ d, firstDate = some d →
          (afterBackfill host oracle now days location state).firstRecordDate = some d) := by
  unfold afterBackfill backfillHistory
  rw [h]
  refine ⟨rfl, ?_, ?_⟩
  · intro hnone
    subst hnone
    rfl
  · intro d hd
    subst hd
    rfl

theorem afterBackfill_of_error (host : Host) (oracle : Oracle) (now : Int) (days : Nat)
    (location : Location) (state : HistoryState) (e : String)
    (h : backfillLoop host oracle now location (List.range (days + 1)).reverse
        (state.dailyRecords, none) = Except.error e) :
    afterBackfill host oracle now days location state = state := by
  unfold afterBackfill backfillHistory
  rw [h]

theorem historyOk_afterBackfill (host : Host) (oracle : Oracle) (now : Int) (days : Nat)
    (location : Location) (state : HistoryState) (hok : HistoryOk state) :
    HistoryOk (afterBackfill host oracle now days location state) := by
  cases hloop : backfillLoop host oracle now location (List.range (days + 1)).reverse
      (state.dailyRecords, none) with
  | error e =>
    rw [afterBackfill_of_error host oracle now days location state e hloop]
    exact hok
  | ok final =>
    obtain ⟨newRecords, firstDate⟩ := final
    obtain ⟨hrecords, hnone, hsome⟩ :=
      afterBackfill_of_loop host oracle now days location state newRecords firstDate hloop
    obtain ⟨⟨added, hfinal, hadded, hnodupAdded⟩, _⟩ :=
      backfillLoop_ok host oracle now location _ _ _ hloop
    simp only at hfinal
    obtain ⟨hkeyed, hnodup, hfirst⟩ := hok
    refine ⟨?_, ?_, ?_⟩
    · rw [hrecords, hfinal]
      intro k r hget
      rw [recordsGet_append] at hget
      cases hheld : recordsGet state.dailyRecords k with
      | some r0 =>
        rw [hheld] at hget
        simp only [Option.some.injEq] at hget
        rw [← hget]
        exact hkeyed k r0 hheld
      | none =>
        rw [hheld] at hget
        simp only at hget
        exact (hadded _ (mem_of_recordsGet added k r hget)).1
    · rw [hrecords, hfinal, List.map_append]
      refine List.Nodup.append hnodup hnodupAdded ?_
      intro k hk1 hk2
      obtain ⟨e, he, hek⟩ := List.mem_map.1 hk2
      have habsent := (hadded e he).2.2.1
      rw [recordsGet_eq_none_iff] at habsent
      rw [hek] at habsent
      exact habsent hk1
    · rcases backfillLoop_first host oracle now location _ _ _ hloop with hsame | hgrown
      · simp only [Prod.mk.injEq] at hsame
        rw [hrecords, hnone hsame.2, hsame.1]
        exact hfirst
      · simp only at hgrown
        rw [hrecords]
        cases hfd : firstDate with
        | none => exact absurd hfd hgrown.2
        | some d =>
          rw [hsome d hfd]
          constructor
          · intro h; exact absurd h (by simp)
          · intro h; exact absurd h hgrown.1

/-- Every state of the history store reachable by its actions satisfies the invariant. -/
theorem historyReachable_ok (state : HistoryState) (h : HistoryReachable state) :
    HistoryOk state := by
  induction h with
  | init => exact historyOk_emptyHistory
  | record now data state _ ih => exact historyOk_afterRecordDay now data state ih
  | backfill host oracle now days location state _ ih =>
    exact historyOk_afterBackfill host oracle now days location state ih
  | clear state _ _ =>
    refine ⟨?_, ?_, ?_⟩
    · intro k r h
      simp [clearHistory, recordsGet] at h
    · simp [clearHistory]
    · simp [clearHistory]

/-! ## Statistics of the history store -/

theorem foldl_max_spec (rest : List ℚ) (x : ℚ) :
    rest.foldl max x ∈ x :: rest ∧ ∀ v ∈ x :: rest, v ≤ rest.foldl max x := by
  induction rest generalizing x with
  | nil => simp
  | cons y ys ih =>
    obtain ⟨hmem, hle⟩ := ih (max x y)
    simp only [List.foldl_cons]
    constructor
    · rcases List.mem_cons.1 hmem with h | h
      · rw [h]
        rcases max_choice x y with hx | hy
        · rw [hx]; exact List.mem_cons_self _ _
        · rw [hy]; exact List.mem_cons_of_mem _ (List.mem_cons_self _ _)
      · exact List.mem_cons_of_mem _ (List.mem_cons_of_mem _ h)
    · intro v hv
      rcases List.mem_cons.1 hv with h | h
      · rw [h]
        exact (le_max_left x y).trans (hle _ (List.mem_cons_self _ _))
      · rcases List.mem_cons.1 h with h2 | h2
        · rw [h2]
          exact (le_max_right x y).trans (hle _ (List.mem_cons_self _ _))
        · exact hle v (List.mem_cons_of_mem _ h2)

theorem foldl_min_spec (rest : List ℚ) (x : ℚ) :
    rest.foldl min x ∈ x :: rest ∧ ∀ v ∈ x :: rest, rest.foldl min x ≤ v := by
  induction rest generalizing x with
  | nil => simp
  | cons y ys ih =>
    obtain ⟨hmem, hle⟩ := ih (min x y)
    simp only [List.foldl_cons]
    constructor
    · rcases List.mem_cons.1 hmem with h | h
      · rw [h]
        rcases min_choice x y with hx | hy
        · rw [hx]; exact List.mem_cons_self _ _
        · rw [hy]; exact List.mem_cons_of_mem _ (List.mem_cons_self _ _)
      · exact List.mem_cons_of_mem _ (List.mem_cons_of_mem _ h)
    · intro v hv
      rcases List.mem_cons.1 hv with h | h
      · rw [h]
        exact (hle _ (List.mem_cons_self _ _)).trans (min_le_left x y)
      · rcases List.mem_cons.1 h with h2 | h2
        · rw [h2]
          exact (hle _ (List.mem_cons_self _ _)).trans (min_le_right x y)
        · exact hle v (List.mem_cons_of_mem _ h2)

theorem mathMax_spec (values : List ℚ) (hne : values ≠ []) :
    ∃ m, mathMax values = some m ∧ m ∈ values ∧ ∀ v ∈ values, v ≤ m := by
  cases values with
  | nil => exact absurd rfl hne
  | cons x rest => exact ⟨_, rfl, (foldl_max_spec rest x).1, (foldl_max_spec rest x).2⟩

theorem mathMin_spec (values : List ℚ) (hne : values ≠ []) :
    ∃ m, mathMin values = some m ∧ m ∈ values ∧ ∀ v ∈ values, m ≤ v := by
  cases values with
  | nil => exact absurd rfl hne
  | cons x rest => exact ⟨_, rfl, (foldl_min_spec rest x).1, (foldl_min_spec rest x).2⟩

theorem daylightSeries_storedRecords (state : HistoryState) :
    daylightSeries (storedRecords state) = daylightValues state := by
  rw [daylightSeries_eq_filterMap]
  rfl

/-- The fields of the result of `getStatistics` on a store that holds a record. -/
theorem getStatistics_some (now : Int) (state : HistoryState) (stats : Statistics)
    (h : getStatistics now state = some stats) :
    state.dailyRecords ≠ []
      ∧ stats.totalDaysTracked = (storedRecords state).length
      ∧ stats.daylight.longest
          = (if (daylightValues state).length > 0 then mathMax (daylightValues state) else none)
      ∧ stats.daylight.shortest
          = (if (daylightValues state).length > 0 then mathMin (daylightValues state) else none)
      ∧ stats.daylight.average
          = (if (daylightValues state).length > 0 then
              some (jsRound (sumList (daylightValues state)
                / ((daylightValues state).length : ℚ)))
            else none)
      ∧ stats.daylight.longestDate
          = (findByDaylight (storedRecords state) stats.daylight.longest).map (fun r => r.date)
      ∧ stats.daylight.shortestDate
          = (findByDaylight (storedRecords state) stats.daylight.shortest).map (fun r => r.date)
      ∧ stats.daylight.current = (storedRecords state).getLast?.bind daylightOf
      ∧ stats.lunar.phaseDistribution = phaseCounts (storedRecords state)
      ∧ stats.lunar.fullMoonCount
          = ((storedRecords state).filter (hasPhase "Full Moon")).length
      ∧ stats.lunar.newMoonCount
          = ((storedRecords state).filter (hasPhase "New Moon")).length
      ∧ stats.lunar.lastFullMoon
          = ((storedRecords state).filter (hasPhase "Full Moon")).getLast?.map (fun r => r.date)
      ∧ stats.lunar.lastNewMoon
          = ((storedRecords state).filter (hasPhase "New Moon")).getLast?.map (fun r => r.date) := by
  by_cases hlen : (List.map Prod.snd state.dailyRecords).length = 0
  · simp only [getStatistics, hlen, if_true] at h
    exact absurd h (by simp)
  · simp only [getStatistics, hlen, if_false, Option.some.injEq] at h
    subst h
    rw [← daylightSeries_storedRecords]
    refine ⟨?_, rfl, rfl, rfl, rfl, rfl, rfl, rfl, rfl, rfl, rfl, rfl, rfl⟩
    intro hnil
    apply hlen
    rw [hnil]
    rfl

theorem getStatistics_eq_none (now : Int) (state : HistoryState) :
    getStatistics now state = none ↔ state.dailyRecords = [] := by
  constructor
  · intro h
    by_cases hlen : (List.map Prod.snd state.dailyRecords).length = 0
    · simpa using hlen
    · simp only [getStatistics, hlen, if_false] at h
      exact absurd h (by simp)
  · intro h
    unfold getStatistics
    simp [h]

theorem jsRound_spec (q : ℚ) : ((jsRound q : Int) : ℚ) ≤ q + 1 / 2 ∧ q + 1 / 2 < (jsRound q : Int) + 1 := by
  unfold jsRound
  exact ⟨Int.floor_le _, Int.lt_floor_add_one _⟩

theorem mem_daylightValues (state : HistoryState) (v : ℚ) :
    v ∈ daylightValues state
      ↔ ∃ k r, (k, r) ∈ state.dailyRecords ∧ r.solar.bind (fun s => s.daylightMinutes) = some v := by
  unfold daylightValues storedRecords
  rw [List.mem_filterMap]
  constructor
  · rintro ⟨r, hr, hv⟩
    obtain ⟨e, he, rfl⟩ := List.mem_map.1 hr
    exact ⟨e.1, e.2, he, hv⟩
  · rintro ⟨k, r, hmem, hv⟩
    exact ⟨r, List.mem_map.2 ⟨(k, r), hmem, rfl⟩, hv⟩

/-- C25: `getStatistics` returns `null` exactly when the store holds no record (it always
returns); otherwise `totalDaysTracked` is the number of records, the values that enter
`longest`, `shortest` and `average` are exactly the `daylightMinutes` of the records that
have one, `longest` is the greatest and `shortest` the least of them, `average` is their
mean rounded to the nearest integer (a half rounded up), and all three are `null` when
no record has a value. -/
theorem getStatistics_absent_data (now : Int) (state : HistoryState) :
    (getStatistics now state = none ↔ state.dailyRecords.length = 0)
      ∧ (∀ v, v ∈ daylightValues state
          ↔ ∃ k r, (k, r) ∈ state.dailyRecords
              ∧ r.solar.bind (fun s => s.daylightMinutes) = some v)
      ∧ ∀ stats, getStatistics now state = some stats →
          stats.totalDaysTracked = state.dailyRecords.length
            ∧ (daylightValues state = [] →
                stats.daylight.longest = none ∧ stats.daylight.shortest = none
                  ∧ stats.daylight.average = none)
            ∧ (daylightValues state ≠ [] →
                ∃ (hi lo : ℚ) (avg : Int),
                  stats.daylight.longest = some hi ∧ stats.daylight.shortest = some lo
                    ∧ stats.daylight.average = some avg
                    ∧ hi ∈ daylightValues state ∧ (∀ v ∈ daylightValues state, v ≤ hi)
                    ∧ lo ∈ daylightValues state ∧ (∀ v ∈ daylightValues state, lo ≤ v)
                    ∧ (avg : ℚ) ≤ (daylightValues state).sum
                        / ((daylightValues state).length : ℚ) + 1 / 2
                    ∧ (daylightValues state).sum / ((daylightValues state).length : ℚ) + 1 / 2
                        < (avg : ℚ) + 1) := by
  refine ⟨?_, mem_daylightValues state, ?_⟩
  · rw [getStatistics_eq_none, List.length_eq_zero]
  · intro stats h
    obtain ⟨_, htotal, hlongest, hshortest, haverage, _⟩ := getStatistics_some now state stats h
    refine ⟨?_, ?_, ?_⟩
    · rw [htotal]
      simp [storedRecords]
    · intro hnil
      rw [hlongest, hshortest, haverage, hnil]
      simp
    · intro hne
      have hpos : (daylightValues state).length > 0 := List.length_pos.2 hne
      obtain ⟨hi, hhi, hmem, hmax⟩ := mathMax_spec _ hne
      obtain ⟨lo, hlo, hmemlo, hmin⟩ := mathMin_spec _ hne
      refine ⟨hi, lo, jsRound (sumList (daylightValues state)
        / ((daylightValues state).length : ℚ)), ?_, ?_, ?_, hmem, hmax, hmemlo, hmin, ?_⟩
      · rw [hlongest, if_pos hpos, hhi]
      · rw [hshortest, if_pos hpos, hlo]
      · rw [haverage, if_pos hpos]
      · rw [← sumList_eq_sum]
        exact jsRound_spec _

theorem daylightValues_mixedStore : daylightValues mixedStore = [600, 611] := rfl

/-- Witness for C25: on a store of four days with 600 minutes, no solar part, no
`daylightMinutes` and 611 minutes, the statistics count four days, the longest day has 611
minutes, the shortest 600, and the average is 606, the mean 605.5 rounded. -/
theorem getStatistics_absent_data_witness :
    ∃ stats, getStatistics 0 mixedStore = some stats
      ∧ stats.totalDaysTracked = 4
      ∧ stats.daylight.longest = some 611
      ∧ stats.daylight.shortest = some 600
      ∧ stats.daylight.average = some 606 := by
  have hsome : ∃ stats, getStatistics 0 mixedStore = some stats := by
    rw [← Option.ne_none_iff_exists']
    intro hnone
    have := (getStatistics_eq_none 0 mixedStore).1 hnone
    simp [mixedStore] at this
  obtain ⟨stats, hstats⟩ := hsome
  obtain ⟨htotal, _, hvalues⟩ := (getStatistics_absent_data 0 mixedStore).2.2 stats hstats
  have hne : daylightValues mixedStore ≠ [] := by rw [daylightValues_mixedStore]; simp
  obtain ⟨hi, lo, avg, h1, h2, h3, hmem, hmax, hmemlo, hmin, havg1, havg2⟩ := hvalues hne
  rw [daylightValues_mixedStore] at hmem hmax hmemlo hmin havg1 havg2
  have hhi : hi = 611 := by
    have h611 := hmax 611 (by simp)
    simp only [List.mem_cons, List.mem_singleton, List.not_mem_nil, or_false] at hmem
    rcases hmem with h | h
    · rw [h] at h611; norm_num at h611
    · exact h
  have hlo : lo = 600 := by
    have h600 := hmin 600 (by simp)
    simp only [List.mem_cons, List.mem_singleton, List.not_mem_nil, or_false] at hmemlo
    rcases hmemlo with h | h
    · exact h
    · rw [h] at h600; norm_num at h600
  have havg : avg = 606 := by
    norm_num at havg1 havg2
    have ha : (avg : ℚ) ≤ 606 := by linarith
    have hb : (605 : ℚ) < avg := by linarith
    have ha2 : avg ≤ 606 := by exact_mod_cast ha
    have hb2 : 605 < avg := by exact_mod_cast hb
    omega
  refine ⟨stats, hstats, ?_, ?_, ?_, ?_⟩
  · rw [htotal]; rfl
  · rw [h1, hhi]
  · rw [h2, hlo]
  · rw [h3, havg]

theorem recordedThenBackfilled_eq (minutes : ℚ) :
    recordedThenBackfilled minutes
      = { dailyRecords := [(1, liveRecord minutes), (0, backfilledRecord)]
          firstRecordDate := some 0 } := rfl

theorem reachable_recordedThenBackfilled (minutes : ℚ) :
    HistoryReachable (recordedThenBackfilled minutes) :=
  HistoryReachable.backfill _ _ _ _ _ _ (HistoryReachable.record _ _ _ HistoryReachable.init)

/-- The record that `find` returns for a value that some record has: the first record in
the order of the store with that value; when the dates of the store ascend in that order,
no record with the value has an earlier date. -/
theorem findByDaylight_spec (records : List DailyRecord) (m : ℚ)
    (hm : m ∈ records.filterMap daylightOf) :
    ∃ before r after, records = before ++ r :: after
      ∧ daylightOf r = some m
      ∧ (∀ x ∈ before, daylightOf x ≠ some m)
      ∧ findByDaylight records (some m) = some r
      ∧ ((records.map (fun x => x.date)).Pairwise (fun a b => a < b) →
          ∀ x ∈ records, daylightOf x = some m → r.date ≤ x.date) := by
  obtain ⟨x0, hx0, hx0m⟩ := List.mem_filterMap.1 hm
  have hsome : (records.find? (fun r => decide (daylightOf r = some m))).isSome := by
    rw [List.find?_isSome]
    exact ⟨x0, hx0, by simpa using hx0m⟩
  obtain ⟨r, hr⟩ := Option.isSome_iff_exists.1 hsome
  obtain ⟨hp, before, after, hsplit, hbefore⟩ := List.find?_eq_some.1 hr
  have hrm : daylightOf r = some m := by simpa using hp
  refine ⟨before, r, after, hsplit, hrm, ?_, hr, ?_⟩
  · intro x hx
    simpa using hbefore x hx
  · intro hsorted x hx hxm
    rw [hsplit, List.map_append, List.map_cons, List.pairwise_append] at hsorted
    obtain ⟨_, hrest, _⟩ := hsorted
    rw [List.pairwise_cons] at hrest
    rw [hsplit, List.mem_append, List.mem_cons] at hx
    rcases hx with hx | hx | hx
    · have : daylightOf x ≠ some m := by simpa using hbefore x hx
      exact absurd hxm this
    · rw [hx]
    · exact le_of_lt (hrest.1 x.date (List.mem_map.2 ⟨x, hx, rfl⟩))

/-- C23, amended: on a store that holds a record, `daylight.longest` is the greatest
`daylightMinutes` over the records that have one, and `daylight.longestDate` is the date
of the first record, in the order in which the dates were first stored, that attains it;
this is the earliest date that attains it when the dates were stored in ascending order.
Likewise `shortest` and `shortestDate` for the least value. -/
theorem longest_day_first_stored (now : Int) (state : HistoryState) (stats : Statistics)
    (h : getStatistics now state = some stats) :
    (daylightValues state ≠ [] →
        ∃ hi lo, stats.daylight.longest = some hi ∧ stats.daylight.shortest = some lo)
      ∧ (∀ m, stats.daylight.longest = some m →
          m ∈ daylightValues state ∧ (∀ v ∈ daylightValues state, v ≤ m)
            ∧ ∃ before r after, storedRecords state = before ++ r :: after
                ∧ daylightOf r = some m
                ∧ (∀ x ∈ before, daylightOf x ≠ some m)
                ∧ stats.daylight.longestDate = some r.date
                ∧ (((storedRecords state).map (fun x => x.date)).Pairwise (fun a b => a < b) →
                    ∀ x ∈ storedRecords state, daylightOf x = some m → r.date ≤ x.date))
      ∧ (∀ m, stats.daylight.shortest = some m →
          m ∈ daylightValues state ∧ (∀ v ∈ daylightValues state, m ≤ v)
            ∧ ∃ before r after, storedRecords state = before ++ r :: after
                ∧ daylightOf r = some m
                ∧ (∀ x ∈ before, daylightOf x ≠ some m)
                ∧ stats.daylight.shortestDate = some r.date
                ∧ (((storedRecords state).map (fun x => x.date)).Pairwise (fun a b => a < b) →
                    ∀ x ∈ storedRecords state, daylightOf x = some m → r.date ≤ x.date)) := by
  obtain ⟨_, _, hlongest, hshortest, _, hlongestDate, hshortestDate, _⟩ :=
    getStatistics_some now state stats h
  refine ⟨?_, ?_, ?_⟩
  · intro hne
    have hpos : (daylightValues state).length > 0 := List.length_pos.2 hne
    obtain ⟨hi, hhi, _, _⟩ := mathMax_spec _ hne
    obtain ⟨lo, hlo, _, _⟩ := mathMin_spec _ hne
    exact ⟨hi, lo, by rw [hlongest, if_pos hpos, hhi], by rw [hshortest, if_pos hpos, hlo]⟩
  · intro m hm
    have hne : daylightValues state ≠ [] := by
      intro hnil
      rw [hlongest, hnil] at hm
      simp at hm
    have hpos : (daylightValues state).length > 0 := List.length_pos.2 hne
    obtain ⟨hi, hhi, hmem, hmax⟩ := mathMax_spec _ hne
    have hmhi : hi = m := by
      rw [hlongest, if_pos hpos, hhi] at hm
      simpa using hm
    subst hmhi
    obtain ⟨before, r, after, hsplit, hrm, hbefore, hfind, hsorted⟩ :=
      findByDaylight_spec (storedRecords state) hi hmem
    refine ⟨hmem, hmax, before, r, after, hsplit, hrm, hbefore, ?_, hsorted⟩
    rw [hlongestDate, hm, hfind]
    rfl
  · intro m hm
    have hne : daylightValues state ≠ [] := by
      intro hnil
      rw [hshortest, hnil] at hm
      simp at hm
    have hpos : (daylightValues state).length > 0 := List.length_pos.2 hne
    obtain ⟨lo, hlo, hmem, hmin⟩ := mathMin_spec _ hne
    have hmlo : lo = m := by
      rw [hshortest, if_pos hpos, hlo] at hm
      simpa using hm
    subst hmlo
    obtain ⟨before, r, after, hsplit, hrm, hbefore, hfind, hsorted⟩ :=
      findByDaylight_spec (storedRecords state) lo hmem
    refine ⟨hmem, hmin, before, r, after, hsplit, hrm, hbefore, ?_, hsorted⟩
    rw [hshortestDate, hm, hfind]
    rfl

theorem getStatistics_isSome (now : Int) (state : HistoryState)
    (hne : state.dailyRecords ≠ []) : ∃ stats, getStatistics now state = some stats := by
  rw [← Option.ne_none_iff_exists']
  intro hnone
  exact hne ((getStatistics_eq_none now state).1 hnone)

/-- Witness for C23: on the store of four days with 600 minutes on day 0 and 611 minutes
on day 3, whose dates were stored in ascending order, the longest day is day 3, the
shortest is day 0, and no record with 600 minutes has a date before that of the shortest
day. -/
theorem longest_day_first_stored_witness :
    ∃ stats, getStatistics 0 mixedStore = some stats
      ∧ stats.daylight.longest = some 611 ∧ stats.daylight.longestDate = some 3
      ∧ stats.daylight.shortest = some 600 ∧ stats.daylight.shortestDate = some 0
      ∧ ∀ x ∈ storedRecords mixedStore, daylightOf x = some 600 → 0 ≤ x.date := by
  obtain ⟨stats, hstats⟩ := getStatistics_isSome 0 mixedStore (by simp [mixedStore])
  obtain ⟨_, _, hlongest, hshortest, _, _⟩ := getStatistics_some 0 mixedStore stats hstats
  have hl : stats.daylight.longest = some 611 := by
    rw [hlongest, daylightValues_mixedStore]
    simp only [List.length_cons, List.length_nil, gt_iff_lt, Nat.zero_lt_succ, if_true, mathMax,
      List.foldl_cons, List.foldl_nil]
    norm_num
  have hs : stats.daylight.shortest = some 600 := by
    rw [hshortest, daylightValues_mixedStore]
    simp only [List.length_cons, List.length_nil, gt_iff_lt, Nat.zero_lt_succ, if_true, mathMin,
      List.foldl_cons, List.foldl_nil]
    norm_num
  obtain ⟨_, hlong, hshort⟩ := longest_day_first_stored 0 mixedStore stats hstats
  obtain ⟨_, _, before, r, after, hsplit, hrm, _, hdate, _⟩ := hlong 611 hl
  obtain ⟨_, _, before2, r2, after2, hsplit2, hrm2, _, hdate2, hearliest⟩ := hshort 600 hs
  have hsorted : ((storedRecords mixedStore).map (fun x => x.date)).Pairwise
      (fun a b => a < b) := by decide
  have hr2 : r2.date = 0 := by
    have hr : r2 ∈ storedRecords mixedStore := by rw [hsplit2]; simp
    simp only [storedRecords, mixedStore, List.map_cons, List.map_nil, List.mem_cons,
      List.mem_singleton, List.not_mem_nil, or_false] at hr
    rcases hr with hr | hr | hr | hr <;> rw [hr] at hrm2 ⊢ <;>
      simp [daylightOf, solarRecord, daylightOnly] at hrm2 ⊢
  refine ⟨stats, hstats, hl, ?_, hs, ?_, ?_⟩
  · rw [hdate]
    have hr : r ∈ storedRecords mixedStore := by rw [hsplit]; simp
    simp only [storedRecords, mixedStore, List.map_cons, List.map_nil, List.mem_cons,
      List.mem_singleton, List.not_mem_nil, or_false] at hr
    rcases hr with hr | hr | hr | hr <;> rw [hr] at hrm ⊢ <;>
      simp [daylightOf, solarRecord, daylightOnly] at hrm ⊢
  · rw [hdate2, hr2]
  · intro x hx hxm
    rw [← hr2]
    exact hearliest hsorted x hx hxm

/-- Counterexample to C23 as stated: `recordDay` on day 1 with 600 minutes of daylight and
then a backfill of one day, which stores day 0 with 600 minutes as well, give a reachable
store on which `longest` is 600 and `longestDate` is day 1, although day 0 attains the
same value and is the earlier date. The same holds for `shortestDate`. -/
theorem longestDate_counterexample :
    HistoryReachable (recordedThenBackfilled 600)
      ∧ (∃ stats, getStatistics 129600000 (recordedThenBackfilled 600) = some stats
          ∧ stats.daylight.longest = some 600 ∧ stats.daylight.longestDate = some 1
          ∧ stats.daylight.shortest = some 600 ∧ stats.daylight.shortestDate = some 1)
      ∧ recordsGet (recordedThenBackfilled 600).dailyRecords 0 = some backfilledRecord
      ∧ backfilledRecord.date = 0
      ∧ daylightOf backfilledRecord = some 600 := by
  refine ⟨reachable_recordedThenBackfilled 600, ?_, rfl, rfl, ?_⟩
  · obtain ⟨stats, hstats⟩ := getStatistics_isSome 129600000 (recordedThenBackfilled 600)
      (by rw [recordedThenBackfilled_eq]; simp)
    obtain ⟨_, _, hlongest, hshortest, _, hlongestDate, hshortestDate, _⟩ :=
      getStatistics_some 129600000 (recordedThenBackfilled 600) stats hstats
    have hvalues : daylightValues (recordedThenBackfilled 600) = [600, ((600 : Int) : ℚ)] := rfl
    have hl : stats.daylight.longest = some 600 := by
      rw [hlongest, hvalues]
      simp [mathMax]
    have hs : stats.daylight.shortest = some 600 := by
      rw [hshortest, hvalues]
      simp [mathMin]
    refine ⟨stats, hstats, hl, ?_, hs, ?_⟩
    · rw [hlongestDate, hl]
      simp [findByDaylight, storedRecords, recordedThenBackfilled_eq, liveRecord, daylightOnly]
    · rw [hshortestDate, hs]
      simp [findByDaylight, storedRecords, recordedThenBackfilled_eq, liveRecord, daylightOnly]
  · simp [daylightOf, backfilledRecord]

theorem phaseGet_bumpPhase (phaseCount : List (String × Nat)) (name other : String) :
    phaseGet (bumpPhase phaseCount name) other
      = if name = other then phaseGet phaseCount other + 1 else phaseGet phaseCount other := by
  induction phaseCount with
  | nil => simp [bumpPhase, phaseGet]
  | cons e rest ih =>
    obtain ⟨k, c⟩ := e
    by_cases hk : k = name
    · subst hk
      simp only [bumpPhase, if_true, phaseGet]
      split_ifs <;> rfl
    · simp only [bumpPhase, hk, if_false, phaseGet, ih]
      by_cases hko : k = other
      · have hno : ¬ name = other := fun h => hk (hko.trans h.symm)
        simp only [hko, if_true, hno, if_false]
      · simp only [hko, if_false]

theorem phaseGet_foldl (g : List (String × Nat) → DailyRecord → List (String × Nat))
    (hg : ∀ phaseCount r, g phaseCount r
      = (r.lunar.bind (fun l => l.phaseName)).elim phaseCount
          (fun n => if n ≠ "" then bumpPhase phaseCount n else phaseCount))
    (records : List DailyRecord) (phaseCount : List (String × Nat))
    (name : String) (hname : name ≠ "") :
    phaseGet (records.foldl g phaseCount) name
      = phaseGet phaseCount name + (records.filter (hasPhase name)).length := by
  induction records generalizing phaseCount with
  | nil => simp
  | cons r rest ih =>
    rw [List.foldl_cons, ih, hg]
    by_cases hh : hasPhase name r = true
    · have hp : r.lunar.bind (fun l => l.phaseName) = some name := by
        simpa [hasPhase] using hh
      rw [List.filter_cons_of_pos hh, hp]
      simp only [Option.elim, hname, ne_eq, not_false_eq_true, if_true, phaseGet_bumpPhase,
        List.length_cons]
      omega
    · have hp : r.lunar.bind (fun l => l.phaseName) ≠ some name := by
        simpa [hasPhase] using hh
      rw [List.filter_cons_of_neg hh]
      cases hv : r.lunar.bind (fun l => l.phaseName) with
      | none => simp only [Option.elim]
      | some n =>
        have hn : ¬ n = name := by
          intro h
          apply hp
          rw [hv, h]
        simp only [Option.elim]
        split_ifs
        · simp only [phaseGet_bumpPhase, hn, if_false]
        · rfl

/-- The count of a phase name in `phaseDistribution` is the number of records of the
phase; a name that no record has is absent from the object and counts as 0. -/
theorem phaseGet_phaseCounts (records : List DailyRecord) (name : String)
    (hname : name ≠ "") :
    phaseGet (phaseCounts records) name = (records.filter (hasPhase name)).length := by
  unfold phaseCounts
  rw [phaseGet_foldl _ _ records [] name hname]
  · simp [phaseGet]
  · intro phaseCount r
    cases r.lunar.bind (fun l => l.phaseName) <;> rfl

/-- C24, evaluated on the store left by `recordDay` on day 1, with 610 minutes of daylight
and a full moon, followed by a backfill of one day, which stores day 0 with 600 minutes
and a full moon: the store is reachable by the two actions and holds the days 1 and 0, in
this order; `daylight.current` is 600, the value of day 0, and `lastFullMoon` is day 0,
although the record with the latest date is that of day 1, today, with 610 minutes and a
full moon. The two counts agree with `phaseDistribution`. -/
theorem current_not_latest :
    HistoryReachable (recordedThenBackfilled 610)
      ∧ (recordedThenBackfilled 610).dailyRecords.map Prod.fst = [1, 0]
      ∧ formatDateKey 129600000 = 1
      ∧ recordsGet (recordedThenBackfilled 610).dailyRecords 1 = some (liveRecord 610)
      ∧ daylightOf (liveRecord 610) = some 610
      ∧ hasPhase "Full Moon" (liveRecord 610) = true
      ∧ ∃ stats, getStatistics 129600000 (recordedThenBackfilled 610) = some stats
          ∧ stats.daylight.current = some 600
          ∧ stats.lunar.lastFullMoon = some 0
          ∧ stats.lunar.fullMoonCount = 2
          ∧ phaseGet stats.lunar.phaseDistribution "Full Moon" = 2
          ∧ stats.lunar.newMoonCount = 0
          ∧ phaseGet stats.lunar.phaseDistribution "New Moon" = 0 := by
  refine ⟨reachable_recordedThenBackfilled 610, rfl, by decide, rfl, rfl, by decide, ?_⟩
  obtain ⟨stats, hstats⟩ := getStatistics_isSome 129600000 (recordedThenBackfilled 610)
    (by rw [recordedThenBackfilled_eq]; simp)
  obtain ⟨_, _, _, _, _, _, _, hcurrent, hdist, hfull, hnew, hlastFull, _⟩ :=
    getStatistics_some 129600000 (recordedThenBackfilled 610) stats hstats
  have hrecords : storedRecords (recordedThenBackfilled 610)
      = [liveRecord 610, backfilledRecord] := rfl
  have hfilter : (storedRecords (recordedThenBackfilled 610)).filter (hasPhase "Full Moon")
      = [liveRecord 610, backfilledRecord] := by
    rw [hrecords]
    decide
  have hfilterNew : (storedRecords (recordedThenBackfilled 610)).filter (hasPhase "New Moon")
      = [] := by
    rw [hrecords]
    decide
  refine ⟨stats, hstats, ?_, ?_, ?_, ?_, ?_, ?_⟩
  · rw [hcurrent, hrecords]
    simp [daylightOf, backfilledRecord]
  · rw [hlastFull, hfilter]
    rfl
  · rw [hfull, hfilter]
    rfl
  · rw [hdist, phaseGet_phaseCounts _ _ (by decide), hfilter]
    rfl
  · rw [hnew, hfilterNew]
    rfl
  · rw [hdist, phaseGet_phaseCounts _ _ (by decide), hfilterNew]
    rfl

/-! ## First recorded date -/

/-- C30, evaluated on the empty store after `recordDay` on day 0 and, ten days later, a
backfill of one day: the store is reachable by the two actions; after `recordDay` the
first recorded date is day 0; the backfill adds the days 9 and 10 and sets
`firstRecordDate` to day 9, although the record of day 0 is still held, so that
`firstRecordDate` is no longer the earliest date held. -/
theorem firstRecordDate_moves_later :
    HistoryReachable recordedThenLateBackfill
      ∧ (afterRecordDay 43200000 missingData emptyHistory).firstRecordDate = some 0
      ∧ (afterRecordDay 43200000 missingData emptyHistory).dailyRecords.map Prod.fst = [0]
      ∧ recordedThenLateBackfill.dailyRecords.map Prod.fst = [0, 9, 10]
      ∧ recordedThenLateBackfill.firstRecordDate = some 9 :=
  ⟨HistoryReachable.backfill _ _ _ _ _ _ (HistoryReachable.record _ _ _ HistoryReachable.init),
    rfl, rfl, rfl, rfl⟩

/-- In every reachable state of the history store `firstRecordDate` is unset exactly when
no record is held. -/
theorem firstRecordDate_unset_iff (state : HistoryState) (h : HistoryReachable state) :
    state.firstRecordDate = none ↔ state.dailyRecords = [] :=
  (historyReachable_ok state h).2.2

/-! ## Atmosphere log -/

theorem recordAtmosphere_of_current (now : Int) (data : AtmosphereData) (current : Conditions)
    (state : PatternsState) (hcurrent : data.current = some current) :
    recordAtmosphere now (some data) state
      = { state with
          atmosphereHistory :=
            state.atmosphereHistory.filter (fun a => decide (a.timestamp > now - 2592000000))
              ++ [newEntry now data current] } := by
  have hnew : decide (now > now - 30 * 24 * 60 * 60 * 1000) = true := by
    simp only [decide_eq_true_eq]
    omega
  simp only [recordAtmosphere, Option.bind, hcurrent, List.filter_append, List.filter_cons,
    List.filter_nil, hnew, if_true, newEntry, Option.map]
  norm_num

theorem recordAtmosphere_of_none (now : Int) (atmosphereData : Option AtmosphereData)
    (state : PatternsState) (h : atmosphereData.bind (fun d => d.current) = none) :
    recordAtmosphere now atmosphereData state = state := by
  simp only [recordAtmosphere, h]

theorem chronological_recordAtmosphere (earlier now : Int)
    (atmosphereData : Option AtmosphereData) (state : PatternsState)
    (hclock : earlier ≤ now) (hlog : Chronological earlier state.atmosphereHistory) :
    Chronological now (recordAtmosphere now atmosphereData state).atmosphereHistory := by
  obtain ⟨hsorted, hbound⟩ := hlog
  cases hc : atmosphereData.bind (fun d => d.current) with
  | none =>
    rw [recordAtmosphere_of_none now atmosphereData state hc]
    exact ⟨hsorted, fun a ha => (hbound a ha).trans hclock⟩
  | some current =>
    cases atmosphereData with
    | none => simp at hc
    | some data =>
      have hcur : data.current = some current := by simpa using hc
      rw [recordAtmosphere_of_current now data current state hcur]
      simp only
      constructor
      · rw [List.map_append, List.pairwise_append]
        refine ⟨?_, by simp, ?_⟩
        · exact (hsorted.sublist ((List.filter_sublist _).map _))
        · intro x hx y hy
          obtain ⟨a, ha, rfl⟩ := List.mem_map.1 hx
          simp only [List.map_cons, List.map_nil, List.mem_singleton] at hy
          rw [hy]
          exact (hbound a (List.mem_of_mem_filter ha)).trans hclock
      · intro a ha
        rw [List.mem_append] at ha
        rcases ha with ha | ha
        · exact (hbound a (List.mem_of_mem_filter ha)).trans hclock
        · simp only [List.mem_singleton] at ha
          rw [ha]
          exact le_refl _

theorem chronological_atmosphereRuns (calls : List (Int × Option AtmosphereData))
    (earlier : Int) (state : PatternsState)
    (hlog : Chronological earlier state.atmosphereHistory)
    (hclock : (earlier :: calls.map Prod.fst).Pairwise (fun a b => a ≤ b)) :
    ((atmosphereRuns calls state).atmosphereHistory.map (fun a => a.timestamp)).Pairwise
      (fun a b => a ≤ b) := by
  induction calls generalizing earlier state with
  | nil => exact hlog.1
  | cons call rest ih =>
    simp only [atmosphereRuns, List.foldl_cons]
    simp only [List.map_cons, List.pairwise_cons] at hclock
    obtain ⟨hfirst, hrest, hsorted⟩ := hclock
    refine ih call.1 _ (chronological_recordAtmosphere earlier call.1 call.2 state
      (hfirst call.1 (List.mem_cons_self _ _)) hlog) ?_
    simp only [List.pairwise_cons]
    exact ⟨hrest, hsorted⟩

/-- C26: a call of `recordAtmosphere` at the instant `now` with data that have current
conditions leaves as log the entries held before that are newer than `now` minus 30 days,
in their order, followed by the new entry, whose timestamp is `now` and whose forecast
has at most 6 items; every entry of the new log is newer than the horizon, and the rest
of the state is unchanged. A log in chronological order that holds nothing later than
the call stays in chronological order, so that calls made with a clock that never goes
back, from the empty log on, always leave a log in chronological order. -/
theorem recordAtmosphere_retention (now : Int) (data : AtmosphereData) (current : Conditions)
    (state : PatternsState) (hcurrent : data.current = some current) :
    (recordAtmosphere now (some data) state).atmosphereHistory
        = state.atmosphereHistory.filter (fun a => decide (a.timestamp > now - 2592000000))
            ++ [newEntry now data current]
      ∧ (newEntry now data current).timestamp = now
      ∧ (∀ forecast, (newEntry now data current).hourlyForecast = some forecast →
          forecast.length ≤ 6
            ∧ ∃ given, data.hourlyForecast = some given ∧ forecast = given.take 6)
      ∧ (∀ a ∈ (recordAtmosphere now (some data) state).atmosphereHistory,
          a.timestamp > now - 2592000000)
      ∧ (recordAtmosphere now (some data) state).patterns = state.patterns
      ∧ (recordAtmosphere now (some data) state).lastDetection = state.lastDetection
      ∧ (∀ earlier, earlier ≤ now → Chronological earlier state.atmosphereHistory →
          Chronological now (recordAtmosphere now (some data) state).atmosphereHistory)
      ∧ ∀ calls : List (Int × Option AtmosphereData),
          (calls.map Prod.fst).Pairwise (fun a b => a ≤ b) →
          ((atmosphereRuns calls initialPatternsState).atmosphereHistory.map
            (fun a => a.timestamp)).Pairwise (fun a b => a ≤ b) := by
  have heq := recordAtmosphere_of_current now data current state hcurrent
  refine ⟨by rw [heq], rfl, ?_, ?_, by rw [heq], by rw [heq], ?_, ?_⟩
  · intro forecast hf
    simp only [newEntry, Option.map_eq_some'] at hf
    obtain ⟨given, hgiven, rfl⟩ := hf
    exact ⟨by simp, given, hgiven, rfl⟩
  · intro a ha
    rw [heq] at ha
    simp only [List.mem_append, List.mem_filter, decide_eq_true_eq, List.mem_singleton] at ha
    rcases ha with ha | ha
    · exact ha.2
    · rw [ha]
      simp only [newEntry]
      omega
  · intro earlier hclock hlog
    exact chronological_recordAtmosphere earlier now (some data) state hclock hlog
  · intro calls hclock
    cases calls with
    | nil => simp [atmosphereRuns, initialPatternsState]
    | cons call rest =>
      refine chronological_atmosphereRuns (call :: rest) call.1 initialPatternsState ?_ ?_
      · simp [Chronological, initialPatternsState]
      · simp only [List.map_cons, List.pairwise_cons] at hclock ⊢
        refine ⟨?_, hclock⟩
        intro b hb
        rcases List.mem_cons.1 hb with h | h
        · rw [h]
        · exact hclock.1 b h

/-- Witness for C26: on a log with an entry 31 days old and an entry one day old, a call
with seven hourly samples keeps the entry one day old, appends the new entry, and cuts
its forecast to 6 items. -/
theorem recordAtmosphere_retention_witness :
    (recordAtmosphere 2678400000
        (some { current := some emptyConditions, hourlyForecast := some sevenSamples })
        { patterns := [], atmosphereHistory := [loggedAt 0, loggedAt 2592000000],
          lastDetection := none }).atmosphereHistory
      = [loggedAt 2592000000,
          { timestamp := 2678400000, current := some emptyConditions,
            hourlyForecast := some (sevenSamples.take 6) }] :=
  ((recordAtmosphere_retention 2678400000
    { current := some emptyConditions, hourlyForecast := some sevenSamples } emptyConditions
    { patterns := [], atmosphereHistory := [loggedAt 0, loggedAt 2592000000],
      lastDetection := none } rfl).1).trans (by decide)

/-- C27, amended: a call of `recordAtmosphere` with data that lack current conditions
leaves the whole state unchanged (it always returns), and a call with data that have
current conditions appends an entry with these conditions, whatever fields they hold. -/
theorem recordAtmosphere_guard (now : Int) (atmosphereData : Option AtmosphereData)
    (state : PatternsState) :
    (atmosphereData.bind (fun d => d.current) = none →
        recordAtmosphere now atmosphereData state = state)
      ∧ ∀ current, atmosphereData.bind (fun d => d.current) = some current →
          ∃ entry, entry.timestamp = now ∧ entry.current = some current
            ∧ (recordAtmosphere now atmosphereData state).atmosphereHistory.getLast?
                = some entry := by
  refine ⟨recordAtmosphere_of_none now atmosphereData state, ?_⟩
  intro current hc
  cases atmosphereData with
  | none => simp at hc
  | some data =>
    have hcur : data.current = some current := by simpa using hc
    refine ⟨newEntry now data current, rfl, rfl, ?_⟩
    rw [recordAtmosphere_of_current now data current state hcur]
    simp

/-- Witness for C27: data without current conditions leave the store of the patterns `x`
and `y` as it was. -/
theorem recordAtmosphere_guard_witness :
    recordAtmosphere 5 (some { current := none, hourlyForecast := some sevenSamples })
      twoPatternsState = twoPatternsState :=
  (recordAtmosphere_guard 5 (some { current := none, hourlyForecast := some sevenSamples })
    twoPatternsState).1 rfl

/-- Counterexample to C27 as stated: data whose current conditions lack every field
(`cloudCover`, `visibility`, `humidity`, `observationScore`) are stored: the log of the
initial state, empty before the call, holds one entry after it. -/
theorem malformed_snapshot_counterexample :
    emptyConditions.cloudCover = none ∧ emptyConditions.visibility = none
      ∧ emptyConditions.humidity = none ∧ emptyConditions.observationScore = none
      ∧ initialPatternsState.atmosphereHistory = []
      ∧ (recordAtmosphere 5 (some { current := some emptyConditions, hourlyForecast := none })
          initialPatternsState).atmosphereHistory
        = [{ timestamp := 5, current := some emptyConditions, hourlyForecast := none }] :=
  ⟨rfl, rfl, rfl, rfl, rfl, by decide⟩

/-! ## Rounding to binary64 -/

theorem pow2_eq (e : Int) : pow2 e = (2 : ℚ) ^ e := by
  unfold pow2
  split_ifs with h
  · obtain ⟨n, rfl⟩ := Int.eq_ofNat_of_zero_le h
    simp
  · have h2 : 0 ≤ -e := by omega
    obtain ⟨n, hn⟩ := Int.eq_ofNat_of_zero_le h2
    have he : e = -(n : Int) := by omega
    rw [hn, he]
    simp

theorem pow2_pos (e : Int) : 0 < pow2 e := by
  rw [pow2_eq]
  positivity

theorem pow2_add (a b : Int) : pow2 (a + b) = pow2 a * pow2 b := by
  rw [pow2_eq, pow2_eq, pow2_eq, zpow_add₀ (by norm_num)]

theorem pow2_le_pow2 {a b : Int} (h : a ≤ b) : pow2 a ≤ pow2 b := by
  rw [pow2_eq, pow2_eq]
  exact zpow_le_zpow_right₀ (by norm_num) h

theorem pow2_lt_pow2_iff {a b : Int} : pow2 a < pow2 b ↔ a < b := by
  rw [pow2_eq, pow2_eq]
  exact zpow_lt_zpow_iff_right₀ (by norm_num)

theorem pow2_natCast (n : ℕ) : pow2 (n : Int) = ((2 ^ n : ℕ) : ℚ) := by
  rw [pow2_eq]
  simp

theorem log2Fuel_spec : ∀ (fuel n : ℕ), 1 ≤ n → n ≤ fuel →
    2 ^ log2Fuel fuel n ≤ n ∧ n < 2 ^ (log2Fuel fuel n + 1)
  | 0, n, h1, h2 => by omega
  | fuel + 1, n, h1, h2 => by
    unfold log2Fuel
    split_ifs with h
    · simp
      omega
    · have ih := log2Fuel_spec fuel (n / 2) (by omega) (by omega)
      obtain ⟨ih1, ih2⟩ := ih
      rw [pow_succ] at ih2
      rw [pow_succ, pow_succ, pow_succ]
      generalize 2 ^ log2Fuel fuel (n / 2) = p at ih1 ih2
      omega

theorem abs_eq_natAbs_div_den (q : ℚ) : |q| = (q.num.natAbs : ℚ) / (q.den : ℚ) := by
  have h := Rat.num_div_den q
  have hd : (0 : ℚ) < (q.den : ℚ) := by exact_mod_cast q.den_pos
  conv_lhs => rw [← h]
  rw [abs_div, abs_of_pos hd, Nat.cast_natAbs, Int.cast_abs]

theorem floorLog2_spec (q : ℚ) (hq : q ≠ 0) :
    pow2 (floorLog2 q) ≤ |q| ∧ |q| < pow2 (floorLog2 q + 1) := by
  have hN : 1 ≤ q.num.natAbs := by
    have : q.num ≠ 0 := Rat.num_ne_zero.2 hq
    omega
  have hD : 1 ≤ q.den := q.den_pos
  obtain ⟨n1, n2⟩ := log2Fuel_spec q.num.natAbs q.num.natAbs hN le_rfl
  obtain ⟨d1, d2⟩ := log2Fuel_spec q.den q.den hD le_rfl
  have habs := abs_eq_natAbs_div_den q
  have hd : (0 : ℚ) < (q.den : ℚ) := by exact_mod_cast q.den_pos
  have n1q : ((2 : ℚ) ^ log2Fuel q.num.natAbs q.num.natAbs) ≤ (q.num.natAbs : ℚ) := by
    exact_mod_cast n1
  have n2q : (q.num.natAbs : ℚ) < (2 : ℚ) ^ (log2Fuel q.num.natAbs q.num.natAbs + 1) := by
    exact_mod_cast n2
  have d1q : ((2 : ℚ) ^ log2Fuel q.den q.den) ≤ (q.den : ℚ) := by exact_mod_cast d1
  have d2q : (q.den : ℚ) < (2 : ℚ) ^ (log2Fuel q.den q.den + 1) := by exact_mod_cast d2
  set kn := log2Fuel q.num.natAbs q.num.natAbs with hkn
  set kd := log2Fuel q.den q.den with hkd
  have hpd : (0 : ℚ) < (2 : ℚ) ^ kd := by positivity
  have hpn : (0 : ℚ) < (2 : ℚ) ^ kn := by positivity
  have e0 : pow2 ((kn : Int) - (kd : Int)) = (2 : ℚ) ^ kn / (2 : ℚ) ^ kd := by
    rw [pow2_eq, zpow_sub₀ (by norm_num), zpow_natCast, zpow_natCast]
  -- upper bound: |q| < 2 ^ (e0 + 1)
  have hup : |q| < pow2 ((kn : Int) - (kd : Int) + 1) := by
    rw [pow2_add, e0, habs]
    have h1 : pow2 1 = 2 := by rw [pow2_eq]; norm_num
    rw [h1, div_lt_iff₀ hd]
    have : (2 : ℚ) ^ kn / 2 ^ kd * 2 * (q.den : ℚ) = (2 : ℚ) ^ (kn + 1) * ((q.den : ℚ) / 2 ^ kd) := by
      field_simp
      ring
    rw [this]
    have hge : (1 : ℚ) ≤ (q.den : ℚ) / 2 ^ kd := by
      rw [le_div_iff₀ hpd]
      linarith
    calc (q.num.natAbs : ℚ) < (2 : ℚ) ^ (kn + 1) := n2q
      _ = (2 : ℚ) ^ (kn + 1) * 1 := by ring
      _ ≤ (2 : ℚ) ^ (kn + 1) * ((q.den : ℚ) / 2 ^ kd) := by
          apply mul_le_mul_of_nonneg_left hge
          positivity
  -- lower bound: 2 ^ (e0 - 1) ≤ |q|
  have hlow : pow2 ((kn : Int) - (kd : Int) - 1) ≤ |q| := by
    have hs : (kn : Int) - (kd : Int) - 1 = ((kn : Int) - (kd : Int)) + (-1) := by ring
    rw [hs, pow2_add, e0, habs]
    have h1 : pow2 (-1) = 1 / 2 := by rw [pow2_eq]; norm_num
    rw [h1, le_div_iff₀ hd]
    have : (2 : ℚ) ^ kn / 2 ^ kd * (1 / 2) * (q.den : ℚ)
        = (2 : ℚ) ^ kn * ((q.den : ℚ) / 2 ^ (kd + 1)) := by
      rw [pow_succ]
      field_simp
    rw [this]
    have hle : (q.den : ℚ) / 2 ^ (kd + 1) ≤ 1 := by
      rw [div_le_iff₀ (by positivity)]
      linarith
    calc (2 : ℚ) ^ kn * ((q.den : ℚ) / 2 ^ (kd + 1)) ≤ (2 : ℚ) ^ kn * 1 :=
          mul_le_mul_of_nonneg_left hle hpn.le
      _ = (2 : ℚ) ^ kn := by ring
      _ ≤ (q.num.natAbs : ℚ) := n1q
  unfold floorLog2
  simp only []
  rw [← hkn, ← hkd]
  split_ifs with h
  · exact ⟨h, hup⟩
  · refine ⟨hlow, ?_⟩
    have : (kn : Int) - (kd : Int) - 1 + 1 = (kn : Int) - (kd : Int) := by ring
    rw [this]
    exact not_le.1 h

theorem floorLog2_mono (a b : ℚ) (ha : 0 < a) (hab : a ≤ b) : floorLog2 a ≤ floorLog2 b := by
  obtain ⟨a1, _⟩ := floorLog2_spec a ha.ne'
  obtain ⟨_, b2⟩ := floorLog2_spec b (lt_of_lt_of_le ha hab).ne'
  rw [abs_of_pos ha] at a1
  rw [abs_of_pos (lt_of_lt_of_le ha hab)] at b2
  have : floorLog2 a < floorLog2 b + 1 :=
    pow2_lt_pow2_iff.1 (lt_of_le_of_lt a1 (lt_of_le_of_lt hab b2))
  omega

theorem roundHalfEven_ge_floor (x : ℚ) : Int.floor x ≤ roundHalfEven x := by
  unfold roundHalfEven
  split_ifs <;> omega

theorem roundHalfEven_le_floor_succ (x : ℚ) : roundHalfEven x ≤ Int.floor x + 1 := by
  unfold roundHalfEven
  split_ifs <;> omega

theorem roundHalfEven_intCast (n : Int) : roundHalfEven (n : ℚ) = n := by
  unfold roundHalfEven
  simp

theorem roundHalfEven_mono (x y : ℚ) (h : x ≤ y) : roundHalfEven x ≤ roundHalfEven y := by
  have hf : Int.floor x ≤ Int.floor y := Int.floor_mono h
  rcases hf.lt_or_eq with hlt | heq
  · have := roundHalfEven_le_floor_succ x
    have := roundHalfEven_ge_floor y
    omega
  · unfold roundHalfEven
    rw [heq]
    have hxy : x - (Int.floor y : ℚ) ≤ y - (Int.floor y : ℚ) := by linarith
    split_ifs <;> first | omega | (exfalso; linarith)

theorem roundHalfEven_nonneg (x : ℚ) (h : 0 ≤ x) : 0 ≤ roundHalfEven x := by
  have := roundHalfEven_mono 0 x h
  have h0 : roundHalfEven 0 = 0 := by simpa using roundHalfEven_intCast 0
  omega

theorem ulpExponent_mono (a b : ℚ) (ha : 0 < a) (hab : a ≤ b) :
    ulpExponent a ≤ ulpExponent b := by
  unfold ulpExponent
  have := floorLog2_mono a b ha hab
  exact max_le_max (by omega) le_rfl

theorem roundPos_nonneg (a : ℚ) (ha : 0 ≤ a) : 0 ≤ roundPos a := by
  unfold roundPos
  have h1 : 0 ≤ a / pow2 (ulpExponent a) := div_nonneg ha (pow2_pos _).le
  have h2 : (0 : ℚ) ≤ (roundHalfEven (a / pow2 (ulpExponent a)) : ℚ) := by
    exact_mod_cast roundHalfEven_nonneg _ h1
  exact mul_nonneg h2 (pow2_pos _).le

theorem roundPos_zero : roundPos 0 = 0 := by
  unfold roundPos
  have h0 : roundHalfEven 0 = 0 := by simpa using roundHalfEven_intCast 0
  simp [h0]

/-- A power of two at or above the last kept digit is a whole number of units of that
digit. -/
theorem pow2_div_pow2 (f e : Int) (h : e ≤ f) :
    pow2 f / pow2 e = (((2 ^ (f - e).toNat : ℕ) : Int) : ℚ) := by
  have hf : f = (f - e) + e := by ring
  conv_lhs => rw [hf, pow2_add]
  rw [mul_div_assoc, div_self (pow2_pos e).ne', mul_one]
  obtain ⟨n, hn⟩ := Int.eq_ofNat_of_zero_le (show 0 ≤ f - e by omega)
  rw [hn, pow2_natCast]
  simp

theorem roundPos_mono (a b : ℚ) (ha : 0 < a) (hab : a ≤ b) : roundPos a ≤ roundPos b := by
  have hb : 0 < b := lt_of_lt_of_le ha hab
  have he := ulpExponent_mono a b ha hab
  rcases he.lt_or_eq with hlt | heq
  · -- the exponent of the last digit grows: a power of two lies between
    have hfb : ulpExponent b = floorLog2 b - 52 := by
      unfold ulpExponent at hlt ⊢
      have h1074 : (-1074 : Int) ≤ max (floorLog2 a - 52) (-1074) := le_max_right _ _
      rcases max_cases (floorLog2 b - 52) (-1074) with ⟨h, _⟩ | ⟨h, _⟩
      · exact h
      · rw [h] at hlt
        omega
    have hfa : floorLog2 a - 52 ≤ ulpExponent a := le_max_left _ _
    obtain ⟨_, a2⟩ := floorLog2_spec a ha.ne'
    obtain ⟨b1, _⟩ := floorLog2_spec b hb.ne'
    rw [abs_of_pos ha] at a2
    rw [abs_of_pos hb] at b1
    have hle : pow2 (floorLog2 a + 1) ≤ pow2 (floorLog2 b) := pow2_le_pow2 (by omega)
    -- roundPos a ≤ 2 ^ floorLog2 b
    have h1 : roundPos a ≤ pow2 (floorLog2 b) := by
      unfold roundPos
      have hq : a / pow2 (ulpExponent a) ≤ pow2 (floorLog2 b) / pow2 (ulpExponent a) :=
        div_le_div_of_nonneg_right (by linarith) (pow2_pos _).le
      rw [pow2_div_pow2 _ _ (by omega)] at hq
      have hr := roundHalfEven_mono _ _ hq
      rw [roundHalfEven_intCast] at hr
      have hr2 : (roundHalfEven (a / pow2 (ulpExponent a)) : ℚ)
          ≤ (((2 ^ (floorLog2 b - ulpExponent a).toNat : ℕ) : Int) : ℚ) := by
        exact_mod_cast hr
      rw [← pow2_div_pow2 _ _ (by omega)] at hr2
      calc (roundHalfEven (a / pow2 (ulpExponent a)) : ℚ) * pow2 (ulpExponent a)
          ≤ pow2 (floorLog2 b) / pow2 (ulpExponent a) * pow2 (ulpExponent a) :=
            mul_le_mul_of_nonneg_right hr2 (pow2_pos _).le
        _ = pow2 (floorLog2 b) := div_mul_cancel₀ _ (pow2_pos _).ne'
    -- 2 ^ floorLog2 b ≤ roundPos b
    have h2 : pow2 (floorLog2 b) ≤ roundPos b := by
      unfold roundPos
      have hq : pow2 (floorLog2 b) / pow2 (ulpExponent b) ≤ b / pow2 (ulpExponent b) :=
        div_le_div_of_nonneg_right b1 (pow2_pos _).le
      rw [pow2_div_pow2 _ _ (by omega)] at hq
      have hr := roundHalfEven_mono _ _ hq
      rw [roundHalfEven_intCast] at hr
      have hr2 : (((2 ^ (floorLog2 b - ulpExponent b).toNat : ℕ) : Int) : ℚ)
          ≤ (roundHalfEven (b / pow2 (ulpExponent b)) : ℚ) := by
        exact_mod_cast hr
      rw [← pow2_div_pow2 _ _ (by omega)] at hr2
      calc pow2 (floorLog2 b)
          = pow2 (floorLog2 b) / pow2 (ulpExponent b) * pow2 (ulpExponent b) :=
            (div_mul_cancel₀ _ (pow2_pos _).ne').symm
        _ ≤ (roundHalfEven (b / pow2 (ulpExponent b)) : ℚ) * pow2 (ulpExponent b) :=
            mul_le_mul_of_nonneg_right hr2 (pow2_pos _).le
    exact le_trans h1 h2
  · unfold roundPos
    rw [heq]
    have hq : a / pow2 (ulpExponent b) ≤ b / pow2 (ulpExponent b) :=
      div_le_div_of_nonneg_right hab (pow2_pos _).le
    have hr := roundHalfEven_mono _ _ hq
    have hr2 : (roundHalfEven (a / pow2 (ulpExponent b)) : ℚ)
        ≤ (roundHalfEven (b / pow2 (ulpExponent b)) : ℚ) := by exact_mod_cast hr
    exact mul_le_mul_of_nonneg_right hr2 (pow2_pos _).le

theorem roundPos_mono_nonneg (a b : ℚ) (ha : 0 ≤ a) (hab : a ≤ b) :
    roundPos a ≤ roundPos b := by
  rcases ha.lt_or_eq with h | h
  · exact roundPos_mono a b h hab
  · rw [← h, roundPos_zero]
    exact roundPos_nonneg b (le_trans ha hab)

theorem roundNearest_zero : roundNearest 0 = 0 := by
  unfold roundNearest
  simp [roundPos_zero]

theorem roundNearest_of_nonneg (q : ℚ) (h : 0 ≤ q) : roundNearest q = roundPos q := by
  unfold roundNearest
  rw [if_neg (not_lt.2 h)]

theorem roundNearest_of_neg (q : ℚ) (h : q < 0) : roundNearest q = -roundPos (-q) := by
  unfold roundNearest
  rw [if_pos h]

theorem roundNearest_neg (q : ℚ) : roundNearest (-q) = -roundNearest q := by
  rcases lt_trichotomy q 0 with h | h | h
  · rw [roundNearest_of_neg q h, roundNearest_of_nonneg (-q) (by linarith)]
    ring
  · rw [h]
    simp [roundNearest_zero]
  · rw [roundNearest_of_neg (-q) (by linarith), roundNearest_of_nonneg q h.le]
    simp

theorem roundNearest_nonneg (q : ℚ) (h : 0 ≤ q) : 0 ≤ roundNearest q := by
  rw [roundNearest_of_nonneg q h]
  exact roundPos_nonneg q h

theorem roundNearest_nonpos (q : ℚ) (h : q ≤ 0) : roundNearest q ≤ 0 := by
  have := roundNearest_nonneg (-q) (by linarith)
  rw [roundNearest_neg] at this
  linarith

/-- Rounding to the nearest binary64 value is monotone. -/
theorem roundNearest_mono (p q : ℚ) (h : p ≤ q) : roundNearest p ≤ roundNearest q := by
  rcases lt_or_le p 0 with hp | hp
  · rcases lt_or_le q 0 with hq | hq
    · rw [roundNearest_of_neg p hp, roundNearest_of_neg q hq]
      have := roundPos_mono (-q) (-p) (by linarith) (by linarith)
      linarith
    · exact le_trans (roundNearest_nonpos p hp.le) (roundNearest_nonneg q hq)
  · rw [roundNearest_of_nonneg p hp, roundNearest_of_nonneg q (le_trans hp h)]
    exact roundPos_mono_nonneg p q hp h

/-- A positive whole multiple `m * 2 ^ k` of a power of two, with `m` below `2 ^ 53` and
`k` at least `-1074`, is a binary64 value. -/
theorem roundPos_exact (m : ℕ) (k : Int) (hm0 : 0 < m) (hm : m < 2 ^ 53) (hk : -1074 ≤ k) :
    roundPos ((m : ℚ) * pow2 k) = (m : ℚ) * pow2 k := by
  have hmq : (0 : ℚ) < (m : ℚ) := by exact_mod_cast hm0
  have ha : 0 < (m : ℚ) * pow2 k := mul_pos hmq (pow2_pos k)
  obtain ⟨f1, _⟩ := floorLog2_spec _ ha.ne'
  rw [abs_of_pos ha] at f1
  have hlt : (m : ℚ) * pow2 k < pow2 (53 + k) := by
    rw [pow2_add]
    apply mul_lt_mul_of_pos_right _ (pow2_pos k)
    have : pow2 53 = ((2 ^ 53 : ℕ) : ℚ) := pow2_natCast 53
    rw [this]
    exact_mod_cast hm
  have hfl : floorLog2 ((m : ℚ) * pow2 k) < 53 + k := pow2_lt_pow2_iff.1 (lt_of_le_of_lt f1 hlt)
  have hu : ulpExponent ((m : ℚ) * pow2 k) ≤ k := by
    unfold ulpExponent
    exact max_le (by omega) hk
  unfold roundPos
  set u := ulpExponent ((m : ℚ) * pow2 k) with hu_def
  have hq : (m : ℚ) * pow2 k / pow2 u = (((m * 2 ^ (k - u).toNat : ℕ) : Int) : ℚ) := by
    rw [mul_div_assoc, pow2_div_pow2 k u hu]
    push_cast
    ring
  rw [hq, roundHalfEven_intCast, ← hq, div_mul_cancel₀ _ (pow2_pos u).ne']

theorem roundNearest_natCast (m : ℕ) (hm : m < 2 ^ 53) : roundNearest (m : ℚ) = (m : ℚ) := by
  rcases Nat.eq_zero_or_pos m with h | h
  · rw [h]
    simpa using roundNearest_zero
  · rw [roundNearest_of_nonneg _ (by positivity)]
    have := roundPos_exact m 0 h hm (by norm_num)
    have h0 : pow2 0 = 1 := by rw [pow2_eq]; norm_num
    rw [h0, mul_one] at this
    exact this

theorem roundNearest_intCast (n : Int) (hn : n.natAbs < 2 ^ 53) :
    roundNearest (n : ℚ) = (n : ℚ) := by
  rcases le_or_lt 0 n with h | h
  · obtain ⟨m, rfl⟩ := Int.eq_ofNat_of_zero_le h
    exact roundNearest_natCast m (by simpa using hn)
  · have h2 : 0 ≤ -n := by omega
    obtain ⟨m, hm⟩ := Int.eq_ofNat_of_zero_le h2
    have hn2 : n = -(m : Int) := by omega
    rw [hn2]
    push_cast
    rw [roundNearest_neg, roundNearest_natCast m (by omega)]

/-- The Number of a rational whose rounded value is below the overflow threshold. -/
theorem ofRat_eq_fin (q : ℚ) (h : |roundNearest q| < pow2 1024) :
    JsNumber.ofRat q = JsNumber.fin (roundNearest q) := by
  unfold JsNumber.ofRat
  rw [if_neg (not_le.2 h)]

/-- A rational between two binary64 values rounds to a value between them. -/
theorem roundNearest_mem (lo hi q : ℚ) (hlo : roundNearest lo = lo) (hhi : roundNearest hi = hi)
    (h1 : lo ≤ q) (h2 : q ≤ hi) : lo ≤ roundNearest q ∧ roundNearest q ≤ hi := by
  constructor
  · rw [← hlo]
    exact roundNearest_mono _ _ h1
  · rw [← hhi]
    exact roundNearest_mono _ _ h2

theorem pow2_1024_gt : (2 : ℚ) ^ 53 < pow2 1024 := by
  have h : (2 : ℚ) ^ 53 = pow2 53 := by
    rw [pow2_eq]
    norm_cast
  rw [h]
  exact pow2_lt_pow2_iff.2 (by norm_num)

/-- The Number of a rational of magnitude at most `2 ^ 53` is finite. -/
theorem ofRat_of_abs_le (q : ℚ) (h : |q| ≤ 2 ^ 53) :
    JsNumber.ofRat q = JsNumber.fin (roundNearest q) := by
  apply ofRat_eq_fin
  have hfix : roundNearest ((2 : ℚ) ^ 53) = (2 : ℚ) ^ 53 := by
    have := roundPos_exact 1 53 (by norm_num) (by norm_num) (by norm_num)
    rw [roundNearest_of_nonneg _ (by positivity)]
    have hp : pow2 53 = (2 : ℚ) ^ 53 := by rw [pow2_eq]; norm_cast
    rw [hp] at this
    simpa using this
  have hfix2 : roundNearest (-(2 : ℚ) ^ 53) = -(2 : ℚ) ^ 53 := by
    rw [roundNearest_neg, hfix]
  obtain ⟨h1, h2⟩ := abs_le.1 h
  obtain ⟨r1, r2⟩ := roundNearest_mem _ _ q hfix2 hfix h1 h2
  exact lt_of_le_of_lt (abs_le.2 ⟨r1, r2⟩) pow2_1024_gt

/-! ## Moon phases -/

theorem abs_le_two_pow (q : ℚ) (h0 : -100000 ≤ q) (h1 : q ≤ 100000) : |q| ≤ 2 ^ 53 := by
  rw [abs_le]
  constructor <;> linarith [show (100000 : ℚ) ≤ 2 ^ 53 by norm_num]

theorem fin_add (a b : ℚ) (h : |a + b| ≤ 2 ^ 53) :
    JsNumber.fin a + JsNumber.fin b = JsNumber.fin (roundNearest (a + b)) :=
  ofRat_of_abs_le (a + b) h

theorem fin_sub (a b : ℚ) (h : |a - b| ≤ 2 ^ 53) :
    JsNumber.fin a - JsNumber.fin b = JsNumber.fin (roundNearest (a - b)) := by
  show JsNumber.ofRat (a + -b) = _
  rw [← sub_eq_add_neg]
  exact ofRat_of_abs_le (a - b) h

theorem fin_mul (a b : ℚ) (h : |a * b| ≤ 2 ^ 53) :
    JsNumber.fin a * JsNumber.fin b = JsNumber.fin (roundNearest (a * b)) :=
  ofRat_of_abs_le (a * b) h

theorem max_fin (a b : ℚ) :
    JsNumber.max (JsNumber.fin a) (JsNumber.fin b) = JsNumber.fin (max a b) := by
  unfold JsNumber.max
  simp only [JsNumber.lt]
  by_cases h : a < b
  · simp [h, max_eq_right h.le]
  · simp [h, max_eq_left (not_lt.1 h)]

theorem min_fin (a b : ℚ) :
    JsNumber.min (JsNumber.fin a) (JsNumber.fin b) = JsNumber.fin (min a b) := by
  unfold JsNumber.min
  simp only [JsNumber.lt]
  by_cases h : b < a
  · simp [h, min_eq_right h.le]
  · simp [h, min_eq_left (not_lt.1 h)]

theorem min_fin_inf (a : ℚ) :
    JsNumber.min (JsNumber.fin a) (JsNumber.inf false) = JsNumber.fin a := by
  simp [JsNumber.min, JsNumber.lt]

theorem round_fin (a : ℚ) :
    JsNumber.round (JsNumber.fin a) = JsNumber.fin ((Int.floor (a + 1 / 2) : Int) : ℚ) := rfl

theorem ge_fin (a b : ℚ) : (JsNumber.fin a).ge (JsNumber.fin b) = decide (b ≤ a) := rfl

theorem le_fin (a b : ℚ) : (JsNumber.fin a).le (JsNumber.fin b) = decide (a ≤ b) := rfl

theorem lt_fin (a b : ℚ) : (JsNumber.fin a).lt (JsNumber.fin b) = decide (a < b) := rfl

theorem gt_fin (a b : ℚ) : (JsNumber.fin a).gt (JsNumber.fin b) = decide (b < a) := rfl

/-- A Number that is at least 0 and below a finite bound is finite. -/
theorem fin_of_bounds (x : JsNumber) (b : ℚ) (h0 : (JsNumber.fin 0).le x = true)
    (h1 : x.lt (JsNumber.fin b) = true) : ∃ p : ℚ, x = JsNumber.fin p ∧ 0 ≤ p ∧ p < b := by
  cases x with
  | nan => simp [JsNumber.le] at h0
  | inf s =>
    cases s
    · simp [JsNumber.lt] at h1
    · simp [JsNumber.le] at h0
  | fin p =>
    rw [le_fin] at h0
    rw [lt_fin] at h1
    exact ⟨p, rfl, of_decide_eq_true h0, of_decide_eq_true h1⟩

theorem fin_of_bounds_le (x : JsNumber) (b : ℚ) (h0 : (JsNumber.fin 0).le x = true)
    (h1 : x.le (JsNumber.fin b) = true) : ∃ p : ℚ, x = JsNumber.fin p ∧ 0 ≤ p ∧ p ≤ b := by
  cases x with
  | nan => simp [JsNumber.le] at h0
  | inf s =>
    cases s
    · simp [JsNumber.le] at h1
    · simp [JsNumber.le] at h0
  | fin p =>
    rw [le_fin] at h0 h1
    exact ⟨p, rfl, of_decide_eq_true h0, of_decide_eq_true h1⟩

/-- No Number is below a bound and at least a greater bound. -/
theorem not_between (x a b : JsNumber) (h1 : x.lt a = true) (h2 : a.le b = true)
    (h3 : x.ge b = true) : False := by
  cases x with
  | nan => simp [JsNumber.lt] at h1
  | inf s =>
    cases a with
    | nan => cases s <;> simp [JsNumber.lt] at h1
    | inf t =>
      cases b with
      | nan => cases t <;> simp [JsNumber.le] at h2
      | inf u =>
        cases s <;> cases t <;> cases u <;>
          simp [JsNumber.lt, JsNumber.le, JsNumber.ge] at h1 h2 h3
      | fin r =>
        cases s <;> cases t <;> simp [JsNumber.lt, JsNumber.le, JsNumber.ge] at h1 h2 h3
    | fin q =>
      cases b with
      | nan => simp [JsNumber.le] at h2
      | inf u => cases s <;> cases u <;> simp [JsNumber.lt, JsNumber.le, JsNumber.ge] at h1 h2 h3
      | fin r => cases s <;> simp [JsNumber.lt, JsNumber.le, JsNumber.ge] at h1 h2 h3
  | fin p =>
    cases a with
    | nan => simp [JsNumber.lt] at h1
    | inf t =>
      cases b with
      | nan => cases t <;> simp [JsNumber.le] at h2
      | inf u => cases t <;> cases u <;> simp [JsNumber.lt, JsNumber.le, JsNumber.ge] at h1 h2 h3
      | fin r => cases t <;> simp [JsNumber.lt, JsNumber.le, JsNumber.ge] at h1 h2 h3
    | fin q =>
      cases b with
      | nan => simp [JsNumber.le] at h2
      | inf u => cases u <;> simp [JsNumber.lt, JsNumber.le, JsNumber.ge] at h1 h2 h3
      | fin r =>
        simp only [JsNumber.lt, JsNumber.le, JsNumber.ge, decide_eq_true_eq] at h1 h2 h3
        linarith

/-- A finite Number that is not below a finite bound is at least the bound. -/
theorem ge_of_not_lt (p c : ℚ) (hc : |c| ≤ 2 ^ 53)
    (h : ¬ (JsNumber.fin p).lt (JsNumber.ofRat c) = true) :
    (JsNumber.fin p).ge (JsNumber.ofRat c) = true := by
  rw [ofRat_of_abs_le c hc] at h ⊢
  rw [lt_fin] at h
  rw [ge_fin]
  simp only [decide_eq_true_eq, not_lt] at h ⊢
  exact h

theorem phaseLoop_cons (phase : JsNumber) (chosen p : MoonPhase) (rest : List MoonPhase) :
    phaseLoop phase chosen (p :: rest)
      = if inRange phase p then p else phaseLoop phase chosen rest := rfl

theorem phaseLoop_spec (phase : JsNumber) (chosen : MoonPhase) (l : List MoonPhase) :
    (∃ e ∈ l, inRange phase e = true ∧ phaseLoop phase chosen l = e)
      ∨ ((∀ e ∈ l, ¬ inRange phase e = true) ∧ phaseLoop phase chosen l = chosen) := by
  induction l with
  | nil => exact Or.inr ⟨by simp, rfl⟩
  | cons p rest ih =>
    rw [phaseLoop_cons]
    by_cases hp : inRange phase p = true
    · rw [if_pos hp]
      exact Or.inl ⟨p, List.mem_cons_self _ _, hp, rfl⟩
    · rw [if_neg hp]
      rcases ih with ⟨e, he, h1, h3⟩ | ⟨hnone, hres⟩
      · exact Or.inl ⟨e, List.mem_cons_of_mem _ he, h1, h3⟩
      · refine Or.inr ⟨?_, hres⟩
        intro e he
        rcases List.mem_cons.1 he with h | h
        · rw [h]; exact hp
        · exact hnone e h

theorem inRange_iff (phase : JsNumber) (p : MoonPhase) :
    inRange phase p = true ↔ phase.ge p.range.1 = true ∧ phase.lt p.range.2 = true := by
  unfold inRange
  rw [Bool.and_eq_true]

theorem range_unique (phase : JsNumber) (l : List MoonPhase)
    (hl : l.Pairwise (fun a b => a.range.2.le b.range.1 = true)) (p q : MoonPhase)
    (hp : p ∈ l) (hq : q ∈ l) (hpr : inRange phase p = true) (hqr : inRange phase q = true) :
    q = p := by
  rw [inRange_iff] at hpr hqr
  induction l with
  | nil => simp at hp
  | cons x xs ih =>
    rw [List.pairwise_cons] at hl
    rcases List.mem_cons.1 hp with hpx | hpx <;> rcases List.mem_cons.1 hq with hqx | hqx
    · rw [hpx, hqx]
    · have := hl.1 q hqx
      rw [← hpx] at this
      exact (not_between phase _ _ hpr.2 this hqr.1).elim
    · have := hl.1 p hpx
      rw [← hqx] at this
      exact (not_between phase _ _ hqr.2 this hpr.1).elim
    · exact ih hl.2 hpx hqx

theorem pairwise_MOON_PHASES :
    MOON_PHASES.Pairwise (fun a b => a.range.2.le b.range.1 = true) := by
  decide!

theorem bounds_MOON_PHASES :
    ∀ p ∈ MOON_PHASES, (JsNumber.fin 0).le p.range.1 = true ∧ p.range.1.lt p.range.2 = true
      ∧ p.range.2.le (JsNumber.ofRat (97 / 100)) = true := by
  decide!

theorem covered_MOON_PHASES (p : ℚ) (h0 : 0 ≤ p)
    (h1 : (JsNumber.fin p).lt (JsNumber.ofRat (97 / 100)) = true) :
    ∃ e ∈ MOON_PHASES, inRange (JsNumber.fin p) e = true := by
  have hb : ∀ c : ℚ, 0 ≤ c → c ≤ 1 → |c| ≤ 2 ^ 53 := fun c c0 c1 =>
    abs_le_two_pow c (by linarith) (by linarith)
  have h00 : (JsNumber.fin p).ge (JsNumber.fin 0) = true := by
    rw [ge_fin]
    exact decide_eq_true h0
  by_cases c1 : (JsNumber.fin p).lt (JsNumber.ofRat (3 / 100)) = true
  · exact ⟨⟨"New Moon", "🌑", (JsNumber.fin 0, JsNumber.ofRat (3 / 100))⟩,
      by simp [MOON_PHASES], (inRange_iff _ _).2 ⟨h00, c1⟩⟩
  have g1 := ge_of_not_lt p (3 / 100) (hb _ (by norm_num) (by norm_num)) c1
  by_cases c2 : (JsNumber.fin p).lt (JsNumber.ofRat (22 / 100)) = true
  · exact ⟨⟨"Waxing Crescent", "🌒", (JsNumber.ofRat (3 / 100), JsNumber.ofRat (22 / 100))⟩,
      by simp [MOON_PHASES], (inRange_iff _ _).2 ⟨g1, c2⟩⟩
  have g2 := ge_of_not_lt p (22 / 100) (hb _ (by norm_num) (by norm_num)) c2
  by_cases c3 : (JsNumber.fin p).lt (JsNumber.ofRat (28 / 100)) = true
  · exact ⟨⟨"First Quarter", "🌓", (JsNumber.ofRat (22 / 100), JsNumber.ofRat (28 / 100))⟩,
      by simp [MOON_PHASES], (inRange_iff _ _).2 ⟨g2, c3⟩⟩
  have g3 := ge_of_not_lt p (28 / 100) (hb _ (by norm_num) (by norm_num)) c3
  by_cases c4 : (JsNumber.fin p).lt (JsNumber.ofRat (47 / 100)) = true
  · exact ⟨⟨"Waxing Gibbous", "🌔", (JsNumber.ofRat (28 / 100), JsNumber.ofRat (47 / 100))⟩,
      by simp [MOON_PHASES], (inRange_iff _ _).2 ⟨g3, c4⟩⟩
  have g4 := ge_of_not_lt p (47 / 100) (hb _ (by norm_num) (by norm_num)) c4
  by_cases c5 : (JsNumber.fin p).lt (JsNumber.ofRat (53 / 100)) = true
  · exact ⟨⟨"Full Moon", "🌕", (JsNumber.ofRat (47 / 100), JsNumber.ofRat (53 / 100))⟩,
      by simp [MOON_PHASES], (inRange_iff _ _).2 ⟨g4, c5⟩⟩
  have g5 := ge_of_not_lt p (53 / 100) (hb _ (by norm_num) (by norm_num)) c5
  by_cases c6 : (JsNumber.fin p).lt (JsNumber.ofRat (72 / 100)) = true
  · exact ⟨⟨"Waning Gibbous", "🌖", (JsNumber.ofRat (53 / 100), JsNumber.ofRat (72 / 100))⟩,
      by simp [MOON_PHASES], (inRange_iff _ _).2 ⟨g5, c6⟩⟩
  have g6 := ge_of_not_lt p (72 / 100) (hb _ (by norm_num) (by norm_num)) c6
  by_cases c7 : (JsNumber.fin p).lt (JsNumber.ofRat (78 / 100)) = true
  · exact ⟨⟨"Last Quarter", "🌗", (JsNumber.ofRat (72 / 100), JsNumber.ofRat (78 / 100))⟩,
      by simp [MOON_PHASES], (inRange_iff _ _).2 ⟨g6, c7⟩⟩
  have g7 := ge_of_not_lt p (78 / 100) (hb _ (by norm_num) (by norm_num)) c7
  exact ⟨⟨"Waning Crescent", "🌘", (JsNumber.ofRat (78 / 100), JsNumber.ofRat (97 / 100))⟩,
    by simp [MOON_PHASES], (inRange_iff _ _).2 ⟨g7, h1⟩⟩

theorem range_of_name (e : MoonPhase) (he : e ∈ MOON_PHASES) :
    (e.name = "Full Moon" → e.range = (JsNumber.ofRat (47 / 100), JsNumber.ofRat (53 / 100)))
      ∧ (e.name = "New Moon" → e.range = (JsNumber.fin 0, JsNumber.ofRat (3 / 100))) := by
  simp only [MOON_PHASES, List.mem_cons, List.mem_singleton, List.not_mem_nil, or_false] at he
  rcases he with h | h | h | h | h | h | h | h <;> rw [h] <;>
    exact ⟨fun hn => by first | rfl | exact absurd hn (by decide),
      fun hn => by first | rfl | exact absurd hn (by decide)⟩

/-- For a phase from 0 to below 0.97 the name given is that of the one range that holds
the phase. -/
theorem phaseName_of_lt (illumination : Illumination)
    (h0 : (JsNumber.fin 0).le illumination.phase = true)
    (hlt : illumination.phase.lt (JsNumber.ofRat (97 / 100)) = true) :
    ∃ p ∈ MOON_PHASES, inRange illumination.phase p = true
      ∧ (getMoonIllumination illumination).phaseName = p.name
      ∧ ∀ q ∈ MOON_PHASES, inRange illumination.phase q = true → q = p := by
  have hnot : ¬ illumination.phase.ge (JsNumber.ofRat (97 / 100)) = true := fun hge =>
    not_between _ _ _ hlt (by decide!) hge
  rcases phaseLoop_spec illumination.phase (MOON_PHASES.head (by simp [MOON_PHASES]))
      MOON_PHASES with ⟨e, he, h1, h3⟩ | ⟨hnone, _⟩
  · refine ⟨e, he, h1, ?_, ?_⟩
    · unfold getMoonIllumination
      simp only [h3]
      rw [if_neg hnot]
    · intro q hq hq1
      exact range_unique illumination.phase MOON_PHASES pairwise_MOON_PHASES e q he hq h1 hq1
  · have h97 : JsNumber.ofRat (97 / 100) = JsNumber.fin (roundNearest (97 / 100)) :=
      ofRat_of_abs_le _ (abs_le_two_pow _ (by norm_num) (by norm_num))
    obtain ⟨p, hp, hp0, _⟩ := fin_of_bounds illumination.phase _ h0 (h97 ▸ hlt)
    rw [hp] at hlt hnone
    obtain ⟨e, he, h1⟩ := covered_MOON_PHASES p hp0 hlt
    exact absurd h1 (hnone e he)

theorem phaseName_of_ge (illumination : Illumination)
    (hge : illumination.phase.ge (JsNumber.ofRat (97 / 100)) = true) :
    (getMoonIllumination illumination).phaseName = "New Moon" := by
  unfold getMoonIllumination
  simp only [hge, if_true]
  rfl

theorem percent_range (f : ℚ) (h0 : 0 ≤ f) (h1 : f ≤ 1) :
    ∃ n : Int, JsNumber.round (JsNumber.fin f * JsNumber.fin 100) = JsNumber.fin (n : ℚ)
      ∧ 0 ≤ n ∧ n ≤ 100 := by
  rw [fin_mul f 100 (abs_le_two_pow _ (by linarith) (by linarith)), round_fin]
  have hz : roundNearest 0 = 0 := roundNearest_zero
  have hh : roundNearest 100 = 100 := by
    simpa using roundNearest_natCast 100 (by norm_num)
  obtain ⟨r0, r1⟩ := roundNearest_mem 0 100 (f * 100) hz hh (by linarith) (by linarith)
  refine ⟨_, rfl, ?_, ?_⟩
  · apply Int.floor_nonneg.2
    linarith
  · have : Int.floor (roundNearest (f * 100) + 1 / 2) < 101 := by
      rw [Int.floor_lt]
      push_cast
      linarith
    omega

/-- C28: for a phase fraction that is a Number from 0 to below 1, `getMoonIllumination`
gives one of the eight phase names; the eight ranges follow one another without gap or
overlap from 0 to the Number 0.97 and their names are distinct, so that a phase below 0.97
lies in exactly one range, whose name is the one given; a phase of at least 0.97 gives
`New Moon`; `Full Moon` is given exactly for phases from 0.47 to below 0.53, and
`New Moon` exactly for phases below 0.03 or at least 0.97; and `percentIlluminated`, the
rounded binary64 product of the fraction and 100, is a whole number from 0 to 100 when the
illuminated fraction is from 0 to 1.  The comparisons are those of Numbers, each decimal
bound being the Number nearest to it. -/
theorem getMoonIllumination_phases (illumination : Illumination)
    (h0 : (JsNumber.fin 0).le illumination.phase = true)
    (h1 : illumination.phase.lt (JsNumber.fin 1) = true) :
    (getMoonIllumination illumination).phaseName ∈ MOON_PHASES.map (fun p => p.name)
      ∧ (MOON_PHASES.map (fun p => p.name)).Nodup
      ∧ MOON_PHASES.length = 8
      ∧ MOON_PHASES.Pairwise (fun a b => a.range.2.le b.range.1 = true)
      ∧ (∀ p ∈ MOON_PHASES, (JsNumber.fin 0).le p.range.1 = true
          ∧ p.range.1.lt p.range.2 = true
          ∧ p.range.2.le (JsNumber.ofRat (97 / 100)) = true)
      ∧ (illumination.phase.lt (JsNumber.ofRat (97 / 100)) = true →
          ∃ p ∈ MOON_PHASES, illumination.phase.ge p.range.1 = true
            ∧ illumination.phase.lt p.range.2 = true
            ∧ (getMoonIllumination illumination).phaseName = p.name
            ∧ ∀ q ∈ MOON_PHASES, illumination.phase.ge q.range.1 = true →
                illumination.phase.lt q.range.2 = true → q = p)
      ∧ (illumination.phase.ge (JsNumber.ofRat (97 / 100)) = true →
          (getMoonIllumination illumination).phaseName = "New Moon")
      ∧ ((getMoonIllumination illumination).phaseName = "Full Moon"
          ↔ illumination.phase.ge (JsNumber.ofRat (47 / 100)) = true
            ∧ illumination.phase.lt (JsNumber.ofRat (53 / 100)) = true)
      ∧ ((getMoonIllumination illumination).phaseName = "New Moon"
          ↔ illumination.phase.lt (JsNumber.ofRat (3 / 100)) = true
            ∨ illumination.phase.ge (JsNumber.ofRat (97 / 100)) = true)
      ∧ ((JsNumber.fin 0).le illumination.fraction = true →
          illumination.fraction.le (JsNumber.fin 1) = true →
          ∃ n : Int, (getMoonIllumination illumination).percentIlluminated
              = JsNumber.fin (n : ℚ) ∧ 0 ≤ n ∧ n ≤ 100) := by
  have hfull : (⟨"Full Moon", "🌕", (JsNumber.ofRat (47 / 100), JsNumber.ofRat (53 / 100))⟩ :
      MoonPhase) ∈ MOON_PHASES := by
    simp [MOON_PHASES]
  have hnew : (⟨"New Moon", "🌑", (JsNumber.fin 0, JsNumber.ofRat (3 / 100))⟩ : MoonPhase)
      ∈ MOON_PHASES := by
    simp [MOON_PHASES]
  obtain ⟨p, hp, hp0, hp1⟩ := fin_of_bounds illumination.phase 1 h0 h1
  have h97 : JsNumber.ofRat (97 / 100) = JsNumber.fin (roundNearest (97 / 100)) :=
    ofRat_of_abs_le _ (abs_le_two_pow _ (by norm_num) (by norm_num))
  -- the phase is below the Number 0.97 or at least it
  have hcases : illumination.phase.lt (JsNumber.ofRat (97 / 100)) = true
      ∨ illumination.phase.ge (JsNumber.ofRat (97 / 100)) = true := by
    by_cases c : illumination.phase.lt (JsNumber.ofRat (97 / 100)) = true
    · exact Or.inl c
    · rw [hp] at c ⊢
      exact Or.inr (ge_of_not_lt p _ (abs_le_two_pow _ (by norm_num) (by norm_num)) c)
  have hh0 : illumination.phase.ge (JsNumber.fin 0) = true := h0
  refine ⟨?_, by decide, rfl, pairwise_MOON_PHASES, bounds_MOON_PHASES, ?_,
    phaseName_of_ge illumination, ?_, ?_, ?_⟩
  · rcases hcases with hlt | hge
    · obtain ⟨e, he, _, hname, _⟩ := phaseName_of_lt illumination h0 hlt
      rw [hname]
      exact List.mem_map.2 ⟨e, he, rfl⟩
    · rw [phaseName_of_ge illumination hge]
      decide
  · intro hlt
    obtain ⟨e, he, hin, hname, huniq⟩ := phaseName_of_lt illumination h0 hlt
    have hin2 := (inRange_iff _ _).1 hin
    exact ⟨e, he, hin2.1, hin2.2, hname,
      fun q hq q1 q2 => huniq q hq ((inRange_iff _ _).2 ⟨q1, q2⟩)⟩
  · rcases hcases with hlt | hge
    · obtain ⟨e, he, hin, hname, huniq⟩ := phaseName_of_lt illumination h0 hlt
      rw [hname]
      constructor
      · intro h
        have hr := (range_of_name e he).1 h
        have hin2 := (inRange_iff _ _).1 hin
        rw [hr] at hin2
        exact hin2
      · rintro ⟨a1, a2⟩
        rw [← huniq _ hfull ((inRange_iff _ _).2 ⟨a1, a2⟩)]
    · rw [phaseName_of_ge illumination hge]
      constructor
      · intro h
        exact absurd h (by decide)
      · rintro ⟨_, h⟩
        exact (not_between _ _ _ h (by decide!) hge).elim
  · rcases hcases with hlt | hge
    · obtain ⟨e, he, hin, hname, huniq⟩ := phaseName_of_lt illumination h0 hlt
      rw [hname]
      constructor
      · intro h
        have hr := (range_of_name e he).2 h
        have hin2 := (inRange_iff _ _).1 hin
        rw [hr] at hin2
        exact Or.inl hin2.2
      · rintro (h | h)
        · rw [← huniq _ hnew ((inRange_iff _ _).2 ⟨hh0, h⟩)]
        · exact (not_between _ _ _ hlt (by decide!) h).elim
    · rw [phaseName_of_ge illumination hge]
      exact ⟨fun _ => Or.inr hge, fun _ => rfl⟩
  · intro hf0 hf1
    obtain ⟨f, hf, f0, f1⟩ := fin_of_bounds_le illumination.fraction 1 hf0 hf1
    unfold getMoonIllumination
    simp only [hf]
    exact percent_range f f0 f1

/-- Witness for C28: a phase of 0.5 with an illuminated fraction of 0.285 gives the name
`Full Moon` and the percentage 28, the binary64 product being 28.499999999999996. -/
theorem getMoonIllumination_phases_witness :
    (getMoonIllumination
        ⟨JsNumber.ofRat (285 / 1000), JsNumber.ofRat (1 / 2), JsNumber.fin 0⟩).phaseName
        = "Full Moon"
      ∧ (getMoonIllumination
          ⟨JsNumber.ofRat (285 / 1000), JsNumber.ofRat (1 / 2), JsNumber.fin 0⟩).percentIlluminated
        = JsNumber.fin 28
      ∧ ∃ n : Int, (getMoonIllumination
          ⟨JsNumber.ofRat (285 / 1000), JsNumber.ofRat (1 / 2), JsNumber.fin 0⟩).percentIlluminated
            = JsNumber.fin (n : ℚ) ∧ 0 ≤ n ∧ n ≤ 100 :=
  ⟨((getMoonIllumination_phases
      ⟨JsNumber.ofRat (285 / 1000), JsNumber.ofRat (1 / 2), JsNumber.fin 0⟩
      (by decide!) (by decide!)).2.2.2.2.2.2.2.1).2 ⟨by decide!, by decide!⟩,
    by decide!,
    (getMoonIllumination_phases
      ⟨JsNumber.ofRat (285 / 1000), JsNumber.ofRat (1 / 2), JsNumber.fin 0⟩
      (by decide!) (by decide!)).2.2.2.2.2.2.2.2.2 (by decide!) (by decide!)⟩

/-! ## Observation score -/

theorem roundNearest_25 : roundNearest 25 = 25 := by
  simpa using roundNearest_natCast 25 (by norm_num)

theorem roundNearest_35 : roundNearest 35 = 35 := by
  simpa using roundNearest_natCast 35 (by norm_num)

theorem roundNearest_40 : roundNearest 40 = 40 := by
  simpa using roundNearest_natCast 40 (by norm_num)

theorem roundNearest_50 : roundNearest 50 = 50 := by
  simpa using roundNearest_natCast 50 (by norm_num)

theorem roundNearest_75 : roundNearest 75 = 75 := by
  simpa using roundNearest_natCast 75 (by norm_num)

theorem roundNearest_100 : roundNearest 100 = 100 := by
  simpa using roundNearest_natCast 100 (by norm_num)

theorem roundNearest_20 : roundNearest 20 = 20 := by
  simpa using roundNearest_natCast 20 (by norm_num)

theorem roundNearest_one : roundNearest 1 = 1 := by
  simpa using roundNearest_natCast 1 (by norm_num)

theorem ofRat_four_tenths :
    JsNumber.ofRat (4 / 10) = JsNumber.fin (roundNearest (4 / 10)) :=
  ofRat_of_abs_le _ (abs_le_two_pow _ (by norm_num) (by norm_num))

theorem ofRat_seven_quarters : JsNumber.ofRat (175 / 100) = JsNumber.fin (7 / 4) := by
  decide!

theorem ofRat_half : JsNumber.ofRat (5 / 10) = JsNumber.fin (1 / 2) := by
  decide!

theorem four_tenths_bounds : 0 ≤ roundNearest (4 / 10) ∧ roundNearest (4 / 10) ≤ 1 :=
  roundNearest_mem 0 1 _ roundNearest_zero roundNearest_one (by norm_num) (by norm_num)

theorem cloudProduct_bounds (c : ℚ) (h0 : 0 ≤ c) (h1 : c ≤ 100) :
    0 ≤ roundNearest (c * roundNearest (4 / 10))
      ∧ roundNearest (c * roundNearest (4 / 10)) ≤ 100 := by
  obtain ⟨d0, d1⟩ := four_tenths_bounds
  apply roundNearest_mem 0 100 _ roundNearest_zero roundNearest_100
  · exact mul_nonneg h0 d0
  · calc c * roundNearest (4 / 10) ≤ 100 * 1 := mul_le_mul h1 d1 d0 (by norm_num)
      _ = 100 := by norm_num

theorem cloudScore_fin (c : ℚ) (h0 : 0 ≤ c) (h1 : c ≤ 100) :
    cloudScore (JsNumber.fin c) = JsNumber.fin (cloudPoints c) := by
  obtain ⟨d0, d1⟩ := four_tenths_bounds
  obtain ⟨x0, x1⟩ := cloudProduct_bounds c h0 h1
  have hprod : c * roundNearest (4 / 10) ≤ 100 := by
    calc c * roundNearest (4 / 10) ≤ 100 * 1 := mul_le_mul h1 d1 d0 (by norm_num)
      _ = 100 := by norm_num
  unfold cloudScore cloudPoints
  rw [ofRat_four_tenths,
    fin_mul c _ (abs_le_two_pow _ (by linarith [mul_nonneg h0 d0]) (by linarith)),
    fin_sub 40 _ (abs_le_two_pow _ (by linarith) (by linarith)), max_fin]

theorem cloudPoints_bounds (c : ℚ) (h0 : 0 ≤ c) : 0 ≤ cloudPoints c ∧ cloudPoints c ≤ 40 := by
  obtain ⟨d0, _⟩ := four_tenths_bounds
  unfold cloudPoints
  refine ⟨le_max_left _ _, max_le (by norm_num) ?_⟩
  have hx : 0 ≤ roundNearest (c * roundNearest (4 / 10)) :=
    roundNearest_nonneg _ (mul_nonneg h0 d0)
  have := roundNearest_mono (40 - roundNearest (c * roundNearest (4 / 10))) 40 (by linarith)
  rw [roundNearest_40] at this
  exact this

theorem cloudPoints_antitone (c more : ℚ) (h : c ≤ more) : cloudPoints more ≤ cloudPoints c := by
  obtain ⟨d0, _⟩ := four_tenths_bounds
  unfold cloudPoints
  apply max_le_max le_rfl
  apply roundNearest_mono
  have := roundNearest_mono (c * roundNearest (4 / 10)) (more * roundNearest (4 / 10))
    (mul_le_mul_of_nonneg_right h d0)
  linarith

theorem cloudPoints_zero : cloudPoints 0 = 40 := by decide!

theorem cloudPoints_hundred : cloudPoints 100 = 0 := by decide!

theorem fin_div (a b : ℚ) (hb : b ≠ 0) :
    JsNumber.fin a / JsNumber.fin b = JsNumber.ofRat (a / b) := by
  show JsNumber.div (JsNumber.fin a) (JsNumber.fin b) = _
  simp only [JsNumber.div, if_neg hb]

theorem inf_mul_seven_quarters :
    JsNumber.inf false * JsNumber.fin (7 / 4) = JsNumber.inf false := by
  show JsNumber.mul (JsNumber.inf false) (JsNumber.fin (7 / 4)) = _
  unfold JsNumber.mul
  norm_num

theorem visibilityPoints_of_ge (v : ℚ) (h : 20 ≤ roundNearest (v / 1000)) :
    visibilityPoints v = 35 := by
  unfold visibilityPoints
  apply min_eq_left
  have := roundNearest_mono 35 (roundNearest (v / 1000) * (7 / 4)) (by linarith)
  rw [roundNearest_35] at this
  exact this

theorem twenty_le_pow2 : (35 : ℚ) ≤ pow2 1024 := by
  have := pow2_1024_gt
  have h2 : (35 : ℚ) ≤ 2 ^ 53 := by norm_num
  linarith

theorem visibilityScore_fin (v : ℚ) (h0 : 0 ≤ v) :
    visibilityScore (JsNumber.fin v) = JsNumber.fin (visibilityPoints v) := by
  have hx0 : 0 ≤ roundNearest (v / 1000) := roundNearest_nonneg _ (by positivity)
  unfold visibilityScore
  simp only []
  rw [fin_div v 1000 (by norm_num), ofRat_seven_quarters]
  unfold JsNumber.ofRat
  by_cases hov : pow2 1024 ≤ |roundNearest (v / 1000)|
  · rw [if_pos hov]
    have hneg : ¬ v / 1000 < 0 := not_lt.2 (by positivity)
    rw [decide_eq_false hneg, inf_mul_seven_quarters, min_fin_inf]
    rw [abs_of_nonneg hx0] at hov
    rw [visibilityPoints_of_ge v (by linarith [twenty_le_pow2])]
  · rw [if_neg hov]
    show JsNumber.min (JsNumber.fin 35)
      (JsNumber.ofRat (roundNearest (v / 1000) * (7 / 4))) = _
    have hy0 : 0 ≤ roundNearest (roundNearest (v / 1000) * (7 / 4)) :=
      roundNearest_nonneg _ (by positivity)
    unfold JsNumber.ofRat
    by_cases hov2 : pow2 1024 ≤ |roundNearest (roundNearest (v / 1000) * (7 / 4))|
    · rw [if_pos hov2]
      have hneg : ¬ roundNearest (v / 1000) * (7 / 4) < 0 := not_lt.2 (by positivity)
      rw [decide_eq_false hneg, min_fin_inf]
      rw [abs_of_nonneg hy0] at hov2
      unfold visibilityPoints
      rw [min_eq_left (by linarith [twenty_le_pow2])]
    · rw [if_neg hov2, min_fin]
      rfl

theorem visibilityPoints_bounds (v : ℚ) (h0 : 0 ≤ v) :
    0 ≤ visibilityPoints v ∧ visibilityPoints v ≤ 35 := by
  unfold visibilityPoints
  refine ⟨le_min (by norm_num) ?_, min_le_left _ _⟩
  exact roundNearest_nonneg _ (mul_nonneg (roundNearest_nonneg _ (by positivity)) (by norm_num))

theorem visibilityPoints_mono (v more : ℚ) (h : v ≤ more) :
    visibilityPoints v ≤ visibilityPoints more := by
  unfold visibilityPoints
  apply min_le_min le_rfl
  apply roundNearest_mono
  have := roundNearest_mono (v / 1000) (more / 1000) (by linarith)
  linarith

theorem visibilityPoints_zero : visibilityPoints 0 = 0 := by decide!

theorem visibilityPoints_far (v : ℚ) (h : 20000 ≤ v) : visibilityPoints v = 35 := by
  apply visibilityPoints_of_ge
  have := roundNearest_mono 20 (v / 1000) (by linarith)
  rw [roundNearest_20] at this
  exact this

theorem humidityDifference_bounds (h : ℚ) (h0 : 40 < h) (h1 : h ≤ 100) :
    0 ≤ roundNearest (h - 40) ∧ roundNearest (h - 40) ≤ 100 :=
  roundNearest_mem 0 100 _ roundNearest_zero roundNearest_100 (by linarith) (by linarith)

theorem humidityScore_fin (h : ℚ) (_h0 : 0 ≤ h) (h1 : h ≤ 100) :
    humidityScore (JsNumber.fin h) = JsNumber.fin (humidityPoints h) := by
  unfold humidityScore humidityPoints
  rw [gt_fin]
  by_cases c : 40 < h
  · obtain ⟨x0, x1⟩ := humidityDifference_bounds h c h1
    obtain ⟨y0, y1⟩ := roundNearest_mem 0 100 (roundNearest (h - 40) * (1 / 2))
      roundNearest_zero roundNearest_100 (by linarith) (by linarith)
    rw [decide_eq_true c, if_pos rfl, if_pos c, ofRat_half,
      fin_sub h 40 (abs_le_two_pow _ (by linarith) (by linarith)),
      fin_mul _ (1 / 2) (abs_le_two_pow _ (by linarith) (by linarith)),
      fin_sub 25 _ (abs_le_two_pow _ (by linarith) (by linarith)), max_fin]
  · rw [decide_eq_false c, if_neg c]
    simp

theorem humidityPoints_bounds (h : ℚ) : 0 ≤ humidityPoints h ∧ humidityPoints h ≤ 25 := by
  unfold humidityPoints
  by_cases c : 40 < h
  · rw [if_pos c]
    refine ⟨le_max_left _ _, max_le (by norm_num) ?_⟩
    have hx : 0 ≤ roundNearest (h - 40) := roundNearest_nonneg _ (by linarith)
    have hy : 0 ≤ roundNearest (roundNearest (h - 40) * (1 / 2)) :=
      roundNearest_nonneg _ (by linarith)
    have := roundNearest_mono (25 - roundNearest (roundNearest (h - 40) * (1 / 2))) 25
      (by linarith)
    rw [roundNearest_25] at this
    exact this
  · rw [if_neg c]
    norm_num

theorem humidityPoints_antitone (h more : ℚ) (hle : h ≤ more) :
    humidityPoints more ≤ humidityPoints h := by
  by_cases c2 : 40 < more
  · by_cases c1 : 40 < h
    · unfold humidityPoints
      rw [if_pos c1, if_pos c2]
      apply max_le_max le_rfl
      apply roundNearest_mono
      have h1 := roundNearest_mono (h - 40) (more - 40) (by linarith)
      have h2 := roundNearest_mono (roundNearest (h - 40) * (1 / 2))
        (roundNearest (more - 40) * (1 / 2)) (by linarith)
      linarith
    · have : humidityPoints h = 25 := by
        unfold humidityPoints
        rw [if_neg c1]
      rw [this]
      exact (humidityPoints_bounds more).2
  · have c1 : ¬ 40 < h := fun hc => c2 (lt_of_lt_of_le hc hle)
    unfold humidityPoints
    rw [if_neg c1, if_neg c2]

theorem humidityPoints_dry (h : ℚ) (hle : h ≤ 40) : humidityPoints h = 25 := by
  unfold humidityPoints
  rw [if_neg (not_lt.2 hle)]

theorem humidityPoints_damp (h : ℚ) (hge : 90 ≤ h) : humidityPoints h = 0 := by
  unfold humidityPoints
  rw [if_pos (by linarith)]
  apply max_eq_left
  have h1 := roundNearest_mono 50 (h - 40) (by linarith)
  rw [roundNearest_50] at h1
  have h2 := roundNearest_mono 25 (roundNearest (h - 40) * (1 / 2)) (by linarith)
  rw [roundNearest_25] at h2
  have h3 := roundNearest_mono (25 - roundNearest (roundNearest (h - 40) * (1 / 2))) 0
    (by linarith)
  rw [roundNearest_zero] at h3
  exact h3

theorem partialSum_bounds (c v : ℚ) (hc : 0 ≤ c) (hv : 0 ≤ v) :
    0 ≤ roundNearest (cloudPoints c + visibilityPoints v)
      ∧ roundNearest (cloudPoints c + visibilityPoints v) ≤ 75 := by
  obtain ⟨a0, a1⟩ := cloudPoints_bounds c hc
  obtain ⟨b0, b1⟩ := visibilityPoints_bounds v hv
  exact roundNearest_mem 0 75 _ roundNearest_zero roundNearest_75 (by linarith) (by linarith)

theorem totalSum_bounds (c v h : ℚ) (hc : 0 ≤ c) (hv : 0 ≤ v) :
    0 ≤ roundNearest (roundNearest (cloudPoints c + visibilityPoints v) + humidityPoints h)
      ∧ roundNearest (roundNearest (cloudPoints c + visibilityPoints v) + humidityPoints h)
        ≤ 100 := by
  obtain ⟨s0, s1⟩ := partialSum_bounds c v hc hv
  obtain ⟨c0, c1⟩ := humidityPoints_bounds h
  exact roundNearest_mem 0 100 _ roundNearest_zero roundNearest_100 (by linarith) (by linarith)

/-- The score of finite arguments in the domain, as a whole number. -/
theorem calculateObservationScore_fin (c v h : ℚ) (hc0 : 0 ≤ c) (hc1 : c ≤ 100) (hv : 0 ≤ v)
    (hh0 : 0 ≤ h) (hh1 : h ≤ 100) :
    calculateObservationScore (JsNumber.fin c) (JsNumber.fin v) (JsNumber.fin h)
      = JsNumber.fin ((scorePoints c v h : Int) : ℚ) := by
  obtain ⟨a0, a1⟩ := cloudPoints_bounds c hc0
  obtain ⟨b0, b1⟩ := visibilityPoints_bounds v hv
  obtain ⟨c0, c1⟩ := humidityPoints_bounds h
  obtain ⟨s0, s1⟩ := partialSum_bounds c v hc0 hv
  unfold calculateObservationScore scorePoints
  rw [cloudScore_fin c hc0 hc1, visibilityScore_fin v hv, humidityScore_fin h hh0 hh1,
    fin_add _ _ (abs_le_two_pow _ (by linarith) (by linarith)),
    fin_add _ _ (abs_le_two_pow _ (by linarith) (by linarith)), round_fin]

theorem scorePoints_bounds (c v h : ℚ) (hc : 0 ≤ c) (hv : 0 ≤ v) :
    0 ≤ scorePoints c v h ∧ scorePoints c v h ≤ 100 := by
  obtain ⟨t0, t1⟩ := totalSum_bounds c v h hc hv
  unfold scorePoints
  constructor
  · apply Int.floor_nonneg.2
    linarith
  · have : Int.floor (roundNearest (roundNearest (cloudPoints c + visibilityPoints v)
        + humidityPoints h) + 1 / 2) < 101 := by
      rw [Int.floor_lt]
      push_cast
      linarith
    omega

theorem scorePoints_mono (c v h cB vB hB : ℚ) (hc : cB ≤ c) (hv : v ≤ vB) (hh : hB ≤ h) :
    scorePoints c v h ≤ scorePoints cB vB hB := by
  unfold scorePoints
  apply Int.floor_mono
  have e1 := cloudPoints_antitone cB c hc
  have e2 := visibilityPoints_mono v vB hv
  have e3 := humidityPoints_antitone hB h hh
  have e4 := roundNearest_mono (cloudPoints c + visibilityPoints v)
    (cloudPoints cB + visibilityPoints vB) (by linarith)
  have e5 := roundNearest_mono
    (roundNearest (cloudPoints c + visibilityPoints v) + humidityPoints h)
    (roundNearest (cloudPoints cB + visibilityPoints vB) + humidityPoints hB) (by linarith)
  linarith

theorem le_fin_int (a b : Int) (h : a ≤ b) :
    (JsNumber.fin (a : ℚ)).le (JsNumber.fin (b : ℚ)) = true := by
  rw [le_fin]
  exact decide_eq_true (by exact_mod_cast h)

/-- C29: for a cloud cover and a humidity from 0 to 100 and a visibility of at least 0
metres, all finite Numbers, `calculateObservationScore`, computed in binary64 arithmetic,
is a whole number from 0 to 100; within that domain more cloud cover or more humidity never
raises it and more visibility never lowers it; it is 100 for no cloud, a visibility of at
least 20000 and a humidity of at most 40, and 0 for full cloud, no visibility and a
humidity of at least 90. -/
theorem calculateObservationScore_spec (cloudCover visibility humidity : ℚ)
    (hc0 : 0 ≤ cloudCover) (hc1 : cloudCover ≤ 100) (hv : 0 ≤ visibility)
    (hh0 : 0 ≤ humidity) (hh1 : humidity ≤ 100) :
    (∃ n : Int,
        calculateObservationScore (JsNumber.fin cloudCover) (JsNumber.fin visibility)
            (JsNumber.fin humidity) = JsNumber.fin (n : ℚ)
          ∧ 0 ≤ n ∧ n ≤ 100)
      ∧ (∀ more, cloudCover ≤ more → more ≤ 100 →
          (calculateObservationScore (JsNumber.fin more) (JsNumber.fin visibility)
              (JsNumber.fin humidity)).le
            (calculateObservationScore (JsNumber.fin cloudCover) (JsNumber.fin visibility)
              (JsNumber.fin humidity)) = true)
      ∧ (∀ more, humidity ≤ more → more ≤ 100 →
          (calculateObservationScore (JsNumber.fin cloudCover) (JsNumber.fin visibility)
              (JsNumber.fin more)).le
            (calculateObservationScore (JsNumber.fin cloudCover) (JsNumber.fin visibility)
              (JsNumber.fin humidity)) = true)
      ∧ (∀ more, visibility ≤ more →
          (calculateObservationScore (JsNumber.fin cloudCover) (JsNumber.fin visibility)
              (JsNumber.fin humidity)).le
            (calculateObservationScore (JsNumber.fin cloudCover) (JsNumber.fin more)
              (JsNumber.fin humidity)) = true)
      ∧ (cloudCover = 0 → 20000 ≤ visibility → humidity ≤ 40 →
          calculateObservationScore (JsNumber.fin cloudCover) (JsNumber.fin visibility)
            (JsNumber.fin humidity) = JsNumber.fin 100)
      ∧ (cloudCover = 100 → visibility = 0 → 90 ≤ humidity →
          calculateObservationScore (JsNumber.fin cloudCover) (JsNumber.fin visibility)
            (JsNumber.fin humidity) = JsNumber.fin 0) := by
  have hs := calculateObservationScore_fin cloudCover visibility humidity hc0 hc1 hv hh0 hh1
  refine ⟨⟨_, hs, scorePoints_bounds _ _ _ hc0 hv⟩, ?_, ?_, ?_, ?_, ?_⟩
  · intro more hmore hmore1
    rw [hs, calculateObservationScore_fin more visibility humidity (le_trans hc0 hmore) hmore1
      hv hh0 hh1]
    exact le_fin_int _ _ (scorePoints_mono _ _ _ _ _ _ hmore le_rfl le_rfl)
  · intro more hmore hmore1
    rw [hs, calculateObservationScore_fin cloudCover visibility more hc0 hc1 hv
      (le_trans hh0 hmore) hmore1]
    exact le_fin_int _ _ (scorePoints_mono _ _ _ _ _ _ le_rfl le_rfl hmore)
  · intro more hmore
    rw [hs, calculateObservationScore_fin cloudCover more humidity hc0 hc1 (le_trans hv hmore)
      hh0 hh1]
    exact le_fin_int _ _ (scorePoints_mono _ _ _ _ _ _ le_rfl hmore le_rfl)
  · intro hcz hvis hhum
    rw [hs]
    have : scorePoints cloudCover visibility humidity = 100 := by
      unfold scorePoints
      rw [hcz, cloudPoints_zero, visibilityPoints_far visibility hvis,
        humidityPoints_dry humidity hhum]
      norm_num
      rw [roundNearest_75]
      norm_num
      rw [roundNearest_100]
      norm_num
    rw [this]
    norm_num
  · intro hcz hvis hhum
    rw [hs]
    have : scorePoints cloudCover visibility humidity = 0 := by
      unfold scorePoints
      rw [hcz, hvis, cloudPoints_hundred, visibilityPoints_zero,
        humidityPoints_damp humidity hhum]
      simp only [add_zero, roundNearest_zero, zero_add]
      norm_num
    rw [this]
    norm_num

/-- Witness for C29: the score of a cloud cover of 23 %, a visibility of 400 m and a
humidity of 90 % is 31, the binary64 sum being 31.499999999999996; it is a whole number
from 0 to 100, and the score is 100 at (0, 25000, 30) and 0 at (100, 0, 95). -/
theorem calculateObservationScore_spec_witness :
    calculateObservationScore (JsNumber.fin 23) (JsNumber.fin 400) (JsNumber.fin 90)
        = JsNumber.fin 31
      ∧ (∃ n : Int,
          calculateObservationScore (JsNumber.fin 23) (JsNumber.fin 400) (JsNumber.fin 90)
              = JsNumber.fin (n : ℚ)
            ∧ 0 ≤ n ∧ n ≤ 100)
      ∧ calculateObservationScore (JsNumber.fin 0) (JsNumber.fin 25000) (JsNumber.fin 30)
        = JsNumber.fin 100
      ∧ calculateObservationScore (JsNumber.fin 100) (JsNumber.fin 0) (JsNumber.fin 95)
        = JsNumber.fin 0 :=
  ⟨by decide!,
    (calculateObservationScore_spec 23 400 90 (by norm_num) (by norm_num) (by norm_num)
      (by norm_num) (by norm_num)).1,
    (calculateObservationScore_spec 0 25000 30 (by norm_num) (by norm_num) (by norm_num)
      (by norm_num) (by norm_num)).2.2.2.2.1 rfl (by norm_num) (by norm_num),
    (calculateObservationScore_spec 100 0 95 (by norm_num) (by norm_num) (by norm_num)
      (by norm_num) (by norm_num)).2.2.2.2.2 rfl rfl (by norm_num)⟩

/-! ## The engine and the repository in binary64 arithmetic -/

theorem keyedById_mapSet_binary64 (m : Binary64.PatternMap) (p : Binary64.Pattern)
    (h : Binary64.KeyedById m) : Binary64.KeyedById (Binary64.mapSet m p.id p) := by
  induction m with
  | nil => intro e he; simp [Binary64.mapSet] at he; subst he; rfl
  | cons e rest ih =>
    obtain ⟨k0, v0⟩ := e
    have hrest : Binary64.KeyedById rest := fun e he => h e (List.mem_cons_of_mem _ he)
    by_cases hk : k0 = p.id
    · intro e he
      simp [Binary64.mapSet, hk] at he
      rcases he with he | he
      · subst he; rfl
      · exact hrest e he
    · intro e he
      simp [Binary64.mapSet, hk] at he
      rcases he with he | he
      · subst he; exact h _ (List.mem_cons_self _ _)
      · exact ih hrest e he

theorem keys_mapSet_binary64 (m : Binary64.PatternMap) (k : String) (v : Binary64.Pattern) :
    (Binary64.mapSet m k v).map Prod.fst = if k ∈ m.map Prod.fst then m.map Prod.fst
      else m.map Prod.fst ++ [k] := by
  induction m with
  | nil => simp [Binary64.mapSet]
  | cons e rest ih =>
    obtain ⟨k0, v0⟩ := e
    by_cases hk : k0 = k
    · simp [Binary64.mapSet, hk]
    · have hk2 : ¬ k = k0 := fun h => hk h.symm
      by_cases hm : k ∈ rest.map Prod.fst
      · simp only [Binary64.mapSet, hk, if_false, List.map_cons, ih, hm, if_true, List.mem_cons,
          or_true]
      · simp only [Binary64.mapSet, hk, if_false, List.map_cons, ih, hm, List.mem_cons, hk2,
          or_self, List.cons_append]

theorem nodup_keys_mapSet_binary64 (m : Binary64.PatternMap) (k : String)
    (v : Binary64.Pattern) (h : (m.map Prod.fst).Nodup) :
    ((Binary64.mapSet m k v).map Prod.fst).Nodup := by
  rw [keys_mapSet_binary64]
  split
  · exact h
  · rename_i hk
    rw [List.nodup_append]
    refine ⟨h, List.nodup_singleton _, ?_⟩
    intro a ha hb
    simp at hb
    subst hb
    exact hk ha

theorem mapOk_mapSet_binary64 (m : Binary64.PatternMap) (p : Binary64.Pattern)
    (h : Binary64.MapOk m) : Binary64.MapOk (Binary64.mapSet m p.id p) :=
  ⟨keyedById_mapSet_binary64 m p h.1, nodup_keys_mapSet_binary64 m p.id p h.2⟩

theorem mapOk_mergeOne_binary64 (m : Binary64.PatternMap) (p : Binary64.Pattern)
    (h : Binary64.MapOk m) : Binary64.MapOk (Binary64.mergeOne m p) := by
  unfold Binary64.mergeOne
  split
  · exact mapOk_mapSet_binary64 m p h
  · split
    · exact mapOk_mapSet_binary64 m p h
    · exact h

theorem mapOk_foldl_mapSet_binary64 (ps : List Binary64.Pattern) (m : Binary64.PatternMap)
    (h : Binary64.MapOk m) :
    Binary64.MapOk (ps.foldl (fun m p => Binary64.mapSet m p.id p) m) := by
  induction ps generalizing m with
  | nil => exact h
  | cons p rest ih => exact ih _ (mapOk_mapSet_binary64 m p h)

theorem mapOk_foldl_mergeOne_binary64 (ps : List Binary64.Pattern) (m : Binary64.PatternMap)
    (h : Binary64.MapOk m) : Binary64.MapOk (ps.foldl Binary64.mergeOne m) := by
  induction ps generalizing m with
  | nil => exact h
  | cons p rest ih => exact ih _ (mapOk_mergeOne_binary64 m p h)

theorem mapOk_nil_binary64 : Binary64.MapOk [] := ⟨fun _ h => by simp at h, by simp⟩

theorem ids_mapValues_binary64 (m : Binary64.PatternMap) (h : Binary64.KeyedById m) :
    (m.map (fun e => e.2)).map Binary64.Pattern.id = m.map Prod.fst := by
  rw [List.map_map]
  apply List.map_congr_left
  intro e he
  exact (h e he).symm

theorem perm_sortByConfidence_binary64 (l : List Binary64.Pattern) :
    (Binary64.sortByConfidence l).Perm l :=
  List.perm_insertionSort Binary64.byConfidence l

theorem nodup_ids_mergeDetected_binary64 (stored detected : List Binary64.Pattern) :
    ((Binary64.mergeDetected stored detected).map Binary64.Pattern.id).Nodup := by
  have hok : Binary64.MapOk (detected.foldl Binary64.mergeOne (Binary64.mapOfPatterns stored)) :=
    mapOk_foldl_mergeOne_binary64 _ _ (mapOk_foldl_mapSet_binary64 _ _ mapOk_nil_binary64)
  unfold Binary64.mergeDetected
  have hperm := (perm_sortByConfidence_binary64
    ((detected.foldl Binary64.mergeOne (Binary64.mapOfPatterns stored)).map
      (fun e => e.2))).map Binary64.Pattern.id
  rw [hperm.nodup_iff, ids_mapValues_binary64 _ hok.1]
  exact hok.2

theorem reachable_nodup_binary64 (state : Binary64.PatternsState)
    (h : Binary64.Reachable state) : (state.patterns.map Binary64.Pattern.id).Nodup := by
  induction h with
  | init => simp [Binary64.initialPatternsState]
  | atmosphere now data st _ ih =>
    have e : (Binary64.recordAtmosphere now data st).patterns = st.patterns := by
      unfold Binary64.recordAtmosphere
      split <;> rfl
    rw [e]; exact ih
  | detect tz now records st _ _ => exact nodup_ids_mergeDetected_binary64 _ _
  | dismiss patternId st _ ih =>
    have hsub : List.Sublist (Binary64.dismissPattern patternId st).patterns st.patterns :=
      List.filter_sublist _
    exact ih.sublist (hsub.map _)
  | clear st _ _ => simp [Binary64.clearPatterns]

/-- A list of Numbers that holds `NaN` and another entry is in non-increasing order in no
arrangement. -/
theorem not_nonIncreasing_of_nan (l : List JsNumber) (x : JsNumber) (hx : x ∈ l)
    (hne : x ≠ JsNumber.nan) (hnan : JsNumber.nan ∈ l) : ¬ NonIncreasing l := by
  intro hs
  have hsym : l.Pairwise (fun a b => a.ge b = true ∨ b.ge a = true) :=
    hs.imp (fun h => Or.inl h)
  have := List.Pairwise.forall (fun a b h => h.symm) hsym hx hnan hne
  rcases this with h | h
  · cases x <;> simp [JsNumber.ge, JsNumber.le] at h
  · cases x <;> simp [JsNumber.ge, JsNumber.le] at h

theorem emitted_steady :
    (Binary64.emittedPatterns utc 1209600000 waxingRecords steadyLog).map
        (fun p => (p.id, p.confidence))
      = [("optimal-viewing", JsNumber.fin (1914029841632461 / 2251799813685248)),
         ("moon-cloud-correlation", JsNumber.nan),
         ("good-visibility", JsNumber.fin 1)] := by
  decide!

/-- C2: in binary64 arithmetic the list returned by `detectAllPatterns` is a permutation
of what the six detectors emitted, but it is not always in non-increasing order of
confidence: for fourteen records with moon illumination 0, 7, ..., 91 and seven snapshots
of one steady cloud cover of 33.3 the detectors emit the confidences 0.8500000000000001,
`NaN` and 1; the list is returned in that order, and no arrangement of the three is in
non-increasing order. -/
theorem detectAllPatterns_unsorted :
    (∀ (tz : TimeZone) (now : Int) (records : List DailyRecord)
        (atmosphereHistory : Option (List AtmosphereSnapshot)),
        (Binary64.detectAllPatterns tz now records atmosphereHistory).Perm
          ((Binary64.detectDaylightTrend now records).toList
            ++ (Binary64.detectMoonCyclePatterns now records).getD []
            ++ (Binary64.detectSunTimeShifts tz now records).getD []
            ++ (Binary64.detectOptimalConditions tz now
                  (some (atmosphereHistory.getD []))).toList
            ++ (Binary64.detectMoonCloudCorrelation tz now records
                  (some (atmosphereHistory.getD []))).toList
            ++ (Binary64.detectVisibilityPatterns now
                  (some (atmosphereHistory.getD []))).toList))
      ∧ (Binary64.detectAllPatterns utc 1209600000 waxingRecords (some steadyLog)).map
            (fun p => (p.id, p.confidence))
          = [("optimal-viewing", JsNumber.fin (1914029841632461 / 2251799813685248)),
             ("moon-cloud-correlation", JsNumber.nan),
             ("good-visibility", JsNumber.fin 1)]
      ∧ ¬ NonIncreasing
          ((Binary64.detectAllPatterns utc 1209600000 waxingRecords (some steadyLog)).map
            (fun p => p.confidence))
      ∧ ∀ l : List Binary64.Pattern,
          l.Perm (Binary64.detectAllPatterns utc 1209600000 waxingRecords (some steadyLog)) →
          ¬ NonIncreasing (l.map (fun p => p.confidence)) := by
  have hall : ∀ l : List Binary64.Pattern,
      l.Perm (Binary64.detectAllPatterns utc 1209600000 waxingRecords (some steadyLog)) →
      ¬ NonIncreasing (l.map (fun p => p.confidence)) := by
    intro l hl
    have hp : (l.map (fun p => (p.id, p.confidence))).Perm
        ((Binary64.emittedPatterns utc 1209600000 waxingRecords steadyLog).map
          (fun p => (p.id, p.confidence))) :=
      (hl.trans (perm_sortByConfidence_binary64 _)).map _
    rw [emitted_steady] at hp
    have hp2 := hp.map Prod.snd
    rw [List.map_map] at hp2
    have hc : (l.map (fun p => p.confidence)).Perm
        [JsNumber.fin (1914029841632461 / 2251799813685248), JsNumber.nan, JsNumber.fin 1] :=
      hp2
    exact not_nonIncreasing_of_nan _ (JsNumber.fin 1) (hc.mem_iff.2 (by simp)) (by simp)
      (hc.mem_iff.2 (by simp))
  refine ⟨fun tz now records atmosphereHistory => perm_sortByConfidence_binary64 _, by decide!,
    hall _ (List.Perm.refl _), hall⟩

/-- C3: in binary64 arithmetic a confidence can lie outside [0, 1].  For the constant
series of seven entries 0.1 the guard `ssTotal === 0` of `linearRegression` is missed (the
computed total is a rounding residue), `rSquared` is -1.7142857142857144 and the
confidence 1.3093073414159544; for the illuminations 0, 7, ..., 42 and the constant cloud
cover 33.3 `correlation` gives `NaN`; and `detectAllPatterns` returns, for fourteen such
records and seven such snapshots, a pattern whose confidence is `NaN`, which is neither at
least 0 nor at most 1. -/
theorem confidence_outside_unit_interval :
    (∃ r, Binary64.linearRegression (List.replicate 7 (JsNumber.ofRat (1 / 10))) = some r
        ∧ r.rSquared = JsNumber.fin (-1930114126015927 / 1125899906842624)
        ∧ r.rSquared.lt (JsNumber.fin 0) = true
        ∧ r.confidence = JsNumber.fin (5896596054914347 / 4503599627370496)
        ∧ r.confidence.gt (JsNumber.fin 1) = true)
      ∧ Binary64.correlation
          ((List.range 7).map (fun (i : ℕ) => JsNumber.ofRat (7 * (i : ℚ))))
          (List.replicate 7 (JsNumber.ofRat (333 / 10))) = some JsNumber.nan
      ∧ ∃ p ∈ Binary64.detectAllPatterns utc 1209600000 waxingRecords (some steadyLog),
          p.id = "moon-cloud-correlation" ∧ p.confidence = JsNumber.nan
            ∧ (JsNumber.fin 0).le p.confidence = false
            ∧ p.confidence.le (JsNumber.fin 1) = false := by
  decide!

/-- C5: in binary64 arithmetic `correlation` returns no result when the two series differ
in length or have fewer than three entries, but not for every constant series: the guard
`denominator === 0` is missed when the computed spread of a constant series is a rounding
residue.  Two constant series of three entries 0.7 give 1, the constant series 0.7 with
the series 0, 1, 4 gives 1.1689432569633963e-8, and the series 0, 7, ..., 42 with the
constant series 33.3 gives `NaN`, the computed spread of the latter being negative. -/
theorem correlation_constant_series :
    (∀ x y : List JsNumber, x.length ≠ y.length ∨ x.length < 3 →
        Binary64.correlation x y = none)
      ∧ Binary64.spread (List.replicate 3 (JsNumber.ofRat (7 / 10)))
          = JsNumber.fin (1 / 1125899906842624)
      ∧ Binary64.correlation (List.replicate 3 (JsNumber.ofRat (7 / 10)))
          (List.replicate 3 (JsNumber.ofRat (7 / 10))) = some (JsNumber.fin 1)
      ∧ Binary64.correlation (List.replicate 3 (JsNumber.ofRat (7 / 10)))
          [JsNumber.fin 0, JsNumber.fin 1, JsNumber.fin 4]
          = some (JsNumber.fin (1766457106259335 / 151115727451828646838272))
      ∧ (Binary64.spread (List.replicate 7 (JsNumber.ofRat (333 / 10)))).lt (JsNumber.fin 0)
          = true
      ∧ Binary64.correlation
          ((List.range 7).map (fun (i : ℕ) => JsNumber.ofRat (7 * (i : ℚ))))
          (List.replicate 7 (JsNumber.ofRat (333 / 10))) = some JsNumber.nan := by
  refine ⟨?_, by decide!, by decide!, by decide!, by decide!, by decide!⟩
  intro x y h
  unfold Binary64.correlation
  rw [if_pos h]

theorem detectMoonCloudCorrelation_eq_binary64 (tz : TimeZone) (now : Int)
    (records : List DailyRecord) (history : List AtmosphereSnapshot) :
    Binary64.detectMoonCloudCorrelation tz now records (some history)
      = if records.length < 14 ∨ history.length < 7 then none
        else if (pairedPoints tz records history).length < 7 then none
        else
          match Binary64.pairedCorrelation tz records history with
          | none => none
          | some corr =>
            if (JsNumber.abs corr).lt (JsNumber.ofRat (3 / 10)) then none
            else some (Binary64.moonCloudPattern now corr
              (pairedPoints tz records history).length) := by
  rfl

/-- C12: in binary64 arithmetic `detectMoonCloudCorrelation` returns no result exactly
when the log is missing, there are fewer than 14 records, fewer than 7 atmosphere entries,
fewer than 7 paired points, the value `r` computed by `correlation` for the paired points
is no result, or `Math.abs(r) < 0.3` holds; otherwise it returns a pattern of type
correlation with confidence `Math.abs(r)`, data `r` and the number of paired points, and
the words `higher` and `fuller` when `r > 0` holds, `lower` and `darker` when it does
not.  But `r` is not always a coefficient: for fourteen records with illumination 0, 7,
..., 91 and seven snapshots of one steady cloud cover of 33.3 the seven paired cloud covers
are equal, `correlation` gives `NaN` instead of no result, the test `Math.abs(r) < 0.3`
is false, and a pattern with confidence `NaN` saying `lower` and `darker` is returned. -/
theorem detectMoonCloudCorrelation_nan :
    (∀ (tz : TimeZone) (now : Int) (records : List DailyRecord)
        (atmosphereHistory : Option (List AtmosphereSnapshot)),
        Binary64.detectMoonCloudCorrelation tz now records atmosphereHistory = none ↔
          atmosphereHistory = none
            ∨ ∃ history, atmosphereHistory = some history
                ∧ (records.length < 14 ∨ history.length < 7
                    ∨ (pairedPoints tz records history).length < 7
                    ∨ Binary64.pairedCorrelation tz records history = none
                    ∨ ∃ r, Binary64.pairedCorrelation tz records history = some r
                        ∧ (JsNumber.abs r).lt (JsNumber.ofRat (3 / 10)) = true))
      ∧ (∀ (tz : TimeZone) (now : Int) (records : List DailyRecord)
          (history : List AtmosphereSnapshot) (r : JsNumber),
          14 ≤ records.length → 7 ≤ history.length →
          7 ≤ (pairedPoints tz records history).length →
          Binary64.pairedCorrelation tz records history = some r →
          (JsNumber.abs r).lt (JsNumber.ofRat (3 / 10)) = false →
          ∃ p, Binary64.detectMoonCloudCorrelation tz now records (some history) = some p
            ∧ p.id = "moon-cloud-correlation" ∧ p.type = PatternType.correlation
            ∧ p.confidence = JsNumber.abs r
            ∧ p.data = Binary64.PatternData.moonCloud r (pairedPoints tz records history).length
            ∧ (r.gt (JsNumber.fin 0) = true → p.description =
                [Binary64.Frag.text "Cloud cover tends to be ", Binary64.Frag.text "higher",
                 Binary64.Frag.text " during ", Binary64.Frag.text "fuller",
                 Binary64.Frag.text " moon phases (correlation: ",
                 Binary64.Frag.fixed 0 (r * JsNumber.fin 100), Binary64.Frag.text "%)."])
            ∧ (r.gt (JsNumber.fin 0) = false → p.description =
                [Binary64.Frag.text "Cloud cover tends to be ", Binary64.Frag.text "lower",
                 Binary64.Frag.text " during ", Binary64.Frag.text "darker",
                 Binary64.Frag.text " moon phases (correlation: ",
                 Binary64.Frag.fixed 0 (r * JsNumber.fin 100), Binary64.Frag.text "%)."]))
      ∧ (pairedPoints utc waxingRecords steadyLog).map (fun p => p.2)
          = List.replicate 7 (333 / 10)
      ∧ Binary64.pairedCorrelation utc waxingRecords steadyLog = some JsNumber.nan
      ∧ (JsNumber.abs JsNumber.nan).lt (JsNumber.ofRat (3 / 10)) = false
      ∧ Binary64.detectMoonCloudCorrelation utc 1209600000 waxingRecords (some steadyLog)
          = some
            { id := "moon-cloud-correlation"
              type := PatternType.correlation
              title := [Binary64.Frag.text "Moon-Cloud Correlation Detected"]
              description :=
                [Binary64.Frag.text "Cloud cover tends to be ", Binary64.Frag.text "lower",
                 Binary64.Frag.text " during ", Binary64.Frag.text "darker",
                 Binary64.Frag.text " moon phases (correlation: ",
                 Binary64.Frag.fixed 0 JsNumber.nan, Binary64.Frag.text "%)."]
              confidence := JsNumber.nan
              data := Binary64.PatternData.moonCloud JsNumber.nan 7
              icon := "🌙"
              detectedAt := 1209600000 } := by
  refine ⟨?_, ?_, by decide!, by decide!, by decide!, by decide!⟩
  · intro tz now records atmosphereHistory
    cases atmosphereHistory with
    | none => simp [Binary64.detectMoonCloudCorrelation]
    | some history =>
      rw [detectMoonCloudCorrelation_eq_binary64]
      simp only [false_or, Option.some.injEq, exists_eq_left', reduceCtorEq]
      by_cases h1 : records.length < 14 ∨ history.length < 7
      · rw [if_pos h1]
        simp only [true_iff]
        rcases h1 with h | h
        · exact Or.inl h
        · exact Or.inr (Or.inl h)
      · rw [if_neg h1]
        push_neg at h1
        by_cases h2 : (pairedPoints tz records history).length < 7
        · rw [if_pos h2]
          simp only [true_iff]
          exact Or.inr (Or.inr (Or.inl h2))
        · rw [if_neg h2]
          cases hc : Binary64.pairedCorrelation tz records history with
          | none =>
            simp only [true_iff]
            exact Or.inr (Or.inr (Or.inr (Or.inl trivial)))
          | some corr =>
            simp only
            by_cases h3 : (JsNumber.abs corr).lt (JsNumber.ofRat (3 / 10)) = true
            · rw [if_pos h3]
              simp only [true_iff]
              exact Or.inr (Or.inr (Or.inr (Or.inr ⟨corr, rfl, h3⟩)))
            · rw [if_neg h3]
              simp only [reduceCtorEq, false_iff]
              rintro (h | h | h | h | ⟨r, hr, hlt⟩)
              · omega
              · omega
              · exact h2 h
              · exact absurd h (by simp)
              · simp only [Option.some.injEq] at hr
                subst hr
                exact h3 hlt
  · intro tz now records history r h14 h7 hp hc hmag
    rw [detectMoonCloudCorrelation_eq_binary64, if_neg (by omega), if_neg (by omega), hc]
    simp only
    rw [if_neg (by rw [hmag]; simp)]
    refine ⟨_, rfl, rfl, rfl, rfl, rfl, ?_, ?_⟩
    · intro hpos
      simp only [Binary64.moonCloudPattern, hpos, if_true]
    · intro hneg
      simp only [Binary64.moonCloudPattern, hneg]
      rfl

theorem reachable_recordings_binary64 (instants : List ℕ) (conditions : Conditions)
    (state : Binary64.PatternsState) (h : Binary64.Reachable state) :
    Binary64.Reachable
      (instants.foldl
        (fun state (i : ℕ) =>
          Binary64.recordAtmosphere (dateKeyTime (i : Int) + 43200000)
            (some { current := some conditions, hourlyForecast := none }) state)
        state) := by
  induction instants generalizing state with
  | nil => exact h
  | cons i rest ih => exact ih _ (Binary64.Reachable.atmosphere _ _ _ h)

/-- C17: in binary64 arithmetic the stored patterns of every reachable state have pairwise
distinct ids, but they are not always in non-increasing order of confidence: after seven
snapshots of one steady cloud cover of 33.3 are recorded and `detectPatterns` runs on
fourteen records with illumination 0, 7, ..., 91, the stored confidences are
0.8500000000000001, `NaN` and 1, in that order. -/
theorem repository_unsorted :
    (∀ state, Binary64.Reachable state → (state.patterns.map Binary64.Pattern.id).Nodup)
      ∧ Binary64.Reachable steadyStore
      ∧ steadyStore.atmosphereHistory = steadyLog
      ∧ Binary64.Reachable (Binary64.detectPatterns utc 1209600000 waxingRecords steadyStore).1
      ∧ ((Binary64.detectPatterns utc 1209600000 waxingRecords steadyStore).1.patterns).map
            (fun p => (p.id, p.confidence))
          = [("optimal-viewing", JsNumber.fin (1914029841632461 / 2251799813685248)),
             ("moon-cloud-correlation", JsNumber.nan),
             ("good-visibility", JsNumber.fin 1)]
      ∧ ¬ NonIncreasing
          (((Binary64.detectPatterns utc 1209600000 waxingRecords steadyStore).1.patterns).map
            (fun p => p.confidence)) := by
  have hs : Binary64.Reachable steadyStore :=
    reachable_recordings_binary64 _ _ _ Binary64.Reachable.init
  have hconf :
      ((Binary64.detectPatterns utc 1209600000 waxingRecords steadyStore).1.patterns).map
          (fun p => p.confidence)
        = [JsNumber.fin (1914029841632461 / 2251799813685248), JsNumber.nan, JsNumber.fin 1] := by
    decide!
  refine ⟨reachable_nodup_binary64, hs, by decide!, Binary64.Reachable.detect _ _ _ _ hs,
    by decide!, ?_⟩
  rw [hconf]
  exact not_nonIncreasing_of_nan _ (JsNumber.fin 1) (by simp) (by simp) (by simp)

/-! ## Regression in binary64 arithmetic -/

theorem ofRat_natCast (m : ℕ) (h : m < 2 ^ 53) : JsNumber.ofRat (m : ℚ) = JsNumber.fin (m : ℚ) := by
  have hle : |(m : ℚ)| ≤ 2 ^ 53 := by
    rw [abs_of_nonneg (by positivity)]
    exact_mod_cast h.le
  rw [ofRat_of_abs_le _ hle, roundNearest_natCast m h]

theorem ofRat_intCast (z : Int) (h : z.natAbs < 2 ^ 53) :
    JsNumber.ofRat (z : ℚ) = JsNumber.fin (z : ℚ) := by
  have hle : |(z : ℚ)| ≤ 2 ^ 53 := by
    have h1 : |z| < 2 ^ 53 := by
      rw [Int.abs_eq_natAbs]
      exact_mod_cast h
    have h2 : ((|z| : Int) : ℚ) ≤ 2 ^ 53 := by exact_mod_cast h1.le
    rwa [Int.cast_abs] at h2
  rw [ofRat_of_abs_le _ hle, roundNearest_intCast z h]

theorem fin_add_nat (a b : ℕ) (h : a + b < 2 ^ 53) :
    JsNumber.fin (a : ℚ) + JsNumber.fin (b : ℚ) = JsNumber.fin ((a + b : ℕ) : ℚ) := by
  show JsNumber.ofRat ((a : ℚ) + (b : ℚ)) = _
  rw [← Nat.cast_add]
  exact ofRat_natCast _ h

theorem fin_mul_nat (a b : ℕ) (h : a * b < 2 ^ 53) :
    JsNumber.fin (a : ℚ) * JsNumber.fin (b : ℚ) = JsNumber.fin ((a * b : ℕ) : ℚ) := by
  show JsNumber.ofRat ((a : ℚ) * (b : ℚ)) = _
  rw [← Nat.cast_mul]
  exact ofRat_natCast _ h

theorem indexSum_succ (k : ℕ) : indexSum (k + 1) = indexSum k + k := by
  unfold indexSum
  rw [List.range_succ, List.sum_append]
  simp

theorem indexSquareSum_succ (k : ℕ) : indexSquareSum (k + 1) = indexSquareSum k + k * k := by
  unfold indexSquareSum
  rw [List.range_succ, List.map_append, List.sum_append]
  simp

theorem indexSum_le (k : ℕ) : indexSum k ≤ k * k := by
  induction k with
  | zero => simp [indexSum]
  | succ k ih =>
    rw [indexSum_succ]
    nlinarith

theorem indexSquareSum_le (k : ℕ) : indexSquareSum k ≤ k * k * k := by
  induction k with
  | zero => simp [indexSquareSum]
  | succ k ih =>
    rw [indexSquareSum_succ]
    nlinarith

theorem two_mul_indexSum (k : ℕ) : (2 : ℚ) * (indexSum k : ℚ) = (k : ℚ) * ((k : ℚ) - 1) := by
  induction k with
  | zero => simp [indexSum]
  | succ k ih =>
    rw [indexSum_succ]
    push_cast
    linarith

theorem six_mul_indexSquareSum (k : ℕ) :
    (6 : ℚ) * (indexSquareSum k : ℚ) = ((k : ℚ) - 1) * (k : ℚ) * (2 * (k : ℚ) - 1) := by
  induction k with
  | zero => simp [indexSquareSum]
  | succ k ih =>
    rw [indexSquareSum_succ]
    push_cast
    linarith

theorem nat_bound_9000 (k : ℕ) (h : k ≤ 9000) :
    k * k * k * k < 2 ^ 53 := by
  have h1 : k * k ≤ 9000 * 9000 := Nat.mul_le_mul h h
  have h2 : k * k * k ≤ 9000 * 9000 * 9000 := Nat.mul_le_mul h1 h
  have h3 : k * k * k * k ≤ 9000 * 9000 * 9000 * 9000 := Nat.mul_le_mul h2 h
  calc k * k * k * k ≤ 9000 * 9000 * 9000 * 9000 := h3
    _ < 2 ^ 53 := by norm_num

/-- The index sums of the first loop of `linearRegression` are computed exactly for up to
9000 entries, whatever the entries are. -/
theorem regSums_fold_index (data : List JsNumber) :
    ∀ (k : ℕ) (s : Binary64.RegSums), s.sumX = JsNumber.fin (indexSum k : ℚ) →
      s.sumX2 = JsNumber.fin (indexSquareSum k : ℚ) → k + data.length ≤ 9000 →
      ((List.enumFrom k data).foldl Binary64.regStep s).sumX
          = JsNumber.fin (indexSum (k + data.length) : ℚ)
        ∧ ((List.enumFrom k data).foldl Binary64.regStep s).sumX2
          = JsNumber.fin (indexSquareSum (k + data.length) : ℚ) := by
  induction data with
  | nil =>
    intro k s h1 h2 _
    exact ⟨h1, h2⟩
  | cons y ys ih =>
    intro k s h1 h2 hk
    simp only [List.length_cons] at hk
    have hk9 : k ≤ 9000 := by omega
    have hb4 := nat_bound_9000 k hk9
    have hs1 := indexSum_le k
    have hs2 := indexSquareSum_le k
    have hkk : k * k < 2 ^ 53 := by nlinarith
    have e1 : indexSum k + k < 2 ^ 53 := by nlinarith
    have e2 : indexSquareSum k + k * k < 2 ^ 53 := by nlinarith
    rw [List.enumFrom_cons, List.foldl_cons]
    have key := ih (k + 1) (Binary64.regStep s (k, y))
      (by
        show s.sumX + JsNumber.fin (k : ℚ) = _
        rw [h1, fin_add_nat _ _ e1, indexSum_succ])
      (by
        show s.sumX2 + JsNumber.fin (k : ℚ) * JsNumber.fin (k : ℚ) = _
        rw [h2, fin_mul_nat _ _ hkk, fin_add_nat _ _ e2, indexSquareSum_succ])
      (by omega)
    have hlen : k + (ys.length + 1) = k + 1 + ys.length := by omega
    simp only [List.length_cons]
    rw [hlen]
    exact key

theorem regSums_index (data : List JsNumber) (h : data.length ≤ 9000) :
    (Binary64.regSums data).sumX = JsNumber.fin (indexSum data.length : ℚ)
      ∧ (Binary64.regSums data).sumX2 = JsNumber.fin (indexSquareSum data.length : ℚ) := by
  have := regSums_fold_index data 0 ⟨JsNumber.fin 0, JsNumber.fin 0, JsNumber.fin 0,
    JsNumber.fin 0⟩ (by simp [indexSum]) (by simp [indexSquareSum]) (by omega)
  simp only [zero_add] at this
  exact this

/-- The exact value of `n * sumX2 - sumX * sumX` for the indices `0, ..., n - 1`. -/
theorem indexSpread_closed (n : ℕ) :
    (n : ℚ) * (indexSquareSum n : ℚ) - (indexSum n : ℚ) * (indexSum n : ℚ)
      = (n : ℚ) ^ 2 * ((n : ℚ) ^ 2 - 1) / 12 := by
  have h1 := two_mul_indexSum n
  have h2 := six_mul_indexSquareSum n
  have e1 : (indexSum n : ℚ) = (n : ℚ) * ((n : ℚ) - 1) / 2 := by linarith
  have e2 : (indexSquareSum n : ℚ) = ((n : ℚ) - 1) * (n : ℚ) * (2 * (n : ℚ) - 1) / 6 := by
    linarith
  rw [e1, e2]
  ring

/-- In binary64 arithmetic the divisor of the slope is computed exactly for up to 9000
entries. -/
theorem slopeDivisor_binary64 (data : List JsNumber) (h : data.length ≤ 9000) :
    Binary64.slopeDivisor data
      = JsNumber.fin ((data.length : ℚ) ^ 2 * ((data.length : ℚ) ^ 2 - 1) / 12) := by
  obtain ⟨hx, hx2⟩ := regSums_index data h
  have hb4 := nat_bound_9000 data.length h
  have hs1 := indexSum_le data.length
  have hs2 := indexSquareSum_le data.length
  have m1 : data.length * indexSquareSum data.length < 2 ^ 53 := by
    calc data.length * indexSquareSum data.length
        ≤ data.length * (data.length * data.length * data.length) := Nat.mul_le_mul le_rfl hs2
      _ = data.length * data.length * data.length * data.length := by ring
      _ < 2 ^ 53 := hb4
  have m2 : indexSum data.length * indexSum data.length < 2 ^ 53 := by
    calc indexSum data.length * indexSum data.length
        ≤ (data.length * data.length) * (data.length * data.length) := Nat.mul_le_mul hs1 hs1
      _ = data.length * data.length * data.length * data.length := by ring
      _ < 2 ^ 53 := hb4
  unfold Binary64.slopeDivisor
  rw [hx, hx2, fin_mul_nat _ _ m1, fin_mul_nat _ _ m2]
  show JsNumber.ofRat (_ + -_) = _
  rw [← sub_eq_add_neg]
  have hcl := indexSpread_closed data.length
  have hz : ((data.length * indexSquareSum data.length : ℕ) : ℚ)
      - ((indexSum data.length * indexSum data.length : ℕ) : ℚ)
      = (((data.length * indexSquareSum data.length : ℕ) : Int)
          - ((indexSum data.length * indexSum data.length : ℕ) : Int) : Int) := by
    push_cast
    ring
  rw [hz, ofRat_intCast _ (by omega), ← hz]
  push_cast
  rw [hcl]

theorem indexSpread_pos (n : ℕ) (h : 3 ≤ n) :
    (0 : ℚ) < (n : ℚ) ^ 2 * ((n : ℚ) ^ 2 - 1) / 12 := by
  have hn : (3 : ℚ) ≤ (n : ℚ) := by exact_mod_cast h
  have h2 : (0 : ℚ) < (n : ℚ) ^ 2 - 1 := by nlinarith
  positivity

/-- C4, as amended: in binary64 arithmetic `linearRegression` returns no result for a series of fewer
than three entries; for a series of 3 to 9000 entries, whatever they are, the divisor of
the slope is computed exactly as `n ^ 2 * (n ^ 2 - 1) / 12`, which is positive, so the
slope is not a division by zero; and `rSquared` is 0, without a division, when the computed
`ssTotal` is 0, and `1 - ssResidual / ssTotal` otherwise. -/
theorem linearRegression_guarded (data : List JsNumber) :
    (data.length < 3 → Binary64.linearRegression data = none)
      ∧ (3 ≤ data.length → data.length ≤ 9000 →
          Binary64.slopeDivisor data
              = JsNumber.fin ((data.length : ℚ) ^ 2 * ((data.length : ℚ) ^ 2 - 1) / 12)
            ∧ (0 : ℚ) < (data.length : ℚ) ^ 2 * ((data.length : ℚ) ^ 2 - 1) / 12
            ∧ (Binary64.slopeDivisor data).isZero = false
            ∧ ∃ r, Binary64.linearRegression data = some r
                ∧ r.slope
                  = (JsNumber.fin (data.length : ℚ) * (Binary64.regSums data).sumXY
                      - (Binary64.regSums data).sumX * (Binary64.regSums data).sumY)
                    / JsNumber.fin ((data.length : ℚ) ^ 2 * ((data.length : ℚ) ^ 2 - 1) / 12)
                ∧ ((Binary64.ssTotal data).isZero = true → r.rSquared = JsNumber.fin 0)
                ∧ ((Binary64.ssTotal data).isZero = false →
                    r.rSquared
                      = JsNumber.fin 1 - Binary64.ssResidual data / Binary64.ssTotal data)) := by
  constructor
  · intro h
    unfold Binary64.linearRegression
    rw [if_pos h]
  · intro h3 h9
    have hd := slopeDivisor_binary64 data h9
    have hpos := indexSpread_pos data.length h3
    refine ⟨hd, hpos, ?_, ?_⟩
    · rw [hd]
      simp [JsNumber.isZero, hpos.ne']
    · unfold Binary64.linearRegression
      rw [if_neg (by omega)]
      refine ⟨_, rfl, ?_, ?_, ?_⟩
      · show Binary64.regSlope data = _
        unfold Binary64.regSlope
        rw [hd]
      · intro hz
        show Binary64.regRSquared data = _
        unfold Binary64.regRSquared
        rw [if_pos hz]
      · intro hz
        show Binary64.regRSquared data = _
        unfold Binary64.regRSquared
        rw [hz]
        simp

/-- Witness for C4: the series 600, 598, 596 has three entries; its slope divisor is 6,
and a series of two entries gives no result. -/
theorem linearRegression_guarded_witness :
    Binary64.linearRegression [JsNumber.fin 600, JsNumber.fin 598] = none
      ∧ Binary64.slopeDivisor [JsNumber.fin 600, JsNumber.fin 598, JsNumber.fin 596]
          = JsNumber.fin 6
      ∧ Binary64.linearRegression [JsNumber.fin 600, JsNumber.fin 598, JsNumber.fin 596]
          = some { slope := JsNumber.fin (-2), intercept := JsNumber.fin 600,
                   rSquared := JsNumber.fin 1, confidence := JsNumber.fin 1 } :=
  ⟨(linearRegression_guarded [JsNumber.fin 600, JsNumber.fin 598]).1 (by decide),
    by
      have h := ((linearRegression_guarded
        [JsNumber.fin 600, JsNumber.fin 598, JsNumber.fin 596]).2 (by decide) (by decide)).1
      rw [h]
      norm_num,
    by decide!⟩

/-- Counterexample for C4: for the finite entries 1e308, 1e308, -1e308 the sums overflow
and `linearRegression` returns the slope `-Infinity`, the intercept `Infinity`, and `NaN`
as `rSquared` and as confidence; and for the constant series of seven entries 0.1 the
computed `ssTotal` is a rounding residue, not 0, so the division is performed and
`rSquared` is -1.7142857142857144. -/
theorem linearRegression_overflow :
    (∀ x ∈ [JsNumber.ofRat (10 ^ 308), JsNumber.ofRat (10 ^ 308), JsNumber.ofRat (-(10 ^ 308))],
        x.isFinite = true)
      ∧ Binary64.linearRegression
          [JsNumber.ofRat (10 ^ 308), JsNumber.ofRat (10 ^ 308), JsNumber.ofRat (-(10 ^ 308))]
        = some { slope := JsNumber.inf true, intercept := JsNumber.inf false,
                 rSquared := JsNumber.nan, confidence := JsNumber.nan }
      ∧ Binary64.ssTotal (List.replicate 7 (JsNumber.ofRat (1 / 10)))
        = JsNumber.fin (7 / 5192296858534827628530496329220096)
      ∧ Binary64.regRSquared (List.replicate 7 (JsNumber.ofRat (1 / 10)))
        = JsNumber.fin (-1930114126015927 / 1125899906842624) := by
  decide!

/-! ## Daylight trend in binary64 arithmetic -/

/-- A whole number of halves, quarters, ... of magnitude below `2 ^ 53` is a binary64
value. -/
theorem roundNearest_dyadic (z : Int) (k : ℕ) (hz : z.natAbs < 2 ^ 53) (hk : k ≤ 1074) :
    roundNearest ((z : ℚ) / 2 ^ k) = (z : ℚ) / 2 ^ k := by
  have hp : pow2 (-(k : Int)) = 1 / (2 : ℚ) ^ k := by
    rw [pow2_eq, zpow_neg, zpow_natCast, one_div]
  have hnat : ∀ m : ℕ, m < 2 ^ 53 → roundNearest ((m : ℚ) / 2 ^ k) = (m : ℚ) / 2 ^ k := by
    intro m hm
    rcases Nat.eq_zero_or_pos m with h | h
    · rw [h]
      simp [roundNearest_zero]
    · rw [roundNearest_of_nonneg _ (by positivity)]
      have := roundPos_exact m (-(k : Int)) h hm (by omega)
      rw [hp] at this
      rw [div_eq_mul_one_div]
      exact this
  rcases le_or_lt 0 z with h | h
  · obtain ⟨m, rfl⟩ := Int.eq_ofNat_of_zero_le h
    simpa using hnat m (by simpa using hz)
  · have h2 : 0 ≤ -z := by omega
    obtain ⟨m, hm⟩ := Int.eq_ofNat_of_zero_le h2
    have hz2 : z = -(m : Int) := by omega
    rw [hz2]
    push_cast
    rw [neg_div, roundNearest_neg, hnat m (by omega)]

/-- The Number of a rational that is a whole number of `2 ^ k`-ths of magnitude below
`2 ^ 53`. -/
theorem ofRat_dyadic (q : ℚ) (z : Int) (k : ℕ) (hq : q = (z : ℚ) / 2 ^ k)
    (hz : z.natAbs < 2 ^ 53) (hk : k ≤ 1074) : JsNumber.ofRat q = JsNumber.fin q := by
  have hr : roundNearest q = q := by
    rw [hq]
    exact roundNearest_dyadic z k hz hk
  have hle : |q| ≤ 2 ^ 53 := by
    rw [hq, abs_div, abs_of_pos (show (0 : ℚ) < 2 ^ k by positivity)]
    have h1 : |(z : ℚ)| ≤ 2 ^ 53 := by
      have h1 : |z| < 2 ^ 53 := by
        rw [Int.abs_eq_natAbs]
        exact_mod_cast hz
      have h2 : ((|z| : Int) : ℚ) ≤ 2 ^ 53 := by exact_mod_cast h1.le
      rwa [Int.cast_abs] at h2
    have h2 : (1 : ℚ) ≤ 2 ^ k := one_le_pow₀ (by norm_num)
    calc |(z : ℚ)| / 2 ^ k ≤ |(z : ℚ)| / 1 := by
          apply div_le_div_of_nonneg_left (abs_nonneg _) (by norm_num) h2
      _ = |(z : ℚ)| := by simp
      _ ≤ 2 ^ 53 := h1
  rw [ofRat_of_abs_le q hle, hr]

theorem ofRat_whole (q : ℚ) (z : Int) (hq : q = (z : ℚ)) (hz : z.natAbs < 2 ^ 53) :
    JsNumber.ofRat q = JsNumber.fin q :=
  ofRat_dyadic q z 0 (by simpa using hq) hz (by norm_num)

theorem ofRat_halves (q : ℚ) (z : Int) (hq : q = (z : ℚ) / 2) (hz : z.natAbs < 2 ^ 53) :
    JsNumber.ofRat q = JsNumber.fin q :=
  ofRat_dyadic q z 1 (by simpa using hq) hz (by norm_num)

theorem ofRat_quarters (q : ℚ) (z : Int) (hq : q = (z : ℚ) / 4) (hz : z.natAbs < 2 ^ 53) :
    JsNumber.ofRat q = JsNumber.fin q :=
  ofRat_dyadic q z 2 (by rw [hq]; norm_num) hz (by norm_num)

theorem fin_add_eq (a b : ℚ) : JsNumber.fin a + JsNumber.fin b = JsNumber.ofRat (a + b) := rfl

theorem fin_sub_eq (a b : ℚ) : JsNumber.fin a - JsNumber.fin b = JsNumber.ofRat (a - b) := by
  show JsNumber.ofRat (a + -b) = _
  rw [← sub_eq_add_neg]

theorem fin_mul_eq (a b : ℚ) : JsNumber.fin a * JsNumber.fin b = JsNumber.ofRat (a * b) := rfl

theorem partialY_succ (a d : Int) (k : ℕ) :
    partialY a d (k + 1) = partialY a d k + (a - d * (k : Int)) := by
  unfold partialY
  rw [List.range_succ, List.map_append, List.sum_append]
  simp

theorem partialXY_succ (a d : Int) (k : ℕ) :
    partialXY a d (k + 1) = partialXY a d k + (k : Int) * (a - d * (k : Int)) := by
  unfold partialXY
  rw [List.range_succ, List.map_append, List.sum_append]
  simp

theorem partialDeviation_succ (a d h : Int) (k : ℕ) :
    partialDeviation a d h (k + 1)
      = partialDeviation a d h k
        + (2 * (a - d * (k : Int)) - h) * (2 * (a - d * (k : Int)) - h) := by
  unfold partialDeviation
  rw [List.range_succ, List.map_append, List.sum_append]
  simp

theorem partialY_closed (a d : Int) (k : ℕ) :
    partialY a d k = (k : Int) * a - d * (indexSum k : Int) := by
  induction k with
  | zero => simp [partialY, indexSum]
  | succ k ih =>
    rw [partialY_succ, ih, indexSum_succ]
    push_cast
    ring

theorem partialXY_closed (a d : Int) (k : ℕ) :
    partialXY a d k = a * (indexSum k : Int) - d * (indexSquareSum k : Int) := by
  induction k with
  | zero => simp [partialXY, indexSum, indexSquareSum]
  | succ k ih =>
    rw [partialXY_succ, ih, indexSum_succ, indexSquareSum_succ]
    push_cast
    ring

/-- The entries of a whole-minute series lie between 0 and 1440. -/
theorem entry_bounds (a d : Int) (n i : ℕ) (hd : 1 ≤ d) (ha : a ≤ 1440)
    (hlast : d * ((n : Int) - 1) ≤ a) (hi : i < n) :
    0 ≤ a - d * (i : Int) ∧ a - d * (i : Int) ≤ 1440 := by
  have h1 : (i : Int) ≤ (n : Int) - 1 := by omega
  have h2 : d * (i : Int) ≤ d * ((n : Int) - 1) := Int.mul_le_mul_of_nonneg_left h1 (by omega)
  have h3 : 0 ≤ d * (i : Int) := Int.mul_nonneg (by omega) (by omega)
  constructor <;> omega

theorem length_bound (a d : Int) (n : ℕ) (hd : 1 ≤ d) (ha : a ≤ 1440)
    (hlast : d * ((n : Int) - 1) ≤ a) (hn : 1 ≤ n) : n ≤ 1441 := by
  have h1 : (0 : Int) ≤ (n : Int) - 1 := by omega
  have h2 : 1 * ((n : Int) - 1) ≤ d * ((n : Int) - 1) := Int.mul_le_mul_of_nonneg_right hd h1
  omega

theorem partialY_bounds (a d : Int) (n : ℕ) (hd : 1 ≤ d) (ha : a ≤ 1440)
    (hlast : d * ((n : Int) - 1) ≤ a) (k : ℕ) (hk : k ≤ n) :
    0 ≤ partialY a d k ∧ partialY a d k ≤ 1440 * (k : Int) := by
  induction k with
  | zero => simp [partialY]
  | succ k ih =>
    obtain ⟨i1, i2⟩ := ih (by omega)
    obtain ⟨e1, e2⟩ := entry_bounds a d n k hd ha hlast (by omega)
    rw [partialY_succ]
    push_cast
    constructor <;> omega

theorem partialXY_bounds (a d : Int) (n : ℕ) (hd : 1 ≤ d) (ha : a ≤ 1440)
    (hlast : d * ((n : Int) - 1) ≤ a) (k : ℕ) (hk : k ≤ n) :
    0 ≤ partialXY a d k ∧ partialXY a d k ≤ 1440 * ((k : Int) * (k : Int)) := by
  induction k with
  | zero => simp [partialXY]
  | succ k ih =>
    obtain ⟨i1, i2⟩ := ih (by omega)
    obtain ⟨e1, e2⟩ := entry_bounds a d n k hd ha hlast (by omega)
    rw [partialXY_succ]
    have hk0 : (0 : Int) ≤ (k : Int) := by omega
    have m1 : 0 ≤ (k : Int) * (a - d * (k : Int)) := Int.mul_nonneg hk0 e1
    have m2 : (k : Int) * (a - d * (k : Int)) ≤ (k : Int) * 1440 :=
      Int.mul_le_mul_of_nonneg_left e2 hk0
    push_cast
    constructor
    · omega
    · nlinarith

/-- The sums of the entries and of the products of the first loop of `linearRegression`
are computed exactly for a whole-minute series. -/
theorem regSums_fold_whole (a d : Int) (n : ℕ) (hd : 1 ≤ d) (ha : a ≤ 1440)
    (hlast : d * ((n : Int) - 1) ≤ a) (hn : n ≤ 1441) :
    ∀ (m k : ℕ) (s : Binary64.RegSums), k + m ≤ n →
      s.sumY = JsNumber.fin ((partialY a d k : Int) : ℚ) →
      s.sumXY = JsNumber.fin ((partialXY a d k : Int) : ℚ) →
      ((List.enumFrom k ((List.range' k m).map
            (fun (i : ℕ) => JsNumber.fin ((a - d * (i : Int) : Int) : ℚ)))).foldl
          Binary64.regStep s).sumY
          = JsNumber.fin ((partialY a d (k + m) : Int) : ℚ)
        ∧ ((List.enumFrom k ((List.range' k m).map
            (fun (i : ℕ) => JsNumber.fin ((a - d * (i : Int) : Int) : ℚ)))).foldl
          Binary64.regStep s).sumXY
          = JsNumber.fin ((partialXY a d (k + m) : Int) : ℚ) := by
  intro m
  induction m with
  | zero =>
    intro k s _ h1 h2
    exact ⟨h1, h2⟩
  | succ m ih =>
    intro k s hk h1 h2
    obtain ⟨e1, e2⟩ := entry_bounds a d n k hd ha hlast (by omega)
    obtain ⟨y1, y2⟩ := partialY_bounds a d n hd ha hlast k (by omega)
    obtain ⟨x1, x2⟩ := partialXY_bounds a d n hd ha hlast k (by omega)
    have hk0 : (0 : Int) ≤ (k : Int) := by omega
    have hk1 : (k : Int) ≤ 1441 := by omega
    have m1 : 0 ≤ (k : Int) * (a - d * (k : Int)) := Int.mul_nonneg hk0 e1
    have m2 : (k : Int) * (a - d * (k : Int)) ≤ 1441 * 1440 := by nlinarith
    have m3 : (k : Int) * (k : Int) ≤ 1441 * 1441 := by nlinarith
    rw [List.range'_succ, List.map_cons, List.enumFrom_cons, List.foldl_cons]
    have hlen : k + (m + 1) = k + 1 + m := by omega
    rw [hlen]
    apply ih (k + 1) (Binary64.regStep s (k, JsNumber.fin ((a - d * (k : Int) : Int) : ℚ)))
      (by omega)
    · show s.sumY + JsNumber.fin ((a - d * (k : Int) : Int) : ℚ) = _
      rw [h1, fin_add_eq, partialY_succ,
        ofRat_whole _ (partialY a d k + (a - d * (k : Int))) (by push_cast; ring) (by omega)]
      push_cast
      ring_nf
    · show s.sumXY + JsNumber.fin (k : ℚ) * JsNumber.fin ((a - d * (k : Int) : Int) : ℚ) = _
      rw [h2, fin_mul_eq,
        ofRat_whole _ ((k : Int) * (a - d * (k : Int))) (by push_cast; ring) (by omega),
        fin_add_eq, partialXY_succ,
        ofRat_whole _ (partialXY a d k + (k : Int) * (a - d * (k : Int)))
          (by push_cast; ring) (by omega)]
      push_cast
      ring_nf

theorem wholeSeries_length (a d : Int) (n : ℕ) : (wholeSeries a d n).length = n := by
  simp [wholeSeries]

/-- The four sums of the first loop of `linearRegression` for a whole-minute series. -/
theorem regSums_wholeSeries (a d : Int) (n : ℕ) (hd : 1 ≤ d) (ha : a ≤ 1440)
    (hlast : d * ((n : Int) - 1) ≤ a) (hn : n ≤ 1441) :
    (Binary64.regSums (wholeSeries a d n)).sumX = JsNumber.fin (indexSum n : ℚ)
      ∧ (Binary64.regSums (wholeSeries a d n)).sumX2 = JsNumber.fin (indexSquareSum n : ℚ)
      ∧ (Binary64.regSums (wholeSeries a d n)).sumY = JsNumber.fin ((partialY a d n : Int) : ℚ)
      ∧ (Binary64.regSums (wholeSeries a d n)).sumXY
          = JsNumber.fin ((partialXY a d n : Int) : ℚ) := by
  have hidx := regSums_index (wholeSeries a d n) (by rw [wholeSeries_length]; omega)
  rw [wholeSeries_length] at hidx
  have hw := regSums_fold_whole a d n hd ha hlast hn n 0
    ⟨JsNumber.fin 0, JsNumber.fin 0, JsNumber.fin 0, JsNumber.fin 0⟩ (by omega)
    (by simp [partialY]) (by simp [partialXY])
  simp only [zero_add] at hw
  refine ⟨hidx.1, hidx.2, ?_, ?_⟩
  · unfold Binary64.regSums wholeSeries List.enum
    rw [List.range_eq_range']
    exact hw.1
  · unfold Binary64.regSums wholeSeries List.enum
    rw [List.range_eq_range']
    exact hw.2

/-- The magnitudes that bound the sums of a whole-minute series of at most 1441 entries. -/
theorem whole_bounds (a d : Int) (n : ℕ) (hd : 1 ≤ d) (ha : a ≤ 1440)
    (hlast : d * ((n : Int) - 1) ≤ a) (hn2 : 2 ≤ n) (hn : n ≤ 1441) :
    (0 ≤ a ∧ d ≤ 1440)
      ∧ (0 ≤ (indexSum n : Int) ∧ (indexSum n : Int) ≤ 1441 * 1441)
      ∧ (0 ≤ partialY a d n ∧ partialY a d n ≤ 1440 * 1441)
      ∧ (0 ≤ partialXY a d n ∧ partialXY a d n ≤ 1440 * (1441 * 1441)) := by
  have hN : (n : Int) ≤ 1441 := by omega
  have hN0 : (0 : Int) ≤ (n : Int) := by omega
  have h1 : (1 : Int) ≤ (n : Int) - 1 := by omega
  have h2 : d * 1 ≤ d * ((n : Int) - 1) := Int.mul_le_mul_of_nonneg_left h1 (by omega)
  obtain ⟨y1, y2⟩ := partialY_bounds a d n hd ha hlast n le_rfl
  obtain ⟨x1, x2⟩ := partialXY_bounds a d n hd ha hlast n le_rfl
  have hs := indexSum_le n
  have hs2 : (indexSum n : Int) ≤ (n : Int) * (n : Int) := by exact_mod_cast hs
  have hnn : (n : Int) * (n : Int) ≤ 1441 * 1441 := by nlinarith
  refine ⟨⟨by omega, by omega⟩, ⟨by omega, by omega⟩, ⟨y1, by omega⟩, ⟨x1, by omega⟩⟩

/-- The integer form of `n * sumX2 - sumX * sumX`. -/
theorem indexSpread_int (n : ℕ) :
    (((n : Int) * (indexSquareSum n : Int) - (indexSum n : Int) * (indexSum n : Int) : Int) : ℚ)
      = (n : ℚ) ^ 2 * ((n : ℚ) ^ 2 - 1) / 12 := by
  rw [← indexSpread_closed n]
  push_cast
  ring

/-- The slope of a whole-minute series `a - d * i` is computed exactly: it is `-d`. -/
theorem regSlope_wholeSeries (a d : Int) (n : ℕ) (hd : 1 ≤ d) (ha : a ≤ 1440)
    (hlast : d * ((n : Int) - 1) ≤ a) (hn3 : 3 ≤ n) (hn : n ≤ 1441) :
    Binary64.regSlope (wholeSeries a d n) = JsNumber.fin ((-d : Int) : ℚ) := by
  obtain ⟨hx, _, hy, hxy⟩ := regSums_wholeSeries a d n hd ha hlast hn
  obtain ⟨⟨a0, d1⟩, ⟨s0, s1⟩, ⟨y0, y1⟩, ⟨x0, x1⟩⟩ :=
    whole_bounds a d n hd ha hlast (by omega) hn
  have hN : (n : Int) ≤ 1441 := by omega
  have hN0 : (0 : Int) ≤ (n : Int) := by omega
  have hdiv := slopeDivisor_binary64 (wholeSeries a d n) (by rw [wholeSeries_length]; omega)
  rw [wholeSeries_length] at hdiv
  have hpos := indexSpread_pos n hn3
  have p1 : 0 ≤ (n : Int) * partialXY a d n := Int.mul_nonneg hN0 x0
  have p2 : (n : Int) * partialXY a d n ≤ 1441 * (1440 * (1441 * 1441)) :=
    Int.mul_le_mul hN x1 x0 (by norm_num)
  have q1 : 0 ≤ (indexSum n : Int) * partialY a d n := Int.mul_nonneg s0 y0
  have q2 : (indexSum n : Int) * partialY a d n ≤ (1441 * 1441) * (1440 * 1441) :=
    Int.mul_le_mul s1 y1 y0 (by norm_num)
  unfold Binary64.regSlope
  rw [hdiv, wholeSeries_length, hx, hy, hxy, fin_mul_eq, fin_mul_eq,
    ofRat_whole _ ((n : Int) * partialXY a d n) (by push_cast; ring) (by omega),
    ofRat_whole _ ((indexSum n : Int) * partialY a d n) (by push_cast; ring) (by omega),
    fin_sub_eq,
    ofRat_whole _ ((n : Int) * partialXY a d n - (indexSum n : Int) * partialY a d n)
      (by push_cast; ring) (by omega),
    fin_div _ _ hpos.ne']
  have hval : ((n : ℚ) * ((partialXY a d n : Int) : ℚ)
        - (indexSum n : ℚ) * ((partialY a d n : Int) : ℚ))
      / ((n : ℚ) ^ 2 * ((n : ℚ) ^ 2 - 1) / 12) = ((-d : Int) : ℚ) := by
    rw [div_eq_iff hpos.ne', ← indexSpread_int n, partialXY_closed, partialY_closed]
    push_cast
    ring
  rw [hval]
  exact ofRat_whole _ (-d) rfl (by omega)

/-- The intercept of a whole-minute series `a - d * i` is computed exactly: it is `a`. -/
theorem regIntercept_wholeSeries (a d : Int) (n : ℕ) (hd : 1 ≤ d) (ha : a ≤ 1440)
    (hlast : d * ((n : Int) - 1) ≤ a) (hn3 : 3 ≤ n) (hn : n ≤ 1441) :
    Binary64.regIntercept (wholeSeries a d n) = JsNumber.fin ((a : Int) : ℚ) := by
  obtain ⟨hx, _, hy, _⟩ := regSums_wholeSeries a d n hd ha hlast hn
  obtain ⟨⟨a0, d1⟩, ⟨s0, s1⟩, ⟨y0, y1⟩, _⟩ :=
    whole_bounds a d n hd ha hlast (by omega) hn
  have hN : (n : Int) ≤ 1441 := by omega
  have hN0 : (0 : Int) ≤ (n : Int) := by omega
  have hnq : (n : ℚ) ≠ 0 := by
    have : (0 : ℚ) < (n : ℚ) := by exact_mod_cast (show 0 < n by omega)
    exact this.ne'
  have p1 : 0 ≤ d * (indexSum n : Int) := Int.mul_nonneg (by omega) s0
  have p2 : d * (indexSum n : Int) ≤ 1440 * (1441 * 1441) :=
    Int.mul_le_mul d1 s1 s0 (by norm_num)
  have q1 : 0 ≤ (n : Int) * a := Int.mul_nonneg hN0 a0
  have q2 : (n : Int) * a ≤ 1441 * 1440 := Int.mul_le_mul hN ha a0 (by norm_num)
  have hsum : partialY a d n - -d * (indexSum n : Int) = (n : Int) * a := by
    rw [partialY_closed]
    ring
  unfold Binary64.regIntercept
  rw [regSlope_wholeSeries a d n hd ha hlast hn3 hn, wholeSeries_length, hx, hy, fin_mul_eq,
    ofRat_whole _ (-d * (indexSum n : Int)) (by push_cast; ring) (by omega),
    fin_sub_eq,
    ofRat_whole _ (partialY a d n - -d * (indexSum n : Int)) (by push_cast; ring)
      (by rw [hsum]; omega),
    fin_div _ _ hnq]
  have hval : (((partialY a d n : Int) : ℚ) - ((-d : Int) : ℚ) * (indexSum n : ℚ)) / (n : ℚ)
      = ((a : Int) : ℚ) := by
    rw [div_eq_iff hnq]
    have hc := congrArg (fun z : Int => (z : ℚ)) hsum
    simp only at hc
    push_cast at hc ⊢
    linarith
  rw [hval]
  exact ofRat_whole _ a rfl (by omega)

/-- The mean of a whole-minute series `a - d * i` is computed exactly: it is the half of
`2 * a - d * (n - 1)`. -/
theorem regYMean_wholeSeries (a d : Int) (n : ℕ) (hd : 1 ≤ d) (ha : a ≤ 1440)
    (hlast : d * ((n : Int) - 1) ≤ a) (hn3 : 3 ≤ n) (hn : n ≤ 1441) :
    Binary64.regYMean (wholeSeries a d n)
      = JsNumber.fin (((2 * a - d * ((n : Int) - 1) : Int) : ℚ) / 2) := by
  obtain ⟨_, _, hy, _⟩ := regSums_wholeSeries a d n hd ha hlast hn
  obtain ⟨⟨a0, d1⟩, _, _, _⟩ := whole_bounds a d n hd ha hlast (by omega) hn
  have hN0 : (0 : Int) ≤ (n : Int) - 1 := by omega
  have hnq : (n : ℚ) ≠ 0 := by
    have : (0 : ℚ) < (n : ℚ) := by exact_mod_cast (show 0 < n by omega)
    exact this.ne'
  have p1 : 0 ≤ d * ((n : Int) - 1) := Int.mul_nonneg (by omega) hN0
  unfold Binary64.regYMean
  rw [wholeSeries_length, hy, fin_div _ _ hnq]
  have hval : ((partialY a d n : Int) : ℚ) / (n : ℚ)
      = ((2 * a - d * ((n : Int) - 1) : Int) : ℚ) / 2 := by
    rw [div_eq_iff hnq, partialY_closed]
    have h2 := two_mul_indexSum n
    push_cast
    have : (indexSum n : ℚ) = (n : ℚ) * ((n : ℚ) - 1) / 2 := by linarith
    rw [this]
    ring
  rw [hval]
  exact ofRat_halves _ (2 * a - d * ((n : Int) - 1)) rfl (by omega)

theorem deviation_bounds (a d : Int) (n i : ℕ) (hd : 1 ≤ d) (ha : a ≤ 1440)
    (hlast : d * ((n : Int) - 1) ≤ a) (hn : 1 ≤ n) (hi : i < n) :
    -2880 ≤ 2 * (a - d * (i : Int)) - (2 * a - d * ((n : Int) - 1))
      ∧ 2 * (a - d * (i : Int)) - (2 * a - d * ((n : Int) - 1)) ≤ 2880 := by
  obtain ⟨e1, e2⟩ := entry_bounds a d n i hd ha hlast hi
  have hN0 : (0 : Int) ≤ (n : Int) - 1 := by omega
  have p1 : 0 ≤ d * ((n : Int) - 1) := Int.mul_nonneg (by omega) hN0
  constructor <;> omega

theorem sq_le_of_bounds (g : Int) (h1 : -2880 ≤ g) (h2 : g ≤ 2880) :
    0 ≤ g * g ∧ g * g ≤ 8294400 := by
  constructor <;> nlinarith

theorem partialDeviation_bounds (a d : Int) (n : ℕ) (hd : 1 ≤ d) (ha : a ≤ 1440)
    (hlast : d * ((n : Int) - 1) ≤ a) (k : ℕ) (hk : k ≤ n) :
    0 ≤ partialDeviation a d (2 * a - d * ((n : Int) - 1)) k
      ∧ partialDeviation a d (2 * a - d * ((n : Int) - 1)) k ≤ 8294400 * (k : Int) := by
  induction k with
  | zero => simp [partialDeviation]
  | succ k ih =>
    obtain ⟨i1, i2⟩ := ih (by omega)
    obtain ⟨g1, g2⟩ := deviation_bounds a d n k hd ha hlast (by omega) (by omega)
    obtain ⟨q1, q2⟩ := sq_le_of_bounds _ g1 g2
    rw [partialDeviation_succ]
    push_cast
    constructor <;> omega

theorem partialDeviation_pos (a d : Int) (n : ℕ) (hd : 1 ≤ d) (ha : a ≤ 1440)
    (hlast : d * ((n : Int) - 1) ≤ a) (hn : 2 ≤ n) (k : ℕ) (hk1 : 1 ≤ k) (hk : k ≤ n) :
    0 < partialDeviation a d (2 * a - d * ((n : Int) - 1)) k := by
  induction k with
  | zero => omega
  | succ k ih =>
    rw [partialDeviation_succ]
    rcases Nat.eq_zero_or_pos k with h0 | hpos
    · subst h0
      have h1 : (1 : Int) ≤ (n : Int) - 1 := by omega
      have h2 : d * 1 ≤ d * ((n : Int) - 1) := Int.mul_le_mul_of_nonneg_left h1 (by omega)
      have hg : 2 * (a - d * ((0 : ℕ) : Int)) - (2 * a - d * ((n : Int) - 1))
          = d * ((n : Int) - 1) := by
        push_cast
        ring
      rw [hg]
      have : 0 < d * ((n : Int) - 1) := by omega
      simp only [partialDeviation, List.range_zero, List.map_nil, List.sum_nil, zero_add]
      exact Int.mul_pos this this
    · have := ih (by omega) (by omega)
      obtain ⟨g1, g2⟩ := deviation_bounds a d n k hd ha hlast (by omega) (by omega)
      obtain ⟨q1, _⟩ := sq_le_of_bounds _ g1 g2
      omega

theorem ofRat_zero : JsNumber.ofRat 0 = JsNumber.fin 0 :=
  ofRat_whole 0 0 (by simp) (by decide)

/-- The second loop of `linearRegression` for a whole-minute series, the slope, the
intercept and the mean being the exact ones: the residual stays 0 and the total is
computed exactly. -/
theorem regSquares_fold_whole (a d : Int) (n : ℕ) (hd : 1 ≤ d) (ha : a ≤ 1440)
    (hlast : d * ((n : Int) - 1) ≤ a) (hn : n ≤ 1441) :
    ∀ (m k : ℕ), k + m ≤ n →
      (List.enumFrom k ((List.range' k m).map
            (fun (i : ℕ) => JsNumber.fin ((a - d * (i : Int) : Int) : ℚ)))).foldl
          (Binary64.squaresStep (JsNumber.fin ((-d : Int) : ℚ)) (JsNumber.fin ((a : Int) : ℚ))
            (JsNumber.fin (((2 * a - d * ((n : Int) - 1) : Int) : ℚ) / 2)))
          (JsNumber.fin
            (((partialDeviation a d (2 * a - d * ((n : Int) - 1)) k : Int) : ℚ) / 4),
            JsNumber.fin 0)
        = (JsNumber.fin
            (((partialDeviation a d (2 * a - d * ((n : Int) - 1)) (k + m) : Int) : ℚ) / 4),
            JsNumber.fin 0) := by
  intro m
  induction m with
  | zero =>
    intro k _
    rfl
  | succ m ih =>
    intro k hk
    obtain ⟨e1, e2⟩ := entry_bounds a d n k hd ha hlast (by omega)
    obtain ⟨g1, g2⟩ := deviation_bounds a d n k hd ha hlast (by omega) (by omega)
    obtain ⟨q1, q2⟩ := sq_le_of_bounds _ g1 g2
    obtain ⟨t1, t2⟩ := partialDeviation_bounds a d n hd ha hlast k (by omega)
    have hk0 : (0 : Int) ≤ (k : Int) := by omega
    have hk1 : (k : Int) ≤ 1441 := by omega
    have hdk1 : 0 ≤ d * (k : Int) := Int.mul_nonneg (by omega) hk0
    have hneg : -d * (k : Int) = -(d * (k : Int)) := by ring
    rw [List.range'_succ, List.map_cons, List.enumFrom_cons, List.foldl_cons]
    have hlen : k + (m + 1) = k + 1 + m := by omega
    rw [hlen, ← ih (k + 1) (by omega)]
    congr 1
    unfold Binary64.squaresStep
    simp only []
    -- the predicted value is the entry itself
    have hpred : JsNumber.fin ((-d : Int) : ℚ) * JsNumber.fin (k : ℚ)
        + JsNumber.fin ((a : Int) : ℚ) = JsNumber.fin ((a - d * (k : Int) : Int) : ℚ) := by
      rw [fin_mul_eq, ofRat_whole _ (-d * (k : Int)) (by push_cast; ring) (by omega), fin_add_eq,
        ofRat_whole _ (a - d * (k : Int)) (by push_cast; ring) (by omega)]
      congr 1
      push_cast
      ring
    have hres : JsNumber.fin ((a - d * (k : Int) : Int) : ℚ)
        - JsNumber.fin ((a - d * (k : Int) : Int) : ℚ) = JsNumber.fin 0 := by
      rw [fin_sub_eq, sub_self, ofRat_zero]
    have hzero : JsNumber.fin 0 + JsNumber.fin 0 * JsNumber.fin 0 = JsNumber.fin 0 := by
      rw [fin_mul_eq, mul_zero, ofRat_zero, fin_add_eq, add_zero, ofRat_zero]
    have hdev : JsNumber.fin ((a - d * (k : Int) : Int) : ℚ)
        - JsNumber.fin (((2 * a - d * ((n : Int) - 1) : Int) : ℚ) / 2)
        = JsNumber.fin
          (((2 * (a - d * (k : Int)) - (2 * a - d * ((n : Int) - 1)) : Int) : ℚ) / 2) := by
      rw [fin_sub_eq,
        ofRat_halves _ (2 * (a - d * (k : Int)) - (2 * a - d * ((n : Int) - 1)))
          (by push_cast; ring) (by omega)]
      congr 1
      push_cast
      ring
    have hsq : JsNumber.fin
          (((2 * (a - d * (k : Int)) - (2 * a - d * ((n : Int) - 1)) : Int) : ℚ) / 2)
        * JsNumber.fin
          (((2 * (a - d * (k : Int)) - (2 * a - d * ((n : Int) - 1)) : Int) : ℚ) / 2)
        = JsNumber.fin
          ((((2 * (a - d * (k : Int)) - (2 * a - d * ((n : Int) - 1)))
              * (2 * (a - d * (k : Int)) - (2 * a - d * ((n : Int) - 1))) : Int) : ℚ) / 4) := by
      rw [fin_mul_eq,
        ofRat_quarters _ ((2 * (a - d * (k : Int)) - (2 * a - d * ((n : Int) - 1)))
            * (2 * (a - d * (k : Int)) - (2 * a - d * ((n : Int) - 1))))
          (by push_cast; ring) (by omega)]
      congr 1
      push_cast
      ring
    rw [hpred, hres, hzero, hdev, hsq, fin_add_eq, partialDeviation_succ,
      ofRat_quarters _ (partialDeviation a d (2 * a - d * ((n : Int) - 1)) k
          + (2 * (a - d * (k : Int)) - (2 * a - d * ((n : Int) - 1)))
            * (2 * (a - d * (k : Int)) - (2 * a - d * ((n : Int) - 1))))
        (by push_cast; ring) (by omega)]
    congr 2
    push_cast
    ring

/-- The result of `linearRegression` for a whole-minute series `a - d * i` of 3 to 1441
entries from 0 to 1440: the slope `-d`, the intercept `a`, and 1 as `rSquared` and as
confidence, all exact. -/
theorem linearRegression_wholeSeries (a d : Int) (n : ℕ) (hd : 1 ≤ d) (ha : a ≤ 1440)
    (hlast : d * ((n : Int) - 1) ≤ a) (hn3 : 3 ≤ n) (hn : n ≤ 1441) :
    Binary64.linearRegression (wholeSeries a d n)
      = some { slope := JsNumber.fin ((-d : Int) : ℚ), intercept := JsNumber.fin ((a : Int) : ℚ),
               rSquared := JsNumber.fin 1, confidence := JsNumber.fin 1 } := by
  have hsl := regSlope_wholeSeries a d n hd ha hlast hn3 hn
  have hic := regIntercept_wholeSeries a d n hd ha hlast hn3 hn
  have hym := regYMean_wholeSeries a d n hd ha hlast hn3 hn
  have hfold := regSquares_fold_whole a d n hd ha hlast hn n 0 (by omega)
  simp only [zero_add] at hfold
  have hT0 : partialDeviation a d (2 * a - d * ((n : Int) - 1)) 0 = 0 := by
    simp [partialDeviation]
  rw [hT0] at hfold
  have hsq : Binary64.regSquares (wholeSeries a d n)
      = (JsNumber.fin
          (((partialDeviation a d (2 * a - d * ((n : Int) - 1)) n : Int) : ℚ) / 4),
          JsNumber.fin 0) := by
    unfold Binary64.regSquares
    rw [hsl, hic, hym]
    unfold wholeSeries List.enum
    rw [List.range_eq_range']
    rw [← hfold]
    simp
  have hpos := partialDeviation_pos a d n hd ha hlast (by omega) n (by omega) le_rfl
  have hTq : (((partialDeviation a d (2 * a - d * ((n : Int) - 1)) n : Int) : ℚ) / 4) ≠ 0 := by
    have : (0 : ℚ) < ((partialDeviation a d (2 * a - d * ((n : Int) - 1)) n : Int) : ℚ) := by
      exact_mod_cast hpos
    positivity
  have hr : Binary64.regRSquared (wholeSeries a d n) = JsNumber.fin 1 := by
    unfold Binary64.regRSquared Binary64.ssTotal Binary64.ssResidual
    rw [hsq]
    simp only [JsNumber.isZero, hTq, decide_False]
    rw [if_neg (by simp), fin_div _ _ hTq, zero_div, ofRat_zero, fin_sub_eq, sub_zero]
    exact ofRat_whole 1 1 (by simp) (by decide)
  unfold Binary64.linearRegression
  rw [wholeSeries_length, if_neg (by omega), hsl, hic, hr]
  have hc : JsNumber.sqrt (JsNumber.abs (JsNumber.fin 1)) = JsNumber.fin 1 := by decide!
  rw [hc]

theorem map_ofRat_linearSeries (a d : Int) (n : ℕ) (hd : 1 ≤ d) (ha : a ≤ 1440)
    (hlast : d * ((n : Int) - 1) ≤ a) :
    (linearSeries (a : ℚ) (d : ℚ) n).map JsNumber.ofRat = wholeSeries a d n := by
  unfold linearSeries wholeSeries
  rw [List.map_map]
  apply List.map_congr_left
  intro i hi
  have hin : i < n := List.mem_range.1 hi
  obtain ⟨e1, e2⟩ := entry_bounds a d n i hd ha hlast hin
  show JsNumber.ofRat ((a : ℚ) - (d : ℚ) * (i : ℚ)) = _
  rw [ofRat_whole _ (a - d * (i : Int)) (by push_cast; ring) (by omega)]
  congr 1
  push_cast
  ring

theorem detectDaylightTrend_eq_binary64 (now : Int) (records : List DailyRecord) :
    Binary64.detectDaylightTrend now records
      = if records.length < 7 then none
        else if ((daylightSeries records).map JsNumber.ofRat).length < 7 then none
        else
          match Binary64.linearRegression ((daylightSeries records).map JsNumber.ofRat) with
          | none => none
          | some regression =>
            if regression.confidence.lt (JsNumber.ofRat (1 / 2)) then none
            else if (JsNumber.abs regression.slope).lt (JsNumber.ofRat (1 / 2)) then none
            else some (Binary64.daylightPattern now regression) := by
  rfl

/-- C7, as amended: in binary64 arithmetic, when the non-null daylight values are the whole
numbers `a - d * i` for `i = 0..n-1`, all from 0 to 1440, with `n` at least 7 and `d` at
least 1, `detectDaylightTrend` returns a pattern titled `Daylight Decreasing` whose daily
change is `-d`, whose weekly change is `-7 * d` (so of magnitude `7 * d`), and whose
confidence is 1, hence at least 0.99; every value is computed without rounding. -/
theorem detectDaylightTrend_decreasing (now : Int) (records : List DailyRecord) (a d : Int)
    (n : ℕ) (hn : 7 ≤ n) (hd : 1 ≤ d) (ha : a ≤ 1440) (hlast : d * ((n : Int) - 1) ≤ a)
    (hs : daylightSeries records = linearSeries (a : ℚ) (d : ℚ) n) :
    ∃ p, Binary64.detectDaylightTrend now records = some p
      ∧ p.title = [Binary64.Frag.text "Daylight Decreasing"]
      ∧ p.data = Binary64.PatternData.daylightTrend (JsNumber.fin ((-d : Int) : ℚ))
          (JsNumber.fin ((-(7 * d) : Int) : ℚ)) (JsNumber.fin 1)
      ∧ p.confidence = JsNumber.fin 1
      ∧ p.confidence.ge (JsNumber.ofRat (99 / 100)) = true := by
  have hn1441 : n ≤ 1441 := length_bound a d n hd ha hlast (by omega)
  obtain ⟨⟨a0, d1⟩, _, _, _⟩ := whole_bounds a d n hd ha hlast (by omega) hn1441
  have hlen : (daylightSeries records).length = n := by
    rw [hs]
    simp [linearSeries]
  have hrec : ¬ records.length < 7 := by
    have := daylightSeries_length_le records
    omega
  have hreg := linearRegression_wholeSeries a d n hd ha hlast (by omega) hn1441
  have hhalf : JsNumber.ofRat (1 / 2) = JsNumber.fin (1 / 2) :=
    ofRat_halves _ 1 (by simp) (by decide)
  have hdq : (1 : ℚ) ≤ (d : ℚ) := by exact_mod_cast hd
  have hweek : JsNumber.fin ((-d : Int) : ℚ) * JsNumber.fin 7
      = JsNumber.fin ((-(7 * d) : Int) : ℚ) := by
    rw [fin_mul_eq, ofRat_whole _ (-(7 * d)) (by push_cast; ring) (by omega)]
    congr 1
    push_cast
    ring
  have hgt : (JsNumber.fin ((-d : Int) : ℚ)).gt (JsNumber.fin 0) = false := by
    rw [gt_fin]
    apply decide_eq_false
    push_cast
    linarith
  rw [detectDaylightTrend_eq_binary64, if_neg hrec, List.length_map, hlen, if_neg (by omega), hs,
    map_ofRat_linearSeries a d n hd ha hlast, hreg]
  simp only []
  rw [hhalf, lt_fin, if_neg (by simp; norm_num)]
  have habs : (JsNumber.abs (JsNumber.fin ((-d : Int) : ℚ))).lt (JsNumber.fin (1 / 2)) = false := by
    show (JsNumber.fin |((-d : Int) : ℚ)|).lt (JsNumber.fin (1 / 2)) = false
    rw [lt_fin]
    apply decide_eq_false
    push_cast
    rw [abs_neg, abs_of_pos (by linarith)]
    linarith
  rw [habs]
  refine ⟨_, rfl, ?_, ?_, rfl, ?_⟩
  · simp only [Binary64.daylightPattern, hgt]
    rfl
  · simp only [Binary64.daylightPattern, hweek]
  · show (JsNumber.fin 1).ge (JsNumber.ofRat (99 / 100)) = true
    decide!

/-- Witness for C7: ten days of daylight 600, 598, 596, ... give a pattern titled
`Daylight Decreasing` with daily change -2, weekly change -14 and confidence 1. -/
theorem detectDaylightTrend_decreasing_witness :
    ∃ p, Binary64.detectDaylightTrend 0 decreasingDays = some p
      ∧ p.title = [Binary64.Frag.text "Daylight Decreasing"]
      ∧ p.data = Binary64.PatternData.daylightTrend (JsNumber.fin ((-2 : Int) : ℚ))
          (JsNumber.fin ((-(7 * 2) : Int) : ℚ)) (JsNumber.fin 1)
      ∧ p.confidence = JsNumber.fin 1
      ∧ p.confidence.ge (JsNumber.ofRat (99 / 100)) = true :=
  detectDaylightTrend_decreasing 0 decreasingDays 600 2 10 (by decide) (by decide) (by decide)
    (by decide) (by rw [daylightSeries_decreasingDays]; norm_num)

/-- Counterexample to C7 as stated: on ten days of daylight 600, 598, 596, ... the weekly
change of the returned pattern is -14, so no returned pattern has the weekly change
7 * 2 = 14; and on seven days of daylight 600.2, 599.7, 599.2, ..., a series that falls by
0.5 a day, the computed slope is -0.4999999999999258, of magnitude below 0.5, and no
pattern is returned. -/
theorem weeklyChange_counterexample :
    (Binary64.detectDaylightTrend 0 decreasingDays).map (fun p => p.data)
        = some (Binary64.PatternData.daylightTrend (JsNumber.fin (-2)) (JsNumber.fin (-14))
            (JsNumber.fin 1))
      ∧ (¬ ∃ p, Binary64.detectDaylightTrend 0 decreasingDays = some p
          ∧ ∃ dailyChange rSquared,
              p.data = Binary64.PatternData.daylightTrend dailyChange (JsNumber.fin 14) rSquared)
      ∧ daylightSeries halfMinuteDays = linearSeries (6002 / 10) (1 / 2) 7
      ∧ Binary64.linearRegression ((daylightSeries halfMinuteDays).map JsNumber.ofRat)
        = some { slope := JsNumber.fin (-9007199254739655 / 18014398509481984),
                 intercept := JsNumber.fin (5279415031929239 / 8796093022208),
                 rSquared := JsNumber.fin 1, confidence := JsNumber.fin 1 }
      ∧ Binary64.detectDaylightTrend 0 halfMinuteDays = none := by
  have h : (Binary64.detectDaylightTrend 0 decreasingDays).map (fun p => p.data)
      = some (Binary64.PatternData.daylightTrend (JsNumber.fin (-2)) (JsNumber.fin (-14))
          (JsNumber.fin 1)) := by
    decide!
  refine ⟨h, ?_, by decide!, by decide!, by decide!⟩
  rintro ⟨p, hp, dc, rs, hdata⟩
  rw [hp] at h
  simp only [Option.map_some', Option.some.injEq] at h
  rw [hdata] at h
  simp only [Binary64.PatternData.daylightTrend.injEq, JsNumber.fin.injEq] at h
  norm_num at h

end DawnTracker
